import Mathlib

/-!
# MCLinker relocation engines: a shallow embedding

The ARM and MIPS relocation applicators of
`lib/Target/ARM/ARMRelocationFactory.cpp` and
`lib/Target/Mips/MipsRelocationFactory.cpp`, the relocation scan and the name
pools of `lib/Target/Mips/MipsLDBackend.cpp`, the ELF reader of
`include/mcld/LD/ELFReader.tcc` and the emulation table of
`lib/Target/ELFEmulation.cpp`, written as Lean functions over explicit state.

Conventions.

* `DWord` and `Address` values are unsigned 64-bit integers (the helpers of
  the ARM factory take `uint64_t` and cast a `DWord` down to `int32_t`); they
  are natural numbers, and every arithmetic result is reduced modulo `2 ^ 64`.
  The relocated word of an ELF32 image is the low 32 bits of the target data.
* `int32_t` values are kept as their 32-bit two's-complement pattern, a
  natural number below `2 ^ 32`; signed overflow wraps.
* `llvm::report_fatal_error` / `fatal(...)`, a failing `assert` and the
  dereference of a null pointer end the run: applicators return in `Except`.
  `assert` is compiled out when `NDEBUG` is defined, so the functions that
  contain one take the build mode as the flag `ndebug`.
* A pointer to a `ResolveInfo` is a natural number, `0` being the null
  pointer; the objects pointed to are read through a function.
-/

namespace mcld

/-! ## Machine integers -/

/-- Reduction to an unsigned 64-bit value. -/
def u64 (n : Nat) : Nat := n % 2 ^ 64

/-- Reduction to a 32-bit pattern. -/
def u32 (n : Nat) : Nat := n % 2 ^ 32

/-- Subtraction of unsigned 64-bit values, wrapping. -/
def sub64 (a b : Nat) : Nat := (a % 2 ^ 64 + (2 ^ 64 - b % 2 ^ 64)) % 2 ^ 64

/-- Subtraction of 32-bit patterns, wrapping. -/
def sub32 (a b : Nat) : Nat := (a % 2 ^ 32 + (2 ^ 32 - b % 2 ^ 32)) % 2 ^ 32

/-- Bitwise complement of a `uint64_t`. -/
def not64 (a : Nat) : Nat := 2 ^ 64 - 1 - a % 2 ^ 64

/-- The mathematical value of the `int32_t` with the given 32-bit pattern. -/
def toInt32 (p : Nat) : Int :=
  if p % 2 ^ 32 < 2 ^ 31 then ((p % 2 ^ 32 : Nat) : Int) else ((p % 2 ^ 32 : Nat) : Int) - 2 ^ 32

/-- Conversion of an `int32_t` (given by its pattern) to `uint64_t`: sign extension. -/
def sext32to64 (p : Nat) : Nat :=
  if p % 2 ^ 32 < 2 ^ 31 then p % 2 ^ 32 else p % 2 ^ 32 + (2 ^ 64 - 2 ^ 32)

/-- The cast `(int16_t)x` of an `int`, as the 32-bit pattern of the resulting `int`. -/
def castInt16 (p : Nat) : Nat :=
  if p % 2 ^ 16 < 2 ^ 15 then p % 2 ^ 16 else p % 2 ^ 16 + (2 ^ 32 - 2 ^ 16)

/-- Arithmetic right shift of an `int32_t` pattern. -/
def asr32 (p n : Nat) : Nat :=
  if p % 2 ^ 32 < 2 ^ 31 then (p % 2 ^ 32) >>> n
  else ((p % 2 ^ 32 + (2 ^ 64 - 2 ^ 32)) >>> n) % 2 ^ 32

/-! ## Data model -/

/-- How a run of the linker can end without returning. -/
inductive Abort where
  | fatal (msg : String)
  | assertion (msg : String)
  | nullDeref
  deriving DecidableEq, Repr

/-- An `assert`: checked unless the build defines `NDEBUG`. -/
def cassert (ndebug : Bool) (cond : Bool) (msg : String) : Except Abort Unit :=
  if ndebug || cond then Except.ok () else Except.error (Abort.assertion msg)

/-- Values of `ResolveInfo::Binding`. -/
inductive Binding where
  | Local | Global | Weak | Absolute
  deriving DecidableEq, Repr

/-- Values of `ResolveInfo::Visibility`. -/
inductive Visibility where
  | Default | Internal | Hidden | Protected
  deriving DecidableEq, Repr

/-- Values of `ResolveInfo::Type`. -/
inductive SymType where
  | NoType | Object | Function | Section | File | ThreadLocal
  deriving DecidableEq, Repr

/-- Values of `ResolveInfo::Desc`. -/
inductive Desc where
  | Undefined | Define | Common | IndirectFunc
  deriving DecidableEq, Repr

/-- Modelled from the spec: the header of `ResolveInfo` is not among the
sources. A symbol has a name, a size, a binding, a visibility, a type, a desc,
a source bit (it came from a DynObj) and the reserved-flags word of the
backends. -/
structure ResolveInfo where
  name : String
  size : Nat
  binding : Binding
  visibility : Visibility
  type : SymType
  desc : Desc
  isDyn : Bool
  reserved : Nat
  deriving DecidableEq, Repr

/-- Modelled from the spec: `ResolveInfo::isLocal`, binding Local. -/
def ResolveInfo.isLocal (r : ResolveInfo) : Bool := decide (r.binding = Binding.Local)

/-- Modelled from the spec: `ResolveInfo::isGlobal`, binding Global. -/
def ResolveInfo.isGlobal (r : ResolveInfo) : Bool := decide (r.binding = Binding.Global)

/-- Modelled from the spec: `ResolveInfo::isWeak`, binding Weak. -/
def ResolveInfo.isWeak (r : ResolveInfo) : Bool := decide (r.binding = Binding.Weak)

/-- Modelled from the spec: `ResolveInfo::isUndef`, desc Undefined. -/
def ResolveInfo.isUndef (r : ResolveInfo) : Bool := decide (r.desc = Desc.Undefined)

/-- A pointer to a `ResolveInfo`; `0` is the null pointer. -/
abbrev SymPtr := Nat

/-- The fragments a `FragmentRef` can point into: input data, or an entry of
the GOT, of the GOTPLT or of the PLT. -/
inductive Fragment where
  | region (id : Nat)
  | gotEntry (idx : Nat)
  | gotpltEntry (idx : Nat)
  | pltEntry (idx : Nat)
  deriving DecidableEq, Repr

/-- A fragment (none for `FragmentRef::Null()`) and a byte offset in it. -/
structure FragmentRef where
  frag : Option Fragment
  offset : Nat
  deriving DecidableEq, Repr

/-- The reference `assign` makes to the start of a fragment. -/
def FragmentRef.assign (f : Fragment) : FragmentRef := ⟨some f, 0⟩

/-- A relocation: type, symbol, place, addend, the target data read from the
place, and the symbol value computed at apply time. -/
structure Relocation where
  type : Nat
  symInfo : SymPtr
  targetRef : FragmentRef
  addend : Nat
  target : Nat
  symValue : Nat
  deriving DecidableEq, Repr

/-- A slot of an output relocation section before the backend fills it. -/
def Relocation.blank : Relocation := ⟨0, 0, ⟨none, 0⟩, 0, 0, 0⟩

/-- The layout, as far as the applicators use it: the output offset of a
fragment, and the address `Relocation::place` computes for a place. -/
structure Layout where
  getOutputOffset : Fragment → Nat
  place : FragmentRef → Nat

/-- The address of the place of a relocation. -/
def Relocation.place (r : Relocation) (l : Layout) : Nat := l.place r.targetRef

/-- Results of an applicator. -/
inductive Result where
  | OK | Overflow | BadReloc | Unsupport
  deriving DecidableEq, Repr

/-- Output kinds of a link. -/
inductive OutputType where
  | Object | DynObj | Exec
  deriving DecidableEq, Repr

/-- The part of `MCLDInfo` the applicators pass on: the output kind. -/
structure MCLDInfo where
  output : OutputType
  deriving DecidableEq, Repr

/-- Lookup in a pointer-keyed map kept as an association list. -/
def lookupSym (m : List (SymPtr × Nat)) (s : SymPtr) : Option Nat :=
  (m.find? (fun p => decide (p.1 = s))).map (fun p => p.2)

/-- Modelled from the spec: `OutputRelocSection` is not among the sources. A
dynamic relocation output buffer; `getEntry(symbol, isForGOT, exist)` hands out
a relocation slot. For a GOT/PLT-kind request the slot is unique per symbol
(`exist` tells whether the symbol had it already); otherwise the slot is fresh
at every call. `entries` are the slots handed out so far, oldest first. -/
structure OutputRelocSection where
  entries : List Relocation
  symRelMap : List (SymPtr × Nat)
  deriving DecidableEq, Repr

/-- Modelled from the spec: `OutputRelocSection::getEntry`; the result is the
index of the slot, the `exist` flag and the section afterwards. -/
def OutputRelocSection.getEntry (s : OutputRelocSection) (sym : SymPtr) (isForGOT : Bool) :
    Nat × Bool × OutputRelocSection :=
  if isForGOT then
    match lookupSym s.symRelMap sym with
    | some i => (i, true, s)
    | none =>
      (s.entries.length, false,
        { entries := s.entries ++ [Relocation.blank],
          symRelMap := s.symRelMap ++ [(sym, s.entries.length)] })
  else
    (s.entries.length, false, { s with entries := s.entries ++ [Relocation.blank] })

/-- Overwrite slot `i` of an output relocation section. -/
def OutputRelocSection.setEntry (s : OutputRelocSection) (i : Nat) (r : Relocation) :
    OutputRelocSection :=
  { s with entries := s.entries.set i r }

/-- Fill type, place and symbol of slot `i`, as the backends do through
`setType`, `targetRef()` and `setSymInfo`. -/
def OutputRelocSection.fill (s : OutputRelocSection) (i : Nat) (type : Nat)
    (targetRef : FragmentRef) (symInfo : SymPtr) : OutputRelocSection :=
  s.setEntry i { (s.entries.getD i Relocation.blank) with
    type := type, targetRef := targetRef, symInfo := symInfo }

/-- Modelled from the spec: the GOT classes are not among the sources. An
ordered container of entries with a content word each; `getEntry(symbol,
exist)` has at-most-one semantics per symbol: the first request of a symbol
takes the next entry, later requests return the same entry with `exist` set.
`addr` is the address of the GOT section; `localSyms` are the symbols the MIPS
scan recorded with `setLocal`. -/
structure GOT where
  addr : Nat
  symMap : List (SymPtr × Nat)
  content : List (Nat × Nat)
  localSyms : List SymPtr
  deriving DecidableEq, Repr

/-- Modelled from the spec: `getEntry` of a GOT; the result is the index of
the entry, the `exist` flag and the GOT afterwards. -/
def GOT.getEntry (g : GOT) (sym : SymPtr) : Nat × Bool × GOT :=
  match lookupSym g.symMap sym with
  | some i => (i, true, g)
  | none => (g.symMap.length, false, { g with symMap := g.symMap ++ [(sym, g.symMap.length)] })

/-- The content word of entry `i`; an entry never written holds 0. -/
def GOT.getContent (g : GOT) (i : Nat) : Nat :=
  ((g.content.find? (fun p => decide (p.1 = i))).map (fun p => p.2)).getD 0

/-- The call `setContent` on entry `i`. -/
def GOT.setContent (g : GOT) (i : Nat) (v : Nat) : GOT :=
  { g with content := (i, v) :: g.content }

/-- Modelled from the spec: `MipsGOT::isLocal`, whether the scan recorded the
symbol as a local GOT symbol. -/
def GOT.isLocal (g : GOT) (sym : SymPtr) : Bool := decide (sym ∈ g.localSyms)

/-- Modelled from the spec: the PLT class is not among the sources. Code stubs
with associated GOTPLT slots; `getPLTEntry` and `getGOTPLTEntry` have
at-most-one semantics per symbol. `addr` is the address of the PLT section. -/
structure PLT where
  addr : Nat
  pltMap : List (SymPtr × Nat)
  gotpltMap : List (SymPtr × Nat)
  deriving DecidableEq, Repr

/-- Modelled from the spec: `getPLTEntry` of the PLT. -/
def PLT.getPLTEntry (p : PLT) (sym : SymPtr) : Nat × Bool × PLT :=
  match lookupSym p.pltMap sym with
  | some i => (i, true, p)
  | none => (p.pltMap.length, false, { p with pltMap := p.pltMap ++ [(sym, p.pltMap.length)] })

/-- Modelled from the spec: `getGOTPLTEntry` of the PLT. -/
def PLT.getGOTPLTEntry (p : PLT) (sym : SymPtr) : Nat × Bool × PLT :=
  match lookupSym p.gotpltMap sym with
  | some i => (i, true, p)
  | none =>
    (p.gotpltMap.length, false, { p with gotpltMap := p.gotpltMap ++ [(sym, p.gotpltMap.length)] })

/-! ## ARM: `ARMRelocationFactory.cpp` -/

namespace ARM

/-- ELF relocation type `R_ARM_ABS32`. -/
def R_ARM_ABS32 : Nat := 2
/-- ELF relocation type `R_ARM_THM_CALL`. -/
def R_ARM_THM_CALL : Nat := 10
/-- ELF relocation type `R_ARM_GLOB_DAT`. -/
def R_ARM_GLOB_DAT : Nat := 21
/-- ELF relocation type `R_ARM_JUMP_SLOT`. -/
def R_ARM_JUMP_SLOT : Nat := 22
/-- ELF relocation type `R_ARM_RELATIVE`. -/
def R_ARM_RELATIVE : Nat := 23
/-- ELF relocation type `R_ARM_PLT32`. -/
def R_ARM_PLT32 : Nat := 27
/-- ELF relocation type `R_ARM_CALL`. -/
def R_ARM_CALL : Nat := 28
/-- ELF relocation type `R_ARM_JUMP24`. -/
def R_ARM_JUMP24 : Nat := 29

/-- Modelled from the spec: reserved-flags bit `ReserveRel=0x1` of the ARM backend. -/
def ReserveRel : Nat := 0x1
/-- Modelled from the spec: reserved-flags bit `ReserveGOT=0x2` of the ARM backend. -/
def ReserveGOT : Nat := 0x2
/-- Modelled from the spec: reserved-flags bit `GOTRel=0x4` of the ARM backend. -/
def GOTRel : Nat := 0x4
/-- Modelled from the spec: reserved-flags bit `ReservePLT=0x8` of the ARM backend. -/
def ReservePLT : Nat := 0x8

/-- The ARM backend as the applicators see it: GOT, PLT, `.rel.dyn`,
`.rel.plt`, and the predicate `isSymbolPreemptible`, whose code is not among
the sources and is left arbitrary. -/
structure ARMGNULDBackend where
  got : GOT
  plt : PLT
  relDyn : OutputRelocSection
  relPLT : OutputRelocSection
  isSymbolPreemptible : ResolveInfo → MCLDInfo → Bool

/-- The relocation factory: its backend (`getTarget()`), the layout
(`getLayout()`), and the `ResolveInfo` objects symbol pointers refer to. -/
structure ARMRelocationFactory where
  target : ARMGNULDBackend
  layout : Layout
  info : SymPtr → ResolveInfo

/-- What an applicator returns: its result, the relocation and the factory afterwards. -/
abbrev Applied := Except Abort (Result × Relocation × ARMRelocationFactory)

/-- Source `getThumbBit`: 1 if the symbol is of type Function, is defined and
has bit 0 of its value set. -/
def getThumbBit (info : SymPtr → ResolveInfo) (pReloc : Relocation) : Nat :=
  if decide ((info pReloc.symInfo).desc ≠ Desc.Undefined) &&
      decide ((info pReloc.symInfo).type = SymType.Function) &&
      decide (pReloc.symValue &&& 0x1 ≠ 0) then 1 else 0

/-- Source `helper_sign_extend`. `1 << (pOri_width - 1)` is an `int` shift,
converted to `uint64_t`; the widths passed are 16, 25, 26 and 31, within the
asserted `pOri_width <= 64`. -/
def helper_sign_extend (pVal pOri_width : Nat) : Nat :=
  let sign_bit := sext32to64 (u32 (1 <<< (pOri_width - 1)))
  sub64 (pVal ^^^ sign_bit) sign_bit

/-- Source `helper_bit_select`. -/
def helper_bit_select (pA pB pMask : Nat) : Nat :=
  (pA &&& not64 pMask) ||| (pB &&& pMask)

/-- Source `helper_use_relative_reloc`: false if the symbol is dynamic,
undefined or preemptible. -/
def helper_use_relative_reloc (pSym : ResolveInfo) (pLDInfo : MCLDInfo)
    (pFactory : ARMRelocationFactory) : Bool :=
  if pSym.isDyn || pSym.isUndef || pFactory.target.isSymbolPreemptible pSym pLDInfo then false
  else true

/-- Source `helper_get_GOT_and_init`: the index of the GOT entry of the
symbol, initialised on first use. -/
def helper_get_GOT_and_init (ndebug : Bool) (pReloc : Relocation) (pLDInfo : MCLDInfo)
    (pParent : ARMRelocationFactory) : Except Abort (Nat × ARMRelocationFactory) :=
  let rsym := pParent.info pReloc.symInfo
  let ld_backend := pParent.target
  match ld_backend.got.getEntry pReloc.symInfo with
  | (got_entry, exist, got) =>
    if !exist then
      if rsym.reserved &&& ReserveGOT ≠ 0 then
        Except.ok (got_entry,
          { pParent with target := { ld_backend with got := got.setContent got_entry pReloc.symValue } })
      else if rsym.reserved &&& GOTRel ≠ 0 then
        match ld_backend.relDyn.getEntry pReloc.symInfo true with
        | (rel_entry, exist2, relDyn) =>
          match cassert ndebug (!exist2) "GOT entry not exist, but DynRel entry exist!" with
          | Except.error e => Except.error e
          | Except.ok _ =>
            if rsym.isLocal || helper_use_relative_reloc rsym pLDInfo pParent then
              Except.ok (got_entry,
                { pParent with target := { ld_backend with
                    got := got.setContent got_entry pReloc.symValue,
                    relDyn := relDyn.fill rel_entry R_ARM_RELATIVE
                      (FragmentRef.assign (Fragment.gotEntry got_entry)) 0 } })
            else
              Except.ok (got_entry,
                { pParent with target := { ld_backend with
                    got := got.setContent got_entry 0,
                    relDyn := relDyn.fill rel_entry R_ARM_GLOB_DAT
                      (FragmentRef.assign (Fragment.gotEntry got_entry)) pReloc.symInfo } })
      else
        Except.error (Abort.fatal "No GOT entry reserved for GOT type relocation!")
    else
      Except.ok (got_entry, { pParent with target := { ld_backend with got := got } })

/-- Source `helper_GOT_ORG`. -/
def helper_GOT_ORG (pParent : ARMRelocationFactory) : Nat := pParent.target.got.addr

/-- Source `helper_GOT`: address of the GOT entry of the symbol. -/
def helper_GOT (ndebug : Bool) (pReloc : Relocation) (pLDInfo : MCLDInfo)
    (pParent : ARMRelocationFactory) : Except Abort (Nat × ARMRelocationFactory) :=
  match helper_get_GOT_and_init ndebug pReloc pLDInfo pParent with
  | Except.error e => Except.error e
  | Except.ok (got_entry, pParent1) =>
    Except.ok (u64 (helper_GOT_ORG pParent1 +
      pParent1.layout.getOutputOffset (Fragment.gotEntry got_entry)), pParent1)

/-- Source `helper_get_PLT_and_init`: the index of the PLT entry of the
symbol, initialised on first use. -/
def helper_get_PLT_and_init (ndebug : Bool) (pReloc : Relocation)
    (pParent : ARMRelocationFactory) : Except Abort (Nat × ARMRelocationFactory) :=
  let rsym := pParent.info pReloc.symInfo
  let ld_backend := pParent.target
  match ld_backend.plt.getPLTEntry pReloc.symInfo with
  | (plt_entry, exist, plt) =>
    if !exist then
      if rsym.reserved &&& ReservePLT ≠ 0 then
        match plt.getGOTPLTEntry pReloc.symInfo with
        | (gotplt_entry, _, plt2) =>
          match ld_backend.relPLT.getEntry pReloc.symInfo true with
          | (rel_entry, exist3, relPLT) =>
            match cassert ndebug (!exist3) "PLT entry not exist, but DynRel entry exist!" with
            | Except.error e => Except.error e
            | Except.ok _ =>
              Except.ok (plt_entry,
                { pParent with target := { ld_backend with
                    plt := plt2,
                    relPLT := relPLT.fill rel_entry R_ARM_JUMP_SLOT
                      (FragmentRef.assign (Fragment.gotpltEntry gotplt_entry)) pReloc.symInfo } })
      else
        Except.error (Abort.fatal "No PLT entry reserved for PLT type relocation!")
    else
      Except.ok (plt_entry, { pParent with target := { ld_backend with plt := plt } })

/-- Source `helper_PLT_ORG`. -/
def helper_PLT_ORG (pParent : ARMRelocationFactory) : Nat := pParent.target.plt.addr

/-- Source `helper_PLT`: address of the PLT entry of the symbol. -/
def helper_PLT (ndebug : Bool) (pReloc : Relocation) (pParent : ARMRelocationFactory) :
    Except Abort (Nat × ARMRelocationFactory) :=
  match helper_get_PLT_and_init ndebug pReloc pParent with
  | Except.error e => Except.error e
  | Except.ok (plt_entry, pParent1) =>
    Except.ok (u64 (helper_PLT_ORG pParent1 +
      pParent1.layout.getOutputOffset (Fragment.pltEntry plt_entry)), pParent1)

/-- Source `helper_DynRel`: take an entry of `.rel.dyn`, set its type to
`pType`, its place to that of `pReloc`, and its symbol to null for
`R_ARM_RELATIVE` and to the symbol of `pReloc` otherwise. -/
def helper_DynRel (pReloc : Relocation) (pType : Nat) (pParent : ARMRelocationFactory) :
    ARMRelocationFactory :=
  let ld_backend := pParent.target
  match ld_backend.relDyn.getEntry pReloc.symInfo false with
  | (rel_entry, _, relDyn) =>
    { pParent with target := { ld_backend with
        relDyn := relDyn.fill rel_entry pType pReloc.targetRef
          (if pType = R_ARM_RELATIVE then 0 else pReloc.symInfo) } }

/-- Source `helper_thumb32_branch_offset`. -/
def helper_thumb32_branch_offset (pUpper16 pLower16 : Nat) : Nat :=
  let s := (pUpper16 &&& (1 <<< 10)) >>> 10
  let u := pUpper16 &&& 0x3ff
  let l := pLower16 &&& 0x7ff
  let j1 := (pLower16 &&& (1 <<< 13)) >>> 13
  let j2 := (pLower16 &&& (1 <<< 11)) >>> 11
  let i1 := if j1 ^^^ s ≠ 0 then 0 else 1
  let i2 := if j2 ^^^ s ≠ 0 then 0 else 1
  helper_sign_extend (u64 (s <<< 24) ||| u64 (i1 <<< 23) ||| u64 (i2 <<< 22) |||
    u64 (u <<< 12) ||| u64 (l <<< 1)) 25

/-- Source `helper_thumb32_branch_upper`; `~0x7ffU` is the 32-bit constant `0xfffff800`. -/
def helper_thumb32_branch_upper (pUpper16 pOffset : Nat) : Nat :=
  let sign := (pOffset &&& 0x80000000) >>> 31
  (pUpper16 &&& 0xfffff800) ||| ((pOffset >>> 12) &&& 0x3ff) ||| u32 (sign <<< 10)

/-- Source `helper_thumb32_branch_lower`; `~0x2fffU` is the 32-bit constant
`0xffffd000`, and `!sign` is 1 when `sign` is 0. -/
def helper_thumb32_branch_lower (pLower16 pOffset : Nat) : Nat :=
  let sign := (pOffset &&& 0x80000000) >>> 31
  let notSign := if sign = 0 then 1 else 0
  (pLower16 &&& 0xffffd000) |||
    u64 ((((pOffset >>> 23) &&& 1) ^^^ notSign) <<< 13) |||
    u64 ((((pOffset >>> 22) &&& 1) ^^^ notSign) <<< 11) |||
    ((pOffset >>> 1) &&& 0x7ff)

/-- Source `helper_check_signed_overflow`: whether the value, cast to
`int32_t`, lies outside the signed range of the given number of bits. -/
def helper_check_signed_overflow (pValue bits : Nat) : Bool :=
  let signed_val := toInt32 pValue
  let max : Int := (1 <<< (bits - 1) : Nat) - 1
  let min : Int := -((1 <<< (bits - 1) : Nat) : Int)
  if signed_val > max ∨ signed_val < min then true else false

/-- Source `none` (`R_ARM_NONE`). -/
def none (pReloc : Relocation) (_pLDInfo : MCLDInfo) (pParent : ARMRelocationFactory) : Applied :=
  Except.ok (Result.OK, pReloc, pParent)

/-- Source `abs32` (`R_ARM_ABS32: (S + A) | T`). -/
def abs32 (ndebug : Bool) (pReloc : Relocation) (pLDInfo : MCLDInfo)
    (pParent : ARMRelocationFactory) : Applied :=
  let rsym := pParent.info pReloc.symInfo
  let T := getThumbBit pParent.info pReloc
  let A := u64 (pReloc.target + pReloc.addend)
  let S := pReloc.symValue
  if rsym.isLocal && decide (rsym.reserved &&& 0x1 ≠ 0) then
    let pParent1 := helper_DynRel pReloc R_ARM_RELATIVE pParent
    Except.ok (Result.OK, { pReloc with target := u64 (S + A) ||| T }, pParent1)
  else if rsym.isGlobal then
    let afterPLT : Except Abort (Nat × Nat × Relocation × ARMRelocationFactory) :=
      if rsym.reserved &&& 0x8 ≠ 0 then
        match helper_PLT ndebug pReloc pParent with
        | Except.error e => Except.error e
        | Except.ok (S1, pParent1) =>
          Except.ok (S1, 0, { pReloc with target := u64 (S1 + A) ||| 0 }, pParent1)
      else Except.ok (S, T, pReloc, pParent)
    match afterPLT with
    | Except.error e => Except.error e
    | Except.ok (S1, T1, pReloc1, pParent1) =>
      if rsym.reserved &&& 0x1 ≠ 0 then
        if helper_use_relative_reloc rsym pLDInfo pParent1 then
          let pParent2 := helper_DynRel pReloc1 R_ARM_RELATIVE pParent1
          Except.ok (Result.OK, { pReloc1 with target := u64 (S1 + A) ||| T1 }, pParent2)
        else
          let pParent2 := helper_DynRel pReloc1 pReloc1.type pParent1
          Except.ok (Result.OK, pReloc1, pParent2)
      else
        Except.ok (Result.OK, { pReloc1 with target := u64 (S1 + A) ||| T1 }, pParent1)
  else
    Except.ok (Result.OK, { pReloc with target := u64 (S + A) ||| T }, pParent)

/-- Source `call` (`R_ARM_PLT32`, `R_ARM_JUMP24`, `R_ARM_CALL: ((S + A) | T) - P`). -/
def call (ndebug : Bool) (pReloc : Relocation) (_pLDInfo : MCLDInfo)
    (pParent : ARMRelocationFactory) : Applied :=
  let rsym := pParent.info pReloc.symInfo
  if rsym.isWeak && rsym.isUndef && !decide (rsym.reserved &&& ReservePLT ≠ 0) then
    Except.ok (Result.OK,
      { pReloc with target := (pReloc.target &&& 0xf0000000) ||| 0x01a00000 }, pParent)
  else
    let T := getThumbBit pParent.info pReloc
    let A := u64 (helper_sign_extend (u64 ((pReloc.target &&& 0x00FFFFFF) <<< 2)) 26 + pReloc.addend)
    let P := pReloc.place pParent.layout
    let S := pReloc.symValue
    let afterPLT : Except Abort (Nat × Nat × ARMRelocationFactory) :=
      if rsym.reserved &&& 0x8 ≠ 0 then
        match helper_PLT ndebug pReloc pParent with
        | Except.error e => Except.error e
        | Except.ok (S1, pParent1) => Except.ok (S1, 0, pParent1)
      else Except.ok (S, T, pParent)
    match afterPLT with
    | Except.error e => Except.error e
    | Except.ok (S1, T1, pParent1) =>
      let X := sub64 (u64 (S1 + A) ||| T1) P
      if X &&& 0x03 ≠ 0 then
        Except.error (Abort.fatal "Target is thumb, need stub!")
      else
        match cassert ndebug (!helper_check_signed_overflow X 26) "Jump or Call target too far!" with
        | Except.error e => Except.error e
        | Except.ok _ =>
          Except.ok (Result.OK,
            { pReloc with target := (pReloc.target &&& 0xFF000000) ||| ((X &&& 0x03FFFFFE) >>> 2) },
            pParent1)

/-- Source `thm_call` (`R_ARM_THM_CALL: ((S + A) | T) - P`); `~0x3U` is the
32-bit constant `0xfffffffc`. -/
def thm_call (ndebug : Bool) (pReloc : Relocation) (_pLDInfo : MCLDInfo)
    (pParent : ARMRelocationFactory) : Applied :=
  let rsym := pParent.info pReloc.symInfo
  if rsym.isWeak && rsym.isUndef && !decide (rsym.reserved &&& ReservePLT ≠ 0) then
    Except.ok (Result.OK, { pReloc with target := u32 (0xe000 <<< 16) ||| 0xbf00 }, pParent)
  else
    let upper16 := (pReloc.target &&& 0xffff0000) >>> 16
    let lower16 := pReloc.target &&& 0xffff
    let T := getThumbBit pParent.info pReloc
    let A := helper_thumb32_branch_offset upper16 lower16
    let P := pReloc.place pParent.layout
    let S := pReloc.symValue
    let afterPLT : Except Abort (Nat × Nat × ARMRelocationFactory) :=
      if rsym.reserved &&& 0x8 ≠ 0 then
        match helper_PLT ndebug pReloc pParent with
        | Except.error e => Except.error e
        | Except.ok (S1, pParent1) => Except.ok (S1, 0, pParent1)
      else Except.ok (S, T, pParent)
    match afterPLT with
    | Except.error e => Except.error e
    | Except.ok (S1, T1, pParent1) =>
      let X0 := sub64 (u64 (S1 + A) ||| T1) P
      let X1 := X0 >>> 1
      if helper_check_signed_overflow X1 24 then
        match cassert ndebug false "Offset is too far. We need stub or PLT for it." with
        | Except.error e => Except.error e
        | Except.ok _ => Except.ok (Result.Overflow, pReloc, pParent1)
      else
        let X := if X1 &&& 0x5000 = 0x4000 then u64 (X1 + 2) &&& 0xfffffffc else X1
        let upper := helper_thumb32_branch_upper upper16 X
        let lower := helper_thumb32_branch_lower lower16 X
        Except.ok (Result.OK, { pReloc with target := u64 (upper <<< 16) ||| lower }, pParent1)

/-- The `imm16` field `[19-16][11-0]` of an ARM MOVW/MOVT instruction word: the
argument `helper_extract_movw_movt_addend` sign-extends. -/
def movw_movt_imm16 (pTarget : Nat) : Nat :=
  ((pTarget >>> 4) &&& 0xf000) ||| (pTarget &&& 0xfff)

/-- Source `helper_extract_movw_movt_addend`. -/
def helper_extract_movw_movt_addend (pTarget : Nat) : Nat :=
  helper_sign_extend (movw_movt_imm16 pTarget) 16

/-- Source `helper_insert_val_movw_movt_inst`; the shifted operand is below
`2 ^ 16`, so the 64-bit shift does not wrap. -/
def helper_insert_val_movw_movt_inst (pTarget pImm : Nat) : Nat :=
  let t1 := pTarget &&& 0xfff0f000
  let t2 := t1 ||| (pImm &&& 0x0fff)
  t2 ||| ((pImm &&& 0xf000) <<< 4)

/-- The `imm16` field `[19-16][26][14-12][7-0]` of a Thumb MOVW/MOVT
instruction word: the argument `helper_extract_thumb_movw_movt_addend`
sign-extends. -/
def thumb_movw_movt_imm16 (pTarget : Nat) : Nat :=
  ((pTarget >>> 4) &&& 0xf000) ||| ((pTarget >>> 15) &&& 0x0800) |||
    ((pTarget >>> 4) &&& 0x0700) ||| (pTarget &&& 0x00ff)

/-- Source `helper_extract_thumb_movw_movt_addend`. -/
def helper_extract_thumb_movw_movt_addend (pTarget : Nat) : Nat :=
  helper_sign_extend (thumb_movw_movt_imm16 pTarget) 16

/-- Source `helper_insert_val_thumb_movw_movt_inst`; the shifted operands are
below `2 ^ 16`, so the 64-bit shifts do not wrap. -/
def helper_insert_val_thumb_movw_movt_inst (pTarget pImm : Nat) : Nat :=
  let t1 := pTarget &&& 0xfbf08f00
  let t2 := t1 ||| ((pImm &&& 0xf000) <<< 4)
  let t3 := t2 ||| ((pImm &&& 0x0800) <<< 15)
  let t4 := t3 ||| ((pImm &&& 0x0700) <<< 4)
  t4 ||| (pImm &&& 0x00ff)

/-- The step `if (rsym->reserved() & 0x8u)` with the body
`S = helper_PLT(...); T = 0;`, shared by the applicators: the values of `S`
and `T` afterwards. -/
def usePLT (ndebug : Bool) (pReloc : Relocation) (pParent : ARMRelocationFactory) (S T : Nat) :
    Except Abort (Nat × Nat × ARMRelocationFactory) :=
  if (pParent.info pReloc.symInfo).reserved &&& 0x8 ≠ 0 then
    match helper_PLT ndebug pReloc pParent with
    | Except.error e => Except.error e
    | Except.ok (S1, pParent1) => Except.ok (S1, 0, pParent1)
  else Except.ok (S, T, pParent)

/-- Source `movw_abs_nc` (`R_ARM_MOVW_ABS_NC: (S + A) | T`). The target is
overwritten with `(S + A) | T` before the overflow check. -/
def movw_abs_nc (ndebug : Bool) (pReloc : Relocation) (_pLDInfo : MCLDInfo)
    (pParent : ARMRelocationFactory) : Applied :=
  let S := pReloc.symValue
  let T := getThumbBit pParent.info pReloc
  let A := u64 (helper_extract_movw_movt_addend pReloc.target + pReloc.addend)
  match usePLT ndebug pReloc pParent S T with
  | Except.error e => Except.error e
  | Except.ok (S1, T1, pParent1) =>
    let X := u64 (S1 + A) ||| T1
    let pReloc1 := { pReloc with target := u64 (S1 + A) ||| T1 }
    if helper_check_signed_overflow X 16 then
      Except.ok (Result.Overflow, pReloc1, pParent1)
    else
      Except.ok (Result.OK,
        { pReloc1 with target := helper_insert_val_movw_movt_inst pReloc1.target X }, pParent1)

/-- Source `movw_prel_nc` (`R_ARM_MOVW_PREL_NC: ((S + A) | T) - P`). -/
def movw_prel_nc (pReloc : Relocation) (_pLDInfo : MCLDInfo)
    (pParent : ARMRelocationFactory) : Applied :=
  let S := pReloc.symValue
  let T := getThumbBit pParent.info pReloc
  let P := pReloc.place pParent.layout
  let A := u64 (helper_extract_movw_movt_addend pReloc.target + pReloc.addend)
  let X := sub64 (u64 (S + A) ||| T) P
  if helper_check_signed_overflow X 16 then
    Except.ok (Result.Overflow, pReloc, pParent)
  else
    Except.ok (Result.OK,
      { pReloc with target := helper_insert_val_movw_movt_inst pReloc.target X }, pParent)

/-- Source `thm_movw_abs_nc` (`R_ARM_THM_MOVW_ABS_NC: (S + A) | T`). -/
def thm_movw_abs_nc (ndebug : Bool) (pReloc : Relocation) (_pLDInfo : MCLDInfo)
    (pParent : ARMRelocationFactory) : Applied :=
  let S := pReloc.symValue
  let T := getThumbBit pParent.info pReloc
  let A := u64 (helper_extract_thumb_movw_movt_addend pReloc.target + pReloc.addend)
  match usePLT ndebug pReloc pParent S T with
  | Except.error e => Except.error e
  | Except.ok (S1, T1, pParent1) =>
    let X := u64 (S1 + A) ||| T1
    if helper_check_signed_overflow X 16 then
      Except.ok (Result.Overflow, pReloc, pParent1)
    else
      Except.ok (Result.OK,
        { pReloc with target := helper_insert_val_thumb_movw_movt_inst pReloc.target X }, pParent1)

/-- Source `thm_movw_prel_nc` (`R_ARM_THM_MOVW_PREL_NC: ((S + A) | T) - P`). -/
def thm_movw_prel_nc (pReloc : Relocation) (_pLDInfo : MCLDInfo)
    (pParent : ARMRelocationFactory) : Applied :=
  let S := pReloc.symValue
  let T := getThumbBit pParent.info pReloc
  let P := pReloc.place pParent.layout
  let A := u64 (helper_extract_thumb_movw_movt_addend pReloc.target + pReloc.addend)
  let X := sub64 (u64 (S + A) ||| T) P
  if helper_check_signed_overflow X 16 then
    Except.ok (Result.Overflow, pReloc, pParent)
  else
    Except.ok (Result.OK,
      { pReloc with target := helper_insert_val_thumb_movw_movt_inst pReloc.target X }, pParent)

/-- Source `prel31` (`R_ARM_PREL31: (S + A) | T`). -/
def prel31 (ndebug : Bool) (pReloc : Relocation) (_pLDInfo : MCLDInfo)
    (pParent : ARMRelocationFactory) : Applied :=
  let target := pReloc.target
  let T := getThumbBit pParent.info pReloc
  let A := u64 (helper_sign_extend target 31 + pReloc.addend)
  let S := pReloc.symValue
  match usePLT ndebug pReloc pParent S T with
  | Except.error e => Except.error e
  | Except.ok (S1, T1, pParent1) =>
    let X := u64 (S1 + A) ||| T1
    let pReloc1 := { pReloc with target := helper_bit_select target X 0x7fffffff }
    if helper_check_signed_overflow X 31 then
      Except.ok (Result.Overflow, pReloc1, pParent1)
    else
      Except.ok (Result.OK, pReloc1, pParent1)

end ARM

namespace Mips

/-! ### Relocation types (`llvm/Support/ELF.h`) -/

def R_MIPS_NONE : Nat := 0
def R_MIPS_16 : Nat := 1
def R_MIPS_32 : Nat := 2
def R_MIPS_REL32 : Nat := 3
def R_MIPS_26 : Nat := 4
def R_MIPS_HI16 : Nat := 5
def R_MIPS_LO16 : Nat := 6
def R_MIPS_GPREL16 : Nat := 7
def R_MIPS_LITERAL : Nat := 8
def R_MIPS_GOT16 : Nat := 9
def R_MIPS_PC16 : Nat := 10
def R_MIPS_CALL16 : Nat := 11
def R_MIPS_GPREL32 : Nat := 12
def R_MIPS_SHIFT5 : Nat := 16
def R_MIPS_SHIFT6 : Nat := 17
def R_MIPS_64 : Nat := 18
def R_MIPS_GOT_DISP : Nat := 19
def R_MIPS_GOT_PAGE : Nat := 20
def R_MIPS_GOT_OFST : Nat := 21
def R_MIPS_GOT_HI16 : Nat := 22
def R_MIPS_GOT_LO16 : Nat := 23
def R_MIPS_SUB : Nat := 24
def R_MIPS_INSERT_A : Nat := 25
def R_MIPS_INSERT_B : Nat := 26
def R_MIPS_DELETE : Nat := 27
def R_MIPS_HIGHER : Nat := 28
def R_MIPS_HIGHEST : Nat := 29
def R_MIPS_CALL_HI16 : Nat := 30
def R_MIPS_CALL_LO16 : Nat := 31
def R_MIPS_SCN_DISP : Nat := 32
def R_MIPS_REL16 : Nat := 33
def R_MIPS_ADD_IMMEDIATE : Nat := 34
def R_MIPS_PJUMP : Nat := 35
def R_MIPS_RELGOT : Nat := 36
def R_MIPS_JALR : Nat := 37
def R_MIPS_TLS_DTPMOD32 : Nat := 38
def R_MIPS_TLS_DTPREL32 : Nat := 39
def R_MIPS_TLS_DTPMOD64 : Nat := 40
def R_MIPS_TLS_DTPREL64 : Nat := 41
def R_MIPS_TLS_GD : Nat := 42
def R_MIPS_TLS_LDM : Nat := 43
def R_MIPS_TLS_DTPREL_HI16 : Nat := 44
def R_MIPS_TLS_DTPREL_LO16 : Nat := 45
def R_MIPS_TLS_GOTTPREL : Nat := 46
def R_MIPS_TLS_TPREL32 : Nat := 47
def R_MIPS_TLS_TPREL64 : Nat := 48
def R_MIPS_TLS_TPREL_HI16 : Nat := 49
def R_MIPS_TLS_TPREL_LO16 : Nat := 50
def R_MIPS_GLOB_DAT : Nat := 51
def R_MIPS_COPY : Nat := 126
def R_MIPS_JUMP_SLOT : Nat := 127

/-- Section flag `SHF_ALLOC`. -/
def SHF_ALLOC : Nat := 0x2

/-- An `LDSection`, as far as the scan reads it: its flags. -/
structure LDSection where
  flag : Nat
  deriving DecidableEq, Repr

/-- The MIPS backend. The header `MipsLDBackend.h` is not among the sources:
the values of the reserved-flag bits `ReserveRel` and `ReserveGot`, the
predicates `isDynamicSymbol` and `symbolNeedsDynRel` of `GNULDBackend`,
`Relocation::updateAddend` (here: the addend it leaves) and
`checkAndSetHasTextRel` are parameters.

`relDynReserved`, `gotLocalEntries` and `gotGlobalEntries` count the calls of
`m_pRelDyn->reserveEntry`, `m_pGOT->reserveLocalEntry` and
`m_pGOT->reserveGlobalEntry`; `gotReservedFor` lists, newest last, the symbol
under scan at each of the two kinds of GOT reservation. `m_GlobalGOTSyms`
holds, for each output symbol pushed, the pointer to its `ResolveInfo` (an
`LDSymbol` and its `ResolveInfo` point to each other). -/
structure MipsGNULDBackend where
  ReserveRel : Nat
  ReserveGot : Nat
  codeGenType : OutputType
  isDynamicSymbol : ResolveInfo → Bool
  symbolNeedsDynRel : ResolveInfo → Bool
  updateAddend : Relocation → Nat
  checkAndSetHasTextRel : LDSection → Bool → Bool
  m_pGpDispSymbol : Option SymPtr
  got : GOT
  relDyn : OutputRelocSection
  relDynReserved : Nat
  gotLocalEntries : Nat
  gotGlobalEntries : Nat
  gotReservedFor : List SymPtr
  m_GlobalGOTSyms : List SymPtr
  m_bHasTextRel : Bool

/-- Modelled from the spec: `MipsGOT::setLocal` records the symbol on the GOT as
a local entry. -/
def setLocal (g : GOT) (sym : SymPtr) : GOT :=
  if sym ∈ g.localSyms then g else { g with localSyms := sym :: g.localSyms }

/-- Modelled from the spec: `MipsGOT::setGlobal` records the symbol on the GOT
as a global entry. -/
def setGlobal (g : GOT) (sym : SymPtr) : GOT :=
  { g with localSyms := g.localSyms.filter (fun s => decide (s ≠ sym)) }

/-- The `ResolveInfo` objects, by pointer. -/
abbrev Symbols := SymPtr → ResolveInfo

/-- The effect of `rsym->setReserved(v)` on the objects. -/
def setReserved (info : Symbols) (rsym : SymPtr) (v : Nat) : Symbols :=
  fun p => if p = rsym then { info rsym with reserved := v } else info p

/-- The relocation factory: its backend, the layout, the `ResolveInfo`
objects, and the cached `m_AHL` (an `int32_t`). -/
structure MipsRelocationFactory where
  target : MipsGNULDBackend
  layout : Layout
  info : Symbols
  m_AHL : Nat

/-- What an applicator returns: its result, the relocation and the factory afterwards. -/
abbrev Applied := Except Abort (Result × Relocation × MipsRelocationFactory)

/-- Source `helper_FindLo16Reloc`; `following` are the relocations after
`pReloc` in its list, in order (the chain of `getNextNode`). -/
def helper_FindLo16Reloc (pReloc : Relocation) (following : List Relocation) :
    Option Relocation :=
  following.find? (fun reloc =>
    decide (R_MIPS_LO16 = reloc.type) && decide (reloc.symInfo = pReloc.symInfo))

/-- Source `helper_isGpDisp`. -/
def helper_isGpDisp (info : Symbols) (pReloc : Relocation) : Bool :=
  decide ((info pReloc.symInfo).name = "_gp_disp")

/-- Source `helper_GetGP`. -/
def helper_GetGP (pParent : MipsRelocationFactory) : Nat :=
  u64 (pParent.target.got.addr + 0x7FF0)

/-- Source `helper_GetGOTEntry`: the index of the GOT entry, `pExist`, and the
factory afterwards. The message of the fatal is the id of its diagnostic. -/
def helper_GetGOTEntry (pReloc : Relocation) (pParent : MipsRelocationFactory) :
    Except Abort (Nat × Bool × MipsRelocationFactory) :=
  let rsym := pParent.info pReloc.symInfo
  let ld_backend := pParent.target
  match ld_backend.got.getEntry pReloc.symInfo with
  | (got_entry, pExist, got) =>
    if pExist then
      Except.ok (got_entry, pExist, { pParent with target := { ld_backend with got := got } })
    else if !(got.isLocal pReloc.symInfo && decide (rsym.type = SymType.Section)) then
      if rsym.reserved &&& ld_backend.ReserveGot ≠ 0 then
        Except.ok (got_entry, pExist,
          { pParent with target := { ld_backend with
              got := got.setContent got_entry pReloc.symValue } })
      else
        Except.error (Abort.fatal "reserve_entry_number_mismatch")
    else
      Except.ok (got_entry, pExist, { pParent with target := { ld_backend with got := got } })

/-- Source `helper_GetGOTOffset`. -/
def helper_GetGOTOffset (pReloc : Relocation) (pParent : MipsRelocationFactory) :
    Except Abort (Nat × MipsRelocationFactory) :=
  match helper_GetGOTEntry pReloc pParent with
  | Except.error e => Except.error e
  | Except.ok (got_entry, _, pParent1) =>
    Except.ok (sub64 (pParent1.layout.getOutputOffset (Fragment.gotEntry got_entry)) 0x7FF0,
      pParent1)

/-- Source `helper_CalcAHL`, an `int32_t` computed with wrap-around. -/
def helper_CalcAHL (ndebug : Bool) (pHiReloc pLoReloc : Relocation) : Except Abort Nat :=
  match cassert ndebug
      ((decide (pHiReloc.type = R_MIPS_HI16) || decide (pHiReloc.type = R_MIPS_GOT16)) &&
        decide (pLoReloc.type = R_MIPS_LO16))
      "Incorrect type of relocation for AHL calculation" with
  | Except.error e => Except.error e
  | Except.ok _ =>
    match cassert ndebug (decide (pHiReloc.addend = pLoReloc.addend))
        "pHiReloc.addend() == pLoReloc.addend()" with
    | Except.error e => Except.error e
    | Except.ok _ =>
      let AHI := u32 pHiReloc.target
      let ALO := u32 pLoReloc.target
      Except.ok (u32 (u32 ((AHI &&& 0xFFFF) <<< 16) + castInt16 (ALO &&& 0xFFFF) +
        pLoReloc.addend))

/-- Source `helper_DynRel`. -/
def helper_DynRel (pReloc : Relocation) (pParent : MipsRelocationFactory) :
    Relocation × MipsRelocationFactory :=
  let ld_backend := pParent.target
  match ld_backend.relDyn.getEntry pReloc.symInfo false with
  | (rel_entry, _, relDyn) =>
    let A := u64 (pReloc.target + pReloc.addend)
    let S := pReloc.symValue
    if ld_backend.got.isLocal pReloc.symInfo then
      ({ pReloc with target := u64 (A + S) },
        { pParent with target := { ld_backend with
            relDyn := relDyn.fill rel_entry R_MIPS_REL32 pReloc.targetRef 0 } })
    else
      ({ pReloc with target := A },
        { pParent with target := { ld_backend with
            relDyn := relDyn.fill rel_entry R_MIPS_REL32 pReloc.targetRef pReloc.symInfo } })

/-- The write-back shared by the 16-bit applicators:
`pReloc.target() &= 0xFFFF0000; pReloc.target() |= (res & 0xFFFF);`. -/
def writeLow16 (pReloc : Relocation) (res : Nat) : Relocation :=
  { pReloc with target := (pReloc.target &&& 0xFFFF0000) ||| (res &&& 0xFFFF) }

/-- Source `none` (`R_MIPS_NONE` and the unsupported or deprecated types). -/
def none (pReloc : Relocation) (_pLDInfo : MCLDInfo) (pParent : MipsRelocationFactory) : Applied :=
  Except.ok (Result.OK, pReloc, pParent)

/-- Source `abs32` (`R_MIPS_32: S + A`). -/
def abs32 (pReloc : Relocation) (_pLDInfo : MCLDInfo) (pParent : MipsRelocationFactory) :
    Applied :=
  let rsym := pParent.info pReloc.symInfo
  if rsym.reserved &&& pParent.target.ReserveRel ≠ 0 then
    match helper_DynRel pReloc pParent with
    | (pReloc1, pParent1) => Except.ok (Result.OK, pReloc1, pParent1)
  else
    let A := u64 (pReloc.target + pReloc.addend)
    let S := pReloc.symValue
    Except.ok (Result.OK, { pReloc with target := u64 (S + A) }, pParent)

/-- The expression `(v - (int16_t)v) >> 16` of `hi16`, on `int32_t`. -/
def hi16Res (v : Nat) : Nat := asr32 (sub32 v (castInt16 v)) 16

/-- Source `hi16` (`R_MIPS_HI16`). Without a paired `R_MIPS_LO16` the assertion
fails, and a build without assertions dereferences the null pointer. -/
def hi16 (ndebug : Bool) (pReloc : Relocation) (following : List Relocation)
    (_pLDInfo : MCLDInfo) (pParent : MipsRelocationFactory) : Applied :=
  let lo_reloc := helper_FindLo16Reloc pReloc following
  match cassert ndebug lo_reloc.isSome "There is no paired R_MIPS_LO16 for R_MIPS_HI16" with
  | Except.error e => Except.error e
  | Except.ok _ =>
    match lo_reloc with
    | Option.none => Except.error Abort.nullDeref
    | Option.some lo =>
      match helper_CalcAHL ndebug pReloc lo with
      | Except.error e => Except.error e
      | Except.ok AHL =>
        let pParent1 := { pParent with m_AHL := AHL }
        let res :=
          if helper_isGpDisp pParent.info pReloc then
            let P := u32 (pReloc.place pParent1.layout)
            let GP := u32 (helper_GetGP pParent1)
            hi16Res (sub32 (u32 (AHL + GP)) P)
          else
            let S := u32 pReloc.symValue
            hi16Res (u32 (AHL + S))
        Except.ok (Result.OK, writeLow16 pReloc res, pParent1)

/-- Source `lo16` (`R_MIPS_LO16`). -/
def lo16 (pReloc : Relocation) (_pLDInfo : MCLDInfo) (pParent : MipsRelocationFactory) :
    Applied :=
  let res :=
    if helper_isGpDisp pParent.info pReloc then
      let P := u32 (pReloc.place pParent.layout)
      let GP := u32 (helper_GetGP pParent)
      let AHL := pParent.m_AHL
      u32 (sub32 (u32 (AHL + GP)) P + 4)
    else
      let S := u32 pReloc.symValue
      let ALO := u32 ((pReloc.target &&& 0xFFFF) + pReloc.addend)
      u32 (ALO + S)
  Except.ok (Result.OK, writeLow16 pReloc res, pParent)

/-- Source `got16` (`R_MIPS_GOT16`). The content of a GOT entry of this 32-bit
target is kept as a 32-bit word. -/
def got16 (ndebug : Bool) (pReloc : Relocation) (following : List Relocation)
    (_pLDInfo : MCLDInfo) (pParent : MipsRelocationFactory) : Applied :=
  let rsym := pParent.info pReloc.symInfo
  if rsym.isLocal then
    let lo_reloc := helper_FindLo16Reloc pReloc following
    match cassert ndebug lo_reloc.isSome "There is no paired R_MIPS_LO16 for R_MIPS_GOT16" with
    | Except.error e => Except.error e
    | Except.ok _ =>
      match lo_reloc with
      | Option.none => Except.error Abort.nullDeref
      | Option.some lo =>
        match helper_CalcAHL ndebug pReloc lo with
        | Except.error e => Except.error e
        | Except.ok AHL =>
          let S := u32 pReloc.symValue
          let pParent1 := { pParent with m_AHL := AHL }
          let res := u32 (AHL + S + 0x8000) &&& 0xFFFF0000
          match helper_GetGOTEntry pReloc pParent1 with
          | Except.error e => Except.error e
          | Except.ok (got_entry, _, pParent2) =>
            let pParent3 := { pParent2 with target := { pParent2.target with
                got := pParent2.target.got.setContent got_entry res } }
            let G := sub64 (pParent3.layout.getOutputOffset (Fragment.gotEntry got_entry)) 0x7FF0
            Except.ok (Result.OK, writeLow16 pReloc G, pParent3)
  else
    match helper_GetGOTOffset pReloc pParent with
    | Except.error e => Except.error e
    | Except.ok (G, pParent1) => Except.ok (Result.OK, writeLow16 pReloc G, pParent1)

/-- Source `call16` (`R_MIPS_CALL16: G`). -/
def call16 (pReloc : Relocation) (_pLDInfo : MCLDInfo) (pParent : MipsRelocationFactory) :
    Applied :=
  match helper_GetGOTOffset pReloc pParent with
  | Except.error e => Except.error e
  | Except.ok (G, pParent1) => Except.ok (Result.OK, writeLow16 pReloc G, pParent1)

/-- Source `gprel32` (`R_MIPS_GPREL32: A + S + GP0 - GP`). -/
def gprel32 (pReloc : Relocation) (_pLDInfo : MCLDInfo) (pParent : MipsRelocationFactory) :
    Applied :=
  let A := u32 (pReloc.target + pReloc.addend)
  let S := u32 pReloc.symValue
  let GP := u32 (helper_GetGP pParent)
  Except.ok (Result.OK, { pReloc with target := sub32 (u32 (A + S)) GP &&& 0xFFFFFFFF }, pParent)

/-- What a scan function leaves: the backend and the `ResolveInfo` objects. -/
abbrev Scanned := Except Abort (MipsGNULDBackend × Symbols)

/-- The case labels of `scanLocalReloc` that only `break`. -/
def localBreakTypes : List Nat :=
  [R_MIPS_NONE, R_MIPS_16,
   R_MIPS_REL32, R_MIPS_26, R_MIPS_HI16, R_MIPS_LO16, R_MIPS_PC16, R_MIPS_SHIFT5,
   R_MIPS_SHIFT6, R_MIPS_64, R_MIPS_GOT_PAGE, R_MIPS_GOT_OFST, R_MIPS_SUB, R_MIPS_INSERT_A,
   R_MIPS_INSERT_B, R_MIPS_DELETE, R_MIPS_HIGHER, R_MIPS_HIGHEST, R_MIPS_SCN_DISP,
   R_MIPS_REL16, R_MIPS_ADD_IMMEDIATE, R_MIPS_PJUMP, R_MIPS_RELGOT, R_MIPS_JALR,
   R_MIPS_GLOB_DAT, R_MIPS_COPY, R_MIPS_JUMP_SLOT,
   R_MIPS_GPREL32, R_MIPS_GPREL16, R_MIPS_LITERAL,
   R_MIPS_GOT_DISP, R_MIPS_GOT_HI16, R_MIPS_CALL_HI16, R_MIPS_GOT_LO16, R_MIPS_CALL_LO16,
   R_MIPS_TLS_DTPMOD32, R_MIPS_TLS_DTPREL32, R_MIPS_TLS_DTPMOD64, R_MIPS_TLS_DTPREL64,
   R_MIPS_TLS_GD, R_MIPS_TLS_LDM, R_MIPS_TLS_DTPREL_HI16, R_MIPS_TLS_DTPREL_LO16,
   R_MIPS_TLS_GOTTPREL, R_MIPS_TLS_TPREL32, R_MIPS_TLS_TPREL64, R_MIPS_TLS_TPREL_HI16,
   R_MIPS_TLS_TPREL_LO16]

/-- Source `MipsGNULDBackend::scanLocalReloc`. The message of a fatal is the id
of its diagnostic. -/
def scanLocalReloc (b : MipsGNULDBackend) (info : Symbols) (pReloc : Relocation) : Scanned :=
  let rsym := info pReloc.symInfo
  if pReloc.type = R_MIPS_32 then
    if b.codeGenType = OutputType.DynObj then
      Except.ok ({ b with relDynReserved := b.relDynReserved + 1,
                          got := setLocal b.got pReloc.symInfo },
        setReserved info pReloc.symInfo (rsym.reserved ||| b.ReserveRel))
    else Except.ok (b, info)
  else if pReloc.type = R_MIPS_GOT16 ∨ pReloc.type = R_MIPS_CALL16 then
    if rsym.type = SymType.Section then
      Except.ok ({ b with gotLocalEntries := b.gotLocalEntries + 1,
                          gotReservedFor := b.gotReservedFor ++ [pReloc.symInfo],
                          got := setLocal b.got pReloc.symInfo }, info)
    else if rsym.reserved &&& b.ReserveGot = 0 then
      Except.ok ({ b with gotLocalEntries := b.gotLocalEntries + 1,
                          gotReservedFor := b.gotReservedFor ++ [pReloc.symInfo],
                          got := setLocal b.got pReloc.symInfo },
        setReserved info pReloc.symInfo (rsym.reserved ||| b.ReserveGot))
    else Except.ok (b, info)
  else if pReloc.type ∈ localBreakTypes then Except.ok (b, info)
  else Except.error (Abort.fatal "unknown_relocation")

/-- The case labels of `scanGlobalReloc` that only `break`. -/
def globalBreakTypes : List Nat :=
  [R_MIPS_NONE, R_MIPS_INSERT_A, R_MIPS_INSERT_B, R_MIPS_DELETE, R_MIPS_TLS_DTPMOD64,
   R_MIPS_TLS_DTPREL64, R_MIPS_REL16, R_MIPS_ADD_IMMEDIATE, R_MIPS_PJUMP, R_MIPS_RELGOT,
   R_MIPS_TLS_TPREL64,
   R_MIPS_GPREL16, R_MIPS_26, R_MIPS_PC16,
   R_MIPS_16, R_MIPS_SHIFT5, R_MIPS_SHIFT6, R_MIPS_SUB, R_MIPS_HIGHER, R_MIPS_HIGHEST,
   R_MIPS_SCN_DISP,
   R_MIPS_TLS_DTPREL32, R_MIPS_TLS_GD, R_MIPS_TLS_LDM, R_MIPS_TLS_DTPREL_HI16,
   R_MIPS_TLS_DTPREL_LO16, R_MIPS_TLS_GOTTPREL, R_MIPS_TLS_TPREL32, R_MIPS_TLS_TPREL_HI16,
   R_MIPS_TLS_TPREL_LO16,
   R_MIPS_REL32, R_MIPS_JALR]

/-- The case labels of `scanGlobalReloc` that reserve a dynamic relocation
when `symbolNeedsDynRel` holds. -/
def globalDynRelTypes : List Nat := [R_MIPS_32, R_MIPS_64, R_MIPS_HI16, R_MIPS_LO16]

/-- The case labels of `scanGlobalReloc` that reserve a global GOT entry. -/
def globalGOTTypes : List Nat :=
  [R_MIPS_GOT16, R_MIPS_CALL16, R_MIPS_GOT_DISP, R_MIPS_GOT_HI16, R_MIPS_CALL_HI16,
   R_MIPS_GOT_LO16, R_MIPS_CALL_LO16, R_MIPS_GOT_PAGE, R_MIPS_GOT_OFST]

/-- Source `MipsGNULDBackend::scanGlobalReloc`. The message of a fatal is the id
of its diagnostic. -/
def scanGlobalReloc (b : MipsGNULDBackend) (info : Symbols) (pReloc : Relocation) : Scanned :=
  let rsym := info pReloc.symInfo
  if pReloc.type ∈ globalBreakTypes then Except.ok (b, info)
  else if pReloc.type ∈ globalDynRelTypes then
    if b.symbolNeedsDynRel rsym then
      Except.ok ({ b with relDynReserved := b.relDynReserved + 1,
                          got := setGlobal b.got pReloc.symInfo },
        setReserved info pReloc.symInfo (rsym.reserved ||| b.ReserveRel))
    else Except.ok (b, info)
  else if pReloc.type ∈ globalGOTTypes then
    if rsym.reserved &&& b.ReserveGot = 0 then
      Except.ok ({ b with gotGlobalEntries := b.gotGlobalEntries + 1,
                          gotReservedFor := b.gotReservedFor ++ [pReloc.symInfo],
                          m_GlobalGOTSyms := b.m_GlobalGOTSyms ++ [pReloc.symInfo],
                          got := setGlobal b.got pReloc.symInfo },
        setReserved info pReloc.symInfo (rsym.reserved ||| b.ReserveGot))
    else Except.ok (b, info)
  else if pReloc.type = R_MIPS_LITERAL ∨ pReloc.type = R_MIPS_GPREL32 then
    Except.error (Abort.fatal "invalid_global_relocation")
  else if pReloc.type = R_MIPS_COPY ∨ pReloc.type = R_MIPS_GLOB_DAT ∨
      pReloc.type = R_MIPS_JUMP_SLOT then
    Except.error (Abort.fatal "dynamic_relocation")
  else Except.error (Abort.fatal "unknown_relocation")

/-- Source `MipsGNULDBackend::isGlobalGOTSymbol`. -/
def isGlobalGOTSymbol (b : MipsGNULDBackend) (pSymbol : SymPtr) : Bool :=
  decide (pSymbol ∈ b.m_GlobalGOTSyms)

/-- Source `MipsGNULDBackend::scanRelocation`; the result has the relocation
after `updateAddend` too. A null `rsym` fails the assertion, and in a build
without assertions it is dereferenced at `rsym->isLocal()`. -/
def scanRelocation (ndebug : Bool) (b : MipsGNULDBackend) (info : Symbols)
    (pReloc : Relocation) (pSection : LDSection) :
    Except Abort (MipsGNULDBackend × Symbols × Relocation) :=
  match cassert ndebug (decide (pReloc.symInfo ≠ 0))
      "ResolveInfo of relocation not set while scanRelocation" with
  | Except.error e => Except.error e
  | Except.ok _ =>
    if b.m_pGpDispSymbol = some pReloc.symInfo then Except.ok (b, info, pReloc)
    else
      let pReloc1 := { pReloc with addend := b.updateAddend pReloc }
      if pSection.flag &&& SHF_ALLOC = 0 then Except.ok (b, info, pReloc1)
      else if pReloc.symInfo = 0 then Except.error Abort.nullDeref
      else
        let rsym := info pReloc.symInfo
        let scanned :=
          if (rsym.isLocal || !b.isDynamicSymbol rsym || !rsym.isDyn) && !rsym.isUndef then
            scanLocalReloc b info pReloc1
          else
            scanGlobalReloc b info pReloc1
        match scanned with
        | Except.error e => Except.error e
        | Except.ok (b1, info1) =>
          let rsym1 := info1 pReloc.symInfo
          if rsym1.isUndef && !rsym1.isDyn && !rsym1.isWeak then
            Except.error (Abort.fatal "undefined_reference")
          else if rsym1.reserved &&& b1.ReserveRel ≠ 0 then
            Except.ok ({ b1 with
              m_bHasTextRel := b1.checkAndSetHasTextRel pSection b1.m_bHasTextRel }, info1, pReloc1)
          else Except.ok (b1, info1, pReloc1)

/-- The scan of a list of relocations, in order, each with its section. -/
def scanRelocations (ndebug : Bool) (b : MipsGNULDBackend) (info : Symbols) :
    List (Relocation × LDSection) → Scanned
  | [] => Except.ok (b, info)
  | (pReloc, pSection) :: rest =>
    match scanRelocation ndebug b info pReloc pSection with
    | Except.error e => Except.error e
    | Except.ok (b1, info1, _) => scanRelocations ndebug b1 info1 rest

end Mips

/-! ## Scenario inputs -/

namespace ARM

/-- A backend with empty GOT, PLT and relocation sections, in which no symbol is
preemptible. -/
def emptyBackend : ARMGNULDBackend :=
  { got := ⟨0, [], [], []⟩, plt := ⟨0, [], []⟩, relDyn := ⟨[], []⟩, relPLT := ⟨[], []⟩,
    isSymbolPreemptible := fun _ _ => false }

/-- A layout that places every fragment at offset 0 and every place at `P`. -/
def layoutAt (P : Nat) : Layout := ⟨fun _ => 0, fun _ => P⟩

/-- A factory over `emptyBackend` in which every symbol pointer refers to `sym`. -/
def factoryOf (sym : ResolveInfo) (P : Nat) : ARMRelocationFactory :=
  ⟨emptyBackend, layoutAt P, fun _ => sym⟩

/-- A symbol with the given binding, type, desc and reserved flags. -/
def symOf (b : Binding) (t : SymType) (d : Desc) (reserved : Nat) : ResolveInfo :=
  ⟨"f", 0, b, Visibility.Default, t, d, false, reserved⟩

/-- A relocation of the given type against symbol 1, at offset 0 of region 0. -/
def relocOf (type addend target symValue : Nat) : Relocation :=
  ⟨type, 1, ⟨some (Fragment.region 0), 0⟩, addend, target, symValue⟩

/-- The value `X = ((S + A) | T) - P` that `call` computes for a symbol without
a PLT entry, where `A = sign_extend26((target & 0x00FFFFFF) << 2) + addend`. -/
def callX (pReloc : Relocation) (pParent : ARMRelocationFactory) : Nat :=
  sub64
    (u64 (pReloc.symValue +
        u64 (helper_sign_extend (u64 ((pReloc.target &&& 0x00FFFFFF) <<< 2)) 26 + pReloc.addend)) |||
      getThumbBit pParent.info pReloc)
    (pReloc.place pParent.layout)

/-- The target data of the relocation after an applicator has returned. -/
def targetOf (a : Applied) : Option Nat :=
  match a with
  | Except.ok (_, r, _) => some r.target
  | Except.error _ => Option.none

/-- The result an applicator has returned. -/
def resultOf (a : Applied) : Option Result :=
  match a with
  | Except.ok (res, _, _) => some res
  | Except.error _ => Option.none

/-- A factory over `emptyBackend`, but with every symbol preemptible, in which
every symbol pointer refers to `sym`. -/
def preemptibleFactoryOf (sym : ResolveInfo) (P : Nat) : ARMRelocationFactory :=
  ⟨{ emptyBackend with isSymbolPreemptible := fun _ _ => true }, layoutAt P, fun _ => sym⟩

end ARM

namespace Mips

/-- A backend for an executable, with `ReserveRel = 1` and `ReserveGot = 2`,
empty GOT and `.rel.dyn`, and no reservation made. -/
def emptyBackend : MipsGNULDBackend :=
  { ReserveRel := 1, ReserveGot := 2, codeGenType := OutputType.Exec,
    isDynamicSymbol := fun _ => false, symbolNeedsDynRel := fun _ => false,
    updateAddend := fun r => r.addend, checkAndSetHasTextRel := fun _ b => b,
    m_pGpDispSymbol := Option.none, got := ⟨0, [], [], []⟩, relDyn := ⟨[], []⟩,
    relDynReserved := 0, gotLocalEntries := 0, gotGlobalEntries := 0, gotReservedFor := [],
    m_GlobalGOTSyms := [], m_bHasTextRel := false }

/-- A layout that places the GOT entry of index `i` at output offset `4 * i`. -/
def gotLayout : Layout :=
  ⟨fun f => match f with
    | Fragment.gotEntry i => 4 * i
    | _ => 0,
   fun _ => 0⟩

/-- A factory over `emptyBackend` in which every symbol pointer refers to `sym`. -/
def factoryOf (sym : ResolveInfo) : MipsRelocationFactory :=
  ⟨emptyBackend, gotLayout, fun _ => sym, 0⟩

/-- A symbol named `sym` with the given binding, type, desc and reserved flags. -/
def symOf (b : Binding) (t : SymType) (d : Desc) (reserved : Nat) : ResolveInfo :=
  ⟨"sym", 0, b, Visibility.Default, t, d, false, reserved⟩

/-- A relocation of the given type against symbol 1, at offset 0 of region 0. -/
def relocOf (type addend target symValue : Nat) : Relocation :=
  ⟨type, 1, ⟨some (Fragment.region 0), 0⟩, addend, target, symValue⟩

/-- The target data of the relocation after an applicator has returned. -/
def targetOf (a : Applied) : Option Nat :=
  match a with
  | Except.ok (_, r, _) => some r.target
  | Except.error _ => Option.none

/-- The result an applicator has returned. -/
def resultOf (a : Applied) : Option Result :=
  match a with
  | Except.ok (res, _, _) => some res
  | Except.error _ => Option.none

end Mips

/-- The relation of a 16-bit write-back: bits 16 to 31 of `new` are those of
`old`, and the low 16 bits of `new` are `v & 0xFFFF`. -/
def WritesLow16 (old new v : Nat) : Prop :=
  new % 2 ^ 16 = v &&& 0xFFFF ∧ new / 2 ^ 16 = old / 2 ^ 16 % 2 ^ 16

instance (old new v : Nat) : Decidable (WritesLow16 old new v) := by
  unfold WritesLow16
  infer_instance

namespace Mips

/-- Whether `helper_GetGOTEntry` finds the GOT entry of the symbol reserved: the
entry is there already, or the symbol has ReserveGot, or it is a Section symbol
recorded as local on the GOT. -/
def gotEntryReserved (pReloc : Relocation) (pParent : MipsRelocationFactory) : Bool :=
  (lookupSym pParent.target.got.symMap pReloc.symInfo).isSome ||
    decide ((pParent.info pReloc.symInfo).reserved &&& pParent.target.ReserveGot ≠ 0) ||
    (pParent.target.got.isLocal pReloc.symInfo &&
      decide ((pParent.info pReloc.symInfo).type = SymType.Section))

/-- The index of the GOT entry of a symbol: the one it has, or the next free one. -/
def gotIndex (pParent : MipsRelocationFactory) (sym : SymPtr) : Nat :=
  (pParent.target.got.getEntry sym).1

/-- A factory like `factoryOf`, whose GOT holds the entry of symbol 1 at index `idx`. -/
def gotFactoryOf (sym : ResolveInfo) (idx : Nat) : MipsRelocationFactory :=
  ⟨{ emptyBackend with got := ⟨0, [(1, idx)], [], []⟩ }, gotLayout, fun _ => sym, 0⟩

end Mips

namespace ARM

/-- A symbol like `symOf` that comes from a DynObj. -/
def dynSymOf (b : Binding) (t : SymType) (d : Desc) (reserved : Nat) : ResolveInfo :=
  ⟨"f", 0, b, Visibility.Default, t, d, true, reserved⟩

/-- What `helper_get_GOT_and_init` leaves, when it returns: the index of the GOT
entry, the content of that entry, and the entries of `.rel.dyn`. -/
def gotInitOutcome (a : Except Abort (Nat × ARMRelocationFactory)) :
    Option (Nat × Nat × List Relocation) :=
  match a with
  | Except.ok (e, p) => some (e, p.target.got.getContent e, p.target.relDyn.entries)
  | Except.error _ => Option.none

/-- The entries of `.rel.dyn` after an applicator has returned. -/
def relDynOf (a : Applied) : Option (List Relocation) :=
  match a with
  | Except.ok (_, _, p) => some p.target.relDyn.entries
  | Except.error _ => Option.none

/-- Relocation type `R_ARM_GOT_BREL` (`llvm/Support/ELF.h`). -/
def R_ARM_GOT_BREL : Nat := 26

/-- Successive calls of `helper_get_PLT_and_init`, one for each relocation of
the list: the PLT entries returned, in order, and the factory afterwards. -/
def helper_get_PLT_and_init_seq (ndebug : Bool) :
    List Relocation → ARMRelocationFactory → Except Abort (List Nat × ARMRelocationFactory)
  | [], pParent => Except.ok ([], pParent)
  | pReloc :: rest, pParent =>
    match helper_get_PLT_and_init ndebug pReloc pParent with
    | Except.error e => Except.error e
    | Except.ok (plt_entry, pParent1) =>
      match helper_get_PLT_and_init_seq ndebug rest pParent1 with
      | Except.error e => Except.error e
      | Except.ok (entries, pParent2) => Except.ok (plt_entry :: entries, pParent2)

/-- The state of PLT and `.rel.plt` is consistent: a symbol without a PLT entry
has no `.rel.plt` slot. It holds initially and `helper_get_PLT_and_init` keeps
it; the source asserts it ("PLT entry not exist, but DynRel entry exist!"). -/
def PLTConsistent (pParent : ARMRelocationFactory) : Prop :=
  ∀ s, lookupSym pParent.target.plt.pltMap s = Option.none →
    lookupSym pParent.target.relPLT.symRelMap s = Option.none

/-- The outcome of an `NC` applicator for the value `X`: Overflow exactly when
the low 32 bits of `X`, read as a signed integer, lie outside
`[-32768, 32767]`, and otherwise OK with the immediate field of the new target
equal to `X & 0xFFFF`. -/
def NCOutcome (a : Applied) (X : Nat) (field : Nat → Nat) : Prop :=
  (resultOf a = some Result.Overflow ↔ ¬(-32768 ≤ toInt32 X ∧ toInt32 X ≤ 32767)) ∧
  ((-32768 ≤ toInt32 X ∧ toInt32 X ≤ 32767) →
    resultOf a = some Result.OK ∧ ∃ t, targetOf a = some t ∧ field t = X &&& 0xFFFF)

/-- Relocation type `R_ARM_PREL31` (`llvm/Support/ELF.h`). -/
def R_ARM_PREL31 : Nat := 42

/-- Relocation type `R_ARM_MOVW_ABS_NC` (`llvm/Support/ELF.h`). -/
def R_ARM_MOVW_ABS_NC : Nat := 43

end ARM

namespace Mips

/-- How a run ended, if it did not return. -/
def abortOf {α : Type} (a : Except Abort α) : Option Abort :=
  match a with
  | Except.ok _ => Option.none
  | Except.error e => some e

/-- The condition under which `scanRelocation` calls `scanLocalReloc` rather
than `scanGlobalReloc`. -/
def routedLocal (b : MipsGNULDBackend) (rsym : ResolveInfo) : Bool :=
  (rsym.isLocal || !b.isDynamicSymbol rsym || !rsym.isDyn) && ! rsym.isUndef

/-- The relocation types that belong to the dynamic output only. -/
def dynamicOnlyTypes : List Nat := [R_MIPS_COPY, R_MIPS_GLOB_DAT, R_MIPS_JUMP_SLOT]

/-- A section with the flag `SHF_ALLOC`. -/
def allocSection : LDSection := ⟨SHF_ALLOC⟩

end Mips

namespace Mips

/-- The scan of a list of relocations by `scanGlobalReloc`, in order. -/
def scanGlobalRelocs (b : MipsGNULDBackend) (info : Symbols) : List Relocation → Scanned
  | [] => Except.ok (b, info)
  | pReloc :: rest =>
    match scanGlobalReloc b info pReloc with
    | Except.error e => Except.error e
    | Except.ok (b1, info1) => scanGlobalRelocs b1 info1 rest

/-- The invariant of the scan, on the value `g` of `ReserveGot`, the symbols
`log` GOT entries were reserved for, the global GOT symbols `syms`, and the
numbers of local and global GOT entries reserved: a symbol not of type Section
has its GOT entry reserved at most once and then carries the flag; the global
GOT symbols carry the flag and are distinct; the counts agree with the lists. -/
def ScanInv (g : Nat) (log syms : List SymPtr) (nLocal nGlobal : Nat) (info : Symbols) : Prop :=
  (∀ s ∈ log, (info s).type ≠ SymType.Section → (info s).reserved &&& g ≠ 0) ∧
  (∀ s, (info s).type ≠ SymType.Section → log.count s ≤ 1) ∧
  (∀ s ∈ syms, (info s).reserved &&& g ≠ 0) ∧
  syms.Nodup ∧ syms.length = nGlobal ∧ log.length = nLocal + nGlobal

/-- The invariant of the scan, on a backend. -/
def BackendInv (b : MipsGNULDBackend) (info : Symbols) : Prop :=
  ScanInv b.ReserveGot b.gotReservedFor b.m_GlobalGOTSyms b.gotLocalEntries b.gotGlobalEntries
    info

/-- The symbols GOT entries were reserved for, after a scan that returned. -/
def reservedForOf (a : Scanned) : Option (List SymPtr) :=
  match a with
  | Except.ok (b, _) => some b.gotReservedFor
  | Except.error _ => Option.none

/-- The global GOT symbols and the number of global GOT entries reserved, after
a scan that returned. -/
def globalGOTOf (a : Scanned) : Option (List SymPtr × Nat) :=
  match a with
  | Except.ok (b, _) => some (b.m_GlobalGOTSyms, b.gotGlobalEntries)
  | Except.error _ => Option.none

end Mips

namespace Mips

/-- The symbols GOT entries were reserved for, with the numbers of local and of
global GOT entries reserved, after a scan that returned. -/
def gotReservationsOf (a : Scanned) : Option (List SymPtr × Nat × Nat) :=
  match a with
  | Except.ok (b, _) => some (b.gotReservedFor, b.gotLocalEntries, b.gotGlobalEntries)
  | Except.error _ => Option.none

end Mips

namespace Mips

/-- The symbols of the scenarios with `_gp_disp`: pointer 1 is `_gp_disp`, every
other pointer is a defined global object `sym`. -/
def gpDispSymbols : Symbols :=
  fun p =>
    if p = 1 then ⟨"_gp_disp", 0, Binding.Global, Visibility.Default, SymType.Object,
      Desc.Define, false, 0⟩
    else symOf Binding.Global SymType.Object Desc.Define 0

/-- A factory over `emptyBackend` (the GOT at address 0) with the symbols
`gpDispSymbols`. -/
def gpDispFactory : MipsRelocationFactory :=
  ⟨emptyBackend, gotLayout, gpDispSymbols, 0⟩

/-- The next applicator of a run: `f` on the factory that `a` has left. -/
def andThen (a : Applied) (f : MipsRelocationFactory → Applied) : Applied :=
  match a with
  | Except.ok (_, _, pParent) => f pParent
  | Except.error e => Except.error e

end Mips

namespace ARM

/-- The value `X = ((S + A) | T) - P` of `thm_call` for a symbol without a PLT
entry, where `A` is the offset decoded from the instruction pair. -/
def thmCallX (pReloc : Relocation) (pParent : ARMRelocationFactory) : Nat :=
  sub64
    (u64 (pReloc.symValue +
        helper_thumb32_branch_offset ((pReloc.target &&& 0xffff0000) >>> 16)
          (pReloc.target &&& 0xffff)) |||
      getThumbBit pParent.info pReloc)
    (pReloc.place pParent.layout)

/-- The word `thm_call` writes over the instruction pair `target` for the
offset `X`: `helper_thumb32_branch_upper` in bits 16 to 31 and
`helper_thumb32_branch_lower` in bits 0 to 15. -/
def thmCallWord (target X : Nat) : Nat :=
  u64 (helper_thumb32_branch_upper ((target &&& 0xffff0000) >>> 16) X <<< 16) |||
    helper_thumb32_branch_lower (target &&& 0xffff) X

/-- The branch offset that `helper_thumb32_branch_offset` decodes from the
instruction pair in `target`. -/
def thmCallOffsetOf (target : Nat) : Nat :=
  helper_thumb32_branch_offset ((target &&& 0xffff0000) >>> 16) (target &&& 0xffff)

/-- Relocation type `R_ARM_MOVW_PREL_NC` (`llvm/Support/ELF.h`). -/
def R_ARM_MOVW_PREL_NC : Nat := 45

end ARM

/-! ## The ELF reader (`include/mcld/LD/ELFReader.tcc`) -/

namespace ELFReader

/-- Values of `Input::Type` that `fileType` returns. -/
inductive InputType where
  | Unknown | Object | Exec | DynObj | CoreFile
  deriving DecidableEq, Repr

/-- File types of `llvm/Support/ELF.h`. -/
def ET_NONE : Nat := 0
def ET_REL : Nat := 1
def ET_EXEC : Nat := 2
def ET_DYN : Nat := 3
def ET_CORE : Nat := 4

/-- The byte of a memory at an address. -/
def byteAt (mem : Nat → Nat) (a : Nat) : Nat := mem a % 256

/-- A 16-bit load at address `a` on a host of the given endianness: what
`hdr->e_type` yields for the bytes in memory. -/
def load16 (isLittleEndianHost : Bool) (mem : Nat → Nat) (a : Nat) : Nat :=
  if isLittleEndianHost then byteAt mem a + 256 * byteAt mem (a + 1)
  else 256 * byteAt mem a + byteAt mem (a + 1)

/-- A 32-bit load at address `a` on a host of the given endianness. -/
def load32 (isLittleEndianHost : Bool) (mem : Nat → Nat) (a : Nat) : Nat :=
  if isLittleEndianHost then
    byteAt mem a + 256 * byteAt mem (a + 1) + 65536 * byteAt mem (a + 2) +
      16777216 * byteAt mem (a + 3)
  else
    16777216 * byteAt mem a + 65536 * byteAt mem (a + 1) + 256 * byteAt mem (a + 2) +
      byteAt mem (a + 3)

/-- Modelled from the spec: `bswap16` swaps the two bytes of a 16-bit value. -/
def bswap16 (x : Nat) : Nat := ((x &&& 0xFF) <<< 8) ||| ((x >>> 8) &&& 0xFF)

/-- Modelled from the spec: `bswap32` reverses the four bytes of a 32-bit value. -/
def bswap32 (x : Nat) : Nat :=
  ((x &&& 0xFF) <<< 24) ||| (((x >>> 8) &&& 0xFF) <<< 16) ||| (((x >>> 16) &&& 0xFF) <<< 8) |||
    ((x >>> 24) &&& 0xFF)

/-- Source `ELFReader<32, true>::fileType`; `pELFHeader` is the memory from the
header on, and `e_type` lies at offset 16 of `Elf32_Ehdr`. -/
def fileType (isLittleEndianHost : Bool) (pELFHeader : Nat → Nat) : InputType :=
  let e_type := load16 isLittleEndianHost pELFHeader 16
  let type := if isLittleEndianHost then e_type else bswap16 e_type
  if type = ET_REL then InputType.Object
  else if type = ET_EXEC then InputType.Exec
  else if type = ET_DYN then InputType.DynObj
  else if type = ET_CORE then InputType.CoreFile
  else InputType.Unknown

/-- The 16-bit field `e_type` of a little-endian ELF header: the byte at offset
16 is the low one. -/
def e_typeOf (pELFHeader : Nat → Nat) : Nat :=
  pELFHeader 16 % 256 + 256 * (pELFHeader 17 % 256)

/-- The file type the specification gives to a value of `e_type`. -/
def typeOfEType (e_type : Nat) : InputType :=
  match e_type with
  | 1 => InputType.Object
  | 2 => InputType.Exec
  | 3 => InputType.DynObj
  | 4 => InputType.CoreFile
  | _ => InputType.Unknown

end ELFReader

/-! ## The ELF emulation (`lib/Target/ELFEmulation.cpp`) -/

namespace ELFEmulation

/-- Source `struct NameMap`: the prefix `from` of the input name, and the output
name. -/
structure NameMap where
  from_ : String
  to_ : String
  deriving DecidableEq, Repr

/-- Source `map`, the static table. -/
def map : List NameMap :=
  [⟨".text", ".text"⟩,
   ⟨".rodata", ".rodata"⟩,
   ⟨".data.rel.ro.local", ".data.rel.ro.local"⟩,
   ⟨".data.rel.ro", ".data.rel.ro"⟩,
   ⟨".data", ".data"⟩,
   ⟨".bss", ".bss"⟩,
   ⟨".tdata", ".tdata"⟩,
   ⟨".tbss", ".tbss"⟩,
   ⟨".init_array", ".init_array"⟩,
   ⟨".fini_array", ".fini_array"⟩,
   ⟨".ctors", ".ctors"⟩,
   ⟨".dtors", ".dtors"⟩,
   ⟨".sdata2", ".sdata"⟩,
   ⟨".sbss2", ".sbss"⟩,
   ⟨".sdata", ".sdata"⟩,
   ⟨".sbss", ".sbss"⟩,
   ⟨".lrodata", ".lrodata"⟩,
   ⟨".ldata", ".ldata"⟩,
   ⟨".lbss", ".lbss"⟩,
   ⟨".gcc_except_table", ".gcc_except_table"⟩,
   ⟨".gnu.linkonce.d.rel.ro.local", ".data.rel.ro.local"⟩,
   ⟨".gnu.linkonce.d.rel.ro", ".data.rel.ro"⟩,
   ⟨".gnu.linkonce.r", ".rodata"⟩,
   ⟨".gnu.linkonce.d", ".data"⟩,
   ⟨".gnu.linkonce.b", ".bss"⟩,
   ⟨".gnu.linkonce.sb2", ".sbss"⟩,
   ⟨".gnu.linkonce.sb", ".sbss"⟩,
   ⟨".gnu.linkonce.s2", ".sdata"⟩,
   ⟨".gnu.linkonce.s", ".sdata"⟩,
   ⟨".gnu.linkonce.wi", ".debug_info"⟩,
   ⟨".gnu.linkonce.td", ".tdata"⟩,
   ⟨".gnu.linkonce.tb", ".tbss"⟩,
   ⟨".gnu.linkonce.t", ".text"⟩,
   ⟨".gnu.linkonce.lr", ".lrodata"⟩,
   ⟨".gnu.linkonce.lb", ".lbss"⟩,
   ⟨".gnu.linkonce.l", ".ldata"⟩]

/-- The part of `LinkerConfig` that `MCLDEmulateELF` uses: the output kind and
the section map of the scripts. The header of `SectionMap` is not among the
sources: `σ` is its type. -/
structure LinkerConfig (σ : Type) where
  codeGenType : OutputType
  sectionMap : σ
  deriving DecidableEq, Repr

/-- The loop of `MCLDEmulateELF` over the entries left. `append` is
`SectionMap::append`: it returns the section map afterwards and the flag
`exist`. -/
def appendEntries {σ : Type} (append : σ → String → String → σ × Bool) :
    List NameMap → σ → σ × Bool
  | [], m => (m, true)
  | e :: rest, m =>
    match append m e.from_ e.to_ with
    | (m1, exist) => if exist then (m1, false) else appendEntries append rest m1

/-- Source `mcld::MCLDEmulateELF`: the configuration afterwards and the result. -/
def MCLDEmulateELF {σ : Type} (append : σ → String → String → σ × Bool)
    (pConfig : LinkerConfig σ) : LinkerConfig σ × Bool :=
  if pConfig.codeGenType ≠ OutputType.Object then
    match appendEntries append map pConfig.sectionMap with
    | (m, r) => ({ pConfig with sectionMap := m }, r)
  else (pConfig, true)

/-- The section map after the pairs of `entries` were appended to it in order. -/
def appended {σ : Type} (append : σ → String → String → σ × Bool) (entries : List NameMap)
    (m : σ) : σ :=
  entries.foldl (fun m1 e => (append m1 e.from_ e.to_).1) m

/-- Whether the insertion of the pair of index `i`, after the pairs before it
were appended, reports that the pair exists already. -/
def existsAt {σ : Type} (append : σ → String → String → σ × Bool) (entries : List NameMap)
    (m : σ) (i : Nat) : Bool :=
  match entries.get? i with
  | some e => (append (appended append (entries.take i) m) e.from_ e.to_).2
  | Option.none => false

/-- A section map for the scenarios: a list of pairs, in which a pair exists
already when its input name is there. -/
def listAppend (m : List (String × String)) (pInput pOutput : String) :
    List (String × String) × Bool :=
  if m.any (fun p => p.1 == pInput) then (m, true) else (m ++ [(pInput, pOutput)], false)

/-- A first-match prefix lookup over a table: the first entry whose `from` is a
prefix of the name. -/
def firstMatch (table : List NameMap) (name : String) : Option NameMap :=
  table.find? (fun e => e.from_.data.isPrefixOf name.data)

end ELFEmulation

namespace ARM

/-- Source `got_brel` (`R_ARM_GOT_BREL: GOT(S) + A - GOT_ORG`). -/
def got_brel (ndebug : Bool) (pReloc : Relocation) (pLDInfo : MCLDInfo)
    (pParent : ARMRelocationFactory) : Applied :=
  if (pParent.info pReloc.symInfo).reserved &&& 0x6 = 0 then
    Except.ok (Result.BadReloc, pReloc, pParent)
  else
    match helper_GOT ndebug pReloc pLDInfo pParent with
    | Except.error e => Except.error e
    | Except.ok (GOT_S, pParent1) =>
      let A := u64 (pReloc.target + pReloc.addend)
      let GOT_ORG := helper_GOT_ORG pParent1
      Except.ok (Result.OK, { pReloc with target := sub64 (u64 (GOT_S + A)) GOT_ORG }, pParent1)

/-- A factory over `emptyBackend`, but with every symbol preemptible and the PLT
at address `pltAddr`, at place 0, in which every symbol pointer refers to `sym`. -/
def pltFactoryOf (sym : ResolveInfo) (pltAddr : Nat) : ARMRelocationFactory :=
  ⟨{ emptyBackend with isSymbolPreemptible := fun _ _ => true, plt := ⟨pltAddr, [], []⟩ },
    layoutAt 0, fun _ => sym⟩

end ARM

namespace ARM

/-- The step `if (rsym->reserved() & 0x8u) S = helper_PLT(...)` of the MOVT
applicators: the value of `S` afterwards. -/
def usePLTValue (ndebug : Bool) (pReloc : Relocation) (pParent : ARMRelocationFactory)
    (S : Nat) : Except Abort (Nat × ARMRelocationFactory) :=
  if (pParent.info pReloc.symInfo).reserved &&& 0x8 ≠ 0 then helper_PLT ndebug pReloc pParent
  else Except.ok (S, pParent)

/-- Source `movt_abs` (`R_ARM_MOVT_ABS: S + A`). -/
def movt_abs (ndebug : Bool) (pReloc : Relocation) (_pLDInfo : MCLDInfo)
    (pParent : ARMRelocationFactory) : Applied :=
  let S := pReloc.symValue
  let A := u64 (helper_extract_movw_movt_addend pReloc.target + pReloc.addend)
  match usePLTValue ndebug pReloc pParent S with
  | Except.error e => Except.error e
  | Except.ok (S1, pParent1) =>
    let X := u64 (S1 + A) >>> 16
    Except.ok (Result.OK,
      { pReloc with target := helper_insert_val_movw_movt_inst pReloc.target X }, pParent1)

/-- Source `movt_prel` (`R_ARM_MOVT_PREL: S + A - P`). -/
def movt_prel (pReloc : Relocation) (_pLDInfo : MCLDInfo)
    (pParent : ARMRelocationFactory) : Applied :=
  let S := pReloc.symValue
  let P := pReloc.place pParent.layout
  let A := u64 (helper_extract_movw_movt_addend pReloc.target + pReloc.addend)
  let X := sub64 (u64 (S + A)) P >>> 16
  Except.ok (Result.OK,
    { pReloc with target := helper_insert_val_movw_movt_inst pReloc.target X }, pParent)

/-- Source `thm_movt_abs` (`R_ARM_THM_MOVT_ABS: S + A`). -/
def thm_movt_abs (ndebug : Bool) (pReloc : Relocation) (_pLDInfo : MCLDInfo)
    (pParent : ARMRelocationFactory) : Applied :=
  let S := pReloc.symValue
  let A := u64 (helper_extract_thumb_movw_movt_addend pReloc.target + pReloc.addend)
  match usePLTValue ndebug pReloc pParent S with
  | Except.error e => Except.error e
  | Except.ok (S1, pParent1) =>
    let X := u64 (S1 + A) >>> 16
    if helper_check_signed_overflow X 16 then
      Except.ok (Result.Overflow, pReloc, pParent1)
    else
      Except.ok (Result.OK,
        { pReloc with target := helper_insert_val_thumb_movw_movt_inst pReloc.target X },
        pParent1)

/-- Source `thm_movt_prel` (`R_ARM_THM_MOVT_PREL: S + A - P`). -/
def thm_movt_prel (pReloc : Relocation) (_pLDInfo : MCLDInfo)
    (pParent : ARMRelocationFactory) : Applied :=
  let S := pReloc.symValue
  let P := pReloc.place pParent.layout
  let A := u64 (helper_extract_thumb_movw_movt_addend pReloc.target + pReloc.addend)
  let X := sub64 (u64 (S + A)) P >>> 16
  if helper_check_signed_overflow X 16 then
    Except.ok (Result.Overflow, pReloc, pParent)
  else
    Except.ok (Result.OK,
      { pReloc with target := helper_insert_val_thumb_movw_movt_inst pReloc.target X }, pParent)

/-- Relocation types of the MOVT family (`llvm/Support/ELF.h`). -/
def R_ARM_MOVT_ABS : Nat := 44
def R_ARM_MOVT_PREL : Nat := 46
def R_ARM_THM_MOVT_ABS : Nat := 48
def R_ARM_THM_MOVT_PREL : Nat := 50

end ARM

namespace Mips

/-- A global defined object `sym` that comes from a DynObj. -/
def dynSym : ResolveInfo :=
  ⟨"sym", 0, Binding.Global, Visibility.Default, SymType.Object, Desc.Define, true, 0⟩

/-- A backend like `emptyBackend` for a shared object, in which every symbol is
a dynamic symbol and needs a dynamic relocation. -/
def dynBackend : MipsGNULDBackend :=
  { emptyBackend with codeGenType := OutputType.DynObj, isDynamicSymbol := fun _ => true,
                      symbolNeedsDynRel := fun _ => true }

/-- The `.rel.dyn` entries reserved by a scan, and the `.rel.dyn` entries taken
by the applicators `apply` run on the factory over what the scan has left. -/
def relDynBalance (a : Scanned) (apply : MipsRelocationFactory → Applied) :
    Option (Nat × Nat) :=
  match a with
  | Except.error _ => Option.none
  | Except.ok (b, info) =>
    match apply ⟨b, gotLayout, info, 0⟩ with
    | Except.error _ => Option.none
    | Except.ok (_, _, pParent) => some (b.relDynReserved, pParent.target.relDyn.entries.length)

end Mips

/-! ## The name pools of the MIPS backend (`MipsLDBackend.cpp`) -/

namespace Mips

/-- An input library of the module, as far as the name pools read it. -/
structure Lib where
  name : String
  isAddNeeded : Bool
  isAsNeeded : Bool
  isNeeded : Bool
  deriving DecidableEq, Repr

/-- The module, as far as the name pools read it: the symbols of the File and
Local category, those of the TLS category, the rest of the symbols, the
libraries and the name. -/
structure Module where
  locals : List SymPtr
  tls : List SymPtr
  rest : List SymPtr
  libs : List Lib
  name : String
  deriving DecidableEq, Repr

/-- The sizes `sizeNamePools` sets on the sections of the output format, and
the number of calls of `reserveNeedEntry`. -/
structure NamePoolSizes where
  dynSymTab : Nat
  dynStrTab : Nat
  hashTab : Nat
  symTab : Nat
  strTab : Nat
  needEntries : Nat
  deriving DecidableEq, Repr

/-- The counters of `sizeNamePools`. -/
structure NamePoolCounters where
  symtab : Nat
  strtab : Nat
  dynsym : Nat
  dynstr : Nat
  deriving DecidableEq, Repr

/-- The test `ResolveInfo::Section != type() || symbol == m_pGpDispSymbol`. -/
def hasName (b : MipsGNULDBackend) (info : Symbols) (s : SymPtr) : Bool :=
  decide ((info s).type ≠ SymType.Section) || decide (some s = b.m_pGpDispSymbol)

/-- The body of the three symbol loops of `sizeNamePools`; the loop over the
TLS category counts every symbol (`dynamicOnly` is false), the other two count
the dynamic symbols. -/
def sizeSymbol (b : MipsGNULDBackend) (info : Symbols) (pIsStaticLink dynamicOnly : Bool)
    (c : NamePoolCounters) (s : SymPtr) : NamePoolCounters :=
  let str_size := (info s).name.length + 1
  let c1 :=
    if !pIsStaticLink && (!dynamicOnly || b.isDynamicSymbol (info s)) then
      { c with dynsym := c.dynsym + 1,
               dynstr := if hasName b info s then c.dynstr + str_size else c.dynstr }
    else c
  { c1 with symtab := c1.symtab + 1,
            strtab := if hasName b info s then c1.strtab + str_size else c1.strtab }

/-- The loop of `sizeNamePools` and of `emitDynNamePools` over the libraries
that get a `DT_NEEDED` entry. -/
def neededLibs (libs : List Lib) : List Lib :=
  libs.filter (fun lib => lib.isAddNeeded && (!lib.isAsNeeded || lib.isNeeded))

/-- Source `MipsGNULDBackend::sizeNamePools`, up to the sizes of `.dynsym`,
`.dynstr`, `.hash`, `.symtab` and `.strtab`; `sizes` holds the sizes before.
`getHashBucketCount` of `GNULDBackend` is not among the sources. -/
def sizeNamePools (b : MipsGNULDBackend) (getHashBucketCount : Nat → Nat) (info : Symbols)
    (pModule : Module) (pIsStaticLink : Bool) (sizes : NamePoolSizes) : NamePoolSizes :=
  let c0 : NamePoolCounters :=
    ⟨1, 1, if pIsStaticLink then 0 else 1, if pIsStaticLink then 0 else 1⟩
  let c1 := pModule.locals.foldl (sizeSymbol b info pIsStaticLink true) c0
  let c2 := pModule.tls.foldl (sizeSymbol b info pIsStaticLink false) c1
  let c3 := pModule.rest.foldl (sizeSymbol b info pIsStaticLink true) c2
  let fromExec (dynstr : Nat) : NamePoolSizes :=
    let needed := if pIsStaticLink then [] else neededLibs pModule.libs
    let dynstr1 := needed.foldl (fun n lib => n + (lib.name.length + 1)) dynstr
    let hash := if pIsStaticLink then 0 else (2 + getHashBucketCount c3.dynsym + c3.dynsym) * 4
    { dynSymTab := c3.dynsym * 16, dynStrTab := dynstr1, hashTab := hash,
      symTab := c3.symtab * 16, strTab := c3.strtab,
      needEntries := sizes.needEntries + needed.length }
  match b.codeGenType with
  | OutputType.DynObj =>
    fromExec (if pIsStaticLink then c3.dynstr else c3.dynstr + (pModule.name.length + 1))
  | OutputType.Exec => fromExec c3.dynstr
  | OutputType.Object => { sizes with symTab := c3.symtab * 16, strTab := c3.strtab }

/-- What the symbol loops of `emitDynNamePools` keep: `symtabIdx`, `strtabsize`,
and for each entry of `.dynsym` written so far the name written at its
`st_name`. -/
structure Emitted where
  symtabIdx : Nat
  strtabsize : Nat
  names : List String
  deriving DecidableEq, Repr

/-- The body of the first three symbol loops of `emitDynNamePools`. -/
def emitSymbol (b : MipsGNULDBackend) (info : Symbols) (dynamicOnly : Bool)
    (e : Emitted) (s : SymPtr) : Emitted :=
  if dynamicOnly && !b.isDynamicSymbol (info s) then e
  else if decide (s ∈ b.m_GlobalGOTSyms) then e
  else
    { symtabIdx := e.symtabIdx + 1,
      strtabsize := if hasName b info s then e.strtabsize + ((info s).name.length + 1)
        else e.strtabsize,
      names := e.names ++ [if hasName b info s then (info s).name else ""] }

/-- The loop of `emitDynNamePools` over the global GOT symbols. The message of
the fatal is the id of its diagnostic. -/
def emitGlobalGOT (b : MipsGNULDBackend) (info : Symbols) :
    List SymPtr → Emitted → Except Abort Emitted
  | [], e => Except.ok e
  | s :: rest, e =>
    if !b.isDynamicSymbol (info s) then Except.error (Abort.fatal "mips_got_symbol")
    else
      emitGlobalGOT b info rest
        { symtabIdx := e.symtabIdx + 1,
          strtabsize := if (info s).type ≠ SymType.Section then
            e.strtabsize + ((info s).name.length + 1) else e.strtabsize,
          names := e.names ++ [if hasName b info s then (info s).name else ""] }

/-- A 32-bit store at address `a` on a host of the given endianness. -/
def store32 (isLittleEndianHost : Bool) (mem : Nat → Nat) (a v : Nat) : Nat → Nat :=
  fun x =>
    if x = a then (if isLittleEndianHost then v % 256 else v / 16777216 % 256)
    else if x = a + 1 then (if isLittleEndianHost then v / 256 % 256 else v / 65536 % 256)
    else if x = a + 2 then (if isLittleEndianHost then v / 65536 % 256 else v / 256 % 256)
    else if x = a + 3 then (if isLittleEndianHost then v / 16777216 % 256 else v % 256)
    else mem x

/-- The call `bzero(p, n)`: `n` bytes from address `a` on are cleared. -/
def bzero (mem : Nat → Nat) (a n : Nat) : Nat → Nat :=
  fun x => if a ≤ x ∧ x < a + n then 0 else mem x

/-- The body of the loop of `emitDynNamePools` that fills the hash table. -/
def emitHashSymbol (isLittleEndianHost : Bool) (hash_func : String → Nat) (names : List String)
    (nbucket : Nat) (region : Nat → Nat) (sym_idx : Nat) : Nat → Nat :=
  let bucket := 8
  let chain := bucket + 4 * nbucket
  let bucket_pos := hash_func (names.getD sym_idx "") % nbucket
  let region1 := store32 isLittleEndianHost region (chain + 4 * sym_idx)
    (ELFReader.load32 isLittleEndianHost region (bucket + 4 * bucket_pos))
  store32 isLittleEndianHost region1 (bucket + 4 * bucket_pos) sym_idx

/-- Source `emitDynNamePools`, the emission of the hash table: the bytes of the
hash region afterwards. `names` are the names at `st_name` of the `.dynsym`
entries; `getHashBucketCount` and `StringHash<ELF>` are not among the sources. -/
def emitHash (isLittleEndianHost : Bool) (getHashBucketCount : Nat → Nat)
    (hash_func : String → Nat) (names : List String) (symtabIdx : Nat) (region : Nat → Nat) :
    Nat → Nat :=
  let region1 := store32 isLittleEndianHost region 0 (u32 (getHashBucketCount symtabIdx))
  let region2 := store32 isLittleEndianHost region1 4 (u32 symtabIdx)
  let nbucket := ELFReader.load32 isLittleEndianHost region2 0
  let region3 := bzero region2 8 nbucket
  (List.range symtabIdx).foldl (emitHashSymbol isLittleEndianHost hash_func names nbucket)
    region3

/-- Source `MipsGNULDBackend::emitDynNamePools`, for an output format that has
`.dynsym`, `.dynstr`, `.hash` and `.dynamic`: `symtabIdx` and `strtabsize` at
the end, the names of the `.dynsym` entries, and the bytes of the hash region. -/
def emitDynNamePools (b : MipsGNULDBackend) (isLittleEndianHost : Bool)
    (getHashBucketCount : Nat → Nat) (hash_func : String → Nat) (info : Symbols)
    (pModule : Module) (hash_region : Nat → Nat) : Except Abort (Emitted × (Nat → Nat)) :=
  let e0 : Emitted := ⟨1, 1, [""]⟩
  let e1 := pModule.locals.foldl (emitSymbol b info true) e0
  let e2 := pModule.tls.foldl (emitSymbol b info false) e1
  let e3 := pModule.rest.foldl (emitSymbol b info true) e2
  match emitGlobalGOT b info b.m_GlobalGOTSyms e3 with
  | Except.error err => Except.error err
  | Except.ok e4 =>
    let strtabsize1 :=
      (neededLibs pModule.libs).foldl (fun n lib => n + (lib.name.length + 1)) e4.strtabsize
    let strtabsize2 := strtabsize1 + (pModule.name.length + 1)
    Except.ok ({ e4 with strtabsize := strtabsize2 },
      emitHash isLittleEndianHost getHashBucketCount hash_func e4.names e4.symtabIdx hash_region)

/-- The SysV ELF hash of a name, the function of `StringHash<ELF>`. -/
def elfHash (name : String) : Nat :=
  name.data.foldl (fun h c =>
    let h1 := u32 ((h <<< 4) + c.toNat)
    let g := h1 &&& 0xf0000000
    if g ≠ 0 then (h1 ^^^ (g >>> 24)) &&& (0xffffffff ^^^ g) else h1) 0

/-- The number of `.dynsym` entries and of bytes of `.dynstr` that
`emitDynNamePools` has written, when it returns. -/
def emittedCounts (a : Except Abort (Emitted × (Nat → Nat))) : Option (Nat × Nat) :=
  match a with
  | Except.ok (e, _) => some (e.symtabIdx, e.strtabsize)
  | Except.error _ => Option.none

end Mips

namespace ELFReader

/-- Modelled from the spec: `LDFileFormat::Kind` is not among the sources. The
kinds the link pass of `readSectionHeaders` tells apart, and the other kinds. -/
inductive Kind where
  | NamePool | Group | Note | Relocation | other (tag : Nat)
  deriving DecidableEq, Repr

/-- Modelled from the spec: an `LDSection` of an input, with what
`readSectionHeaders` sets; the link is a pointer to a section of the same
context, kept as the index of that section. -/
structure LDSection where
  name : String
  kind : Kind
  type : Nat
  flag : Nat
  size : Nat
  offset : Nat
  info : Nat
  align : Nat
  link : Option Nat
  deriving DecidableEq, Repr

/-- Modelled from the spec: the memory area of an input; `byte` is the byte at a
file offset and `cstr` the NUL-terminated string that starts at a file offset. -/
structure MemoryArea where
  byte : Nat → Nat
  cstr : Nat → String

/-- Modelled from the spec: an `Input`, with its type, name, path, offset in the
file, memory area, and the section table of its context. -/
structure Input where
  type : InputType
  name : String
  path : String
  fileOffset : Nat
  memArea : MemoryArea
  context : List LDSection

/-- A 16-bit field of a little-endian file as the reader decodes it: the load,
byte-swapped on a big-endian host. -/
def field16 (isLittleEndianHost : Bool) (mem : Nat → Nat) (a : Nat) : Nat :=
  if isLittleEndianHost then load16 isLittleEndianHost mem a
  else bswap16 (load16 isLittleEndianHost mem a)

/-- A 32-bit field of a little-endian file as the reader decodes it. -/
def field32 (isLittleEndianHost : Bool) (mem : Nat → Nat) (a : Nat) : Nat :=
  if isLittleEndianHost then load32 isLittleEndianHost mem a
  else bswap32 (load32 isLittleEndianHost mem a)

/-- The fields of an `Elf32_Shdr` that `readSectionHeaders` decodes. -/
structure Elf32_Shdr where
  sh_name : Nat
  sh_type : Nat
  sh_flags : Nat
  sh_offset : Nat
  sh_size : Nat
  sh_link : Nat
  sh_info : Nat
  sh_addralign : Nat
  deriving DecidableEq, Repr

/-- The decoding of `shdrTab[idx]` in the loop of `readSectionHeaders`; an
`Elf32_Shdr` has 40 bytes. -/
def shdrAt (isLittleEndianHost : Bool) (mem : Nat → Nat) (shdrTab idx : Nat) : Elf32_Shdr :=
  let a := shdrTab + 40 * idx
  { sh_name := field32 isLittleEndianHost mem a,
    sh_type := field32 isLittleEndianHost mem (a + 4),
    sh_flags := field32 isLittleEndianHost mem (a + 8),
    sh_offset := field32 isLittleEndianHost mem (a + 16),
    sh_size := field32 isLittleEndianHost mem (a + 20),
    sh_link := field32 isLittleEndianHost mem (a + 24),
    sh_info := field32 isLittleEndianHost mem (a + 28),
    sh_addralign := field32 isLittleEndianHost mem (a + 32) }

/-- The section `readSectionHeaders` creates for a section header:
`LDSection::Create` and the setters of size, offset, info and alignment.
`GetSectionKind` is not among the sources. -/
def createSection (GetSectionKind : Nat → String → Kind) (cstr : Nat → String)
    (sect_name : Nat) (h : Elf32_Shdr) : LDSection :=
  { name := cstr (sect_name + h.sh_name),
    kind := GetSectionKind h.sh_type (cstr (sect_name + h.sh_name)),
    type := h.sh_type, flag := h.sh_flags, size := h.sh_size, offset := h.sh_offset,
    info := h.sh_info, align := h.sh_addralign, link := Option.none }

/-- Source `LinkInfo`; the section is a pointer, kept as the index of the
section in the context. -/
structure LinkInfo where
  section_ : Nat
  sh_link : Nat
  sh_info : Nat
  deriving DecidableEq, Repr

/-- The body of the loop of `readSectionHeaders` that creates the sections: the
context and `link_info_list` afterwards. -/
def readSectionHeader (isLittleEndianHost : Bool) (GetSectionKind : Nat → String → Kind)
    (memArea : MemoryArea) (shdrTab sect_name : Nat)
    (st : List LDSection × List LinkInfo) (idx : Nat) : List LDSection × List LinkInfo :=
  let h := shdrAt isLittleEndianHost memArea.byte shdrTab idx
  let section_ := createSection GetSectionKind memArea.cstr sect_name h
  let link_info_list :=
    if h.sh_link ≠ 0 ∨ h.sh_info ≠ 0 then st.2 ++ [⟨st.1.length, h.sh_link, h.sh_info⟩]
    else st.2
  (st.1 ++ [section_], link_info_list)

/-- Modelled from the spec: `LDContext::getSection(index)`, the section at the
index of the section table, or null. -/
def getSection (context : List LDSection) (idx : Nat) : Option Nat :=
  if idx < context.length then some idx else Option.none

/-- The call `setLink` on the section a pointer refers to. -/
def setLink (context : List LDSection) (sect : Nat) (link : Option Nat) : List LDSection :=
  match context.get? sect with
  | some s => context.set sect { s with link := link }
  | Option.none => context

/-- The body of the loop of `readSectionHeaders` that sets up the links. -/
def setUpLink (context : List LDSection) (info : LinkInfo) : List LDSection :=
  match context.get? info.section_ with
  | Option.none => context
  | some s =>
    if s.kind = Kind.NamePool ∨ s.kind = Kind.Group ∨ s.kind = Kind.Note then
      setLink context info.section_ (getSection context info.sh_link)
    else if s.kind = Kind.Relocation then
      setLink context info.section_ (getSection context info.sh_info)
    else context

/-- Source `ELFReader<32, true>::readSectionHeaders`: the input afterwards and
the result. `pELFHeader` is the memory from the header on; `e_shoff`,
`e_shentsize`, `e_shnum` and `e_shstrndx` lie at the offsets 32, 46, 48 and 50
of `Elf32_Ehdr`. -/
def readSectionHeaders (isLittleEndianHost : Bool) (GetSectionKind : Nat → String → Kind)
    (pInput : Input) (pELFHeader : Nat → Nat) : Input × Bool :=
  let shoff := field32 isLittleEndianHost pELFHeader 32
  let shnum := field16 isLittleEndianHost pELFHeader 48
  let shstrtab := field16 isLittleEndianHost pELFHeader 50
  if shoff = 0 then (pInput, true)
  else
    let shdrTab := pInput.fileOffset + shoff
    let shdr := shdrAt isLittleEndianHost pInput.memArea.byte shdrTab shstrtab
    let sect_name := pInput.fileOffset + shdr.sh_offset
    let st := (List.range shnum).foldl
      (readSectionHeader isLittleEndianHost GetSectionKind pInput.memArea shdrTab sect_name)
      (pInput.context, [])
    ({ pInput with context := st.2.foldl setUpLink st.1 }, true)

/-- Dynamic tags of `llvm/Support/ELF.h`. -/
def DT_NULL : Nat := 0
def DT_NEEDED : Nat := 1
def DT_SONAME : Nat := 14

/-- The body of the loop of `readDynamic`, on the entries of the indices left:
the input afterwards and `hasSOName`. An `Elf32_Dyn` has 8 bytes; `filename` is
`sys::fs::Path(...).filename().native()`, not among the sources. -/
def readDynamicEntries (ndebug isLittleEndianHost : Bool) (filename : String → String)
    (dynamic dynstr dynstr_size : Nat) : List Nat → Input × Bool → Except Abort (Input × Bool)
  | [], st => Except.ok st
  | idx :: rest, (pInput, hasSOName) =>
    let d_tag := field32 isLittleEndianHost pInput.memArea.byte (dynamic + 8 * idx)
    let d_val := field32 isLittleEndianHost pInput.memArea.byte (dynamic + 8 * idx + 4)
    if d_tag = DT_SONAME then
      match cassert ndebug (decide (d_val < dynstr_size)) "d_val < dynstr_sect->size()" with
      | Except.error e => Except.error e
      | Except.ok _ =>
        readDynamicEntries ndebug isLittleEndianHost filename dynamic dynstr dynstr_size rest
          ({ pInput with name := filename (pInput.memArea.cstr (dynstr + d_val)) }, true)
    else
      readDynamicEntries ndebug isLittleEndianHost filename dynamic dynstr dynstr_size rest
        (pInput, hasSOName)

/-- Source `ELFReader<32, true>::readDynamic`: the input afterwards and the
result. The section `.dynamic` is looked up by name in the context. The
message of a fatal is the id of its diagnostic with its argument. -/
def readDynamic (ndebug isLittleEndianHost : Bool) (filename : String → String)
    (pInput : Input) : Except Abort (Input × Bool) :=
  match cassert ndebug (decide (pInput.type = InputType.DynObj))
      "pInput.type() == Input::DynObj" with
  | Except.error e => Except.error e
  | Except.ok _ =>
    match pInput.context.find? (fun s => s.name == ".dynamic") with
    | Option.none => Except.error (Abort.fatal "err_cannot_read_section .dynamic")
    | some dynamic_sect =>
      match dynamic_sect.link.bind (fun i => pInput.context.get? i) with
      | Option.none => Except.error (Abort.fatal "err_cannot_read_section .dynstr")
      | some dynstr_sect =>
        let numOfEntries := dynamic_sect.size / 8
        match readDynamicEntries ndebug isLittleEndianHost filename
            (pInput.fileOffset + dynamic_sect.offset) (pInput.fileOffset + dynstr_sect.offset)
            dynstr_sect.size (List.range numOfEntries) (pInput, false) with
        | Except.error e => Except.error e
        | Except.ok (pInput1, hasSOName) =>
          if !hasSOName then Except.ok ({ pInput1 with name := filename pInput1.path }, true)
          else Except.ok (pInput1, true)

/-- The link the amended claim gives to the section of a header among `n`
sections. -/
def expectedLink (kind : Kind) (h : Elf32_Shdr) (n : Nat) : Option Nat :=
  if h.sh_link = 0 ∧ h.sh_info = 0 then Option.none
  else if kind = Kind.NamePool ∨ kind = Kind.Group ∨ kind = Kind.Note then
    (if h.sh_link < n then some h.sh_link else Option.none)
  else if kind = Kind.Relocation then (if h.sh_info < n then some h.sh_info else Option.none)
  else Option.none

/-- The decoded entries `(d_tag, d_val)` of a `.dynamic` section of `n` entries
at the file offset `dynamic`. -/
def dynEntries (isLittleEndianHost : Bool) (mem : Nat → Nat) (dynamic n : Nat) :
    List (Nat × Nat) :=
  (List.range n).map (fun idx =>
    (field32 isLittleEndianHost mem (dynamic + 8 * idx),
      field32 isLittleEndianHost mem (dynamic + 8 * idx + 4)))

/-- The `d_val` of the last `DT_SONAME` entry, if there is one. -/
def lastSOName (entries : List (Nat × Nat)) : Option Nat :=
  ((entries.filter (fun e => decide (e.1 = DT_SONAME))).getLast?).map (fun e => e.2)

/-- The section table of the input after `readSectionHeaders`. -/
def contextOf (r : Input × Bool) : List LDSection := r.1.context

/-- The name of the input after `readDynamic`, when it returns. -/
def nameOf (a : Except Abort (Input × Bool)) : Option String :=
  match a with
  | Except.ok (pInput, _) => some pInput.name
  | Except.error _ => Option.none

/-- A file for the scenarios: an ELF header at offset 0 with `e_shoff = 52`,
`e_shentsize = 40`, `e_shnum = 2` and `e_shstrndx = 1`; the section header 0 is
null and the section header 1 has `sh_name = 1`, `sh_type = 3` (SHT_STRTAB),
`sh_offset = 132`, `sh_size = 11`, `sh_link = 0` and `sh_info = 0`. -/
def strtabFile : MemoryArea :=
  { byte := fun a =>
      if a = 32 then 52 else if a = 46 then 40 else if a = 48 then 2 else if a = 50 then 1
      else if a = 92 then 1 else if a = 96 then 3 else if a = 108 then 132
      else if a = 112 then 11 else 0,
    cstr := fun a => if a = 133 then ".shstrtab" else "" }

/-- A classifier for the scenarios: SHT_STRTAB (3) and SHT_SYMTAB (2) are
NamePool, SHT_REL (9) is Relocation. -/
def kindOf (sh_type : Nat) (_name : String) : Kind :=
  if sh_type = 3 ∨ sh_type = 2 then Kind.NamePool
  else if sh_type = 9 then Kind.Relocation else Kind.other sh_type

end ELFReader

namespace ELFReader

/-- The section header of index `i` of the section header table of an input, as
`readSectionHeaders` decodes it. -/
def headerOf (isLittleEndianHost : Bool) (pInput : Input) (pELFHeader : Nat → Nat) (i : Nat) :
    Elf32_Shdr :=
  shdrAt isLittleEndianHost pInput.memArea.byte
    (pInput.fileOffset + field32 isLittleEndianHost pELFHeader 32) i

/-- The section `readSectionHeaders` creates for the section header of index
`i`, before the links are set up; its name is read in the section of index
`e_shstrndx`. -/
def sectionOf (isLittleEndianHost : Bool) (GetSectionKind : Nat → String → Kind)
    (pInput : Input) (pELFHeader : Nat → Nat) (i : Nat) : LDSection :=
  createSection GetSectionKind pInput.memArea.cstr
    (pInput.fileOffset + (headerOf isLittleEndianHost pInput pELFHeader
      (field16 isLittleEndianHost pELFHeader 50)).sh_offset)
    (headerOf isLittleEndianHost pInput pELFHeader i)

end ELFReader

namespace ELFReader

/-- A file for the scenarios: a `.dynamic` section at offset 100 with the two
entries `(DT_NEEDED, 1)` and `(DT_SONAME, 5)`, and a string table at offset 200
that holds `libfoo.so` at its offset 5. -/
def dynFile : MemoryArea :=
  { byte := fun a =>
      if a = 100 then 1 else if a = 104 then 1 else if a = 108 then 14 else if a = 112 then 5
      else 0,
    cstr := fun a => if a = 205 then "libfoo.so" else "" }

/-- A DynObj input over `dynFile`, at the path `libbar.so`, whose context holds
the section `.dynamic` (16 bytes, linked to section 1) and the string table
`.dynstr` (20 bytes). -/
def dynInput : Input :=
  ⟨InputType.DynObj, "", "libbar.so", 0, dynFile,
    [⟨".dynamic", Kind.other 6, 6, 0, 16, 100, 0, 4, some 1⟩,
      ⟨".dynstr", Kind.NamePool, 3, 0, 20, 200, 0, 1, Option.none⟩]⟩

end ELFReader

/-! ## Further scenario inputs, and the application of the relocations of a section -/

namespace ELFReader

/-- A file for the scenarios: an ELF header at offset 0 with `e_shoff = 52`,
`e_shentsize = 40`, `e_shnum = 6` and `e_shstrndx = 3`, and the section headers
of the null section, `.text` (SHT_PROGBITS), `.symtab` (SHT_SYMTAB,
`sh_link = 3`, `sh_info = 1`), `.strtab` (SHT_STRTAB, `sh_offset = 300`,
`sh_size = 41`), `.rel.text` (SHT_REL, `sh_link = 2`, `sh_info = 1`) and
`.dynamic` (SHT_DYNAMIC, `sh_link = 3`). -/
def linkedFile : MemoryArea :=
  { byte := fun a =>
      if a = 32 then 52 else if a = 48 then 6 else if a = 50 then 3
      else if a = 92 then 1 else if a = 96 then 1
      else if a = 132 then 7 else if a = 136 then 2 else if a = 156 then 3
      else if a = 160 then 1
      else if a = 172 then 15 else if a = 176 then 3 else if a = 188 then 44
      else if a = 189 then 1 else if a = 192 then 41
      else if a = 212 then 23 else if a = 216 then 9 else if a = 236 then 2
      else if a = 240 then 1
      else if a = 252 then 33 else if a = 256 then 6 else if a = 276 then 3
      else 0,
    cstr := fun a =>
      if a = 301 then ".text" else if a = 307 then ".symtab" else if a = 315 then ".strtab"
      else if a = 323 then ".rel.text" else if a = 333 then ".dynamic" else "" }

end ELFReader
namespace ARM

/-- A factory for the scenarios of `got_brel`: the GOT, at address `0x20000`,
holds entry 0 for the symbol pointer 7, with content `0x1111`; GOT entry `i`
lies at the output offset `4 * i`; no symbol is preemptible and every symbol
pointer refers to `sym`. -/
def gotBrelFactoryOf (sym : ResolveInfo) : ARMRelocationFactory :=
  ⟨{ emptyBackend with got := ⟨0x20000, [(7, 0)], [(0, 0x1111)], []⟩ },
    ⟨fun f => match f with
      | Fragment.gotEntry i => 4 * i
      | _ => 0, fun _ => 0⟩,
    fun _ => sym⟩

end ARM
namespace Mips

/-- The symbols of the scenarios of the GOT reservations: pointer 1 is a local
symbol of type Section, every other pointer a local symbol of type Object;
both are defined and carry no reserved flag. -/
def sectionAndObject : Symbols :=
  fun p =>
    if p = 1 then symOf Binding.Local SymType.Section Desc.Define 0
    else symOf Binding.Local SymType.Object Desc.Define 0

/-- The relocations of the scenarios of the GOT reservations, each with its
section: GOT16 against symbol 1, GOT16 against symbol 2, CALL16 against symbol
1, GOT16 against symbol 2, GOT16 against symbol 1 in a section without
SHF_ALLOC, and GOT16 against symbol 1; the other five lie in a section with
SHF_ALLOC. -/
def gotScanInput : List (Relocation × LDSection) :=
  [(relocOf R_MIPS_GOT16 0 0 0, allocSection),
   ({ relocOf R_MIPS_GOT16 0 0 0 with symInfo := 2 }, allocSection),
   (relocOf R_MIPS_CALL16 0 0 0, allocSection),
   ({ relocOf R_MIPS_GOT16 4 0 0 with symInfo := 2 }, allocSection),
   (relocOf R_MIPS_GOT16 8 0 0, ⟨0⟩),
   (relocOf R_MIPS_GOT16 12 0 0, allocSection)]

end Mips
namespace ARM

end ARM

namespace Mips

end Mips
namespace Mips

/-- The applicators of `MipsRelocationFactory.cpp`. -/
inductive Applicator where
  | none | abs32 | hi16 | lo16 | got16 | call16 | gprel32
  deriving DecidableEq, Repr

/-- The call of an applicator on a relocation; `following` are the relocations
after it in its list. -/
def Applicator.run (ndebug : Bool) (a : Applicator) (pReloc : Relocation)
    (following : List Relocation) (pLDInfo : MCLDInfo) (pParent : MipsRelocationFactory) :
    Applied :=
  match a with
  | Applicator.none => Mips.none pReloc pLDInfo pParent
  | Applicator.abs32 => Mips.abs32 pReloc pLDInfo pParent
  | Applicator.hi16 => Mips.hi16 ndebug pReloc following pLDInfo pParent
  | Applicator.lo16 => Mips.lo16 pReloc pLDInfo pParent
  | Applicator.got16 => Mips.got16 ndebug pReloc following pLDInfo pParent
  | Applicator.call16 => Mips.call16 pReloc pLDInfo pParent
  | Applicator.gprel32 => Mips.gprel32 pReloc pLDInfo pParent

/-- Modelled from the spec: the loop that applies the relocations of a section
is not among the sources, nor is the table that gives each relocation type its
applicator. The relocations of a section are applied in order, each by the
applicator it comes with; the result has the relocations afterwards, in the
same order, and the factory afterwards. -/
def applySection (ndebug : Bool) (pLDInfo : MCLDInfo) :
    List (Applicator × Relocation) → MipsRelocationFactory →
      Except Abort (List Relocation × MipsRelocationFactory)
  | [], pParent => Except.ok ([], pParent)
  | (a, pReloc) :: rest, pParent =>
    match a.run ndebug pReloc (rest.map Prod.snd) pLDInfo pParent with
    | Except.error e => Except.error e
    | Except.ok (_, pReloc1, pParent1) =>
      match applySection ndebug pLDInfo rest pParent1 with
      | Except.error e => Except.error e
      | Except.ok (outs, pParent2) => Except.ok (pReloc1 :: outs, pParent2)

/-- The entries of the GOT are well formed: the entry of a symbol is one of the
entries handed out, and no entry is the entry of two symbols. The modelled
`getEntry` keeps this. -/
def GOTWF (g : GOT) : Prop :=
  (∀ s i, lookupSym g.symMap s = some i → i < g.symMap.length) ∧
  (∀ s s' i, lookupSym g.symMap s = some i → lookupSym g.symMap s' = some i → s = s')

/-- Specification side: the last relocation of a section that `got16` is
applied to and that is against the symbol `s`, with the relocations after it. -/
def lastGot16 : List (Applicator × Relocation) → SymPtr → Option (Relocation × List Relocation)
  | [], _ => Option.none
  | (a, pReloc) :: rest, s =>
    match lastGot16 rest s with
    | some x => some x
    | Option.none =>
      if a = Applicator.got16 ∧ pReloc.symInfo = s then some (pReloc, rest.map Prod.snd)
      else Option.none

/-- Specification side: the value `(AHL + S + 0x8000) & 0xFFFF0000` of an
`R_MIPS_GOT16` relocation and its `R_MIPS_LO16`, on `int32_t`, with
`AHL = ((AHI & 0xFFFF) << 16) + (int16_t)(ALO & 0xFFFF) + addend`. -/
def got16Value (pReloc lo : Relocation) : Nat :=
  u32 (u32 (u32 ((u32 pReloc.target &&& 0xFFFF) <<< 16) +
    castInt16 (u32 lo.target &&& 0xFFFF) + lo.addend) + u32 pReloc.symValue + 0x8000) &&&
    0xFFFF0000

end Mips
namespace Mips

/-- The relocations of a section for the scenarios of the local GOT16, all
against the symbol pointer 1 with value 0 and addend 0: an `R_MIPS_GOT16` on the
word `0x8F990001` with its `R_MIPS_LO16` on the word `0x27390000`
(`AHL = 0x10000`), and an `R_MIPS_GOT16` on the word `0x8F990002` with its
`R_MIPS_LO16` on the word `0x27390000` (`AHL = 0x20000`), each with the
applicator written for its type. -/
def got16Section : List (Applicator × Relocation) :=
  [(Applicator.got16, relocOf R_MIPS_GOT16 0 0x8F990001 0),
   (Applicator.lo16, relocOf R_MIPS_LO16 0 0x27390000 0),
   (Applicator.got16, relocOf R_MIPS_GOT16 0 0x8F990002 0),
   (Applicator.lo16, relocOf R_MIPS_LO16 0 0x27390000 0)]

/-- The end state of a section that has been applied: the instruction words of
its relocations, the GOT entry of the symbol `s` and the content of that
entry. -/
def sectionEndOf (a : Except Abort (List Relocation × MipsRelocationFactory)) (s : SymPtr) :
    Option (List Nat × Option Nat × Nat) :=
  match a with
  | Except.error _ => Option.none
  | Except.ok (outs, pParent) =>
    some (outs.map (fun r => r.target), lookupSym pParent.target.got.symMap s,
      pParent.target.got.getContent ((lookupSym pParent.target.got.symMap s).getD 0))

end Mips

/-! # Theorems -/

/-- Bitwise or commutes with reduction modulo a power of two. -/
theorem or_mod_two_pow (a b n : Nat) : (a ||| b) % 2 ^ n = (a % 2 ^ n) ||| (b % 2 ^ n) := by
  apply Nat.eq_of_testBit_eq
  intro i
  simp only [Nat.testBit_mod_two_pow, Nat.testBit_or]
  cases decide (i < n) <;> simp

/-- The low 32 bits of `u64 x ||| t` are those of `x ||| t`. -/
theorem u64_or_mod32 (x t : Nat) : (u64 x ||| t) % 2 ^ 32 = (x ||| t) % 2 ^ 32 := by
  rw [or_mod_two_pow, or_mod_two_pow]
  congr 1
  unfold u64
  omega

namespace ARM

/-- The Thumb bit is 0 or 1, and is 1 exactly for a symbol that is not
Undefined, has type Function and has bit 0 of its value set. -/
theorem getThumbBit_eq_one_iff (info : SymPtr → ResolveInfo) (pReloc : Relocation) :
    (getThumbBit info pReloc = 1 ↔
      ((info pReloc.symInfo).desc ≠ Desc.Undefined ∧
        (info pReloc.symInfo).type = SymType.Function ∧ pReloc.symValue &&& 0x1 ≠ 0)) ∧
    (getThumbBit info pReloc = 0 ∨ getThumbBit info pReloc = 1) := by
  unfold getThumbBit
  by_cases h1 : (info pReloc.symInfo).desc = Desc.Undefined <;>
  by_cases h2 : (info pReloc.symInfo).type = SymType.Function <;>
  by_cases h3 : pReloc.symValue &&& 0x1 = 0 <;> simp [h1, h2, h3]
  omega

/-- C1. For an `R_ARM_ABS32` relocation whose symbol has neither reserved flag
`0x1` nor `0x8`, `abs32` returns OK, leaves the factory (so the dynamic
relocation sections) unchanged and sets the target to `(S + A) | T`, whose low
32 bits are those of `(S + target + addend) | T`; `T` is 1 exactly when the
symbol is not Undefined, has type Function and `S` has bit 0 set, and 0
otherwise. -/
theorem abs32_static (ndebug : Bool) (pReloc : Relocation) (pLDInfo : MCLDInfo)
    (pParent : ARMRelocationFactory)
    (hRel : (pParent.info pReloc.symInfo).reserved &&& 0x1 = 0)
    (hPLT : (pParent.info pReloc.symInfo).reserved &&& 0x8 = 0) :
    abs32 ndebug pReloc pLDInfo pParent =
        Except.ok (Result.OK,
          { pReloc with
            target := u64 (pReloc.symValue + u64 (pReloc.target + pReloc.addend)) |||
                getThumbBit pParent.info pReloc }, pParent) ∧
      (u64 (pReloc.symValue + u64 (pReloc.target + pReloc.addend)) |||
          getThumbBit pParent.info pReloc) % 2 ^ 32 =
        ((pReloc.symValue + (pReloc.target + pReloc.addend)) |||
          getThumbBit pParent.info pReloc) % 2 ^ 32 ∧
      (getThumbBit pParent.info pReloc = 1 ↔
        ((pParent.info pReloc.symInfo).desc ≠ Desc.Undefined ∧
          (pParent.info pReloc.symInfo).type = SymType.Function ∧
          pReloc.symValue &&& 0x1 ≠ 0)) ∧
      (getThumbBit pParent.info pReloc = 0 ∨ getThumbBit pParent.info pReloc = 1) := by
  refine ⟨?_, ?_, getThumbBit_eq_one_iff _ _⟩
  · unfold abs32
    simp [hRel, hPLT]
  · rw [or_mod_two_pow, or_mod_two_pow]
    congr 1
    unfold u64
    omega

/-- Scenario S1 under C1: a defined Function symbol with value `0x8001`,
addend 0 and initial target 0 gives the target `0x00008001`. -/
theorem abs32_static_witness :
    ((factoryOf (symOf Binding.Global SymType.Function Desc.Define 0) 0).info
        (relocOf R_ARM_ABS32 0 0 0x8001).symInfo).reserved &&& 0x1 = 0 ∧
      abs32 false (relocOf R_ARM_ABS32 0 0 0x8001) ⟨OutputType.Exec⟩
          (factoryOf (symOf Binding.Global SymType.Function Desc.Define 0) 0) =
        Except.ok (Result.OK, relocOf R_ARM_ABS32 0 0x00008001 0x8001,
          factoryOf (symOf Binding.Global SymType.Function Desc.Define 0) 0) :=
  ⟨by decide,
    (abs32_static false (relocOf R_ARM_ABS32 0 0 0x8001) ⟨OutputType.Exec⟩
      (factoryOf (symOf Binding.Global SymType.Function Desc.Define 0) 0)
      (by decide) (by decide)).1.trans (by rfl)⟩

/-- The overflow check passes exactly for the values whose low 32 bits, read as
a signed integer, lie in the signed range of the given number of bits. -/
theorem helper_check_signed_overflow_eq_false_iff (pValue bits : Nat) :
    helper_check_signed_overflow pValue bits = false ↔
      (-(2 ^ (bits - 1) : Int) ≤ toInt32 pValue ∧ toInt32 pValue ≤ 2 ^ (bits - 1) - 1) := by
  unfold helper_check_signed_overflow
  simp only [Nat.shiftLeft_eq, Nat.one_mul]
  push_cast
  by_cases h1 : toInt32 pValue > 2 ^ (bits - 1) - 1 <;>
  by_cases h2 : toInt32 pValue < -(2 ^ (bits - 1) : Int) <;> simp [h1, h2]
  omega

/-- C3 (the code at the failing input). An `R_ARM_CALL` with `S = 0x04000004`,
`P = 0`, addend 0 and initial target `0xEB000000` has `X = 0x04000004`, outside
the 26-bit signed range. `call` never returns Overflow: with assertions
compiled out it returns OK and rewrites the target to `0xEB000001`; with
assertions it ends in the failed assertion. -/
theorem call_overflow_not_reported :
    helper_check_signed_overflow
        (callX (relocOf R_ARM_CALL 0 0xEB000000 0x04000004)
          (factoryOf (symOf Binding.Global SymType.Object Desc.Define 0) 0)) 26 = true ∧
      resultOf (call true (relocOf R_ARM_CALL 0 0xEB000000 0x04000004) ⟨OutputType.Exec⟩
        (factoryOf (symOf Binding.Global SymType.Object Desc.Define 0) 0)) = some Result.OK ∧
      targetOf (call true (relocOf R_ARM_CALL 0 0xEB000000 0x04000004) ⟨OutputType.Exec⟩
        (factoryOf (symOf Binding.Global SymType.Object Desc.Define 0) 0)) = some 0xEB000001 ∧
      resultOf (call false (relocOf R_ARM_CALL 0 0xEB000000 0x04000004) ⟨OutputType.Exec⟩
        (factoryOf (symOf Binding.Global SymType.Object Desc.Define 0) 0)) = Option.none := by
  refine ⟨by decide, by decide, by decide, by decide⟩

/-- C9. For an ARM branch relocation against a symbol that is weak, undefined
and has no ReservePLT flag, `call` returns OK with the target
`(target & 0xF0000000) | 0x01A00000` and `thm_call` returns OK with the target
`0xE000BF00`; neither depends on `S`, `P` or the addend, and the factory is
unchanged. -/
theorem branch_undef_weak_nop (ndebug : Bool) (pReloc : Relocation) (pLDInfo : MCLDInfo)
    (pParent : ARMRelocationFactory)
    (hWeak : (pParent.info pReloc.symInfo).isWeak = true)
    (hUndef : (pParent.info pReloc.symInfo).isUndef = true)
    (hPLT : (pParent.info pReloc.symInfo).reserved &&& ReservePLT = 0) :
    call ndebug pReloc pLDInfo pParent =
        Except.ok (Result.OK,
          { pReloc with target := (pReloc.target &&& 0xF0000000) ||| 0x01A00000 }, pParent) ∧
      thm_call ndebug pReloc pLDInfo pParent =
        Except.ok (Result.OK, { pReloc with target := 0xE000BF00 }, pParent) := by
  constructor
  · unfold call
    simp [hWeak, hUndef, hPLT]
  · unfold thm_call
    simp [hWeak, hUndef, hPLT]
    rfl

/-- Scenario S5 under C9: the halfword pair `(0xF000, 0xF800)` becomes
`(0xE000, 0xBF00)`. -/
theorem branch_undef_weak_nop_witness :
    (relocOf R_ARM_THM_CALL 0 0xF000F800 0).target = 0xF000 <<< 16 ||| 0xF800 ∧
      (0xE000BF00 : Nat) = 0xE000 <<< 16 ||| 0xBF00 ∧
      thm_call false (relocOf R_ARM_THM_CALL 0 0xF000F800 0) ⟨OutputType.Exec⟩
          (factoryOf (symOf Binding.Weak SymType.Function Desc.Undefined 0) 0x1000) =
        Except.ok (Result.OK,
          { relocOf R_ARM_THM_CALL 0 0xF000F800 0 with target := 0xE000BF00 },
          factoryOf (symOf Binding.Weak SymType.Function Desc.Undefined 0) 0x1000) :=
  ⟨by decide, by decide,
    (branch_undef_weak_nop false (relocOf R_ARM_THM_CALL 0 0xF000F800 0) ⟨OutputType.Exec⟩
      (factoryOf (symOf Binding.Weak SymType.Function Desc.Undefined 0) 0x1000)
      (by decide) (by decide) (by decide)).2⟩

/-- Or-ing with 1 sets bit 0. -/
theorem or_one_mod_two (x : Nat) : (x ||| 1) % 2 = 1 := by
  have h := or_mod_two_pow x 1 1
  simp only [pow_one] at h
  rw [h]
  rcases Nat.mod_two_eq_zero_or_one x with h0 | h0 <;> rw [h0] <;> decide

/-- C10 (counterexample). An `R_ARM_ABS32` against a global, defined Function
symbol with value `0x8001` that has ReserveRel and is preemptible: `abs32`
returns OK and leaves the target word 0, whose bit 0 is clear. -/
theorem abs32_thumb_bit_counterexample :
    (symOf Binding.Global SymType.Function Desc.Define 1).type = SymType.Function ∧
      (relocOf R_ARM_ABS32 0 0 0x8001).symValue % 2 = 1 ∧
      resultOf (abs32 false (relocOf R_ARM_ABS32 0 0 0x8001) ⟨OutputType.DynObj⟩
        (preemptibleFactoryOf (symOf Binding.Global SymType.Function Desc.Define 1) 0)) =
          some Result.OK ∧
      targetOf (abs32 false (relocOf R_ARM_ABS32 0 0 0x8001) ⟨OutputType.DynObj⟩
        (preemptibleFactoryOf (symOf Binding.Global SymType.Function Desc.Define 1) 0)) =
          some 0 := by
  refine ⟨by decide, by decide, by decide, by decide⟩

/-- C10 (amended). For an `R_ARM_ABS32` relocation whose symbol is not a global
symbol with ReservePLT, and not a global symbol with ReserveRel that cannot use
`R_ARM_RELATIVE`, `abs32` returns OK with a target `t` such that: if the symbol
has type Function, is not Undefined and its value has bit 0 set, then bit 0 of
`t` is set; and if the symbol has type Object, bit 0 of `t` equals bit 0 of
`S + A`. -/
theorem abs32_thumb_bit (ndebug : Bool) (pReloc : Relocation) (pLDInfo : MCLDInfo)
    (pParent : ARMRelocationFactory)
    (hStatic : ((pParent.info pReloc.symInfo).isGlobal &&
      (decide ((pParent.info pReloc.symInfo).reserved &&& 0x8 ≠ 0) ||
        (decide ((pParent.info pReloc.symInfo).reserved &&& 0x1 ≠ 0) &&
          !helper_use_relative_reloc (pParent.info pReloc.symInfo) pLDInfo pParent))) = false) :
    ∃ t pParent1,
      abs32 ndebug pReloc pLDInfo pParent =
        Except.ok (Result.OK, { pReloc with target := t }, pParent1) ∧
      ((pParent.info pReloc.symInfo).type = SymType.Function →
        (pParent.info pReloc.symInfo).desc ≠ Desc.Undefined →
        pReloc.symValue % 2 = 1 → t % 2 = 1) ∧
      ((pParent.info pReloc.symInfo).type = SymType.Object →
        t % 2 = (pReloc.symValue + (pReloc.target + pReloc.addend)) % 2) := by
  have hbits :
      ((pParent.info pReloc.symInfo).type = SymType.Function →
        (pParent.info pReloc.symInfo).desc ≠ Desc.Undefined →
        pReloc.symValue % 2 = 1 →
        (u64 (pReloc.symValue + u64 (pReloc.target + pReloc.addend)) |||
          getThumbBit pParent.info pReloc) % 2 = 1) ∧
      ((pParent.info pReloc.symInfo).type = SymType.Object →
        (u64 (pReloc.symValue + u64 (pReloc.target + pReloc.addend)) |||
          getThumbBit pParent.info pReloc) % 2 =
          (pReloc.symValue + (pReloc.target + pReloc.addend)) % 2) := by
    constructor
    · intro hF hD hS
      have hT : getThumbBit pParent.info pReloc = 1 := by
        unfold getThumbBit
        simp [hF, hD, hS]
      rw [hT]
      exact or_one_mod_two _
    · intro hO
      have hT : getThumbBit pParent.info pReloc = 0 := by
        unfold getThumbBit
        simp [hO]
      rw [hT, Nat.or_zero]
      unfold u64
      omega
  cases hL : ((pParent.info pReloc.symInfo).isLocal &&
      decide ((pParent.info pReloc.symInfo).reserved &&& 0x1 ≠ 0))
  · cases hG : (pParent.info pReloc.symInfo).isGlobal
    · refine ⟨_, pParent, ?_, hbits⟩
      unfold abs32
      simp only [hL, hG, Bool.false_eq_true, if_false]
    · simp only [hG, Bool.true_and, Bool.or_eq_false_iff, Bool.and_eq_false_iff,
        decide_eq_false_iff_not, Decidable.not_not, Bool.not_eq_false'] at hStatic
      obtain ⟨hP, hR⟩ := hStatic
      by_cases hRel : (pParent.info pReloc.symInfo).reserved &&& 0x1 = 0
      · refine ⟨_, pParent, ?_, hbits⟩
        unfold abs32
        simp only [hL, hG, Bool.false_eq_true, if_false, if_true]
        simp only [hP, hRel, ne_eq, not_true_eq_false, if_false]
      · have hU : helper_use_relative_reloc (pParent.info pReloc.symInfo) pLDInfo pParent = true := by
          rcases hR with h | h
          · exact absurd h hRel
          · exact h
        refine ⟨_, helper_DynRel pReloc R_ARM_RELATIVE pParent, ?_, hbits⟩
        unfold abs32
        simp only [hL, hG, Bool.false_eq_true, if_false, if_true]
        simp only [hP, hRel, ne_eq, not_true_eq_false, not_false_eq_true, hU, if_false, if_true]
  · refine ⟨_, helper_DynRel pReloc R_ARM_RELATIVE pParent, ?_, hbits⟩
    unfold abs32
    simp only [hL, if_true]

/-- Scenario S1 under C10 (amended): the symbol has no reserved flag, so the
hypothesis holds, and the target gets bit 0 of the Function symbol. -/
theorem abs32_thumb_bit_witness :
    ((symOf Binding.Global SymType.Function Desc.Define 0).isGlobal &&
      (decide ((symOf Binding.Global SymType.Function Desc.Define 0).reserved &&& 0x8 ≠ 0) ||
        (decide ((symOf Binding.Global SymType.Function Desc.Define 0).reserved &&& 0x1 ≠ 0) &&
          !helper_use_relative_reloc (symOf Binding.Global SymType.Function Desc.Define 0)
            ⟨OutputType.Exec⟩
            (factoryOf (symOf Binding.Global SymType.Function Desc.Define 0) 0)))) = false ∧
    ∃ t pParent1,
      abs32 false (relocOf R_ARM_ABS32 0 0 0x8001) ⟨OutputType.Exec⟩
          (factoryOf (symOf Binding.Global SymType.Function Desc.Define 0) 0) =
        Except.ok (Result.OK, { relocOf R_ARM_ABS32 0 0 0x8001 with target := t }, pParent1) ∧
      t % 2 = 1 := by
  refine ⟨by decide, ?_⟩
  obtain ⟨t, p, h, hF, _⟩ := abs32_thumb_bit false (relocOf R_ARM_ABS32 0 0 0x8001)
    ⟨OutputType.Exec⟩ (factoryOf (symOf Binding.Global SymType.Function Desc.Define 0) 0)
    (by decide)
  exact ⟨t, p, h, hF (by decide) (by decide) (by decide)⟩

end ARM

/-- Masking with a shifted mask is masking the shifted value. -/
theorem and_shiftLeft_mask (t m k : Nat) : t &&& (m <<< k) = ((t >>> k) &&& m) <<< k := by
  apply Nat.eq_of_testBit_eq
  intro i
  simp only [Nat.testBit_and, Nat.testBit_shiftLeft, Nat.testBit_shiftRight]
  by_cases h : i ≥ k
  · have hk : k + (i - k) = i := by omega
    simp [h, hk]
  · simp [h]

/-- The mask `0xFFFF0000` keeps bits 16 to 31. -/
theorem and_high16 (t : Nat) : t &&& 0xFFFF0000 = 2 ^ 16 * (t / 2 ^ 16 % 2 ^ 16) := by
  have h : (0xFFFF0000 : Nat) = (2 ^ 16 - 1) <<< 16 := by decide
  rw [h, and_shiftLeft_mask, Nat.and_pow_two_sub_one_eq_mod, Nat.shiftLeft_eq,
    Nat.shiftRight_eq_div_pow, Nat.mul_comm]

/-- The mask `0xFFFF` keeps bits 0 to 15. -/
theorem and_low16 (r : Nat) : r &&& 0xFFFF = r % 2 ^ 16 := by
  have h : (0xFFFF : Nat) = 2 ^ 16 - 1 := by decide
  rw [h, Nat.and_pow_two_sub_one_eq_mod]

/-- The write-back of the 16-bit applicators, arithmetically: bits 16 to 31 of
the old target, then the low 16 bits of the result. -/
theorem writeLow16_eq (t r : Nat) :
    (t &&& 0xFFFF0000) ||| (r &&& 0xFFFF) = 2 ^ 16 * (t / 2 ^ 16 % 2 ^ 16) + r % 2 ^ 16 := by
  rw [and_high16, and_low16]
  exact (Nat.mul_add_lt_is_or (Nat.mod_lt _ (by decide)) _).symm

namespace Mips

end Mips

/-- A fresh slot of a relocation section, once filled, is the one new entry at
the end of the section. -/
theorem fill_getEntry_fresh (s : OutputRelocSection) (sym : SymPtr) (type : Nat)
    (targetRef : FragmentRef) (symInfo : SymPtr) :
    ((s.getEntry sym false).2.2.fill (s.getEntry sym false).1 type targetRef symInfo).entries =
      s.entries ++
        [{ Relocation.blank with type := type, targetRef := targetRef, symInfo := symInfo }] := by
  simp [OutputRelocSection.getEntry, OutputRelocSection.fill, OutputRelocSection.setEntry,
    List.getD_eq_getElem?_getD]

namespace Mips

/-- C5. For an `R_MIPS_HI16` / `R_MIPS_LO16` pair against the same symbol (not
`_gp_disp`) with equal addends, `helper_CalcAHL` returns a value `AHL` for the
unmodified pair, and `lo16` returns OK with a target whose bits 16 to 31 are
those of the old target and whose low 16 bits are `(AHL + S) & 0xFFFF`. -/
theorem lo16_low_bits (ndebug : Bool) (hi lo : Relocation) (pLDInfo : MCLDInfo)
    (pParent : MipsRelocationFactory)
    (hNotGp : helper_isGpDisp pParent.info lo = false)
    (hHi : hi.type = R_MIPS_HI16) (hLoT : lo.type = R_MIPS_LO16)
    (_hSym : hi.symInfo = lo.symInfo) (hAdd : hi.addend = lo.addend) :
    ∃ AHL t, helper_CalcAHL ndebug hi lo = Except.ok AHL ∧
      lo16 lo pLDInfo pParent = Except.ok (Result.OK, { lo with target := t }, pParent) ∧
      t % 2 ^ 16 = (AHL + lo.symValue) &&& 0xFFFF ∧
      t / 2 ^ 16 = lo.target / 2 ^ 16 % 2 ^ 16 := by
  refine ⟨u32 (u32 ((u32 hi.target &&& 0xFFFF) <<< 16) + castInt16 (u32 lo.target &&& 0xFFFF) +
      lo.addend),
    (lo.target &&& 0xFFFF0000) |||
      (u32 (u32 ((lo.target &&& 0xFFFF) + lo.addend) + u32 lo.symValue) &&& 0xFFFF),
    ?_, ?_, ?_, ?_⟩
  · unfold helper_CalcAHL cassert
    simp [hHi, hLoT, hAdd]
  · unfold lo16
    simp only [hNotGp, Bool.false_eq_true, if_false, writeLow16]
  · rw [writeLow16_eq]
    simp only [and_low16, Nat.shiftLeft_eq]
    unfold u32 castInt16
    split <;> omega
  · rw [writeLow16_eq]
    omega

/-- Scenario S3 under C5: `S = 0x00400800`, addends 0 and LO target
`0x25080000` give the final LO `0x25080800`. -/
theorem lo16_low_bits_witness :
    (relocOf R_MIPS_HI16 0 0x3C080000 0x00400800).addend =
        (relocOf R_MIPS_LO16 0 0x25080000 0x00400800).addend ∧
      (∃ AHL t,
        helper_CalcAHL false (relocOf R_MIPS_HI16 0 0x3C080000 0x00400800)
          (relocOf R_MIPS_LO16 0 0x25080000 0x00400800) = Except.ok AHL ∧
        lo16 (relocOf R_MIPS_LO16 0 0x25080000 0x00400800) ⟨OutputType.Exec⟩
            (factoryOf (symOf Binding.Global SymType.Object Desc.Define 0)) =
          Except.ok (Result.OK,
            { relocOf R_MIPS_LO16 0 0x25080000 0x00400800 with target := t },
            factoryOf (symOf Binding.Global SymType.Object Desc.Define 0)) ∧
        t % 2 ^ 16 = (AHL + (relocOf R_MIPS_LO16 0 0x25080000 0x00400800).symValue) &&& 0xFFFF ∧
        t / 2 ^ 16 = (relocOf R_MIPS_LO16 0 0x25080000 0x00400800).target / 2 ^ 16 % 2 ^ 16) ∧
      targetOf (lo16 (relocOf R_MIPS_LO16 0 0x25080000 0x00400800) ⟨OutputType.Exec⟩
        (factoryOf (symOf Binding.Global SymType.Object Desc.Define 0))) = some 0x25080800 :=
  ⟨by decide,
    lo16_low_bits false (relocOf R_MIPS_HI16 0 0x3C080000 0x00400800)
      (relocOf R_MIPS_LO16 0 0x25080000 0x00400800) ⟨OutputType.Exec⟩
      (factoryOf (symOf Binding.Global SymType.Object Desc.Define 0))
      (by decide) (by decide) (by decide) (by decide) (by decide),
    by decide⟩

/-- C6. For an `R_MIPS_32` relocation, with `A = target + addend` and `S` the
symbol value, `abs32` returns OK and: if the symbol lacks ReserveRel, the target
becomes `S + A` and the factory (so `.rel.dyn`) is unchanged; if the symbol has
ReserveRel, `.rel.dyn` gets exactly one new entry, of type `R_MIPS_REL32` and
with the target reference of the relocation, and for a symbol recorded as local
on the GOT the symbol of the entry is null and the target becomes `A + S`,
while otherwise the symbol of the entry is that of the relocation and the
target becomes `A`. The low 32 bits of `S + A` wrap around. -/
theorem abs32_cases (pReloc : Relocation) (pLDInfo : MCLDInfo)
    (pParent : MipsRelocationFactory) :
    ((pParent.info pReloc.symInfo).reserved &&& pParent.target.ReserveRel = 0 →
      abs32 pReloc pLDInfo pParent =
        Except.ok (Result.OK,
          { pReloc with target := u64 (pReloc.symValue + u64 (pReloc.target + pReloc.addend)) },
          pParent)) ∧
    ((pParent.info pReloc.symInfo).reserved &&& pParent.target.ReserveRel ≠ 0 →
      ∃ pParent1,
        abs32 pReloc pLDInfo pParent =
          Except.ok (Result.OK,
            { pReloc with
              target := if pParent.target.got.isLocal pReloc.symInfo then
                  u64 (u64 (pReloc.target + pReloc.addend) + pReloc.symValue)
                else u64 (pReloc.target + pReloc.addend) }, pParent1) ∧
        pParent1.target.relDyn.entries =
          pParent.target.relDyn.entries ++
            [{ Relocation.blank with
                type := R_MIPS_REL32, targetRef := pReloc.targetRef,
                symInfo := if pParent.target.got.isLocal pReloc.symInfo then 0
                  else pReloc.symInfo }] ∧
        pParent1.target.got = pParent.target.got) ∧
    u64 (pReloc.symValue + u64 (pReloc.target + pReloc.addend)) % 2 ^ 32 =
      (pReloc.symValue + pReloc.target + pReloc.addend) % 2 ^ 32 ∧
    u64 (u64 (pReloc.target + pReloc.addend) + pReloc.symValue) % 2 ^ 32 =
      (pReloc.target + pReloc.addend + pReloc.symValue) % 2 ^ 32 := by
  refine ⟨?_, ?_, ?_, ?_⟩
  · intro h
    unfold abs32
    simp [h]
  · intro h
    cases hL : pParent.target.got.isLocal pReloc.symInfo
    · refine ⟨(helper_DynRel pReloc pParent).2, ?_, ?_, ?_⟩
      · unfold abs32
        simp [h, helper_DynRel, hL]
      · simp only [helper_DynRel, hL, Bool.false_eq_true, if_false]
        exact fill_getEntry_fresh _ _ _ _ _
      · simp [helper_DynRel, hL]
    · refine ⟨(helper_DynRel pReloc pParent).2, ?_, ?_, ?_⟩
      · unfold abs32
        simp [h, helper_DynRel, hL]
      · simp only [helper_DynRel, hL, if_true]
        exact fill_getEntry_fresh _ _ _ _ _
      · simp [helper_DynRel, hL]
  · unfold u64
    omega
  · unfold u64
    omega

/-- Both cases of C6 on concrete input: a symbol without ReserveRel gets
`S + A`; a symbol with ReserveRel gets one `.rel.dyn` entry. -/
theorem abs32_cases_witness :
    abs32 (relocOf R_MIPS_32 4 0x10 0x00400800) ⟨OutputType.Exec⟩
        (factoryOf (symOf Binding.Global SymType.Object Desc.Define 0)) =
      Except.ok (Result.OK,
        { relocOf R_MIPS_32 4 0x10 0x00400800 with
          target := u64 (0x00400800 + u64 (0x10 + 4)) },
        factoryOf (symOf Binding.Global SymType.Object Desc.Define 0)) ∧
    ∃ pParent1,
      abs32 (relocOf R_MIPS_32 4 0x10 0x00400800) ⟨OutputType.DynObj⟩
          (factoryOf (symOf Binding.Global SymType.Object Desc.Define 1)) =
        Except.ok (Result.OK,
          { relocOf R_MIPS_32 4 0x10 0x00400800 with
            target := if (factoryOf (symOf Binding.Global SymType.Object Desc.Define
                  1)).target.got.isLocal (relocOf R_MIPS_32 4 0x10 0x00400800).symInfo then
                u64 (u64 (0x10 + 4) + 0x00400800)
              else u64 (0x10 + 4) }, pParent1) ∧
      pParent1.target.relDyn.entries =
        (factoryOf (symOf Binding.Global SymType.Object Desc.Define 1)).target.relDyn.entries ++
          [{ Relocation.blank with
              type := R_MIPS_REL32,
              targetRef := (relocOf R_MIPS_32 4 0x10 0x00400800).targetRef,
              symInfo := if (factoryOf (symOf Binding.Global SymType.Object Desc.Define
                    1)).target.got.isLocal (relocOf R_MIPS_32 4 0x10 0x00400800).symInfo then 0
                else (relocOf R_MIPS_32 4 0x10 0x00400800).symInfo }] ∧
      pParent1.target.got =
        (factoryOf (symOf Binding.Global SymType.Object Desc.Define 1)).target.got :=
  ⟨(abs32_cases (relocOf R_MIPS_32 4 0x10 0x00400800) ⟨OutputType.Exec⟩
      (factoryOf (symOf Binding.Global SymType.Object Desc.Define 0))).1 (by decide),
    (abs32_cases (relocOf R_MIPS_32 4 0x10 0x00400800) ⟨OutputType.DynObj⟩
      (factoryOf (symOf Binding.Global SymType.Object Desc.Define 1))).2.1 (by decide)⟩

end Mips

/-- The write-back of the 16-bit applicators keeps bits 16 to 31 and writes the
low 16 bits of the result. -/
theorem writeLow16_spec (t r : Nat) :
    WritesLow16 t ((t &&& 0xFFFF0000) ||| (r &&& 0xFFFF)) r := by
  unfold WritesLow16
  rw [writeLow16_eq, and_low16]
  omega

/-- The GOT entry of a symbol that has one. -/
theorem GOT.getEntry_some (g : GOT) (sym : SymPtr) (i : Nat)
    (h : lookupSym g.symMap sym = some i) : g.getEntry sym = (i, true, g) := by
  unfold GOT.getEntry
  rw [h]

/-- The GOT entry taken for a symbol that has none yet. -/
theorem GOT.getEntry_none (g : GOT) (sym : SymPtr)
    (h : lookupSym g.symMap sym = Option.none) :
    g.getEntry sym =
      (g.symMap.length, false, { g with symMap := g.symMap ++ [(sym, g.symMap.length)] }) := by
  unfold GOT.getEntry
  rw [h]

namespace Mips

/-- When the GOT entry of the symbol is reserved, `helper_GetGOTEntry` returns
its index; only the GOT changes, and on first use of an entry that is not the
one of a Section symbol local on the GOT, the content becomes the symbol value. -/
theorem helper_GetGOTEntry_ok (pReloc : Relocation) (pParent : MipsRelocationFactory)
    (hRes : gotEntryReserved pReloc pParent = true) :
    ∃ pParent1 pExist,
      helper_GetGOTEntry pReloc pParent =
        Except.ok (gotIndex pParent pReloc.symInfo, pExist, pParent1) ∧
      pParent1.layout = pParent.layout ∧ pParent1.info = pParent.info ∧
      pParent1.m_AHL = pParent.m_AHL ∧
      (lookupSym pParent.target.got.symMap pReloc.symInfo = Option.none →
        (pParent.target.got.isLocal pReloc.symInfo &&
          decide ((pParent.info pReloc.symInfo).type = SymType.Section)) = false →
        pParent1.target.got.getContent (gotIndex pParent pReloc.symInfo) = pReloc.symValue) := by
  unfold gotEntryReserved at hRes
  cases hl : lookupSym pParent.target.got.symMap pReloc.symInfo with
  | some i =>
    refine ⟨{ pParent with target := { pParent.target with got := pParent.target.got } }, true,
      ?_, rfl, rfl, rfl, ?_⟩
    · simp only [helper_GetGOTEntry, gotIndex, GOT.getEntry_some _ _ _ hl, if_true]
    · intro h
      exact absurd h (by simp)
  | none =>
    simp only [hl, Option.isSome_none, Bool.false_or, Bool.or_eq_true, decide_eq_true_eq,
      Bool.and_eq_true] at hRes
    cases hs : (pParent.target.got.isLocal pReloc.symInfo &&
          decide ((pParent.info pReloc.symInfo).type = SymType.Section))
    · have hflag : (pParent.info pReloc.symInfo).reserved &&& pParent.target.ReserveGot ≠ 0 := by
        rcases hRes with h | h
        · exact h
        · simp [h.1, h.2] at hs
      have hs' : (GOT.isLocal
            { pParent.target.got with
              symMap := pParent.target.got.symMap ++
                [(pReloc.symInfo, pParent.target.got.symMap.length)] } pReloc.symInfo &&
            decide ((pParent.info pReloc.symInfo).type = SymType.Section)) = false := hs
      refine ⟨{ pParent with target := { pParent.target with
          got := GOT.setContent
            { pParent.target.got with
              symMap := pParent.target.got.symMap ++
                [(pReloc.symInfo, pParent.target.got.symMap.length)] }
            pParent.target.got.symMap.length pReloc.symValue } }, false, ?_, rfl, rfl, rfl, ?_⟩
      · simp only [helper_GetGOTEntry, gotIndex, GOT.getEntry_none _ _ hl, Bool.false_eq_true,
          if_false, hs', Bool.not_false, if_true, hflag, ne_eq, not_false_eq_true]
      · intro _ _
        simp [GOT.getContent, GOT.setContent, gotIndex, GOT.getEntry_none _ _ hl]
    · have hs' : (GOT.isLocal
            { pParent.target.got with
              symMap := pParent.target.got.symMap ++
                [(pReloc.symInfo, pParent.target.got.symMap.length)] } pReloc.symInfo &&
            decide ((pParent.info pReloc.symInfo).type = SymType.Section)) = true := hs
      refine ⟨{ pParent with target := { pParent.target with
          got := { pParent.target.got with
              symMap := pParent.target.got.symMap ++
                [(pReloc.symInfo, pParent.target.got.symMap.length)] } } }, false,
        ?_, rfl, rfl, rfl, ?_⟩
      · simp only [helper_GetGOTEntry, gotIndex, GOT.getEntry_none _ _ hl, Bool.false_eq_true,
          if_false, hs', Bool.not_true]
      · intro _ h
        simp at h

/-- The value of `helper_CalcAHL` when its assertions hold or are compiled out. -/
theorem helper_CalcAHL_eq (ndebug : Bool) (pHiReloc pLoReloc : Relocation)
    (hHi : pHiReloc.type = R_MIPS_HI16 ∨ pHiReloc.type = R_MIPS_GOT16)
    (hLo : pLoReloc.type = R_MIPS_LO16)
    (hAdd : ndebug = true ∨ pHiReloc.addend = pLoReloc.addend) :
    helper_CalcAHL ndebug pHiReloc pLoReloc =
      Except.ok (u32 (u32 ((u32 pHiReloc.target &&& 0xFFFF) <<< 16) +
        castInt16 (u32 pLoReloc.target &&& 0xFFFF) + pLoReloc.addend)) := by
  unfold helper_CalcAHL cassert
  rcases hAdd with h | h
  · simp [h]
  · rcases hHi with h1 | h1 <;> simp [h, h1, hLo]

/-- What `helper_FindLo16Reloc` finds is an `R_MIPS_LO16`. -/
theorem helper_FindLo16Reloc_type (pReloc : Relocation) (following : List Relocation)
    (lo : Relocation) (h : helper_FindLo16Reloc pReloc following = some lo) :
    lo.type = R_MIPS_LO16 := by
  unfold helper_FindLo16Reloc at h
  have hp := (List.find?_eq_some.1 h).1
  simp only [Bool.and_eq_true, decide_eq_true_eq] at hp
  exact hp.1.symm

/-- The result of `helper_GetGOTOffset` when the GOT entry is reserved. -/
theorem helper_GetGOTOffset_ok (pReloc : Relocation) (pParent : MipsRelocationFactory)
    (hRes : gotEntryReserved pReloc pParent = true) :
    ∃ pParent1,
      helper_GetGOTOffset pReloc pParent =
        Except.ok (sub64 (pParent.layout.getOutputOffset
          (Fragment.gotEntry (gotIndex pParent pReloc.symInfo))) 0x7FF0, pParent1) ∧
      (lookupSym pParent.target.got.symMap pReloc.symInfo = Option.none →
        (pParent.target.got.isLocal pReloc.symInfo &&
          decide ((pParent.info pReloc.symInfo).type = SymType.Section)) = false →
        pParent1.target.got.getContent (gotIndex pParent pReloc.symInfo) = pReloc.symValue) := by
  obtain ⟨p1, ex, hget, hlay, _, _, hfirst⟩ := helper_GetGOTEntry_ok pReloc pParent hRes
  refine ⟨p1, ?_, hfirst⟩
  simp only [helper_GetGOTOffset, hget, hlay]

/-- C7 (counterexample). An `R_MIPS_GOT16` against a local symbol with ReserveGot
that no `R_MIPS_LO16` follows: `got16` does not return OK, in either build. -/
theorem got16_unpaired_counterexample :
    gotEntryReserved (relocOf R_MIPS_GOT16 0 0x8F820000 0x00400800)
        (factoryOf (symOf Binding.Local SymType.Object Desc.Define 2)) = true ∧
      resultOf (got16 false (relocOf R_MIPS_GOT16 0 0x8F820000 0x00400800) [] ⟨OutputType.Exec⟩
        (factoryOf (symOf Binding.Local SymType.Object Desc.Define 2))) = Option.none ∧
      resultOf (got16 true (relocOf R_MIPS_GOT16 0 0x8F820000 0x00400800) [] ⟨OutputType.Exec⟩
        (factoryOf (symOf Binding.Local SymType.Object Desc.Define 2))) = Option.none := by
  refine ⟨by decide, by decide, by decide⟩

/-- C7 (amended). For an `R_MIPS_CALL16` or `R_MIPS_GOT16` relocation whose
symbol's GOT entry is reserved, with `GOT_offset` the output offset of that
entry: `call16`, and `got16` for a symbol whose binding is not local, return OK,
keep bits 16 to 31 of the target and write `(GOT_offset - 0x7FF0) & 0xFFFF`
into the low 16 bits, and on first use of the entry (unless it belongs to a
Section symbol recorded local on the GOT) set its content to the symbol value;
`got16` for a symbol of local binding does the same write-back provided an
`R_MIPS_LO16` against the same symbol follows, with the same addend (or in a
build without assertions), and sets the content of the entry to
`(AHL + S + 0x8000) & 0xFFFF0000`, `AHL` being computed from the first such
`R_MIPS_LO16` and stored in the engine state. -/
theorem got16_call16_offset (ndebug : Bool) (pReloc : Relocation)
    (following : List Relocation) (pLDInfo : MCLDInfo) (pParent : MipsRelocationFactory)
    (hRes : gotEntryReserved pReloc pParent = true) :
    (∃ t pParent1,
      call16 pReloc pLDInfo pParent =
        Except.ok (Result.OK, { pReloc with target := t }, pParent1) ∧
      WritesLow16 pReloc.target t (sub64 (pParent.layout.getOutputOffset
        (Fragment.gotEntry (gotIndex pParent pReloc.symInfo))) 0x7FF0) ∧
      (lookupSym pParent.target.got.symMap pReloc.symInfo = Option.none →
        (pParent.target.got.isLocal pReloc.symInfo &&
          decide ((pParent.info pReloc.symInfo).type = SymType.Section)) = false →
        pParent1.target.got.getContent (gotIndex pParent pReloc.symInfo) = pReloc.symValue)) ∧
    ((pParent.info pReloc.symInfo).isLocal = false →
      ∃ t pParent1,
        got16 ndebug pReloc following pLDInfo pParent =
          Except.ok (Result.OK, { pReloc with target := t }, pParent1) ∧
        WritesLow16 pReloc.target t (sub64 (pParent.layout.getOutputOffset
          (Fragment.gotEntry (gotIndex pParent pReloc.symInfo))) 0x7FF0) ∧
        (lookupSym pParent.target.got.symMap pReloc.symInfo = Option.none →
          (pParent.target.got.isLocal pReloc.symInfo &&
            decide ((pParent.info pReloc.symInfo).type = SymType.Section)) = false →
          pParent1.target.got.getContent (gotIndex pParent pReloc.symInfo) =
            pReloc.symValue)) ∧
    ((pParent.info pReloc.symInfo).isLocal = true → pReloc.type = R_MIPS_GOT16 →
      ∀ lo, helper_FindLo16Reloc pReloc following = some lo →
        (ndebug = true ∨ pReloc.addend = lo.addend) →
        ∃ t pParent1,
          got16 ndebug pReloc following pLDInfo pParent =
            Except.ok (Result.OK, { pReloc with target := t }, pParent1) ∧
          WritesLow16 pReloc.target t (sub64 (pParent.layout.getOutputOffset
            (Fragment.gotEntry (gotIndex pParent pReloc.symInfo))) 0x7FF0) ∧
          pParent1.target.got.getContent (gotIndex pParent pReloc.symInfo) =
            u32 (u32 (u32 ((u32 pReloc.target &&& 0xFFFF) <<< 16) +
              castInt16 (u32 lo.target &&& 0xFFFF) + lo.addend) +
              u32 pReloc.symValue + 0x8000) &&& 0xFFFF0000 ∧
          pParent1.m_AHL = u32 (u32 ((u32 pReloc.target &&& 0xFFFF) <<< 16) +
              castInt16 (u32 lo.target &&& 0xFFFF) + lo.addend)) := by
  obtain ⟨p1, hoff, hfirst⟩ := helper_GetGOTOffset_ok pReloc pParent hRes
  refine ⟨?_, ?_, ?_⟩
  · refine ⟨_, p1, ?_, writeLow16_spec _ _, hfirst⟩
    simp only [call16, hoff, writeLow16]
  · intro hL
    refine ⟨_, p1, ?_, writeLow16_spec _ _, hfirst⟩
    simp only [got16, hL, Bool.false_eq_true, if_false, hoff, writeLow16]
  · intro hL hT lo hLo hAdd
    have hAHL := helper_CalcAHL_eq ndebug pReloc lo (Or.inr hT)
      (helper_FindLo16Reloc_type pReloc following lo hLo) hAdd
    have hRes' : gotEntryReserved pReloc
        { pParent with m_AHL := u32 (u32 ((u32 pReloc.target &&& 0xFFFF) <<< 16) +
              castInt16 (u32 lo.target &&& 0xFFFF) + lo.addend) } = true := hRes
    obtain ⟨p2, ex, hget, hlay, _, hahl, _⟩ := helper_GetGOTEntry_ok pReloc _ hRes'
    refine ⟨_, { p2 with target := { p2.target with
        got := p2.target.got.setContent (gotIndex pParent pReloc.symInfo)
          (u32 (u32 (u32 ((u32 pReloc.target &&& 0xFFFF) <<< 16) +
              castInt16 (u32 lo.target &&& 0xFFFF) + lo.addend) +
              u32 pReloc.symValue + 0x8000) &&& 0xFFFF0000) } }, ?_, writeLow16_spec _ _, ?_, hahl⟩
    · have hget' : helper_GetGOTEntry pReloc
          { pParent with m_AHL := u32 (u32 ((u32 pReloc.target &&& 0xFFFF) <<< 16) +
              castInt16 (u32 lo.target &&& 0xFFFF) + lo.addend) } =
          Except.ok (gotIndex pParent pReloc.symInfo, ex, p2) := hget
      simp only [got16, hL, if_true, hLo, Option.isSome_some, cassert, Bool.or_true, hAHL,
        hget', writeLow16, hlay]
    · simp [GOT.getContent, GOT.setContent]

/-- C7 (amended) on concrete input: an `R_MIPS_CALL16` against a global symbol
with ReserveGot. -/
theorem got16_call16_offset_witness :
    gotEntryReserved (relocOf R_MIPS_CALL16 0 0x8F990000 0x00400800)
        (factoryOf (symOf Binding.Global SymType.Function Desc.Define 2)) = true ∧
      ∃ t pParent1,
        call16 (relocOf R_MIPS_CALL16 0 0x8F990000 0x00400800) ⟨OutputType.Exec⟩
            (factoryOf (symOf Binding.Global SymType.Function Desc.Define 2)) =
          Except.ok (Result.OK,
            { relocOf R_MIPS_CALL16 0 0x8F990000 0x00400800 with target := t }, pParent1) ∧
        WritesLow16 (relocOf R_MIPS_CALL16 0 0x8F990000 0x00400800).target t
          (sub64 ((factoryOf (symOf Binding.Global SymType.Function Desc.Define
            2)).layout.getOutputOffset (Fragment.gotEntry (gotIndex
              (factoryOf (symOf Binding.Global SymType.Function Desc.Define 2))
              (relocOf R_MIPS_CALL16 0 0x8F990000 0x00400800).symInfo))) 0x7FF0) := by
  refine ⟨by decide, ?_⟩
  obtain ⟨t, p, h1, h2, _⟩ := (got16_call16_offset false
    (relocOf R_MIPS_CALL16 0 0x8F990000 0x00400800) [] ⟨OutputType.Exec⟩
    (factoryOf (symOf Binding.Global SymType.Function Desc.Define 2)) (by decide)).1
  exact ⟨t, p, h1, h2⟩

/-- C8 (counterexample). Scenario S4: an `R_MIPS_GOT16` against a global symbol
whose reserved GOT slot lies at output offset 16 leaves the target
`0x8F828020`: the low 16 bits are `(16 - 0x7FF0) & 0xFFFF = 0x8020`, not
`0x8010`. -/
theorem got16_S4_counterexample :
    (gotFactoryOf (symOf Binding.Global SymType.Object Desc.Define 2) 4).layout.getOutputOffset
        (Fragment.gotEntry (gotIndex
          (gotFactoryOf (symOf Binding.Global SymType.Object Desc.Define 2) 4) 1)) = 16 ∧
      targetOf (got16 false (relocOf R_MIPS_GOT16 0 0x8F820000 0x00400800) [] ⟨OutputType.Exec⟩
        (gotFactoryOf (symOf Binding.Global SymType.Object Desc.Define 2) 4)) =
          some 0x8F828020 ∧
      (0x8F828020 : Nat) &&& 0xFFFF ≠ 0x8010 ∧
      sub64 16 0x7FF0 &&& 0xFFFF ≠ 0x8010 := by
  refine ⟨by decide, by decide, by decide, by decide⟩

/-- C8 (amended). Applying `R_MIPS_GOT16` against a symbol of non-local binding
whose reserved GOT slot lies at output offset 16 returns OK and leaves the low
16 bits of the target equal to `(16 - 0x7FF0) & 0xFFFF = 0x8020`. -/
theorem got16_S4 (ndebug : Bool) (pReloc : Relocation) (following : List Relocation)
    (pLDInfo : MCLDInfo) (pParent : MipsRelocationFactory)
    (hRes : gotEntryReserved pReloc pParent = true)
    (hGlobal : (pParent.info pReloc.symInfo).isLocal = false)
    (hOff : pParent.layout.getOutputOffset
      (Fragment.gotEntry (gotIndex pParent pReloc.symInfo)) = 16) :
    ∃ t pParent1,
      got16 ndebug pReloc following pLDInfo pParent =
        Except.ok (Result.OK, { pReloc with target := t }, pParent1) ∧
      t &&& 0xFFFF = 0x8020 ∧ sub64 16 0x7FF0 &&& 0xFFFF = 0x8020 := by
  obtain ⟨p1, hoff, _⟩ := helper_GetGOTOffset_ok pReloc pParent hRes
  rw [hOff] at hoff
  refine ⟨(pReloc.target &&& 0xFFFF0000) ||| (sub64 16 0x7FF0 &&& 0xFFFF), p1, ?_, ?_,
    by decide⟩
  · simp only [got16, hGlobal, Bool.false_eq_true, if_false, hoff, writeLow16]
  · rw [and_low16]
    have h := (writeLow16_spec pReloc.target (sub64 16 0x7FF0)).1
    rw [h]
    decide

/-- Scenario S4 under C8 (amended). -/
theorem got16_S4_witness :
    gotEntryReserved (relocOf R_MIPS_GOT16 0 0x8F820000 0x00400800)
        (gotFactoryOf (symOf Binding.Global SymType.Object Desc.Define 2) 4) = true ∧
      ∃ t pParent1,
        got16 false (relocOf R_MIPS_GOT16 0 0x8F820000 0x00400800) [] ⟨OutputType.Exec⟩
            (gotFactoryOf (symOf Binding.Global SymType.Object Desc.Define 2) 4) =
          Except.ok (Result.OK,
            { relocOf R_MIPS_GOT16 0 0x8F820000 0x00400800 with target := t }, pParent1) ∧
        t &&& 0xFFFF = 0x8020 ∧ sub64 16 0x7FF0 &&& 0xFFFF = 0x8020 :=
  ⟨by decide,
    got16_S4 false (relocOf R_MIPS_GOT16 0 0x8F820000 0x00400800) [] ⟨OutputType.Exec⟩
      (gotFactoryOf (symOf Binding.Global SymType.Object Desc.Define 2) 4)
      (by decide) (by decide) (by decide)⟩

end Mips

/-- A slot taken for a symbol that has none yet in a relocation section, once
filled, is the one new entry at the end of the section. -/
theorem fill_getEntry_forGOT_fresh (s : OutputRelocSection) (sym : SymPtr) (type : Nat)
    (targetRef : FragmentRef) (symInfo : SymPtr)
    (h : lookupSym s.symRelMap sym = Option.none) :
    (s.getEntry sym true).1 = s.entries.length ∧ (s.getEntry sym true).2.1 = false ∧
    ((s.getEntry sym true).2.2.fill (s.getEntry sym true).1 type targetRef symInfo).entries =
      s.entries ++
        [{ Relocation.blank with type := type, targetRef := targetRef, symInfo := symInfo }] := by
  simp [OutputRelocSection.getEntry, OutputRelocSection.fill, OutputRelocSection.setEntry,
    List.getD_eq_getElem?_getD, h]

namespace ARM

/-- C11 (counterexample). A global symbol from a DynObj that is not preemptible,
marked GOTRel and not ReserveGOT, with value `0x8000`: on first use
`helper_get_GOT_and_init` sets the GOT content to 0 and fills the `.rel.dyn`
entry with type `R_ARM_GLOB_DAT` and the symbol, not with the symbol value and
`R_ARM_RELATIVE`. -/
theorem helper_get_GOT_and_init_dyn_counterexample :
    (dynSymOf Binding.Global SymType.Object Desc.Define GOTRel).isLocal = false ∧
      emptyBackend.isSymbolPreemptible
        (dynSymOf Binding.Global SymType.Object Desc.Define GOTRel) ⟨OutputType.Exec⟩ = false ∧
      gotInitOutcome (helper_get_GOT_and_init false (relocOf R_ARM_GOT_BREL 0 0 0x8000) ⟨OutputType.Exec⟩
        (factoryOf (dynSymOf Binding.Global SymType.Object Desc.Define GOTRel) 0)) =
        some (0, 0, [⟨R_ARM_GLOB_DAT, 1, FragmentRef.assign (Fragment.gotEntry 0), 0, 0, 0⟩]) := by
  refine ⟨by decide, by decide, by decide⟩

/-- C11 (amended). When `helper_get_GOT_and_init` first obtains the GOT entry of
a symbol marked GOTRel and not ReserveGOT (the symbol having no `.rel.dyn` slot
yet), it returns the new entry and adds exactly one `.rel.dyn` entry, which
targets the GOT slot. If the symbol is local, or is neither dynamic nor
undefined nor preemptible, the GOT content is the symbol value and the entry has
type `R_ARM_RELATIVE` with a null symbol; otherwise the GOT content is 0 and the
entry has type `R_ARM_GLOB_DAT` with the symbol set. -/
theorem helper_get_GOT_and_init_first (ndebug : Bool) (pReloc : Relocation)
    (pLDInfo : MCLDInfo) (pParent : ARMRelocationFactory)
    (hFirst : lookupSym pParent.target.got.symMap pReloc.symInfo = Option.none)
    (hNoRel : lookupSym pParent.target.relDyn.symRelMap pReloc.symInfo = Option.none)
    (hGOT : (pParent.info pReloc.symInfo).reserved &&& ReserveGOT = 0)
    (hRel : (pParent.info pReloc.symInfo).reserved &&& GOTRel ≠ 0) :
    ∃ pParent1,
      helper_get_GOT_and_init ndebug pReloc pLDInfo pParent =
        Except.ok (pParent.target.got.symMap.length, pParent1) ∧
      (((pParent.info pReloc.symInfo).isLocal = true ∨
          ((pParent.info pReloc.symInfo).isDyn = false ∧
            (pParent.info pReloc.symInfo).isUndef = false ∧
            pParent.target.isSymbolPreemptible (pParent.info pReloc.symInfo) pLDInfo = false)) →
        pParent1.target.got.getContent pParent.target.got.symMap.length = pReloc.symValue ∧
        pParent1.target.relDyn.entries = pParent.target.relDyn.entries ++
          [{ Relocation.blank with
              type := R_ARM_RELATIVE,
              targetRef := FragmentRef.assign (Fragment.gotEntry pParent.target.got.symMap.length),
              symInfo := 0 }]) ∧
      (¬((pParent.info pReloc.symInfo).isLocal = true ∨
          ((pParent.info pReloc.symInfo).isDyn = false ∧
            (pParent.info pReloc.symInfo).isUndef = false ∧
            pParent.target.isSymbolPreemptible (pParent.info pReloc.symInfo) pLDInfo = false)) →
        pParent1.target.got.getContent pParent.target.got.symMap.length = 0 ∧
        pParent1.target.relDyn.entries = pParent.target.relDyn.entries ++
          [{ Relocation.blank with
              type := R_ARM_GLOB_DAT,
              targetRef := FragmentRef.assign (Fragment.gotEntry pParent.target.got.symMap.length),
              symInfo := pReloc.symInfo }]) := by
  obtain ⟨hidx, hex, _⟩ := fill_getEntry_forGOT_fresh pParent.target.relDyn pReloc.symInfo 0
    ⟨Option.none, 0⟩ 0 hNoRel
  have hrel : ((pParent.info pReloc.symInfo).isLocal ||
      helper_use_relative_reloc (pParent.info pReloc.symInfo) pLDInfo pParent) = true ↔
      ((pParent.info pReloc.symInfo).isLocal = true ∨
          ((pParent.info pReloc.symInfo).isDyn = false ∧
            (pParent.info pReloc.symInfo).isUndef = false ∧
            pParent.target.isSymbolPreemptible (pParent.info pReloc.symInfo) pLDInfo = false)) := by
    unfold helper_use_relative_reloc
    cases (pParent.info pReloc.symInfo).isLocal <;>
    cases (pParent.info pReloc.symInfo).isDyn <;>
    cases (pParent.info pReloc.symInfo).isUndef <;>
    cases pParent.target.isSymbolPreemptible (pParent.info pReloc.symInfo) pLDInfo <;> simp
  cases hc : ((pParent.info pReloc.symInfo).isLocal ||
      helper_use_relative_reloc (pParent.info pReloc.symInfo) pLDInfo pParent)
  · refine ⟨{ pParent with target := { pParent.target with
        got := GOT.setContent
          { pParent.target.got with
            symMap := pParent.target.got.symMap ++
              [(pReloc.symInfo, pParent.target.got.symMap.length)] }
          pParent.target.got.symMap.length 0,
        relDyn := (pParent.target.relDyn.getEntry pReloc.symInfo true).2.2.fill
          (pParent.target.relDyn.getEntry pReloc.symInfo true).1 R_ARM_GLOB_DAT
          (FragmentRef.assign (Fragment.gotEntry pParent.target.got.symMap.length))
          pReloc.symInfo } }, ?_, ?_, ?_⟩
    · simp only [helper_get_GOT_and_init, GOT.getEntry_none _ _ hFirst, Bool.not_false, if_true,
        hGOT, ne_eq, not_true_eq_false, if_false, hRel, not_false_eq_true, hex, cassert,
        Bool.or_true, hc, Bool.false_eq_true]
    · intro h
      rw [← hrel, hc] at h
      exact absurd h (by simp)
    · intro _
      refine ⟨by simp [GOT.getContent, GOT.setContent], ?_⟩
      exact (fill_getEntry_forGOT_fresh _ _ _ _ _ hNoRel).2.2
  · refine ⟨{ pParent with target := { pParent.target with
        got := GOT.setContent
          { pParent.target.got with
            symMap := pParent.target.got.symMap ++
              [(pReloc.symInfo, pParent.target.got.symMap.length)] }
          pParent.target.got.symMap.length pReloc.symValue,
        relDyn := (pParent.target.relDyn.getEntry pReloc.symInfo true).2.2.fill
          (pParent.target.relDyn.getEntry pReloc.symInfo true).1 R_ARM_RELATIVE
          (FragmentRef.assign (Fragment.gotEntry pParent.target.got.symMap.length)) 0 } },
      ?_, ?_, ?_⟩
    · simp only [helper_get_GOT_and_init, GOT.getEntry_none _ _ hFirst, Bool.not_false, if_true,
        hGOT, ne_eq, not_true_eq_false, if_false, hRel, not_false_eq_true, hex, cassert,
        Bool.or_true, hc]
    · intro _
      refine ⟨by simp [GOT.getContent, GOT.setContent], ?_⟩
      exact (fill_getEntry_forGOT_fresh _ _ _ _ _ hNoRel).2.2
    · intro h
      rw [← hrel, hc] at h
      exact absurd rfl h

/-- C11 (amended) on concrete input: a defined, non-dynamic global symbol marked
GOTRel in a link where no symbol is preemptible gets the symbol value and an
`R_ARM_RELATIVE` entry. -/
theorem helper_get_GOT_and_init_first_witness :
    (factoryOf (symOf Binding.Global SymType.Object Desc.Define GOTRel) 0).info
        (relocOf R_ARM_GOT_BREL 0 0 0x8000).symInfo = symOf Binding.Global SymType.Object
          Desc.Define GOTRel ∧
      ∃ pParent1,
        helper_get_GOT_and_init false (relocOf R_ARM_GOT_BREL 0 0 0x8000) ⟨OutputType.Exec⟩
            (factoryOf (symOf Binding.Global SymType.Object Desc.Define GOTRel) 0) =
          Except.ok (0, pParent1) ∧
        pParent1.target.got.getContent 0 = 0x8000 ∧
        pParent1.target.relDyn.entries =
          [⟨R_ARM_RELATIVE, 0, FragmentRef.assign (Fragment.gotEntry 0), 0, 0, 0⟩] := by
  refine ⟨rfl, ?_⟩
  obtain ⟨p, h1, h2, _⟩ := helper_get_GOT_and_init_first false
    (relocOf R_ARM_GOT_BREL 0 0 0x8000) ⟨OutputType.Exec⟩
    (factoryOf (symOf Binding.Global SymType.Object Desc.Define GOTRel) 0)
    (by decide) (by decide) (by decide) (by decide)
  exact ⟨p, h1, h2 (Or.inr ⟨by decide, by decide, by decide⟩)⟩

end ARM

/-- Lookup after appending a pair, for a key that was bound already. -/
theorem lookupSym_append_of_some (m : List (SymPtr × Nat)) (s s' : SymPtr) (i j : Nat)
    (h : lookupSym m s' = some j) : lookupSym (m ++ [(s, i)]) s' = some j := by
  unfold lookupSym at h ⊢
  rw [List.find?_append]
  cases hf : List.find? (fun p => decide (p.1 = s')) m with
  | none => rw [hf] at h; simp at h
  | some x => rw [hf] at h; simpa using h

/-- Lookup after appending a pair, for a key that was not bound. -/
theorem lookupSym_append_of_none (m : List (SymPtr × Nat)) (s s' : SymPtr) (i : Nat)
    (h : lookupSym m s' = Option.none) :
    lookupSym (m ++ [(s, i)]) s' = if s = s' then some i else Option.none := by
  unfold lookupSym at h ⊢
  rw [List.find?_append]
  cases hf : List.find? (fun p => decide (p.1 = s')) m with
  | none =>
    by_cases hs : s = s'
    · simp [hs]
    · simp [hs]
  | some x => rw [hf] at h; simp at h

/-- Filling a slot does not change which symbols have a slot. -/
theorem fill_getEntry_symRelMap (s : OutputRelocSection) (sym : SymPtr) (type : Nat)
    (targetRef : FragmentRef) (symInfo : SymPtr)
    (h : lookupSym s.symRelMap sym = Option.none) :
    ((s.getEntry sym true).2.2.fill (s.getEntry sym true).1 type targetRef symInfo).symRelMap =
      s.symRelMap ++ [(sym, s.entries.length)] := by
  simp [OutputRelocSection.getEntry, OutputRelocSection.fill, OutputRelocSection.setEntry, h]

namespace ARM

/-- The first call of `helper_get_PLT_and_init` for a symbol with ReservePLT, in
a consistent state. -/
theorem helper_get_PLT_and_init_first (ndebug : Bool) (pReloc : Relocation)
    (pParent : ARMRelocationFactory)
    (hFirst : lookupSym pParent.target.plt.pltMap pReloc.symInfo = Option.none)
    (hCons : PLTConsistent pParent)
    (hPLT : (pParent.info pReloc.symInfo).reserved &&& ReservePLT ≠ 0) :
    helper_get_PLT_and_init ndebug pReloc pParent =
      Except.ok (pParent.target.plt.pltMap.length,
        { pParent with target := { pParent.target with
            plt := (PLT.getGOTPLTEntry
              { pParent.target.plt with
                pltMap := pParent.target.plt.pltMap ++
                  [(pReloc.symInfo, pParent.target.plt.pltMap.length)] } pReloc.symInfo).2.2,
            relPLT := (pParent.target.relPLT.getEntry pReloc.symInfo true).2.2.fill
              (pParent.target.relPLT.getEntry pReloc.symInfo true).1 R_ARM_JUMP_SLOT
              (FragmentRef.assign (Fragment.gotpltEntry
                (pParent.target.plt.getGOTPLTEntry pReloc.symInfo).1)) pReloc.symInfo } }) := by
  obtain ⟨_, hex, _⟩ := fill_getEntry_forGOT_fresh pParent.target.relPLT pReloc.symInfo 0
    ⟨Option.none, 0⟩ 0 (hCons _ hFirst)
  have hg : (PLT.getGOTPLTEntry
      { pParent.target.plt with
        pltMap := pParent.target.plt.pltMap ++
          [(pReloc.symInfo, pParent.target.plt.pltMap.length)] } pReloc.symInfo).1 =
      (pParent.target.plt.getGOTPLTEntry pReloc.symInfo).1 := by
    unfold PLT.getGOTPLTEntry
    cases lookupSym pParent.target.plt.gotpltMap pReloc.symInfo <;> rfl
  unfold helper_get_PLT_and_init PLT.getPLTEntry
  simp only [hFirst, Bool.not_false, if_true, hPLT, ne_eq, not_false_eq_true, hex, cassert,
    Bool.or_true, hg]

/-- Taking the GOTPLT slot of a symbol does not change the PLT entries. -/
theorem getGOTPLTEntry_pltMap (p : PLT) (sym : SymPtr) :
    (p.getGOTPLTEntry sym).2.2.pltMap = p.pltMap := by
  unfold PLT.getGOTPLTEntry
  cases lookupSym p.gotpltMap sym <;> rfl

/-- A call of `helper_get_PLT_and_init` for a symbol that has its PLT entry
returns that entry and leaves the factory as it is. -/
theorem helper_get_PLT_and_init_again (ndebug : Bool) (pReloc : Relocation)
    (pParent : ARMRelocationFactory) (i : Nat)
    (h : lookupSym pParent.target.plt.pltMap pReloc.symInfo = some i) :
    helper_get_PLT_and_init ndebug pReloc pParent = Except.ok (i, pParent) := by
  unfold helper_get_PLT_and_init PLT.getPLTEntry
  simp only [h, Bool.not_true, Bool.false_eq_true, if_false]

/-- Calls that each return the entry `i` and leave the factory as it is do so in
sequence. -/
theorem helper_get_PLT_and_init_seq_stable (ndebug : Bool) (rs : List Relocation)
    (pParent : ARMRelocationFactory) (i : Nat)
    (h : ∀ x ∈ rs, helper_get_PLT_and_init ndebug x pParent = Except.ok (i, pParent)) :
    helper_get_PLT_and_init_seq ndebug rs pParent =
      Except.ok (List.replicate rs.length i, pParent) := by
  induction rs with
  | nil => rfl
  | cons x xs ih =>
    have hx := h x (List.mem_cons_self _ _)
    have hxs := ih (fun y hy => h y (List.mem_cons_of_mem _ hy))
    simp only [helper_get_PLT_and_init_seq, hx, hxs, List.length_cons, List.replicate_succ]

/-- C13. For a symbol without a PLT entry yet, in a consistent state of PLT and
`.rel.plt`, and any non-empty sequence of calls of `helper_get_PLT_and_init`
for relocations against that symbol: with ReservePLT, every call returns the
same, new PLT entry; exactly one `.rel.plt` entry is added, of type
`R_ARM_JUMP_SLOT`, with the symbol set and targeting the GOTPLT slot of the
symbol; the state after the whole sequence is the state after the first call
(the later calls change nothing), and it is consistent again. Without
ReservePLT the first call ends with the fatal error. -/
theorem helper_get_PLT_and_init_pairing (ndebug : Bool) (sym : SymPtr) (r : Relocation)
    (rs : List Relocation) (pParent : ARMRelocationFactory)
    (hSym : ∀ x ∈ r :: rs, x.symInfo = sym)
    (hFirst : lookupSym pParent.target.plt.pltMap sym = Option.none)
    (hCons : PLTConsistent pParent) :
    ((pParent.info sym).reserved &&& ReservePLT ≠ 0 →
      ∃ pParent1,
        helper_get_PLT_and_init ndebug r pParent =
          Except.ok (pParent.target.plt.pltMap.length, pParent1) ∧
        helper_get_PLT_and_init_seq ndebug (r :: rs) pParent =
          Except.ok (List.replicate (rs.length + 1) pParent.target.plt.pltMap.length, pParent1) ∧
        pParent1.target.relPLT.entries = pParent.target.relPLT.entries ++
          [{ Relocation.blank with
              type := R_ARM_JUMP_SLOT,
              targetRef := FragmentRef.assign
                (Fragment.gotpltEntry (pParent.target.plt.getGOTPLTEntry sym).1),
              symInfo := sym }] ∧
        lookupSym pParent1.target.plt.gotpltMap sym =
          some (pParent.target.plt.getGOTPLTEntry sym).1 ∧
        PLTConsistent pParent1) ∧
    ((pParent.info sym).reserved &&& ReservePLT = 0 →
      helper_get_PLT_and_init ndebug r pParent =
        Except.error (Abort.fatal "No PLT entry reserved for PLT type relocation!")) := by
  have hr : r.symInfo = sym := hSym r (List.mem_cons_self _ _)
  subst hr
  constructor
  · intro hPLT
    have h1 := helper_get_PLT_and_init_first ndebug r pParent hFirst hCons hPLT
    obtain ⟨p1, hp1⟩ : ∃ p1 : ARMRelocationFactory, p1 =
        { pParent with target := { pParent.target with
            plt := (PLT.getGOTPLTEntry
              { pParent.target.plt with
                pltMap := pParent.target.plt.pltMap ++
                  [(r.symInfo, pParent.target.plt.pltMap.length)] } r.symInfo).2.2,
            relPLT := (pParent.target.relPLT.getEntry r.symInfo true).2.2.fill
              (pParent.target.relPLT.getEntry r.symInfo true).1 R_ARM_JUMP_SLOT
              (FragmentRef.assign (Fragment.gotpltEntry
                (pParent.target.plt.getGOTPLTEntry r.symInfo).1)) r.symInfo } } := ⟨_, rfl⟩
    rw [← hp1] at h1
    have hplt : p1.target.plt.pltMap =
        pParent.target.plt.pltMap ++ [(r.symInfo, pParent.target.plt.pltMap.length)] := by
      rw [hp1]
      exact getGOTPLTEntry_pltMap _ _
    have hrelmap : p1.target.relPLT.symRelMap =
        pParent.target.relPLT.symRelMap ++ [(r.symInfo, pParent.target.relPLT.entries.length)] := by
      rw [hp1]
      exact fill_getEntry_symRelMap _ _ _ _ _ (hCons _ hFirst)
    refine ⟨p1, h1, ?_, ?_, ?_, ?_⟩
    · have hlook : lookupSym p1.target.plt.pltMap r.symInfo =
          some pParent.target.plt.pltMap.length := by
        rw [hplt, lookupSym_append_of_none _ _ _ _ hFirst]
        simp
      have hstable := helper_get_PLT_and_init_seq_stable ndebug rs p1
        pParent.target.plt.pltMap.length (fun x hx => by
          have hxs : x.symInfo = r.symInfo := hSym x (List.mem_cons_of_mem _ hx)
          exact helper_get_PLT_and_init_again ndebug x _ _ (by rw [hxs]; exact hlook))
      simp only [helper_get_PLT_and_init_seq, h1, hstable, List.replicate_succ]
    · rw [hp1]
      exact (fill_getEntry_forGOT_fresh _ _ _ _ _ (hCons _ hFirst)).2.2
    · rw [hp1]
      show lookupSym (PLT.getGOTPLTEntry
              { pParent.target.plt with
                pltMap := pParent.target.plt.pltMap ++
                  [(r.symInfo, pParent.target.plt.pltMap.length)] } r.symInfo).2.2.gotpltMap
          r.symInfo = some (pParent.target.plt.getGOTPLTEntry r.symInfo).1
      unfold PLT.getGOTPLTEntry
      cases hg : lookupSym pParent.target.plt.gotpltMap r.symInfo with
      | some i => simp [hg]
      | none => simp [hg, lookupSym_append_of_none _ _ _ _ hg]
    · intro s hs
      rw [hplt] at hs
      have hs0 : lookupSym pParent.target.plt.pltMap s = Option.none := by
        cases h0 : lookupSym pParent.target.plt.pltMap s with
        | none => rfl
        | some j =>
          rw [lookupSym_append_of_some _ _ _ _ _ h0] at hs
          exact absurd hs (by simp)
      rw [lookupSym_append_of_none _ _ _ _ hs0] at hs
      have hne : ¬(r.symInfo = s) := by
        intro he
        simp [he] at hs
      rw [hrelmap, lookupSym_append_of_none _ _ _ _ (hCons _ hs0)]
      simp [hne]
  · intro hPLT
    unfold helper_get_PLT_and_init PLT.getPLTEntry
    simp only [hFirst, Bool.not_false, if_true, hPLT, ne_eq, not_true_eq_false, if_false]

/-- C13 on concrete input: three calls for a symbol with ReservePLT, from the
empty state, return the entry 0 each time and leave one `R_ARM_JUMP_SLOT`
entry. -/
theorem helper_get_PLT_and_init_pairing_witness :
    lookupSym (factoryOf (symOf Binding.Global SymType.Function Desc.Define ReservePLT)
        0).target.plt.pltMap 1 = Option.none ∧
      ∃ pParent1,
        helper_get_PLT_and_init_seq false
            [relocOf R_ARM_CALL 0 0xEB000000 0, relocOf R_ARM_CALL 0 0xEB000000 0,
              relocOf R_ARM_JUMP24 0 0xEA000000 0]
            (factoryOf (symOf Binding.Global SymType.Function Desc.Define ReservePLT) 0) =
          Except.ok ([0, 0, 0], pParent1) ∧
        pParent1.target.relPLT.entries =
          [⟨R_ARM_JUMP_SLOT, 1, FragmentRef.assign (Fragment.gotpltEntry 0), 0, 0, 0⟩] := by
  refine ⟨by decide, ?_⟩
  obtain ⟨p, _, h2, h3, _⟩ := (helper_get_PLT_and_init_pairing false 1
    (relocOf R_ARM_CALL 0 0xEB000000 0)
    [relocOf R_ARM_CALL 0 0xEB000000 0, relocOf R_ARM_JUMP24 0 0xEA000000 0]
    (factoryOf (symOf Binding.Global SymType.Function Desc.Define ReservePLT) 0)
    (by decide) (by decide) (fun _ _ => rfl)).1 (by decide)
  exact ⟨p, h2, h3⟩

end ARM


/-- A constant below `2 ^ 32` has no bit at position 32 or above. -/
theorem testBit_const_high (c i : Nat) (hc : c < 2 ^ 32) (hi : 32 ≤ i) :
    Nat.testBit c i = false :=
  Nat.testBit_lt_two_pow (lt_of_lt_of_le hc (Nat.pow_le_pow_right (by decide) hi))

namespace ARM

/-- The immediate field of an ARM MOVW/MOVT word after
`helper_insert_val_movw_movt_inst` is the low 16 bits of the value inserted. -/
theorem movw_movt_imm16_insert (t X : Nat) :
    movw_movt_imm16 (helper_insert_val_movw_movt_inst t X) = X &&& 0xFFFF := by
  apply Nat.eq_of_testBit_eq
  intro i
  simp only [movw_movt_imm16, helper_insert_val_movw_movt_inst, Nat.testBit_or,
    Nat.testBit_and, Nat.testBit_shiftRight, Nat.testBit_shiftLeft]
  by_cases hi : i < 32
  · interval_cases i <;> simp [Nat.testBit_to_div_mod]
  · have h32 : 32 ≤ i := by omega
    simp [testBit_const_high 61440 i (by decide) h32, testBit_const_high 4095 i (by decide) h32,
      testBit_const_high 65535 i (by decide) h32]

/-- The immediate field of a Thumb MOVW/MOVT word after
`helper_insert_val_thumb_movw_movt_inst` is the low 16 bits of the value
inserted. -/
theorem thumb_movw_movt_imm16_insert (t X : Nat) :
    thumb_movw_movt_imm16 (helper_insert_val_thumb_movw_movt_inst t X) = X &&& 0xFFFF := by
  apply Nat.eq_of_testBit_eq
  intro i
  simp only [thumb_movw_movt_imm16, helper_insert_val_thumb_movw_movt_inst, Nat.testBit_or,
    Nat.testBit_and, Nat.testBit_shiftRight, Nat.testBit_shiftLeft]
  by_cases hi : i < 32
  · interval_cases i <;> simp [Nat.testBit_to_div_mod]
  · have h32 : 32 ≤ i := by omega
    simp [testBit_const_high 61440 i (by decide) h32, testBit_const_high 2048 i (by decide) h32,
      testBit_const_high 1792 i (by decide) h32, testBit_const_high 255 i (by decide) h32,
      testBit_const_high 65535 i (by decide) h32]

/-- The 16-bit overflow check, in terms of the signed value. -/
theorem overflow16_iff (X : Nat) :
    helper_check_signed_overflow X 16 = false ↔ (-32768 ≤ toInt32 X ∧ toInt32 X ≤ 32767) := by
  rw [helper_check_signed_overflow_eq_false_iff]
  norm_num

/-- Without ReservePLT the applicators keep `S` and `T`. -/
theorem usePLT_none (ndebug : Bool) (pReloc : Relocation) (pParent : ARMRelocationFactory)
    (S T : Nat) (hPLT : (pParent.info pReloc.symInfo).reserved &&& 0x8 = 0) :
    usePLT ndebug pReloc pParent S T = Except.ok (S, T, pParent) := by
  unfold usePLT
  simp [hPLT]

/-- An applicator that returns Overflow when the check fails, and otherwise OK
with a target whose field is `X & 0xFFFF`, has the outcome of an `NC`
applicator. -/
theorem NCOutcome_of (X : Nat) (field : Nat → Nat) (rOv rOk : Relocation)
    (p : ARMRelocationFactory) (hfield : field rOk.target = X &&& 0xFFFF) :
    NCOutcome (if helper_check_signed_overflow X 16 = true then
        Except.ok (Result.Overflow, rOv, p) else Except.ok (Result.OK, rOk, p)) X field := by
  unfold NCOutcome
  cases h : helper_check_signed_overflow X 16
  · have hr := (overflow16_iff X).1 h
    simp only [Bool.false_eq_true, if_false]
    refine ⟨?_, fun _ => ⟨rfl, rOk.target, rfl, hfield⟩⟩
    constructor
    · intro hc
      simp [resultOf] at hc
    · intro hc
      exact absurd hr hc
  · have hr : ¬(-32768 ≤ toInt32 X ∧ toInt32 X ≤ 32767) := by
      intro hc
      rw [(overflow16_iff X).2 hc] at h
      exact absurd h (by simp)
    simp only [if_true]
    exact ⟨⟨fun _ => hr, fun _ => rfl⟩, fun hc => absurd hc hr⟩

end ARM
namespace ARM
/-- C17 (the code at the failing input). Two `R_ARM_PREL31` relocations against
a symbol with value 0 and no PLT, addend 0, whose initial targets `0x80000000`
and `0x00000000` differ in bit 31 only: the low 31 bits of the initial target
are 0, so `X = 0` is within the 31-bit signed range; `prel31` stores the same
low 31 bits and keeps bit 31 in both, but returns Overflow for the first and OK
for the second, because `helper_sign_extend(target, 31)` takes bit 31 of the
target into `A`. -/
theorem prel31_status_depends_on_bit31 :
    resultOf (prel31 false (relocOf R_ARM_PREL31 0 0x80000000 0) ⟨OutputType.Exec⟩
        (factoryOf (symOf Binding.Global SymType.Object Desc.Define 0) 0)) =
        some Result.Overflow ∧
      targetOf (prel31 false (relocOf R_ARM_PREL31 0 0x80000000 0) ⟨OutputType.Exec⟩
        (factoryOf (symOf Binding.Global SymType.Object Desc.Define 0) 0)) = some 0x80000000 ∧
      resultOf (prel31 false (relocOf R_ARM_PREL31 0 0x00000000 0) ⟨OutputType.Exec⟩
        (factoryOf (symOf Binding.Global SymType.Object Desc.Define 0) 0)) = some Result.OK ∧
      targetOf (prel31 false (relocOf R_ARM_PREL31 0 0x00000000 0) ⟨OutputType.Exec⟩
        (factoryOf (symOf Binding.Global SymType.Object Desc.Define 0) 0)) = some 0 ∧
      helper_sign_extend 0x80000000 31 = 0x80000000 ∧
      helper_sign_extend (0x80000000 &&& 0x7fffffff) 31 = 0 := by
  refine ⟨by decide, by decide, by decide, by decide, by decide, by decide⟩

end ARM

namespace Mips

/-- What `scanLocalReloc` does with the types of the dynamic output: nothing. -/
theorem scanLocalReloc_dynamic_only (b : MipsGNULDBackend) (info : Symbols)
    (pReloc : Relocation) (hType : pReloc.type ∈ dynamicOnlyTypes) :
    scanLocalReloc b info pReloc = Except.ok (b, info) := by
  simp only [dynamicOnlyTypes, List.mem_cons, List.mem_singleton, List.not_mem_nil,
    or_false] at hType
  unfold scanLocalReloc
  rcases hType with h | h | h <;> simp +decide [h]

/-- What `scanGlobalReloc` does with the types of the dynamic output: the fatal
`dynamic_relocation`. -/
theorem scanGlobalReloc_dynamic_only (b : MipsGNULDBackend) (info : Symbols)
    (pReloc : Relocation) (hType : pReloc.type ∈ dynamicOnlyTypes) :
    scanGlobalReloc b info pReloc = Except.error (Abort.fatal "dynamic_relocation") := by
  simp only [dynamicOnlyTypes, List.mem_cons, List.mem_singleton, List.not_mem_nil,
    or_false] at hType
  unfold scanGlobalReloc
  rcases hType with h | h | h <;> simp +decide [h]

/-- The step `setReserved` changes the reserved flags only. -/
theorem setReserved_same (info : Symbols) (rsym : SymPtr) (v : Nat) (s : SymPtr) :
    ({ setReserved info rsym v s with reserved := 0 } : ResolveInfo) =
      { info s with reserved := 0 } := by
  unfold setReserved
  by_cases h : s = rsym
  · simp [h]
  · simp [h]

/-- The scan of a relocation against a local symbol changes the reserved flags
of symbols only, and its fatal is `unknown_relocation`. -/
theorem scanLocalReloc_same (b : MipsGNULDBackend) (info : Symbols) (pReloc : Relocation) :
    (∀ b1 info1, scanLocalReloc b info pReloc = Except.ok (b1, info1) →
      ∀ s, ({ info1 s with reserved := 0 } : ResolveInfo) = { info s with reserved := 0 }) ∧
    (∀ e, scanLocalReloc b info pReloc = Except.error e →
      e = Abort.fatal "unknown_relocation") := by
  constructor
  · intro b1 info1 h s
    simp only [scanLocalReloc] at h
    split_ifs at h <;> simp only [Except.ok.injEq, Prod.mk.injEq, reduceCtorEq] at h <;>
      obtain ⟨_, rfl⟩ := h <;> first | rfl | exact setReserved_same _ _ _ _
  · intro e h
    simp only [scanLocalReloc] at h
    split_ifs at h
    simp only [Except.error.injEq, reduceCtorEq] at h
    exact h.symm

/-- The scan of a relocation against a global symbol changes the reserved flags
of symbols only, and its fatal is never `undefined_reference`. -/
theorem scanGlobalReloc_same (b : MipsGNULDBackend) (info : Symbols) (pReloc : Relocation) :
    (∀ b1 info1, scanGlobalReloc b info pReloc = Except.ok (b1, info1) →
      ∀ s, ({ info1 s with reserved := 0 } : ResolveInfo) = { info s with reserved := 0 }) ∧
    (∀ e, scanGlobalReloc b info pReloc = Except.error e →
      e ≠ Abort.fatal "undefined_reference") := by
  constructor
  · intro b1 info1 h s
    simp only [scanGlobalReloc] at h
    split_ifs at h <;> simp only [Except.ok.injEq, Prod.mk.injEq, reduceCtorEq] at h <;>
      obtain ⟨_, rfl⟩ := h <;> first | rfl | exact setReserved_same _ _ _ _
  · intro e h
    simp only [scanGlobalReloc] at h
    split_ifs at h <;> simp only [Except.error.injEq, reduceCtorEq] at h <;> subst h <;> decide

/-- The run of `scanRelocation` for a relocation with a symbol other than
`_gp_disp`, in an allocated section. -/
theorem scanRelocation_alloc (ndebug : Bool) (b : MipsGNULDBackend) (info : Symbols)
    (pReloc : Relocation) (pSection : LDSection)
    (hSym : pReloc.symInfo ≠ 0) (hGp : b.m_pGpDispSymbol ≠ some pReloc.symInfo)
    (hAlloc : pSection.flag &&& SHF_ALLOC ≠ 0) :
    scanRelocation ndebug b info pReloc pSection =
      match (if routedLocal b (info pReloc.symInfo) = true then
          scanLocalReloc b info { pReloc with addend := b.updateAddend pReloc }
        else scanGlobalReloc b info { pReloc with addend := b.updateAddend pReloc }) with
      | Except.error e => Except.error e
      | Except.ok (b1, info1) =>
        if ((info1 pReloc.symInfo).isUndef && !(info1 pReloc.symInfo).isDyn &&
            !(info1 pReloc.symInfo).isWeak) = true then
          Except.error (Abort.fatal "undefined_reference")
        else if (info1 pReloc.symInfo).reserved &&& b1.ReserveRel ≠ 0 then
          Except.ok ({ b1 with
            m_bHasTextRel := b1.checkAndSetHasTextRel pSection b1.m_bHasTextRel }, info1,
            { pReloc with addend := b.updateAddend pReloc })
        else Except.ok (b1, info1, { pReloc with addend := b.updateAddend pReloc }) := by
  unfold scanRelocation cassert routedLocal
  simp only [hSym, ne_eq, not_false_eq_true, decide_True, Bool.or_true, if_true, hGp, if_false,
    hAlloc]
  try rfl


/-- C19 (the code on the types of the dynamic output). For a relocation of type
`R_MIPS_COPY`, `R_MIPS_GLOB_DAT` or `R_MIPS_JUMP_SLOT` in an allocated section,
against a symbol other than `_gp_disp`: when `scanRelocation` takes the symbol
to `scanGlobalReloc` it ends with the fatal `dynamic_relocation`, but when it
takes the symbol to `scanLocalReloc` (a defined symbol that is local, or not
dynamic) it returns without any diagnostic. Such are the three types against
a defined local symbol. -/
theorem scanRelocation_dynamic_only_types :
    (∀ (ndebug : Bool) (b : MipsGNULDBackend) (info : Symbols) (pReloc : Relocation)
        (pSection : LDSection),
        pReloc.symInfo ≠ 0 → b.m_pGpDispSymbol ≠ some pReloc.symInfo →
        pSection.flag &&& SHF_ALLOC ≠ 0 → pReloc.type ∈ dynamicOnlyTypes →
        (routedLocal b (info pReloc.symInfo) = true →
          abortOf (scanRelocation ndebug b info pReloc pSection) = Option.none) ∧
        (routedLocal b (info pReloc.symInfo) = false →
          scanRelocation ndebug b info pReloc pSection =
            Except.error (Abort.fatal "dynamic_relocation"))) ∧
    abortOf (scanRelocation false emptyBackend
      (fun _ => symOf Binding.Local SymType.Object Desc.Define 0)
      (relocOf R_MIPS_COPY 0 0 0) allocSection) = Option.none ∧
    abortOf (scanRelocation false emptyBackend
      (fun _ => symOf Binding.Local SymType.Object Desc.Define 0)
      (relocOf R_MIPS_GLOB_DAT 0 0 0) allocSection) = Option.none ∧
    abortOf (scanRelocation false emptyBackend
      (fun _ => symOf Binding.Local SymType.Object Desc.Define 0)
      (relocOf R_MIPS_JUMP_SLOT 0 0 0) allocSection) = Option.none ∧
    abortOf (scanRelocation false emptyBackend
      (fun _ => symOf Binding.Weak SymType.Object Desc.Undefined 0)
      (relocOf R_MIPS_COPY 0 0 0) allocSection) = some (Abort.fatal "dynamic_relocation") := by
  refine ⟨?_, by decide, by decide, by decide, by decide⟩
  intro ndebug b info pReloc pSection hSym hGp hAlloc hType
  have hType1 : ({ pReloc with addend := b.updateAddend pReloc } : Relocation).type ∈
      dynamicOnlyTypes := hType
  constructor
  · intro hrl
    have hU : (info pReloc.symInfo).isUndef = false := by
      unfold routedLocal at hrl
      simp only [Bool.and_eq_true, Bool.not_eq_true'] at hrl
      exact hrl.2
    rw [scanRelocation_alloc ndebug b info pReloc pSection hSym hGp hAlloc]
    simp only [hrl, if_true, scanLocalReloc_dynamic_only b info _ hType1, hU, Bool.false_and,
      Bool.false_eq_true, if_false]
    split_ifs <;> rfl
  · intro hrl
    rw [scanRelocation_alloc ndebug b info pReloc pSection hSym hGp hAlloc]
    simp only [hrl, Bool.false_eq_true, if_false, scanGlobalReloc_dynamic_only b info _ hType1]

/-- A relocation against a weak symbol never makes `scanRelocation` end with
the fatal `undefined_reference`. -/
theorem scanRelocation_weak (ndebug : Bool) (b : MipsGNULDBackend) (info : Symbols)
    (pReloc : Relocation) (pSection : LDSection)
    (hWeak : (info pReloc.symInfo).isWeak = true) :
    abortOf (scanRelocation ndebug b info pReloc pSection) ≠
      some (Abort.fatal "undefined_reference") := by
  have hkeep : ∀ info1 : Symbols,
      (∀ s, ({ info1 s with reserved := 0 } : ResolveInfo) = { info s with reserved := 0 }) →
      (info1 pReloc.symInfo).isWeak = true := by
    intro info1 h
    have hb := congrArg ResolveInfo.binding (h pReloc.symInfo)
    simp only at hb
    unfold ResolveInfo.isWeak at hWeak ⊢
    rw [hb]
    exact hWeak
  unfold scanRelocation
  cases hc : cassert ndebug (decide (pReloc.symInfo ≠ 0))
      "ResolveInfo of relocation not set while scanRelocation" with
  | error e =>
    unfold cassert at hc
    split_ifs at hc
    simp only [Except.error.injEq] at hc
    subst hc
    simp [abortOf]
  | ok u =>
    simp only
    split_ifs with h1 h2 h3 h4
    · simp [abortOf]
    · simp [abortOf]
    · simp [abortOf]
    · cases hs : scanLocalReloc b info { pReloc with addend := b.updateAddend pReloc } with
      | error e =>
        rw [(scanLocalReloc_same b info _).2 e hs]
        simp [abortOf]
      | ok x =>
        obtain ⟨b1, info1⟩ := x
        have hw := hkeep info1 ((scanLocalReloc_same b info _).1 b1 info1 hs)
        simp only [hw, Bool.not_true, Bool.and_false, Bool.false_eq_true, if_false]
        split_ifs <;> simp [abortOf]
    · cases hs : scanGlobalReloc b info { pReloc with addend := b.updateAddend pReloc } with
      | error e =>
        have hne := (scanGlobalReloc_same b info _).2 e hs
        simp only [abortOf, ne_eq, Option.some.injEq]
        exact hne
      | ok x =>
        obtain ⟨b1, info1⟩ := x
        have hw := hkeep info1 ((scanGlobalReloc_same b info _).1 b1 info1 hs)
        simp only [hw, Bool.not_true, Bool.and_false, Bool.false_eq_true, if_false]
        split_ifs <;> simp [abortOf]


/-- C20 (counterexample). An `R_MIPS_32` relocation against an undefined global
symbol (not weak, not from a DynObj) in a section without `SHF_ALLOC`:
`scanRelocation` returns without a fatal. -/
theorem scanRelocation_undefined_nonalloc_counterexample :
    (symOf Binding.Global SymType.NoType Desc.Undefined 0).isUndef = true ∧
      (symOf Binding.Global SymType.NoType Desc.Undefined 0).isWeak = false ∧
      (symOf Binding.Global SymType.NoType Desc.Undefined 0).isDyn = false ∧
      abortOf (scanRelocation false emptyBackend
        (fun _ => symOf Binding.Global SymType.NoType Desc.Undefined 0)
        (relocOf R_MIPS_32 0 0 0) ⟨0⟩) = Option.none := by
  refine ⟨by decide, by decide, by decide, by decide⟩

end Mips

/-- Setting a non-zero flag makes it read as set. -/
theorem or_and_self_ne_zero (r g : Nat) (hg : g ≠ 0) : (r ||| g) &&& g ≠ 0 := by
  have h : (r ||| g) &&& g = g := by
    apply Nat.eq_of_testBit_eq
    intro i
    simp only [Nat.testBit_and, Nat.testBit_or]
    cases Nat.testBit r i <;> cases Nat.testBit g i <;> rfl
  rw [h]
  exact hg

/-- Setting further flags keeps a flag that is set. -/
theorem or_and_ne_zero (r x g : Nat) (h : r &&& g ≠ 0) : (r ||| x) &&& g ≠ 0 := by
  intro h0
  apply h
  apply Nat.eq_of_testBit_eq
  intro i
  have hi := congrArg (fun n => Nat.testBit n i) h0
  simp only [Nat.testBit_and, Nat.testBit_or, Nat.zero_testBit] at hi ⊢
  cases hr : Nat.testBit r i <;> cases hg : Nat.testBit g i <;> simp [hr, hg] at hi ⊢

namespace Mips

/-- The step `setReserved` on the symbol itself. -/
theorem setReserved_self (info : Symbols) (p : SymPtr) (v : Nat) :
    setReserved info p v p = { info p with reserved := v } := by
  simp [setReserved]

/-- The step `setReserved` on another symbol. -/
theorem setReserved_other (info : Symbols) (p s : SymPtr) (v : Nat) (h : s ≠ p) :
    setReserved info p v s = info s := by
  simp [setReserved, h]

/-- The step `setReserved` keeps the type of every symbol. -/
theorem setReserved_type (info : Symbols) (p s : SymPtr) (v : Nat) :
    (setReserved info p v s).type = (info s).type := by
  by_cases h : s = p
  · subst h
    rw [setReserved_self]
  · rw [setReserved_other _ _ _ _ h]

/-- Setting further flags of a symbol keeps the flag `g` of every symbol. -/
theorem setReserved_keeps (info : Symbols) (p s : SymPtr) (x g : Nat)
    (h : (info s).reserved &&& g ≠ 0) :
    (setReserved info p ((info p).reserved ||| x) s).reserved &&& g ≠ 0 := by
  by_cases hs : s = p
  · subst hs
    rw [setReserved_self]
    exact or_and_ne_zero _ _ _ h
  · rw [setReserved_other _ _ _ _ hs]
    exact h

/-- The invariant survives the setting of further flags of a symbol. -/
theorem ScanInv_setReserved (g : Nat) (log syms : List SymPtr) (nl ng : Nat) (info : Symbols)
    (p : SymPtr) (x : Nat) (h : ScanInv g log syms nl ng info) :
    ScanInv g log syms nl ng (setReserved info p ((info p).reserved ||| x)) := by
  obtain ⟨h1, h2, h3, h4, h5, h6⟩ := h
  refine ⟨?_, ?_, ?_, h4, h5, h6⟩
  · intro s hs ht
    rw [setReserved_type] at ht
    exact setReserved_keeps _ _ _ _ _ (h1 s hs ht)
  · intro s ht
    rw [setReserved_type] at ht
    exact h2 s ht
  · intro s hs
    exact setReserved_keeps _ _ _ _ _ (h3 s hs)

/-- The invariant survives the reservation of a local entry for a Section symbol. -/
theorem ScanInv_section (g : Nat) (log syms : List SymPtr) (nl ng : Nat) (info : Symbols)
    (p : SymPtr) (hp : (info p).type = SymType.Section) (h : ScanInv g log syms nl ng info) :
    ScanInv g (log ++ [p]) syms (nl + 1) ng info := by
  obtain ⟨h1, h2, h3, h4, h5, h6⟩ := h
  refine ⟨?_, ?_, h3, h4, h5, ?_⟩
  · intro s hs ht
    rw [List.mem_append, List.mem_singleton] at hs
    rcases hs with hs | hs
    · exact h1 s hs ht
    · subst hs
      exact absurd hp ht
  · intro s ht
    have hne : p ≠ s := by
      intro he
      subst he
      exact ht hp
    rw [List.count_append, List.count_singleton]
    have := h2 s ht
    simp [hne]
    exact this
  · rw [List.length_append, List.length_singleton, h6]
    omega

/-- The invariant survives the reservation of an entry for a symbol without the
flag, which then gets the flag; `isGlobal` tells the kind of the entry. -/
theorem ScanInv_reserve (g : Nat) (log syms : List SymPtr) (nl ng : Nat) (info : Symbols)
    (p : SymPtr) (hg : g ≠ 0) (hp : (info p).reserved &&& g = 0)
    (h : ScanInv g log syms nl ng info) :
    ScanInv g (log ++ [p]) syms (nl + 1) ng (setReserved info p ((info p).reserved ||| g)) ∧
    ScanInv g (log ++ [p]) (syms ++ [p]) nl (ng + 1)
      (setReserved info p ((info p).reserved ||| g)) := by
  obtain ⟨h1, h2, h3, h4, h5, h6⟩ := h
  have hflag : (setReserved info p ((info p).reserved ||| g) p).reserved &&& g ≠ 0 := by
    rw [setReserved_self]
    exact or_and_self_ne_zero _ _ hg
  have hI1 : ∀ s ∈ log ++ [p], (setReserved info p ((info p).reserved ||| g) s).type ≠
      SymType.Section → (setReserved info p ((info p).reserved ||| g) s).reserved &&& g ≠ 0 := by
    intro s hs ht
    rw [List.mem_append, List.mem_singleton] at hs
    rcases hs with hs | hs
    · rw [setReserved_type] at ht
      exact setReserved_keeps _ _ _ _ _ (h1 s hs ht)
    · subst hs
      exact hflag
  have hI2 : ∀ s, (setReserved info p ((info p).reserved ||| g) s).type ≠ SymType.Section →
      (log ++ [p]).count s ≤ 1 := by
    intro s ht
    rw [setReserved_type] at ht
    rw [List.count_append, List.count_singleton]
    by_cases hs : p = s
    · subst hs
      have hnot : p ∉ log := fun hm => h1 p hm ht hp
      rw [List.count_eq_zero_of_not_mem hnot]
      simp
    · have := h2 s ht
      simp [hs]
      exact this
  have hI3 : ∀ s ∈ syms, (setReserved info p ((info p).reserved ||| g) s).reserved &&& g ≠ 0 :=
    fun s hs => setReserved_keeps _ _ _ _ _ (h3 s hs)
  refine ⟨⟨hI1, hI2, hI3, h4, h5, ?_⟩, ⟨hI1, hI2, ?_, ?_, ?_, ?_⟩⟩
  · rw [List.length_append, List.length_singleton, h6]
    omega
  · intro s hs
    rw [List.mem_append, List.mem_singleton] at hs
    rcases hs with hs | hs
    · exact hI3 s hs
    · subst hs
      exact hflag
  · rw [List.nodup_append]
    refine ⟨h4, List.nodup_singleton _, ?_⟩
    intro a ha hb
    rw [List.mem_singleton] at hb
    subst hb
    exact h3 a ha hp
  · rw [List.length_append, List.length_singleton, h5]
  · rw [List.length_append, List.length_singleton, h6]
    omega

end Mips
namespace Mips

/-- `scanLocalReloc` keeps the invariant of the scan. -/
theorem scanLocalReloc_inv (b : MipsGNULDBackend) (info : Symbols) (pReloc : Relocation)
    (b1 : MipsGNULDBackend) (info1 : Symbols) (hg : b.ReserveGot ≠ 0)
    (h : BackendInv b info) (hs : scanLocalReloc b info pReloc = Except.ok (b1, info1)) :
    BackendInv b1 info1 ∧ b1.ReserveGot = b.ReserveGot := by
  simp only [scanLocalReloc] at hs
  unfold BackendInv at h ⊢
  split_ifs at hs with c1 c2 c3 c4 c5 c6 <;>
    simp only [Except.ok.injEq, Prod.mk.injEq, reduceCtorEq] at hs <;>
    obtain ⟨rfl, rfl⟩ := hs <;> refine ⟨?_, rfl⟩
  · exact ScanInv_setReserved _ _ _ _ _ _ _ _ h
  · exact h
  · exact ScanInv_section _ _ _ _ _ _ _ c4 h
  · exact (ScanInv_reserve _ _ _ _ _ _ _ hg c5 h).1
  · exact h
  · exact h

/-- `scanGlobalReloc` keeps the invariant of the scan. -/
theorem scanGlobalReloc_inv (b : MipsGNULDBackend) (info : Symbols) (pReloc : Relocation)
    (b1 : MipsGNULDBackend) (info1 : Symbols) (hg : b.ReserveGot ≠ 0)
    (h : BackendInv b info) (hs : scanGlobalReloc b info pReloc = Except.ok (b1, info1)) :
    BackendInv b1 info1 ∧ b1.ReserveGot = b.ReserveGot := by
  simp only [scanGlobalReloc] at hs
  unfold BackendInv at h ⊢
  split_ifs at hs with c1 c2 c3 c4 c5 c6 c7 <;>
    simp only [Except.ok.injEq, Prod.mk.injEq, reduceCtorEq] at hs <;>
    obtain ⟨rfl, rfl⟩ := hs <;> refine ⟨?_, rfl⟩
  · exact h
  · exact ScanInv_setReserved _ _ _ _ _ _ _ _ h
  · exact h
  · exact (ScanInv_reserve _ _ _ _ _ _ _ hg c5 h).2
  · exact h

end Mips
namespace Mips

/-- `scanRelocation` keeps the invariant of the scan. -/
theorem scanRelocation_inv (ndebug : Bool) (b : MipsGNULDBackend) (info : Symbols)
    (pReloc : Relocation) (pSection : LDSection) (b1 : MipsGNULDBackend) (info1 : Symbols)
    (r1 : Relocation) (hg : b.ReserveGot ≠ 0) (h : BackendInv b info)
    (hs : scanRelocation ndebug b info pReloc pSection = Except.ok (b1, info1, r1)) :
    BackendInv b1 info1 ∧ b1.ReserveGot = b.ReserveGot := by
  unfold scanRelocation at hs
  cases hc : cassert ndebug (decide (pReloc.symInfo ≠ 0))
      "ResolveInfo of relocation not set while scanRelocation" with
  | error e =>
    rw [hc] at hs
    simp only [reduceCtorEq] at hs
  | ok u =>
    rw [hc] at hs
    simp only at hs
    split_ifs at hs with c1 c2 c3 c4
    · simp only [Except.ok.injEq, Prod.mk.injEq] at hs
      obtain ⟨rfl, rfl, _⟩ := hs
      exact ⟨h, rfl⟩
    · simp only [Except.ok.injEq, Prod.mk.injEq] at hs
      obtain ⟨rfl, rfl, _⟩ := hs
      exact ⟨h, rfl⟩
    · cases hl : scanLocalReloc b info { pReloc with addend := b.updateAddend pReloc } with
      | error e =>
        rw [hl] at hs
        simp only [reduceCtorEq] at hs
      | ok x =>
        obtain ⟨b2, info2⟩ := x
        have hi := scanLocalReloc_inv b info _ b2 info2 hg h hl
        rw [hl] at hs
        simp only at hs
        split_ifs at hs <;> simp only [Except.ok.injEq, Prod.mk.injEq, reduceCtorEq] at hs <;>
          obtain ⟨rfl, rfl, _⟩ := hs <;> exact hi
    · cases hl : scanGlobalReloc b info { pReloc with addend := b.updateAddend pReloc } with
      | error e =>
        rw [hl] at hs
        simp only [reduceCtorEq] at hs
      | ok x =>
        obtain ⟨b2, info2⟩ := x
        have hi := scanGlobalReloc_inv b info _ b2 info2 hg h hl
        rw [hl] at hs
        simp only at hs
        split_ifs at hs <;> simp only [Except.ok.injEq, Prod.mk.injEq, reduceCtorEq] at hs <;>
          obtain ⟨rfl, rfl, _⟩ := hs <;> exact hi

/-- The scan of a list of relocations keeps the invariant of the scan. -/
theorem scanRelocations_inv (ndebug : Bool) (rs : List (Relocation × LDSection))
    (b : MipsGNULDBackend) (info : Symbols) (b1 : MipsGNULDBackend) (info1 : Symbols)
    (hg : b.ReserveGot ≠ 0) (h : BackendInv b info)
    (hs : scanRelocations ndebug b info rs = Except.ok (b1, info1)) :
    BackendInv b1 info1 := by
  induction rs generalizing b info with
  | nil =>
    simp only [scanRelocations, Except.ok.injEq, Prod.mk.injEq] at hs
    obtain ⟨rfl, rfl⟩ := hs
    exact h
  | cons x xs ih =>
    obtain ⟨pReloc, pSection⟩ := x
    simp only [scanRelocations] at hs
    cases hx : scanRelocation ndebug b info pReloc pSection with
    | error e =>
      rw [hx] at hs
      simp only [reduceCtorEq] at hs
    | ok y =>
      obtain ⟨b2, info2, r2⟩ := y
      rw [hx] at hs
      have hi := scanRelocation_inv ndebug b info pReloc pSection b2 info2 r2 hg h hx
      exact ih b2 info2 (by rw [hi.2]; exact hg) hi.1 hs

/-- The invariant of the scan holds before any reservation. -/
theorem BackendInv_initial (b : MipsGNULDBackend) (info : Symbols)
    (hLog : b.gotReservedFor = []) (hSyms : b.m_GlobalGOTSyms = [])
    (hLocal : b.gotLocalEntries = 0) (hGlobal : b.gotGlobalEntries = 0) :
    BackendInv b info := by
  unfold BackendInv ScanInv
  rw [hLog, hSyms, hLocal, hGlobal]
  simp

end Mips

namespace Mips

/-- `scanLocalReloc` leaves the type of every symbol as it is. -/
theorem scanLocalReloc_type (b : MipsGNULDBackend) (info : Symbols) (pReloc : Relocation)
    (b1 : MipsGNULDBackend) (info1 : Symbols)
    (hs : scanLocalReloc b info pReloc = Except.ok (b1, info1)) (s : SymPtr) :
    (info1 s).type = (info s).type := by
  simp only [scanLocalReloc] at hs
  split_ifs at hs <;>
    simp only [Except.ok.injEq, Prod.mk.injEq, reduceCtorEq] at hs <;>
    obtain ⟨_, rfl⟩ := hs <;> first | rfl | exact setReserved_type _ _ _ _

/-- `scanGlobalReloc` leaves the type of every symbol as it is. -/
theorem scanGlobalReloc_type (b : MipsGNULDBackend) (info : Symbols) (pReloc : Relocation)
    (b1 : MipsGNULDBackend) (info1 : Symbols)
    (hs : scanGlobalReloc b info pReloc = Except.ok (b1, info1)) (s : SymPtr) :
    (info1 s).type = (info s).type := by
  simp only [scanGlobalReloc] at hs
  split_ifs at hs <;>
    simp only [Except.ok.injEq, Prod.mk.injEq, reduceCtorEq] at hs <;>
    obtain ⟨_, rfl⟩ := hs <;> first | rfl | exact setReserved_type _ _ _ _

/-- `scanRelocation` leaves the type of every symbol as it is. -/
theorem scanRelocation_type (ndebug : Bool) (b : MipsGNULDBackend) (info : Symbols)
    (pReloc : Relocation) (pSection : LDSection) (b1 : MipsGNULDBackend) (info1 : Symbols)
    (r1 : Relocation)
    (hs : scanRelocation ndebug b info pReloc pSection = Except.ok (b1, info1, r1))
    (s : SymPtr) : (info1 s).type = (info s).type := by
  unfold scanRelocation at hs
  cases hc : cassert ndebug (decide (pReloc.symInfo ≠ 0))
      "ResolveInfo of relocation not set while scanRelocation" with
  | error e =>
    rw [hc] at hs
    simp only [reduceCtorEq] at hs
  | ok u =>
    rw [hc] at hs
    simp only at hs
    split_ifs at hs with c1 c2 c3 c4
    · simp only [Except.ok.injEq, Prod.mk.injEq] at hs
      obtain ⟨_, rfl, _⟩ := hs
      rfl
    · simp only [Except.ok.injEq, Prod.mk.injEq] at hs
      obtain ⟨_, rfl, _⟩ := hs
      rfl
    · cases hl : scanLocalReloc b info { pReloc with addend := b.updateAddend pReloc } with
      | error e =>
        rw [hl] at hs
        simp only [reduceCtorEq] at hs
      | ok x =>
        obtain ⟨b2, info2⟩ := x
        have hi := scanLocalReloc_type b info _ b2 info2 hl s
        rw [hl] at hs
        simp only at hs
        split_ifs at hs <;> simp only [Except.ok.injEq, Prod.mk.injEq, reduceCtorEq] at hs <;>
          obtain ⟨_, rfl, _⟩ := hs <;> exact hi
    · cases hl : scanGlobalReloc b info { pReloc with addend := b.updateAddend pReloc } with
      | error e =>
        rw [hl] at hs
        simp only [reduceCtorEq] at hs
      | ok x =>
        obtain ⟨b2, info2⟩ := x
        have hi := scanGlobalReloc_type b info _ b2 info2 hl s
        rw [hl] at hs
        simp only at hs
        split_ifs at hs <;> simp only [Except.ok.injEq, Prod.mk.injEq, reduceCtorEq] at hs <;>
          obtain ⟨_, rfl, _⟩ := hs <;> exact hi

/-- The scan of a list of relocations leaves the type of every symbol as it is. -/
theorem scanRelocations_type (ndebug : Bool) (rs : List (Relocation × LDSection))
    (b : MipsGNULDBackend) (info : Symbols) (b1 : MipsGNULDBackend) (info1 : Symbols)
    (hs : scanRelocations ndebug b info rs = Except.ok (b1, info1)) (s : SymPtr) :
    (info1 s).type = (info s).type := by
  induction rs generalizing b info with
  | nil =>
    simp only [scanRelocations, Except.ok.injEq, Prod.mk.injEq] at hs
    obtain ⟨_, rfl⟩ := hs
    rfl
  | cons x xs ih =>
    obtain ⟨pReloc, pSection⟩ := x
    simp only [scanRelocations] at hs
    cases hx : scanRelocation ndebug b info pReloc pSection with
    | error e =>
      rw [hx] at hs
      simp only [reduceCtorEq] at hs
    | ok y =>
      obtain ⟨b2, info2, r2⟩ := y
      rw [hx] at hs
      rw [ih b2 info2 hs]
      exact scanRelocation_type ndebug b info pReloc pSection b2 info2 r2 hx s

/-- A relocation of a type that reserves a global GOT entry, against a symbol
without the flag `ReserveGot`: `scanGlobalReloc` reserves the entry. -/
theorem scanGlobalReloc_got_fresh (b : MipsGNULDBackend) (info : Symbols) (pReloc : Relocation)
    (hType : pReloc.type ∈ globalGOTTypes)
    (hFlag : (info pReloc.symInfo).reserved &&& b.ReserveGot = 0) :
    scanGlobalReloc b info pReloc =
      Except.ok ({ b with gotGlobalEntries := b.gotGlobalEntries + 1,
                          gotReservedFor := b.gotReservedFor ++ [pReloc.symInfo],
                          m_GlobalGOTSyms := b.m_GlobalGOTSyms ++ [pReloc.symInfo],
                          got := setGlobal b.got pReloc.symInfo },
        setReserved info pReloc.symInfo ((info pReloc.symInfo).reserved ||| b.ReserveGot)) := by
  have h1 : pReloc.type ∉ globalBreakTypes := by
    simp only [globalGOTTypes, List.mem_cons, List.mem_singleton, List.not_mem_nil,
      or_false] at hType
    rcases hType with h | h | h | h | h | h | h | h | h <;> rw [h] <;> decide
  have h2 : pReloc.type ∉ globalDynRelTypes := by
    simp only [globalGOTTypes, List.mem_cons, List.mem_singleton, List.not_mem_nil,
      or_false] at hType
    rcases hType with h | h | h | h | h | h | h | h | h <;> rw [h] <;> decide
  simp only [scanGlobalReloc, h1, h2, hType, hFlag, if_true, if_false]

/-- A relocation of a type that reserves a global GOT entry, against a symbol
with the flag `ReserveGot`: `scanGlobalReloc` changes nothing. -/
theorem scanGlobalReloc_got_again (b : MipsGNULDBackend) (info : Symbols) (pReloc : Relocation)
    (hType : pReloc.type ∈ globalGOTTypes)
    (hFlag : (info pReloc.symInfo).reserved &&& b.ReserveGot ≠ 0) :
    scanGlobalReloc b info pReloc = Except.ok (b, info) := by
  have h1 : pReloc.type ∉ globalBreakTypes := by
    simp only [globalGOTTypes, List.mem_cons, List.mem_singleton, List.not_mem_nil,
      or_false] at hType
    rcases hType with h | h | h | h | h | h | h | h | h <;> rw [h] <;> decide
  have h2 : pReloc.type ∉ globalDynRelTypes := by
    simp only [globalGOTTypes, List.mem_cons, List.mem_singleton, List.not_mem_nil,
      or_false] at hType
    rcases hType with h | h | h | h | h | h | h | h | h <;> rw [h] <;> decide
  simp only [scanGlobalReloc, h1, h2, hType, hFlag, if_true, if_false]

/-- Relocations of the types that reserve a global GOT entry, all against one
symbol with the flag `ReserveGot`: `scanGlobalRelocs` changes nothing. -/
theorem scanGlobalRelocs_got_again (rs : List Relocation) (b : MipsGNULDBackend)
    (info : Symbols) (s : SymPtr)
    (hAll : ∀ x ∈ rs, x.type ∈ globalGOTTypes ∧ x.symInfo = s)
    (hFlag : (info s).reserved &&& b.ReserveGot ≠ 0) :
    scanGlobalRelocs b info rs = Except.ok (b, info) := by
  induction rs with
  | nil => rfl
  | cons x xs ih =>
    have hx := hAll x (List.mem_cons_self x xs)
    have hF : (info x.symInfo).reserved &&& b.ReserveGot ≠ 0 := by
      rw [hx.2]
      exact hFlag
    simp only [scanGlobalRelocs, scanGlobalReloc_got_again b info x hx.1 hF]
    exact ih (fun y hy => hAll y (List.mem_cons_of_mem x hy))

end Mips
namespace Mips

/-- C14 (counterexample): two R_MIPS_GOT16 relocations against one local symbol
of type Section, in a section with SHF_ALLOC, are scanned from the empty
backend: `reserveLocalEntry` is called twice on behalf of that symbol. -/
theorem got_reservation_section_counterexample :
    gotReservationsOf (scanRelocations false emptyBackend
      (fun _ => symOf Binding.Local SymType.Section Desc.Define 0)
      [(relocOf R_MIPS_GOT16 0 0 0, allocSection), (relocOf R_MIPS_GOT16 4 0 0, allocSection)])
      = some ([1, 1], 2, 0) := by
  decide

/-- C15: relocations (one or more) of the types GOT16, CALL16, GOT_DISP,
GOT_HI16, CALL_HI16, GOT_LO16, CALL_LO16, GOT_PAGE, GOT_OFST, all against one
symbol without the flag ReserveGot, are scanned by `scanGlobalReloc`: one global
GOT entry is reserved, the flag is set, and the symbol is appended to the list
of global GOT symbols once. And after any scan from a backend without
reservations that list has no duplicates and its length is the number of global
GOT entries reserved. -/
theorem global_got_reservation_once (b : MipsGNULDBackend) (info : Symbols)
    (hg : b.ReserveGot ≠ 0) :
    (∀ (r : Relocation) (rs : List Relocation),
      (∀ x ∈ r :: rs, x.type ∈ globalGOTTypes ∧ x.symInfo = r.symInfo) →
      (info r.symInfo).reserved &&& b.ReserveGot = 0 →
      scanGlobalRelocs b info (r :: rs) =
        Except.ok ({ b with gotGlobalEntries := b.gotGlobalEntries + 1,
                            gotReservedFor := b.gotReservedFor ++ [r.symInfo],
                            m_GlobalGOTSyms := b.m_GlobalGOTSyms ++ [r.symInfo],
                            got := setGlobal b.got r.symInfo },
          setReserved info r.symInfo ((info r.symInfo).reserved ||| b.ReserveGot)) ∧
      (setReserved info r.symInfo ((info r.symInfo).reserved ||| b.ReserveGot)
        r.symInfo).reserved &&& b.ReserveGot ≠ 0) ∧
    (∀ (ndebug : Bool) (rs : List (Relocation × LDSection)) (syms : List SymPtr) (n : Nat),
      b.gotReservedFor = [] → b.m_GlobalGOTSyms = [] → b.gotLocalEntries = 0 →
      b.gotGlobalEntries = 0 →
      globalGOTOf (scanRelocations ndebug b info rs) = some (syms, n) →
      syms.Nodup ∧ syms.length = n) := by
  constructor
  · intro r rs hAll hFlag
    have hSet : (setReserved info r.symInfo ((info r.symInfo).reserved ||| b.ReserveGot)
        r.symInfo).reserved &&& b.ReserveGot ≠ 0 := by
      rw [setReserved_self]
      exact or_and_self_ne_zero _ _ hg
    refine ⟨?_, hSet⟩
    have hr := hAll r (List.mem_cons_self r rs)
    simp only [scanGlobalRelocs, scanGlobalReloc_got_fresh b info r hr.1 hFlag]
    exact scanGlobalRelocs_got_again rs _ _ r.symInfo
      (fun y hy => hAll y (List.mem_cons_of_mem r hy)) hSet
  · intro ndebug rs syms n hLog hSyms hLocal hGlobal hs
    cases hx : scanRelocations ndebug b info rs with
    | error e =>
      rw [hx] at hs
      simp only [globalGOTOf, reduceCtorEq] at hs
    | ok y =>
      obtain ⟨b1, info1⟩ := y
      rw [hx] at hs
      simp only [globalGOTOf, Option.some.injEq, Prod.mk.injEq] at hs
      obtain ⟨rfl, rfl⟩ := hs
      have hi := scanRelocations_inv ndebug rs b info b1 info1 hg
        (BackendInv_initial b info hLog hSyms hLocal hGlobal) hx
      unfold BackendInv ScanInv at hi
      exact ⟨hi.2.2.2.1, hi.2.2.2.2.1⟩

end Mips
namespace Mips

/-- C15 (witness): R_MIPS_CALL16, R_MIPS_GOT_DISP and R_MIPS_GOT16 against one
weak undefined symbol reserve one global GOT entry, and the list of global GOT
symbols holds the symbol once. -/
theorem global_got_reservation_once_witness :
    globalGOTOf (scanGlobalRelocs emptyBackend
        (fun _ => symOf Binding.Weak SymType.Function Desc.Undefined 0)
        [relocOf R_MIPS_CALL16 0 0 0, relocOf R_MIPS_GOT_DISP 0 0 0, relocOf R_MIPS_GOT16 0 0 0])
      = some ([1], 1) ∧
    ([1].Nodup ∧ [1].length = 1) := by
  have h := global_got_reservation_once emptyBackend
    (fun _ => symOf Binding.Weak SymType.Function Desc.Undefined 0) (by decide)
  constructor
  · rw [(h.1 (relocOf R_MIPS_CALL16 0 0 0)
      [relocOf R_MIPS_GOT_DISP 0 0 0, relocOf R_MIPS_GOT16 0 0 0] (by decide) (by decide)).1]
    rfl
  · exact h.2 false
      [(relocOf R_MIPS_CALL16 0 0 0, allocSection), (relocOf R_MIPS_GOT_DISP 0 0 0, allocSection),
        (relocOf R_MIPS_GOT16 0 0 0, allocSection)]
      [1] 1 rfl rfl rfl rfl (by decide)

end Mips

namespace Mips

end Mips
namespace Mips

/-- C22. A `lo16` against a symbol not named `_gp_disp` writes the same word
whatever `AHL` the factory holds. A `lo16` against `_gp_disp` does not: after the
HI16 of its pair (`AHL = 0`) it turns `0x279C0000` into `0x279C7FF4`, and when the
`R_MIPS_HI16` of a pair against another symbol (`AHL = 0x120010`) is applied in
between it turns the same word into `0x279C8004`. -/
theorem lo16_gp_disp_AHL_clobbered :
    (∀ (lo : Relocation) (pLDInfo : MCLDInfo) (pParent : MipsRelocationFactory) (a1 a2 : Nat),
      helper_isGpDisp pParent.info lo = false →
      targetOf (lo16 lo pLDInfo { pParent with m_AHL := a1 }) =
        targetOf (lo16 lo pLDInfo { pParent with m_AHL := a2 })) ∧
    helper_isGpDisp gpDispSymbols (relocOf R_MIPS_HI16 0 0x3C1C0000 0) = true ∧
    helper_isGpDisp gpDispSymbols
      { relocOf R_MIPS_HI16 0 0x3C080012 0x00400800 with symInfo := 2 } = false ∧
    targetOf (andThen
      (hi16 false (relocOf R_MIPS_HI16 0 0x3C1C0000 0)
        [relocOf R_MIPS_LO16 0 0x279C0000 0] ⟨OutputType.Exec⟩ gpDispFactory)
      (lo16 (relocOf R_MIPS_LO16 0 0x279C0000 0) ⟨OutputType.Exec⟩)) = some 0x279C7FF4 ∧
    targetOf (andThen (andThen
      (hi16 false (relocOf R_MIPS_HI16 0 0x3C1C0000 0)
        [{ relocOf R_MIPS_HI16 0 0x3C080012 0x00400800 with symInfo := 2 },
          relocOf R_MIPS_LO16 0 0x279C0000 0,
          { relocOf R_MIPS_LO16 0 0x25080010 0x00400800 with symInfo := 2 }]
        ⟨OutputType.Exec⟩ gpDispFactory)
      (hi16 false { relocOf R_MIPS_HI16 0 0x3C080012 0x00400800 with symInfo := 2 }
        [relocOf R_MIPS_LO16 0 0x279C0000 0,
          { relocOf R_MIPS_LO16 0 0x25080010 0x00400800 with symInfo := 2 }]
        ⟨OutputType.Exec⟩))
      (lo16 (relocOf R_MIPS_LO16 0 0x279C0000 0) ⟨OutputType.Exec⟩)) = some 0x279C8004 := by
  refine ⟨?_, by decide, by decide, by decide, by decide⟩
  intro lo pLDInfo pParent a1 a2 h
  have h1 : helper_isGpDisp ({ pParent with m_AHL := a1 } : MipsRelocationFactory).info lo =
      false := h
  have h2 : helper_isGpDisp ({ pParent with m_AHL := a2 } : MipsRelocationFactory).info lo =
      false := h
  unfold lo16
  simp only [h1, h2, Bool.false_eq_true, if_false, targetOf]

end Mips
namespace ARM

/-- C27. The rounding `X = (X + 2) & ~3` of `thm_call` follows bits 14 and 12 of
the halved offset, not the state of the target. A BL at place 0 to a Thumb
function at `0x8004` (`T = 1`, halved offset `0x4002`) is written with the
rounded offset `0x4004`; a BLX at place 0 to an ARM function at `0x1004`
(`T = 0`, halved offset `0x802`) is written with the offset `0x802`, not rounded
to `0x804`. -/
theorem thm_call_rounding_follows_offset :
    (getThumbBit (factoryOf (symOf Binding.Global SymType.Function Desc.Define 0) 0).info
        (relocOf R_ARM_THM_CALL 0 0xF000F800 0x8005) = 1 ∧
      thmCallX (relocOf R_ARM_THM_CALL 0 0xF000F800 0x8005)
        (factoryOf (symOf Binding.Global SymType.Function Desc.Define 0) 0) >>> 1 = 0x4002 ∧
      thm_call false (relocOf R_ARM_THM_CALL 0 0xF000F800 0x8005) ⟨OutputType.Exec⟩
          (factoryOf (symOf Binding.Global SymType.Function Desc.Define 0) 0) =
        Except.ok (Result.OK,
          { relocOf R_ARM_THM_CALL 0 0xF000F800 0x8005 with
            target := thmCallWord 0xF000F800 0x4004 },
          factoryOf (symOf Binding.Global SymType.Function Desc.Define 0) 0) ∧
      thmCallWord 0xF000F800 0x4004 ≠ thmCallWord 0xF000F800 0x4002) ∧
    (getThumbBit (factoryOf (symOf Binding.Global SymType.Function Desc.Define 0) 0).info
        (relocOf R_ARM_THM_CALL 0 0xF000E800 0x1004) = 0 ∧
      thmCallX (relocOf R_ARM_THM_CALL 0 0xF000E800 0x1004)
        (factoryOf (symOf Binding.Global SymType.Function Desc.Define 0) 0) >>> 1 = 0x802 ∧
      thm_call false (relocOf R_ARM_THM_CALL 0 0xF000E800 0x1004) ⟨OutputType.Exec⟩
          (factoryOf (symOf Binding.Global SymType.Function Desc.Define 0) 0) =
        Except.ok (Result.OK,
          { relocOf R_ARM_THM_CALL 0 0xF000E800 0x1004 with
            target := thmCallWord 0xF000E800 0x802 },
          factoryOf (symOf Binding.Global SymType.Function Desc.Define 0) 0) ∧
      thmCallWord 0xF000E800 0x802 ≠ thmCallWord 0xF000E800 (u64 (0x802 + 2) &&& 0xfffffffc)) := by
  refine ⟨⟨by decide, by decide, by rfl, by decide⟩, ⟨by decide, by decide, by rfl, by decide⟩⟩

/-- C28. A BL with offset 0 at place 0 to a Thumb function at `0x1004`
(`S = 0x1005`, `T = 1`): `X = ((S + A) | T) - P = 0x1005`, no rounding applies,
`thm_call` returns OK, and the pair it writes decodes to `0x802`, half of
`0x1004`. -/
theorem thm_call_offset_halved :
    thmCallOffsetOf 0xF000F800 = 0 ∧
    thmCallX (relocOf R_ARM_THM_CALL 0 0xF000F800 0x1005)
      (factoryOf (symOf Binding.Global SymType.Function Desc.Define 0) 0) = 0x1005 ∧
    (thmCallX (relocOf R_ARM_THM_CALL 0 0xF000F800 0x1005)
      (factoryOf (symOf Binding.Global SymType.Function Desc.Define 0) 0) >>> 1) &&& 0x5000 ≠
        0x4000 ∧
    resultOf (thm_call false (relocOf R_ARM_THM_CALL 0 0xF000F800 0x1005) ⟨OutputType.Exec⟩
      (factoryOf (symOf Binding.Global SymType.Function Desc.Define 0) 0)) = some Result.OK ∧
    (targetOf (thm_call false (relocOf R_ARM_THM_CALL 0 0xF000F800 0x1005) ⟨OutputType.Exec⟩
      (factoryOf (symOf Binding.Global SymType.Function Desc.Define 0) 0))).map thmCallOffsetOf =
        some 0x802 := by
  refine ⟨by decide, by decide, by decide, by decide, by decide⟩

/-- C30. `movw_abs_nc` on `movw r0, #0` (`0xE3000000`) with `S = 0x1234`
returns OK and leaves `0x11234`: the bits under the mask `0xFFF0F000` are those
of `(S + A) | T`, not those of the instruction; with `S = 0x12340` it returns
Overflow and leaves `0x12340`. `movw_prel_nc` at place 0 turns the same
instruction into `0xE3010234`. -/
theorem movw_abs_nc_overwrites_instruction :
    resultOf (movw_abs_nc false (relocOf R_ARM_MOVW_ABS_NC 0 0xE3000000 0x1234) ⟨OutputType.Exec⟩
      (factoryOf (symOf Binding.Global SymType.Object Desc.Define 0) 0)) = some Result.OK ∧
    targetOf (movw_abs_nc false (relocOf R_ARM_MOVW_ABS_NC 0 0xE3000000 0x1234) ⟨OutputType.Exec⟩
      (factoryOf (symOf Binding.Global SymType.Object Desc.Define 0) 0)) = some 0x11234 ∧
    0x11234 &&& 0xFFF0F000 ≠ 0xE3000000 &&& 0xFFF0F000 ∧
    resultOf (movw_abs_nc false (relocOf R_ARM_MOVW_ABS_NC 0 0xE3000000 0x12340)
      ⟨OutputType.Exec⟩ (factoryOf (symOf Binding.Global SymType.Object Desc.Define 0) 0)) =
        some Result.Overflow ∧
    targetOf (movw_abs_nc false (relocOf R_ARM_MOVW_ABS_NC 0 0xE3000000 0x12340)
      ⟨OutputType.Exec⟩ (factoryOf (symOf Binding.Global SymType.Object Desc.Define 0) 0)) =
        some 0x12340 ∧
    targetOf (movw_prel_nc (relocOf R_ARM_MOVW_PREL_NC 0 0xE3000000 0x1234) ⟨OutputType.Exec⟩
      (factoryOf (symOf Binding.Global SymType.Object Desc.Define 0) 0)) = some 0xE3010234 := by
  refine ⟨by decide, by decide, by decide, by decide, by decide, by decide⟩

end ARM

/-- Flipping bit 15 of a number split at bit 15. -/
theorem xor_bit15 (q r : Nat) (hr : r < 2 ^ 15) :
    (2 ^ 15 * q + r) ^^^ 2 ^ 15 = 2 ^ 15 * (q ^^^ 1) + r := by
  apply Nat.eq_of_testBit_eq
  intro j
  have h1 : (2 : Nat) ^ 15 = 2 ^ 15 * 1 + 0 := by norm_num
  rw [Nat.testBit_xor, Nat.testBit_mul_pow_two_add q hr, Nat.testBit_mul_pow_two_add (q ^^^ 1) hr]
  conv_lhs => rw [h1]
  rw [Nat.testBit_mul_pow_two_add 1 (by norm_num : 0 < 2 ^ 15)]
  by_cases hj : j < 15
  · simp [hj]
  · simp [hj, Nat.testBit_xor]

namespace ARM

/-- The function `helper_sign_extend` at width 16 is the sign extension of a
16-bit value to 64 bits. -/
theorem helper_sign_extend_16 (v : Nat) (hv : v < 2 ^ 16) :
    helper_sign_extend v 16 = if v < 2 ^ 15 then v else 2 ^ 64 - 2 ^ 16 + v := by
  have hs : sext32to64 (u32 (1 <<< (16 - 1))) = 2 ^ 15 := by decide
  have hq : 2 ^ 15 * (v / 2 ^ 15) + v % 2 ^ 15 = v := Nat.div_add_mod v (2 ^ 15)
  have hr : v % 2 ^ 15 < 2 ^ 15 := Nat.mod_lt _ (by norm_num)
  have hq2 : v / 2 ^ 15 < 2 := by omega
  unfold helper_sign_extend
  simp only [hs]
  rw [← hq, xor_bit15 _ _ hr]
  have hc : v / 2 ^ 15 = 0 ∨ v / 2 ^ 15 = 1 := by omega
  rcases hc with h | h
  · rw [h]
    have hx : (0 : Nat) ^^^ 1 = 1 := by decide
    rw [hx]
    unfold sub64
    split <;> omega
  · rw [h]
    have hx : (1 : Nat) ^^^ 1 = 0 := by decide
    rw [hx]
    unfold sub64
    split <;> omega

/-- The instruction bits outside the field `[19:16][11:0]` after
`helper_insert_val_movw_movt_inst`. -/
theorem helper_insert_val_movw_movt_inst_frame (t imm : Nat) :
    helper_insert_val_movw_movt_inst t imm &&& 0xFFF0F000 = t &&& 0xFFF0F000 := by
  apply Nat.eq_of_testBit_eq
  intro i
  simp only [helper_insert_val_movw_movt_inst, Nat.testBit_or, Nat.testBit_and,
    Nat.testBit_shiftLeft]
  by_cases hi : i < 32
  · interval_cases i <;> simp [Nat.testBit_to_div_mod]
  · have h32 : 32 ≤ i := by omega
    simp [testBit_const_high 0xFFF0F000 i (by decide) h32]

/-- The instruction bits outside the field `[19:16][26][14:12][7:0]` after
`helper_insert_val_thumb_movw_movt_inst`. -/
theorem helper_insert_val_thumb_movw_movt_inst_frame (t imm : Nat) :
    helper_insert_val_thumb_movw_movt_inst t imm &&& 0xFBF08F00 = t &&& 0xFBF08F00 := by
  apply Nat.eq_of_testBit_eq
  intro i
  simp only [helper_insert_val_thumb_movw_movt_inst, Nat.testBit_or, Nat.testBit_and,
    Nat.testBit_shiftLeft]
  by_cases hi : i < 32
  · interval_cases i <;> simp [Nat.testBit_to_div_mod]
  · have h32 : 32 ≤ i := by omega
    simp [testBit_const_high 0xFBF08F00 i (by decide) h32]

/-- C29. For every instruction word `t` and every value `imm`:
`helper_extract_movw_movt_addend (helper_insert_val_movw_movt_inst t imm)` is
the sign extension of `imm & 0xFFFF`, and the insertion leaves the bits of `t`
under the mask `0xFFF0F000` as they are; the same holds of the Thumb pair of
helpers with the mask `0xFBF08F00`. The sign extension of a 16-bit value `v` is
`v` below `2 ^ 15`, and `2 ^ 64 - 2 ^ 16 + v` from there on. -/
theorem movw_movt_split_field_round_trip (t imm : Nat) :
    helper_extract_movw_movt_addend (helper_insert_val_movw_movt_inst t imm) =
        helper_sign_extend (imm &&& 0xFFFF) 16 ∧
      helper_insert_val_movw_movt_inst t imm &&& 0xFFF0F000 = t &&& 0xFFF0F000 ∧
      helper_extract_thumb_movw_movt_addend (helper_insert_val_thumb_movw_movt_inst t imm) =
        helper_sign_extend (imm &&& 0xFFFF) 16 ∧
      helper_insert_val_thumb_movw_movt_inst t imm &&& 0xFBF08F00 = t &&& 0xFBF08F00 ∧
      helper_sign_extend (imm &&& 0xFFFF) 16 =
        if imm % 2 ^ 16 < 2 ^ 15 then imm % 2 ^ 16 else 2 ^ 64 - 2 ^ 16 + imm % 2 ^ 16 := by
  refine ⟨?_, helper_insert_val_movw_movt_inst_frame t imm, ?_,
    helper_insert_val_thumb_movw_movt_inst_frame t imm, ?_⟩
  · unfold helper_extract_movw_movt_addend
    rw [movw_movt_imm16_insert]
  · unfold helper_extract_thumb_movw_movt_addend
    rw [thumb_movw_movt_imm16_insert]
  · rw [and_low16]
    exact helper_sign_extend_16 _ (Nat.mod_lt _ (by norm_num))

end ARM

namespace ELFReader

/-- The function `bswap16` on a 16-bit value given by its two bytes. -/
theorem bswap16_bytes (hi lo : Nat) (hlo : lo < 256) (hhi : hi < 256) :
    bswap16 (256 * hi + lo) = hi + 256 * lo := by
  unfold bswap16
  have h1 : (256 * hi + lo) &&& 0xFF = lo := by
    have := Nat.and_pow_two_sub_one_eq_mod (256 * hi + lo) 8
    norm_num at this
    rw [this]
    omega
  have h2 : (256 * hi + lo) >>> 8 &&& 0xFF = hi := by
    have := Nat.and_pow_two_sub_one_eq_mod ((256 * hi + lo) >>> 8) 8
    norm_num at this
    rw [this, Nat.shiftRight_eq_div_pow]
    omega
  rw [h1, h2, Nat.shiftLeft_eq]
  have := Nat.mul_add_lt_is_or (show hi < 2 ^ 8 by omega) lo
  rw [show lo * 2 ^ 8 = 2 ^ 8 * lo by ring, ← this]
  omega

/-- C23. `fileType` maps the 16-bit `e_type` field of a little-endian ELF
header to Object for 1, Exec for 2, DynObj for 3, CoreFile for 4 and Unknown for
every other value, on a little-endian host and on a big-endian host alike. -/
theorem fileType_of_e_type (isLittleEndianHost : Bool) (pELFHeader : Nat → Nat) :
    fileType isLittleEndianHost pELFHeader = typeOfEType (e_typeOf pELFHeader) ∧
      fileType true pELFHeader = fileType false pELFHeader := by
  have key : ∀ host : Bool, fileType host pELFHeader = typeOfEType (e_typeOf pELFHeader) := by
    intro host
    have hb0 : pELFHeader 16 % 256 < 256 := Nat.mod_lt _ (by norm_num)
    have hb1 : pELFHeader 17 % 256 < 256 := Nat.mod_lt _ (by norm_num)
    have hT : (if host = true then load16 host pELFHeader 16
        else bswap16 (load16 host pELFHeader 16)) = e_typeOf pELFHeader := by
      cases host
      · simp only [Bool.false_eq_true, if_false, load16, byteAt, e_typeOf]
        exact bswap16_bytes _ _ hb1 hb0
      · simp only [if_true, load16, byteAt, e_typeOf]
    unfold fileType
    simp only [hT, ET_REL, ET_EXEC, ET_DYN, ET_CORE]
    generalize e_typeOf pELFHeader = e
    clear hT
    unfold typeOfEType
    rcases e with _ | _ | _ | _ | _ | n
    · rfl
    · rfl
    · rfl
    · rfl
    · rfl
    · have h1 : n + 1 + 1 + 1 + 1 + 1 ≠ 1 := by omega
      have h2 : n + 1 + 1 + 1 + 1 + 1 ≠ 2 := by omega
      have h3 : n + 1 + 1 + 1 + 1 + 1 ≠ 3 := by omega
      have h4 : n + 1 + 1 + 1 + 1 + 1 ≠ 4 := by omega
      simp only [h1, h2, h3, h4, if_false]
  exact ⟨key _, (key true).trans (key false).symm⟩

end ELFReader
namespace ELFEmulation

/-- The flag of the first insertion. -/
theorem existsAt_zero {σ : Type} (append : σ → String → String → σ × Bool) (e : NameMap)
    (rest : List NameMap) (m : σ) :
    existsAt append (e :: rest) m 0 = (append m e.from_ e.to_).2 := by
  simp [existsAt, appended]

/-- The flag of a later insertion is that of the rest of the table on the map
after the first insertion. -/
theorem existsAt_succ {σ : Type} (append : σ → String → String → σ × Bool) (e : NameMap)
    (rest : List NameMap) (m : σ) (i : Nat) :
    existsAt append (e :: rest) m (i + 1) = existsAt append rest (append m e.from_ e.to_).1 i := by
  simp [existsAt, appended]

/-- The loop returns true after all the pairs if no insertion reports a pair
that exists. -/
theorem appendEntries_all {σ : Type} (append : σ → String → String → σ × Bool)
    (entries : List NameMap) (m : σ) (h : ∀ i, existsAt append entries m i = false) :
    appendEntries append entries m = (appended append entries m, true) := by
  induction entries generalizing m with
  | nil => rfl
  | cons e rest ih =>
    have h0 := h 0
    rw [existsAt_zero] at h0
    have hr : ∀ i, existsAt append rest (append m e.from_ e.to_).1 i = false := by
      intro i
      rw [← existsAt_succ]
      exact h (i + 1)
    simp only [appendEntries, h0, Bool.false_eq_true, if_false, ih _ hr]
    rfl

/-- The loop returns false at the first insertion that reports a pair that
exists. -/
theorem appendEntries_first {σ : Type} (append : σ → String → String → σ × Bool)
    (entries : List NameMap) (m : σ) (i : Nat) (hi : existsAt append entries m i = true)
    (hlt : ∀ j, j < i → existsAt append entries m j = false) :
    appendEntries append entries m = (appended append (entries.take (i + 1)) m, false) := by
  induction entries generalizing m i with
  | nil => simp [existsAt] at hi
  | cons e rest ih =>
    cases i with
    | zero =>
      rw [existsAt_zero] at hi
      simp [appendEntries, hi, appended]
    | succ k =>
      have h0 := hlt 0 (Nat.succ_pos k)
      rw [existsAt_zero] at h0
      rw [existsAt_succ] at hi
      have hr : ∀ j, j < k → existsAt append rest (append m e.from_ e.to_).1 j = false := by
        intro j hj
        rw [← existsAt_succ]
        exact hlt (j + 1) (Nat.succ_lt_succ hj)
      simp only [appendEntries, h0, Bool.false_eq_true, if_false, ih _ k hi hr]
      rfl

/-- C26. `MCLDEmulateELF` returns true and leaves the section map as it is when
the output type is Object. For any other output type it appends the pairs of
the table to the section map in table order: if the insertion of the pair of
index `i` is the first that reports that the pair exists, the pairs after it
are not appended and the result is false; if no insertion reports so, all the
pairs are appended and the result is true. -/
theorem MCLDEmulateELF_outcome {σ : Type} (append : σ → String → String → σ × Bool)
    (pConfig : LinkerConfig σ) :
    (pConfig.codeGenType = OutputType.Object →
      MCLDEmulateELF append pConfig = (pConfig, true)) ∧
    (pConfig.codeGenType ≠ OutputType.Object →
      (∀ i, existsAt append map pConfig.sectionMap i = true →
        (∀ j, j < i → existsAt append map pConfig.sectionMap j = false) →
        MCLDEmulateELF append pConfig =
          ({ pConfig with
              sectionMap := appended append (map.take (i + 1)) pConfig.sectionMap }, false)) ∧
      ((∀ i, existsAt append map pConfig.sectionMap i = false) →
        MCLDEmulateELF append pConfig =
          ({ pConfig with sectionMap := appended append map pConfig.sectionMap }, true))) := by
  refine ⟨?_, ?_⟩
  · intro h
    simp [MCLDEmulateELF, h]
  · intro h
    refine ⟨?_, ?_⟩
    · intro i hi hlt
      simp only [MCLDEmulateELF, h, ne_eq, not_false_eq_true, if_true,
        appendEntries_first append map pConfig.sectionMap i hi hlt]
    · intro hall
      simp only [MCLDEmulateELF, h, ne_eq, not_false_eq_true, if_true,
        appendEntries_all append map pConfig.sectionMap hall]

/-- C26 (witness): for an executable, a section map that holds `.rodata`
already gets `.text` appended and the result is false; for an object the
section map stays as it is and the result is true. -/
theorem MCLDEmulateELF_outcome_witness :
    MCLDEmulateELF listAppend ⟨OutputType.Object, [(".rodata", ".rodata")]⟩ =
        (⟨OutputType.Object, [(".rodata", ".rodata")]⟩, true) ∧
      MCLDEmulateELF listAppend ⟨OutputType.Exec, [(".rodata", ".rodata")]⟩ =
        (⟨OutputType.Exec, [(".rodata", ".rodata"), (".text", ".text")]⟩, false) :=
  ⟨(MCLDEmulateELF_outcome listAppend ⟨OutputType.Object, [(".rodata", ".rodata")]⟩).1 rfl,
    ((MCLDEmulateELF_outcome listAppend ⟨OutputType.Exec, [(".rodata", ".rodata")]⟩).2
      (by decide)).1 1 (by decide) (by decide)⟩

end ELFEmulation
namespace ELFEmulation

/-- The keys of the table are pairwise distinct. -/
theorem map_from_nodup : (map.map (fun e => e.from_)).Nodup := by
  decide

/-- No key of the table is a prefix of a later key. -/
theorem map_from_not_prefix :
    map.Pairwise (fun a b => a.from_.data.isPrefixOf b.from_.data = false) := by
  decide

end ELFEmulation
namespace ELFEmulation

/-- C39. The table has 36 keys, pairwise distinct; no key is a prefix of a key
after it; so the first entry whose key is a prefix of a name has the longest
key among the entries whose key is a prefix of that name, and a name that
starts with `.gnu.linkonce.d.rel.ro.local` maps to `.data.rel.ro.local`. -/
theorem map_first_match_is_longest :
    map.length = 36 ∧ (map.map (fun e => e.from_)).Nodup ∧
    (∀ (i j : Nat) (hi : i < map.length) (hj : j < map.length), i < j →
      ¬ (map[i].from_.data <+: map[j].from_.data)) ∧
    (∀ (name : String) (e : NameMap), firstMatch map name = some e →
      e.from_.data <+: name.data ∧
        ∀ e2 ∈ map, e2.from_.data <+: name.data → e2.from_.length ≤ e.from_.length) ∧
    (∀ name : String, ".gnu.linkonce.d.rel.ro.local".data <+: name.data →
      (firstMatch map name).map (fun e => e.to_) = some ".data.rel.ro.local") := by
  have hpair := map_from_not_prefix
  have hlongest : ∀ (name : String) (e : NameMap), firstMatch map name = some e →
      e.from_.data <+: name.data ∧
        ∀ e2 ∈ map, e2.from_.data <+: name.data → e2.from_.length ≤ e.from_.length := by
    intro name e he
    unfold firstMatch at he
    rw [List.find?_eq_some] at he
    obtain ⟨hp, as, bs, hsplit, hnot⟩ := he
    have hpe : e.from_.data <+: name.data := List.isPrefixOf_iff_prefix.1 hp
    refine ⟨hpe, ?_⟩
    intro e2 he2 hp2
    rw [hsplit, List.mem_append, List.mem_cons] at he2
    rcases he2 with h | h | h
    · have := hnot e2 h
      rw [List.isPrefixOf_iff_prefix.2 hp2] at this
      simp at this
    · rw [h]
    · rw [hsplit, List.pairwise_append, List.pairwise_cons] at hpair
      have hR := hpair.2.1.1 e2 h
      by_contra hlen
      have hle : e.from_.data.length ≤ e2.from_.data.length := by
        have : e.from_.length < e2.from_.length := Nat.lt_of_not_le hlen
        exact Nat.le_of_lt this
      have hpre := List.prefix_of_prefix_length_le hpe hp2 hle
      rw [List.isPrefixOf_iff_prefix.2 hpre] at hR
      simp at hR
  refine ⟨by decide, map_from_nodup, ?_, hlongest, ?_⟩
  · intro i j hi hj hij hp
    have hR := (List.pairwise_iff_getElem.1 hpair) i j hi hj hij
    rw [List.isPrefixOf_iff_prefix.2 hp] at hR
    simp at hR
  · intro name hname
    cases hf : firstMatch map name with
    | none =>
      unfold firstMatch at hf
      rw [List.find?_eq_none] at hf
      have := hf ⟨".gnu.linkonce.d.rel.ro.local", ".data.rel.ro.local"⟩ (by decide)
      rw [List.isPrefixOf_iff_prefix.2 hname] at this
      simp at this
    | some e =>
      have hl := (hlongest name e hf).2 ⟨".gnu.linkonce.d.rel.ro.local", ".data.rel.ro.local"⟩
        (by decide) hname
      have hmem : e ∈ map := by
        unfold firstMatch at hf
        exact List.mem_of_find?_eq_some hf
      have hall : ∀ x ∈ map, (28 ≤ x.from_.length → x.to_ = ".data.rel.ro.local") := by
        decide
      have h28 : 28 ≤ e.from_.length := hl
      simp only [Option.map_some', Option.some.injEq]
      exact hall e hmem h28

/-- C39 (witness): the name `.gnu.linkonce.d.rel.ro.local.x` maps to
`.data.rel.ro.local`. -/
theorem map_first_match_is_longest_witness :
    (firstMatch map ".gnu.linkonce.d.rel.ro.local.x").map (fun e => e.to_) =
      some ".data.rel.ro.local" :=
  map_first_match_is_longest.2.2.2.2 ".gnu.linkonce.d.rel.ro.local.x" (by decide)

end ELFEmulation

namespace ARM

/-- C31. For a global symbol with ReserveRel that cannot use a relative
relocation, `abs32` emits a dynamic relocation of the type of the relocation.
Without ReservePLT the target word stays as it is. With ReservePLT it does not:
for the initial word `0x10`, the PLT at address `0x9000` and a preemptible
symbol with flags `0x9`, `abs32` returns OK, emits the `R_ARM_ABS32` entry and
leaves the word `0x9010`. -/
theorem abs32_dynrel_static_with_PLT :
    (∀ (ndebug : Bool) (pReloc : Relocation) (pLDInfo : MCLDInfo)
        (pParent : ARMRelocationFactory),
      (pParent.info pReloc.symInfo).isLocal = false →
      (pParent.info pReloc.symInfo).isGlobal = true →
      (pParent.info pReloc.symInfo).reserved &&& 0x1 ≠ 0 →
      (pParent.info pReloc.symInfo).reserved &&& 0x8 = 0 →
      helper_use_relative_reloc (pParent.info pReloc.symInfo) pLDInfo pParent = false →
      targetOf (abs32 ndebug pReloc pLDInfo pParent) = some pReloc.target) ∧
    (symOf Binding.Global SymType.Function Desc.Define 0x9).isGlobal = true ∧
    helper_use_relative_reloc (symOf Binding.Global SymType.Function Desc.Define 0x9)
      ⟨OutputType.DynObj⟩
      (pltFactoryOf (symOf Binding.Global SymType.Function Desc.Define 0x9) 0x9000) = false ∧
    resultOf (abs32 false (relocOf R_ARM_ABS32 0 0x10 0x8000) ⟨OutputType.DynObj⟩
      (pltFactoryOf (symOf Binding.Global SymType.Function Desc.Define 0x9) 0x9000)) =
        some Result.OK ∧
    relDynOf (abs32 false (relocOf R_ARM_ABS32 0 0x10 0x8000) ⟨OutputType.DynObj⟩
      (pltFactoryOf (symOf Binding.Global SymType.Function Desc.Define 0x9) 0x9000)) =
        some [⟨R_ARM_ABS32, 1, (relocOf R_ARM_ABS32 0 0x10 0x8000).targetRef, 0, 0, 0⟩] ∧
    targetOf (abs32 false (relocOf R_ARM_ABS32 0 0x10 0x8000) ⟨OutputType.DynObj⟩
      (pltFactoryOf (symOf Binding.Global SymType.Function Desc.Define 0x9) 0x9000)) =
        some 0x9010 := by
  refine ⟨?_, by decide, by decide, by decide, by decide, by decide⟩
  intro ndebug pReloc pLDInfo pParent hL hG hRel hPLT hUse
  unfold abs32
  simp only [hL, hG, hRel, hPLT, hUse, Bool.false_and, Bool.false_eq_true, if_false, if_true,
    ne_eq, not_true_eq_false, not_false_eq_true, targetOf]

end ARM

/-- A bitwise or is zero exactly when both operands are. -/
theorem or_eq_zero_iff_both (a b : Nat) : a ||| b = 0 ↔ a = 0 ∧ b = 0 := by
  constructor
  · intro h
    constructor
    · apply Nat.eq_of_testBit_eq
      intro i
      have := congrArg (fun x => Nat.testBit x i) h
      simp only [Nat.testBit_or, Nat.zero_testBit, Bool.or_eq_false_iff] at this
      simp [this.1]
    · apply Nat.eq_of_testBit_eq
      intro i
      have := congrArg (fun x => Nat.testBit x i) h
      simp only [Nat.testBit_or, Nat.zero_testBit, Bool.or_eq_false_iff] at this
      simp [this.2]
  · rintro ⟨rfl, rfl⟩
    rfl

/-- The mask `0x6` tests the bits `0x2` and `0x4`. -/
theorem and_six_eq_zero_iff (x : Nat) : x &&& 0x6 = 0 ↔ x &&& 0x2 = 0 ∧ x &&& 0x4 = 0 := by
  have h : (0x6 : Nat) = 0x2 ||| 0x4 := by decide
  rw [h, Nat.and_or_distrib_left, or_eq_zero_iff_both]


/-- The high half that `hi16` computes and the sign-extended low half add up to
the value, modulo `2 ^ 32`. -/
theorem hi16Res_reconstruct (v : Nat) :
    ((Mips.hi16Res v &&& 0xFFFF) * 2 ^ 16 + castInt16 (v % 2 ^ 16)) % 2 ^ 32 = v % 2 ^ 32 := by
  rw [and_low16]
  unfold Mips.hi16Res asr32 sub32 castInt16
  simp only [Nat.shiftRight_eq_div_pow]
  split_ifs <;> omega

/-- The low 16 bits after the write-back of a 16-bit applicator. -/
theorem writeLow16_low (t r : Nat) :
    ((t &&& 0xFFFF0000) ||| (r &&& 0xFFFF)) % 2 ^ 16 = r % 2 ^ 16 := by
  rw [writeLow16_eq]
  omega

namespace Mips

/-- C34. For an `R_MIPS_HI16` / `R_MIPS_LO16` pair against the same symbol (not
`_gp_disp`) with equal addends, `hi16` and then `lo16` return OK, and with `hi`
and `lo` the low 16 bits of the words they leave, `(hi << 16) +
sign_extend16(lo)` is congruent modulo `2 ^ 32` to `AHL + S`, where `AHL` is the
value `helper_CalcAHL` computes from the original words of the pair. -/
theorem hi16_lo16_reconstruct (ndebug : Bool) (hi lo : Relocation) (following : List Relocation)
    (pLDInfo : MCLDInfo) (pParent : MipsRelocationFactory)
    (hType : hi.type = R_MIPS_HI16)
    (hNotGp : helper_isGpDisp pParent.info hi = false)
    (hLo : helper_FindLo16Reloc hi following = some lo)
    (hAdd : hi.addend = lo.addend) (hS : hi.symValue = lo.symValue) :
    ∃ (AHL tHi tLo : Nat) (pParent1 : MipsRelocationFactory),
      helper_CalcAHL ndebug hi lo = Except.ok AHL ∧
      hi16 ndebug hi following pLDInfo pParent =
        Except.ok (Result.OK, { hi with target := tHi }, pParent1) ∧
      lo16 lo pLDInfo pParent1 = Except.ok (Result.OK, { lo with target := tLo }, pParent1) ∧
      ((tHi % 2 ^ 16) * 2 ^ 16 + castInt16 (tLo % 2 ^ 16)) % 2 ^ 32 =
        (AHL + lo.symValue) % 2 ^ 32 := by
  have hfind := hLo
  unfold helper_FindLo16Reloc at hfind
  rw [List.find?_eq_some] at hfind
  obtain ⟨hp, -⟩ := hfind
  simp only [Bool.and_eq_true, decide_eq_true_eq] at hp
  have hGpLo : helper_isGpDisp pParent.info lo = false := by
    unfold helper_isGpDisp at hNotGp ⊢
    rw [hp.2]
    exact hNotGp
  have hAHL := helper_CalcAHL_eq ndebug hi lo (Or.inl hType) hp.1.symm (Or.inr hAdd)
  refine ⟨_, (hi.target &&& 0xFFFF0000) ||| (hi16Res (u32 (u32 (u32 ((u32 hi.target &&& 0xFFFF) <<< 16) +
      castInt16 (u32 lo.target &&& 0xFFFF) + lo.addend) + u32 hi.symValue)) &&& 0xFFFF),
    (lo.target &&& 0xFFFF0000) |||
      (u32 (u32 ((lo.target &&& 0xFFFF) + lo.addend) + u32 lo.symValue) &&& 0xFFFF),
    { pParent with m_AHL := u32 (u32 ((u32 hi.target &&& 0xFFFF) <<< 16) +
      castInt16 (u32 lo.target &&& 0xFFFF) + lo.addend) }, hAHL, ?_, ?_, ?_⟩
  · unfold hi16
    simp only [hLo, Option.isSome_some, cassert, Bool.or_true, if_true, hAHL, hNotGp,
      Bool.false_eq_true, if_false, writeLow16]
  · have h2 : helper_isGpDisp ({ pParent with m_AHL := u32 (u32 ((u32 hi.target &&& 0xFFFF) <<< 16) +
        castInt16 (u32 lo.target &&& 0xFFFF) + lo.addend) } : MipsRelocationFactory).info lo =
        false := hGpLo
    unfold lo16
    simp only [h2, Bool.false_eq_true, if_false, writeLow16]
  · have hlow : ((lo.target &&& 0xFFFF0000) |||
        (u32 (u32 ((lo.target &&& 0xFFFF) + lo.addend) + u32 lo.symValue) &&& 0xFFFF)) % 2 ^ 16 =
        (u32 (u32 (u32 ((u32 hi.target &&& 0xFFFF) <<< 16) +
          castInt16 (u32 lo.target &&& 0xFFFF) + lo.addend) + u32 hi.symValue)) % 2 ^ 16 := by
      rw [writeLow16_eq, hS]
      simp only [and_low16, Nat.shiftLeft_eq]
      unfold u32 castInt16
      split <;> omega
    have hhigh : ((hi.target &&& 0xFFFF0000) ||| (hi16Res (u32 (u32 (u32 ((u32 hi.target &&& 0xFFFF) <<< 16) +
        castInt16 (u32 lo.target &&& 0xFFFF) + lo.addend) + u32 hi.symValue)) &&& 0xFFFF)) % 2 ^ 16 =
        hi16Res (u32 (u32 (u32 ((u32 hi.target &&& 0xFFFF) <<< 16) +
        castInt16 (u32 lo.target &&& 0xFFFF) + lo.addend) + u32 hi.symValue)) &&& 0xFFFF := by
      rw [writeLow16_low]
      exact (and_low16 _).symm
    rw [hlow, hhigh, hi16Res_reconstruct, hS]
    unfold u32
    omega

end Mips
namespace Mips

/-- C34 (witness), scenario S3: `S = 0x00400800`, addends 0, HI word
`0x3C080000`, LO word `0x25080000`; the words left are `0x3C080040` and
`0x25080800`, and `(0x0040 << 16) + 0x0800 = 0x00400800`. -/
theorem hi16_lo16_reconstruct_witness :
    (∃ (AHL tHi tLo : Nat) (pParent1 : MipsRelocationFactory),
      helper_CalcAHL false (relocOf R_MIPS_HI16 0 0x3C080000 0x00400800)
        (relocOf R_MIPS_LO16 0 0x25080000 0x00400800) = Except.ok AHL ∧
      hi16 false (relocOf R_MIPS_HI16 0 0x3C080000 0x00400800)
          [relocOf R_MIPS_LO16 0 0x25080000 0x00400800] ⟨OutputType.Exec⟩
          (factoryOf (symOf Binding.Global SymType.Object Desc.Define 0)) =
        Except.ok (Result.OK,
          { relocOf R_MIPS_HI16 0 0x3C080000 0x00400800 with target := tHi }, pParent1) ∧
      lo16 (relocOf R_MIPS_LO16 0 0x25080000 0x00400800) ⟨OutputType.Exec⟩ pParent1 =
        Except.ok (Result.OK,
          { relocOf R_MIPS_LO16 0 0x25080000 0x00400800 with target := tLo }, pParent1) ∧
      ((tHi % 2 ^ 16) * 2 ^ 16 + castInt16 (tLo % 2 ^ 16)) % 2 ^ 32 =
        (AHL + (relocOf R_MIPS_LO16 0 0x25080000 0x00400800).symValue) % 2 ^ 32) ∧
    targetOf (hi16 false (relocOf R_MIPS_HI16 0 0x3C080000 0x00400800)
      [relocOf R_MIPS_LO16 0 0x25080000 0x00400800] ⟨OutputType.Exec⟩
      (factoryOf (symOf Binding.Global SymType.Object Desc.Define 0))) = some 0x3C080040 ∧
    targetOf (lo16 (relocOf R_MIPS_LO16 0 0x25080000 0x00400800) ⟨OutputType.Exec⟩
      (factoryOf (symOf Binding.Global SymType.Object Desc.Define 0))) = some 0x25080800 ∧
    (0x0040 * 2 ^ 16 + castInt16 0x0800) % 2 ^ 32 = 0x00400800 :=
  ⟨hi16_lo16_reconstruct false (relocOf R_MIPS_HI16 0 0x3C080000 0x00400800)
      (relocOf R_MIPS_LO16 0 0x25080000 0x00400800)
      [relocOf R_MIPS_LO16 0 0x25080000 0x00400800] ⟨OutputType.Exec⟩
      (factoryOf (symOf Binding.Global SymType.Object Desc.Define 0))
      (by decide) (by decide) (by decide) (by decide) (by decide),
    by decide, by decide, by decide⟩

end Mips
namespace ARM

/-- C38. `movt_abs` and `thm_movt_abs` do not agree for `S + A = 0x80000000`:
on `movt r0, #0` with `S = 0x80000000` and addend 0, `movt_abs` returns OK and
writes the immediate `0x8000` (`0xE3480000`), while `thm_movt_abs` on the Thumb
encoding returns Overflow and leaves its word as it is; `movt_prel` and
`thm_movt_prel` at place 0 differ in the same way. -/
theorem thm_movt_overflow_where_movt_ok :
    movw_movt_imm16 0xE3400000 = 0 ∧ thumb_movw_movt_imm16 0xF2C00000 = 0 ∧
    resultOf (movt_abs false (relocOf R_ARM_MOVT_ABS 0 0xE3400000 0x80000000) ⟨OutputType.Exec⟩
      (factoryOf (symOf Binding.Global SymType.Object Desc.Define 0) 0)) = some Result.OK ∧
    (targetOf (movt_abs false (relocOf R_ARM_MOVT_ABS 0 0xE3400000 0x80000000)
      ⟨OutputType.Exec⟩ (factoryOf (symOf Binding.Global SymType.Object Desc.Define 0) 0))).map
        movw_movt_imm16 = some 0x8000 ∧
    thm_movt_abs false (relocOf R_ARM_THM_MOVT_ABS 0 0xF2C00000 0x80000000) ⟨OutputType.Exec⟩
        (factoryOf (symOf Binding.Global SymType.Object Desc.Define 0) 0) =
      Except.ok (Result.Overflow, relocOf R_ARM_THM_MOVT_ABS 0 0xF2C00000 0x80000000,
        factoryOf (symOf Binding.Global SymType.Object Desc.Define 0) 0) ∧
    resultOf (movt_prel (relocOf R_ARM_MOVT_PREL 0 0xE3400000 0x80000000) ⟨OutputType.Exec⟩
      (factoryOf (symOf Binding.Global SymType.Object Desc.Define 0) 0)) = some Result.OK ∧
    resultOf (thm_movt_prel (relocOf R_ARM_THM_MOVT_PREL 0 0xF2C00000 0x80000000)
      ⟨OutputType.Exec⟩ (factoryOf (symOf Binding.Global SymType.Object Desc.Define 0) 0)) =
        some Result.Overflow := by
  refine ⟨by decide, by decide, by decide, by decide, by rfl, by decide, by decide⟩

end ARM

/-- Flipping bit `k` of a number split at bit `k`. -/
theorem xor_two_pow_split (k q r : Nat) (hr : r < 2 ^ k) :
    (2 ^ k * q + r) ^^^ 2 ^ k = 2 ^ k * (q ^^^ 1) + r := by
  apply Nat.eq_of_testBit_eq
  intro j
  have h1 : (2 : Nat) ^ k = 2 ^ k * 1 + 0 := by omega
  rw [Nat.testBit_xor, Nat.testBit_mul_pow_two_add q hr, Nat.testBit_mul_pow_two_add (q ^^^ 1) hr]
  conv_lhs => rw [h1]
  rw [Nat.testBit_mul_pow_two_add 1 (Nat.two_pow_pos k)]
  by_cases hj : j < k
  · simp [hj]
  · simp [hj, Nat.testBit_xor]

/-- The negation of a bit, as the source writes it with `?:`, is the xor with 1. -/
theorem bit_not_eq_xor_one (x : Nat) (hx : x < 2) : (if x ≠ 0 then 0 else 1) = x ^^^ 1 := by
  have hc : x = 0 ∨ x = 1 := by omega
  rcases hc with h | h <;> subst h <;> rfl

/-- The negation `!sign` of a bit is the xor with 1. -/
theorem bit_lnot_eq_xor_one (x : Nat) (hx : x < 2) : (if x = 0 then 1 else 0) = x ^^^ 1 := by
  have hc : x = 0 ∨ x = 1 := by omega
  rcases hc with h | h <;> subst h <;> rfl

/-- A bit taken out by mask and shift is below 2. -/
theorem bit_extract_lt_two (x k : Nat) : (x &&& (1 <<< k)) >>> k < 2 := by
  rw [and_shiftLeft_mask, Nat.shiftLeft_eq, Nat.shiftRight_eq_div_pow,
    Nat.mul_div_cancel _ (Nat.two_pow_pos k)]
  exact Nat.lt_succ_of_le Nat.and_le_right

/-- The sign bit of a 32-bit offset, as the branch helpers take it, is below 2. -/
theorem sign_bit_lt_two (off : Nat) : (off &&& 0x80000000) >>> 31 < 2 := by
  have h := bit_extract_lt_two off 31
  have h1 : (1 : Nat) <<< 31 = 0x80000000 := by decide
  rw [h1] at h
  exact h

namespace ARM

/-- The function `helper_sign_extend` at width 25 is the sign extension of a
25-bit value to 64 bits. -/
theorem helper_sign_extend_25 (v : Nat) (hv : v < 2 ^ 25) :
    helper_sign_extend v 25 = if v < 2 ^ 24 then v else 2 ^ 64 - 2 ^ 25 + v := by
  have hs : sext32to64 (u32 (1 <<< (25 - 1))) = 2 ^ 24 := by decide
  have hq : 2 ^ 24 * (v / 2 ^ 24) + v % 2 ^ 24 = v := Nat.div_add_mod v (2 ^ 24)
  have hr : v % 2 ^ 24 < 2 ^ 24 := Nat.mod_lt _ (by norm_num)
  have hc : v / 2 ^ 24 = 0 ∨ v / 2 ^ 24 = 1 := by omega
  unfold helper_sign_extend
  simp only [hs]
  rw [← hq, xor_two_pow_split _ _ _ hr]
  rcases hc with h | h
  · rw [h]
    have hx : (0 : Nat) ^^^ 1 = 1 := by decide
    rw [hx]
    unfold sub64
    split <;> omega
  · rw [h]
    have hx : (1 : Nat) ^^^ 1 = 0 := by decide
    rw [hx]
    unfold sub64
    split <;> omega

/-- The bits of the upper halfword outside the mask `0x07FF` after
`helper_thumb32_branch_upper`. -/
theorem helper_thumb32_branch_upper_frame (u off : Nat) :
    helper_thumb32_branch_upper u off &&& 0xFFFFF800 = u &&& 0xFFFFF800 := by
  apply Nat.eq_of_testBit_eq
  intro i
  simp only [helper_thumb32_branch_upper, u32, Nat.testBit_or, Nat.testBit_and,
    Nat.testBit_shiftLeft, Nat.testBit_shiftRight, Nat.testBit_mod_two_pow]
  by_cases hi : i < 32
  · interval_cases i <;> simp [Nat.testBit_to_div_mod]
  · have h32 : 32 ≤ i := by omega
    simp [testBit_const_high 0xFFFFF800 i (by decide) h32]

/-- The bits of the lower halfword outside the mask `0x2FFF` after
`helper_thumb32_branch_lower`. -/
theorem helper_thumb32_branch_lower_frame (l off : Nat) :
    helper_thumb32_branch_lower l off &&& 0xFFFFD000 = l &&& 0xFFFFD000 := by
  apply Nat.eq_of_testBit_eq
  intro i
  unfold helper_thumb32_branch_lower
  simp only []
  rw [bit_lnot_eq_xor_one _ (sign_bit_lt_two off)]
  simp only [u64, Nat.testBit_or, Nat.testBit_and, Nat.testBit_xor,
    Nat.testBit_shiftLeft, Nat.testBit_shiftRight, Nat.testBit_mod_two_pow]
  by_cases hi : i < 32
  · interval_cases i <;> simp [Nat.testBit_to_div_mod]
  · have h32 : 32 ≤ i := by omega
    simp [testBit_const_high 0xFFFFD000 i (by decide) h32]

end ARM

/-- The xor of two bits is a bit. -/
theorem xor_bits_lt_two (a b : Nat) (ha : a < 2) (hb : b < 2) : a ^^^ b < 2 := by
  have h1 : a = 0 ∨ a = 1 := by omega
  have h2 : b = 0 ∨ b = 1 := by omega
  rcases h1 with h | h <;> rcases h2 with h' | h' <;> subst h <;> subst h' <;> decide

namespace ARM

/-- The form of `helper_thumb32_branch_lower` with `!sign` written as a xor. -/
theorem helper_thumb32_branch_lower_eq (l off : Nat) :
    helper_thumb32_branch_lower l off =
      (l &&& 0xffffd000) |||
        u64 ((((off >>> 23) &&& 1) ^^^ (((off &&& 0x80000000) >>> 31) ^^^ 1)) <<< 13) |||
        u64 ((((off >>> 22) &&& 1) ^^^ (((off &&& 0x80000000) >>> 31) ^^^ 1)) <<< 11) |||
        ((off >>> 1) &&& 0x7ff) := by
  unfold helper_thumb32_branch_lower
  simp only []
  rw [bit_lnot_eq_xor_one _ (sign_bit_lt_two off)]

/-- A bit above bit 0 of the constant 1 is clear. -/
theorem testBit_one_succ (i : Nat) (hi : 1 ≤ i) : Nat.testBit 1 i = false :=
  Nat.testBit_lt_two_pow (lt_of_lt_of_le (by decide : 1 < 2 ^ 1)
    (Nat.pow_le_pow_right (by decide) hi))

/-- The bit `s` read back from the upper halfword is the sign of the offset. -/
theorem thumb32_field_s (u off : Nat) :
    (helper_thumb32_branch_upper u off &&& (1 <<< 10)) >>> 10 = (off &&& 0x80000000) >>> 31 := by
  apply Nat.eq_of_testBit_eq
  intro i
  simp only [helper_thumb32_branch_upper, u32, Nat.testBit_or, Nat.testBit_and,
    Nat.testBit_shiftLeft, Nat.testBit_shiftRight, Nat.testBit_mod_two_pow]
  by_cases hi : i = 0
  · subst hi
    simp [Nat.testBit_to_div_mod]
  · have h1 : Nat.testBit 1 i = false := testBit_one_succ i (by omega)
    have h2 : Nat.testBit 0x80000000 (31 + i) = false :=
      testBit_const_high 0x80000000 (31 + i) (by decide) (by omega)
    simp [h1, h2]

/-- The field `imm10` read back from the upper halfword. -/
theorem thumb32_field_u (u off : Nat) :
    helper_thumb32_branch_upper u off &&& 0x3ff = (off >>> 12) &&& 0x3ff := by
  apply Nat.eq_of_testBit_eq
  intro i
  simp only [helper_thumb32_branch_upper, u32, Nat.testBit_or, Nat.testBit_and,
    Nat.testBit_shiftLeft, Nat.testBit_shiftRight, Nat.testBit_mod_two_pow]
  by_cases hi : i < 10
  · interval_cases i <;> simp [Nat.testBit_to_div_mod]
  · have h1 : Nat.testBit 0x3ff i = false :=
      Nat.testBit_lt_two_pow (lt_of_lt_of_le (by decide : 0x3ff < 2 ^ 10)
        (Nat.pow_le_pow_right (by decide) (by omega)))
    simp [h1]

/-- The field `imm11` read back from the lower halfword. -/
theorem thumb32_field_l (l off : Nat) :
    helper_thumb32_branch_lower l off &&& 0x7ff = (off >>> 1) &&& 0x7ff := by
  rw [helper_thumb32_branch_lower_eq]
  apply Nat.eq_of_testBit_eq
  intro i
  simp only [u64, Nat.testBit_or, Nat.testBit_and, Nat.testBit_xor,
    Nat.testBit_shiftLeft, Nat.testBit_shiftRight, Nat.testBit_mod_two_pow]
  by_cases hi : i < 11
  · interval_cases i <;> simp [Nat.testBit_to_div_mod]
  · have h1 : Nat.testBit 0x7ff i = false :=
      Nat.testBit_lt_two_pow (lt_of_lt_of_le (by decide : 0x7ff < 2 ^ 11)
        (Nat.pow_le_pow_right (by decide) (by omega)))
    simp [h1]

/-- The bit `J1` read back from the lower halfword. -/
theorem thumb32_field_j1 (l off : Nat) :
    (helper_thumb32_branch_lower l off &&& (1 <<< 13)) >>> 13 =
      ((off >>> 23) &&& 1) ^^^ (((off &&& 0x80000000) >>> 31) ^^^ 1) := by
  rw [helper_thumb32_branch_lower_eq]
  apply Nat.eq_of_testBit_eq
  intro i
  simp only [u64, Nat.testBit_or, Nat.testBit_and, Nat.testBit_xor,
    Nat.testBit_shiftLeft, Nat.testBit_shiftRight, Nat.testBit_mod_two_pow]
  by_cases hi : i = 0
  · subst hi
    simp [Nat.testBit_to_div_mod]
  · have h1 : Nat.testBit 1 i = false := testBit_one_succ i (by omega)
    have h2 : Nat.testBit 0x80000000 (31 + i) = false :=
      testBit_const_high 0x80000000 (31 + i) (by decide) (by omega)
    simp [h1, h2]

/-- The bit `J2` read back from the lower halfword. -/
theorem thumb32_field_j2 (l off : Nat) :
    (helper_thumb32_branch_lower l off &&& (1 <<< 11)) >>> 11 =
      ((off >>> 22) &&& 1) ^^^ (((off &&& 0x80000000) >>> 31) ^^^ 1) := by
  rw [helper_thumb32_branch_lower_eq]
  apply Nat.eq_of_testBit_eq
  intro i
  simp only [u64, Nat.testBit_or, Nat.testBit_and, Nat.testBit_xor,
    Nat.testBit_shiftLeft, Nat.testBit_shiftRight, Nat.testBit_mod_two_pow]
  by_cases hi : i = 0
  · subst hi
    simp [Nat.testBit_to_div_mod]
  · have h1 : Nat.testBit 1 i = false := testBit_one_succ i (by omega)
    have h2 : Nat.testBit 0x80000000 (31 + i) = false :=
      testBit_const_high 0x80000000 (31 + i) (by decide) (by omega)
    simp [h1, h2]

end ARM
namespace ARM

/-- The value the decoder sign-extends, for what the two encoders wrote: the low
25 bits of the offset, for an even offset whose bit 24 equals bit 31. -/
theorem thumb32_fields_value (off : Nat) (h0 : off % 2 = 0)
    (h24 : off / 2 ^ 24 % 2 = off / 2 ^ 31 % 2) :
    u64 (((off &&& 0x80000000) >>> 31) <<< 24) |||
      u64 ((((((off >>> 23) &&& 1) ^^^ (((off &&& 0x80000000) >>> 31) ^^^ 1)) ^^^
        ((off &&& 0x80000000) >>> 31)) ^^^ 1) <<< 23) |||
      u64 ((((((off >>> 22) &&& 1) ^^^ (((off &&& 0x80000000) >>> 31) ^^^ 1)) ^^^
        ((off &&& 0x80000000) >>> 31)) ^^^ 1) <<< 22) |||
      u64 (((off >>> 12) &&& 0x3ff) <<< 12) ||| u64 (((off >>> 1) &&& 0x7ff) <<< 1) =
      off % 2 ^ 25 := by
  apply Nat.eq_of_testBit_eq
  intro i
  simp only [u64, Nat.testBit_or, Nat.testBit_and, Nat.testBit_xor,
    Nat.testBit_shiftLeft, Nat.testBit_shiftRight, Nat.testBit_mod_two_pow]
  by_cases hi : i < 25
  · interval_cases i <;> simp [Nat.testBit_to_div_mod] <;> omega
  · have h1 : Nat.testBit 0x80000000 (31 + (i - 24)) = false :=
      testBit_const_high 0x80000000 _ (by decide) (by omega)
    have h2 : Nat.testBit 0x80000000 (31 + (i - 23)) = false :=
      testBit_const_high 0x80000000 _ (by decide) (by omega)
    have h3 : Nat.testBit 0x80000000 (31 + (i - 22)) = false :=
      testBit_const_high 0x80000000 _ (by decide) (by omega)
    have h4 : Nat.testBit 1 (i - 23) = false := testBit_one_succ _ (by omega)
    have h5 : Nat.testBit 1 (i - 22) = false := testBit_one_succ _ (by omega)
    have h6 : Nat.testBit 0x3ff (i - 12) = false :=
      Nat.testBit_lt_two_pow (lt_of_lt_of_le (by decide : 0x3ff < 2 ^ 10)
        (Nat.pow_le_pow_right (by decide) (by omega)))
    have h7 : Nat.testBit 0x7ff (i - 1) = false :=
      Nat.testBit_lt_two_pow (lt_of_lt_of_le (by decide : 0x7ff < 2 ^ 11)
        (Nat.pow_le_pow_right (by decide) (by omega)))
    simp [hi, h1, h2, h3, h4, h5, h6, h7]

/-- C40. For every even offset `off` in the 25-bit signed range, as a 32-bit
two's-complement value, and all halfwords `u`, `l`:
`helper_thumb32_branch_offset (helper_thumb32_branch_upper u off)
(helper_thumb32_branch_lower l off)` is congruent to `off` modulo `2 ^ 32`; the
upper helper leaves the bits of `u` outside the mask `0x07FF` as they are, and
the lower helper those of `l` outside the mask `0x2FFF` (the masks `~0x7ffU` and
`~0x2fffU` of the source are `0xFFFFF800` and `0xFFFFD000`). -/
theorem thumb32_branch_round_trip (u l off : Nat) (hEven : off % 2 = 0)
    (hRange : off < 2 ^ 24 ∨ (2 ^ 32 - 2 ^ 24 ≤ off ∧ off < 2 ^ 32)) :
    helper_thumb32_branch_offset (helper_thumb32_branch_upper u off)
        (helper_thumb32_branch_lower l off) % 2 ^ 32 = off ∧
      helper_thumb32_branch_upper u off &&& 0xFFFFF800 = u &&& 0xFFFFF800 ∧
      helper_thumb32_branch_lower l off &&& 0xFFFFD000 = l &&& 0xFFFFD000 := by
  have h24 : off / 2 ^ 24 % 2 = off / 2 ^ 31 % 2 := by omega
  have hdec : helper_thumb32_branch_offset (helper_thumb32_branch_upper u off)
      (helper_thumb32_branch_lower l off) = helper_sign_extend (off % 2 ^ 25) 25 := by
    unfold helper_thumb32_branch_offset
    simp only []
    rw [bit_not_eq_xor_one _
        (xor_bits_lt_two _ _ (bit_extract_lt_two _ 13) (bit_extract_lt_two _ 10)),
      bit_not_eq_xor_one _
        (xor_bits_lt_two _ _ (bit_extract_lt_two _ 11) (bit_extract_lt_two _ 10)),
      thumb32_field_s, thumb32_field_u, thumb32_field_l, thumb32_field_j1, thumb32_field_j2,
      thumb32_fields_value off hEven h24]
  refine ⟨?_, helper_thumb32_branch_upper_frame u off, helper_thumb32_branch_lower_frame l off⟩
  rw [hdec, helper_sign_extend_25 _ (Nat.mod_lt _ (by norm_num))]
  split <;> omega

/-- C40 (witness): the offset `-4` (`0xFFFFFFFC`) written over the pair
`0xF000`, `0xF800` reads back as `-4`. -/
theorem thumb32_branch_round_trip_witness :
    helper_thumb32_branch_offset (helper_thumb32_branch_upper 0xF000 0xFFFFFFFC)
        (helper_thumb32_branch_lower 0xF800 0xFFFFFFFC) % 2 ^ 32 = 0xFFFFFFFC ∧
      helper_thumb32_branch_upper 0xF000 0xFFFFFFFC &&& 0xFFFFF800 = 0xF000 &&& 0xFFFFF800 ∧
      helper_thumb32_branch_lower 0xF800 0xFFFFFFFC &&& 0xFFFFD000 = 0xF800 &&& 0xFFFFD000 :=
  thumb32_branch_round_trip 0xF000 0xF800 0xFFFFFFFC (by decide) (Or.inr (by decide))

end ARM

namespace Mips

/-- C35. For a shared object, an `R_MIPS_HI16` / `R_MIPS_LO16` pair against a
global dynamic symbol that needs a dynamic relocation, in a section with
SHF_ALLOC: the scan reserves two `.rel.dyn` entries, and `hi16` and `lo16` take
none. -/
theorem relDyn_reserved_not_taken :
    relDynBalance
      (scanRelocations false dynBackend (fun _ => dynSym)
        [(relocOf R_MIPS_HI16 0 0x3C080000 0x00400800, allocSection),
          (relocOf R_MIPS_LO16 0 0x25080000 0x00400800, allocSection)])
      (fun pParent => andThen
        (hi16 false (relocOf R_MIPS_HI16 0 0x3C080000 0x00400800)
          [relocOf R_MIPS_LO16 0 0x25080000 0x00400800] ⟨OutputType.DynObj⟩ pParent)
        (lo16 (relocOf R_MIPS_LO16 0 0x25080000 0x00400800) ⟨OutputType.DynObj⟩)) =
      some (2, 0) := by
  decide

end Mips
namespace Mips

/-- C33. On a little-endian host, with three `.dynsym` entries named ``, `a` and
`b`, three buckets and a hash region whose bytes are all `0xFF` before:
`emitDynNamePools` writes `nbucket = 3` and `nchain = 3`, clears three bytes,
and leaves the chain word of entry 1 at `0xFFFFFFFF`, so the walk from the bucket
of `a` goes from entry 1 to `0xFFFFFFFF` and not to 0; on a hash region of zero
bytes the chain word is 0. -/
theorem emitHash_bucket_not_cleared :
    elfHash "a" % 3 = 1 ∧
    ELFReader.load32 true (emitHash true (fun _ => 3) elfHash ["", "a", "b"] 3 (fun _ => 0xFF)) 0
      = 3 ∧
    ELFReader.load32 true (emitHash true (fun _ => 3) elfHash ["", "a", "b"] 3 (fun _ => 0xFF)) 4
      = 3 ∧
    ELFReader.load32 true (emitHash true (fun _ => 3) elfHash ["", "a", "b"] 3 (fun _ => 0xFF))
      (8 + 4 * 1) = 1 ∧
    ELFReader.load32 true (emitHash true (fun _ => 3) elfHash ["", "a", "b"] 3 (fun _ => 0xFF))
      (8 + 4 * 3 + 4 * 1) = 0xFFFFFFFF ∧
    ELFReader.load32 true (emitHash true (fun _ => 3) elfHash ["", "a", "b"] 3 (fun _ => 0))
      (8 + 4 * 3 + 4 * 1) = 0 := by
  refine ⟨by decide, by decide, by decide, by decide, by decide, by decide⟩

/-- C37. For an executable, dynamically linked, from a module named `a.out`
without symbols and libraries: `sizeNamePools` sets the size of `.dynsym` to one
entry and the size of `.dynstr` to 1, and `emitDynNamePools` writes one `.dynsym`
entry and 7 bytes of `.dynstr`, the module name among them. For a shared object
`sizeNamePools` sets the size of `.dynstr` to 7. -/
theorem emitDynNamePools_dynstr_exceeds_size :
    (sizeNamePools emptyBackend (fun _ => 1) (fun _ => dynSym) ⟨[], [], [], [], "a.out"⟩ false
      ⟨0, 0, 0, 0, 0, 0⟩).dynSymTab = 1 * 16 ∧
    (sizeNamePools emptyBackend (fun _ => 1) (fun _ => dynSym) ⟨[], [], [], [], "a.out"⟩ false
      ⟨0, 0, 0, 0, 0, 0⟩).dynStrTab = 1 ∧
    emittedCounts (emitDynNamePools emptyBackend true (fun _ => 1) elfHash (fun _ => dynSym)
      ⟨[], [], [], [], "a.out"⟩ (fun _ => 0)) = some (1, 7) ∧
    (sizeNamePools dynBackend (fun _ => 1) (fun _ => dynSym) ⟨[], [], [], [], "a.out"⟩ false
      ⟨0, 0, 0, 0, 0, 0⟩).dynStrTab = 7 := by
  refine ⟨by decide, by decide, by decide, by decide⟩

end Mips

namespace ELFReader

/-- C24 (counterexample): a section header table of two entries, the null
section and a `.shstrtab` of kind NamePool with `sh_link = 0` and `sh_info = 0`:
after `readSectionHeaders` the link of `.shstrtab` is null, while the section at
index `sh_link = 0` of the context is there. -/
theorem readSectionHeaders_namepool_no_link_counterexample :
    contextOf (readSectionHeaders true kindOf
      ⟨InputType.Object, "a.o", "a.o", 0, strtabFile, []⟩ strtabFile.byte) =
      [⟨"", Kind.other 0, 0, 0, 0, 0, 0, 0, Option.none⟩,
        ⟨".shstrtab", Kind.NamePool, 3, 0, 11, 132, 0, 0, Option.none⟩] ∧
    getSection (contextOf (readSectionHeaders true kindOf
      ⟨InputType.Object, "a.o", "a.o", 0, strtabFile, []⟩ strtabFile.byte)) 0 = some 0 := by
  refine ⟨by decide, by decide⟩

/-- The sections and the link infos after the loop over the first `n` section
headers, from an empty context. -/
theorem readSectionHeader_foldl (le : Bool) (GetSectionKind : Nat → String → Kind)
    (memArea : MemoryArea) (shdrTab sect_name : Nat) (n : Nat) :
    (List.range n).foldl (readSectionHeader le GetSectionKind memArea shdrTab sect_name)
        ([], []) =
      ((List.range n).map (fun i =>
          createSection GetSectionKind memArea.cstr sect_name (shdrAt le memArea.byte shdrTab i)),
        (List.range n).filterMap (fun i =>
          if (shdrAt le memArea.byte shdrTab i).sh_link ≠ 0 ∨
              (shdrAt le memArea.byte shdrTab i).sh_info ≠ 0 then
            some ⟨i, (shdrAt le memArea.byte shdrTab i).sh_link,
              (shdrAt le memArea.byte shdrTab i).sh_info⟩
          else Option.none)) := by
  induction n with
  | zero => rfl
  | succ k ih =>
    rw [List.range_succ, List.foldl_append, ih]
    simp only [List.foldl_cons, List.foldl_nil, readSectionHeader, List.length_map,
      List.length_range, List.map_append, List.map_cons, List.map_nil, List.filterMap_append,
      List.filterMap_cons, List.filterMap_nil]
    split_ifs <;> simp

/-- The step `setUpLink` keeps the number of sections. -/
theorem setUpLink_length (ctx : List LDSection) (x : LinkInfo) :
    (setUpLink ctx x).length = ctx.length := by
  unfold setUpLink setLink
  cases h : ctx.get? x.section_ with
  | none => rfl
  | some s =>
    simp only [h]
    split_ifs <;> simp

/-- The step `setUpLink` on the section of the link info, and on the others. -/
theorem setUpLink_getElem? (ctx : List LDSection) (x : LinkInfo) (j : Nat) :
    (setUpLink ctx x)[j]? = (ctx[j]?).map (fun s =>
      if j = x.section_ then
        (if s.kind = Kind.NamePool ∨ s.kind = Kind.Group ∨ s.kind = Kind.Note then
          { s with link := getSection ctx x.sh_link }
        else if s.kind = Kind.Relocation then { s with link := getSection ctx x.sh_info }
        else s)
      else s) := by
  unfold setUpLink setLink
  cases h : ctx.get? x.section_ with
  | none =>
    have h1 : ctx[x.section_]? = Option.none := by simpa using h
    by_cases hj : j = x.section_
    · subst hj
      simp [h1]
    · simp [hj]
  | some s =>
    have h1 : ctx[x.section_]? = some s := by simpa using h
    have hlt : x.section_ < ctx.length := (List.getElem?_eq_some.1 h1).1
    simp only []
    by_cases hj : j = x.section_
    · subst hj
      split_ifs <;> simp_all [List.getElem?_set]
    · have hne : x.section_ ≠ j := fun hc => hj hc.symm
      split_ifs <;> simp [hj, List.getElem?_set, hne]

end ELFReader
namespace ELFReader

/-- The link info the first loop keeps for the section header of index `i`. -/
theorem linkInfo_filterMap_succ (hd : Nat → Elf32_Shdr) (k : Nat) :
    (List.range (k + 1)).filterMap (fun i =>
        if (hd i).sh_link ≠ 0 ∨ (hd i).sh_info ≠ 0 then
          some (⟨i, (hd i).sh_link, (hd i).sh_info⟩ : LinkInfo)
        else Option.none) =
      (List.range k).filterMap (fun i =>
        if (hd i).sh_link ≠ 0 ∨ (hd i).sh_info ≠ 0 then
          some (⟨i, (hd i).sh_link, (hd i).sh_info⟩ : LinkInfo)
        else Option.none) ++
      (if (hd k).sh_link ≠ 0 ∨ (hd k).sh_info ≠ 0 then
        [(⟨k, (hd k).sh_link, (hd k).sh_info⟩ : LinkInfo)] else []) := by
  rw [List.range_succ, List.filterMap_append]
  congr 1
  simp only [List.filterMap_cons, List.filterMap_nil]
  split_ifs <;> rfl

/-- The sections after the loop over the link infos of the first `n` section
headers: the section of index `j < n` has the link of `expectedLink`, the
others are as before. -/
theorem setUpLink_foldl (hd : Nat → Elf32_Shdr) (ctx0 : List LDSection) (n : Nat) :
    (((List.range n).filterMap (fun i =>
        if (hd i).sh_link ≠ 0 ∨ (hd i).sh_info ≠ 0 then
          some (⟨i, (hd i).sh_link, (hd i).sh_info⟩ : LinkInfo)
        else Option.none)).foldl setUpLink ctx0).length = ctx0.length ∧
    ∀ j, (((List.range n).filterMap (fun i =>
        if (hd i).sh_link ≠ 0 ∨ (hd i).sh_info ≠ 0 then
          some (⟨i, (hd i).sh_link, (hd i).sh_info⟩ : LinkInfo)
        else Option.none)).foldl setUpLink ctx0)[j]? =
      (ctx0[j]?).map (fun s =>
        if j < n ∧ ((hd j).sh_link ≠ 0 ∨ (hd j).sh_info ≠ 0) ∧
            (s.kind = Kind.NamePool ∨ s.kind = Kind.Group ∨ s.kind = Kind.Note ∨
              s.kind = Kind.Relocation) then
          { s with link := expectedLink s.kind (hd j) ctx0.length }
        else s) := by
  induction n with
  | zero =>
    refine ⟨rfl, fun j => ?_⟩
    show ctx0[j]? = _
    cases ctx0[j]? with
    | none => rfl
    | some s => simp only [Nat.not_lt_zero, false_and, if_false, Option.map_some']
  | succ k ih =>
    obtain ⟨ihl, ihg⟩ := ih
    rw [linkInfo_filterMap_succ, List.foldl_append]
    by_cases hc : (hd k).sh_link ≠ 0 ∨ (hd k).sh_info ≠ 0
    · rw [if_pos hc]
      simp only [List.foldl_cons, List.foldl_nil]
      refine ⟨by rw [setUpLink_length, ihl], fun j => ?_⟩
      rw [setUpLink_getElem?, ihg j]
      have hk := ihg k
      cases hj : ctx0[j]? with
      | none => rfl
      | some s =>
        simp only [Option.map_some', Option.some.injEq, getSection, ihl]
        have hc' : ¬((hd k).sh_link = 0 ∧ (hd k).sh_info = 0) := by
          intro h
          rcases hc with h1 | h1
          · exact h1 h.1
          · exact h1 h.2
        by_cases hjk : j = k
        · subst hjk
          have hlt : ¬ j < j := Nat.lt_irrefl j
          simp only [hlt, false_and, if_false, if_true, Nat.lt_succ_self, true_and, hc,
            expectedLink, hc']
          by_cases h1 : s.kind = Kind.NamePool ∨ s.kind = Kind.Group ∨ s.kind = Kind.Note
          · have h2 : s.kind = Kind.NamePool ∨ s.kind = Kind.Group ∨ s.kind = Kind.Note ∨
                s.kind = Kind.Relocation := by
              rcases h1 with h | h | h
              · exact Or.inl h
              · exact Or.inr (Or.inl h)
              · exact Or.inr (Or.inr (Or.inl h))
            simp only [h1, h2, if_true]
          · by_cases h3 : s.kind = Kind.Relocation
            · have h2 : s.kind = Kind.NamePool ∨ s.kind = Kind.Group ∨ s.kind = Kind.Note ∨
                  s.kind = Kind.Relocation := Or.inr (Or.inr (Or.inr h3))
              simp [h3]
            · have h2 : ¬(s.kind = Kind.NamePool ∨ s.kind = Kind.Group ∨ s.kind = Kind.Note ∨
                  s.kind = Kind.Relocation) := by
                intro h
                rcases h with h | h | h | h
                · exact h1 (Or.inl h)
                · exact h1 (Or.inr (Or.inl h))
                · exact h1 (Or.inr (Or.inr h))
                · exact h3 h
              simp only [h1, h2, h3, if_false, and_false, or_false]
        · have h4 : (j < k + 1) = (j < k) := by
            apply propext
            constructor <;> intro h <;> omega
          simp only [hjk, if_false, h4]
    · rw [if_neg hc]
      simp only [List.foldl_nil]
      refine ⟨ihl, fun j => ?_⟩
      rw [ihg j]
      cases hj : ctx0[j]? with
      | none => rfl
      | some s =>
        simp only [Option.map_some', Option.some.injEq]
        by_cases hjk : j = k
        · subst hjk
          have hlt : ¬ j < j := Nat.lt_irrefl j
          simp only [hlt, hc, false_and, and_false, if_false]
        · have h4 : (j < k + 1) = (j < k) := by
            apply propext
            constructor <;> intro h <;> omega
          simp only [h4]

end ELFReader
namespace ELFReader

/-- C24 (amended): after `readSectionHeaders` on a header with `e_shoff != 0`,
for an input whose context is empty before, the context holds exactly `e_shnum`
sections in the order of the section header table; the link of a section of
kind NamePool, Group or Note whose `sh_link` or `sh_info` is not 0 is the
section at index `sh_link`, the link of a section of kind Relocation whose
`sh_link` or `sh_info` is not 0 is the section at index `sh_info`, and the
sections of any other kind, and those with `sh_link = 0` and `sh_info = 0`, get
no link. -/
theorem readSectionHeaders_links (le : Bool) (GetSectionKind : Nat → String → Kind)
    (pInput : Input) (pELFHeader : Nat → Nat)
    (hCtx : pInput.context = []) (hOff : field32 le pELFHeader 32 ≠ 0) :
    (readSectionHeaders le GetSectionKind pInput pELFHeader).2 = true ∧
    (contextOf (readSectionHeaders le GetSectionKind pInput pELFHeader)).length =
      field16 le pELFHeader 48 ∧
    ∀ i, i < field16 le pELFHeader 48 →
      (contextOf (readSectionHeaders le GetSectionKind pInput pELFHeader))[i]? =
        some { sectionOf le GetSectionKind pInput pELFHeader i with
          link := expectedLink (sectionOf le GetSectionKind pInput pELFHeader i).kind
            (headerOf le pInput pELFHeader i) (field16 le pELFHeader 48) } := by
  have hfold := setUpLink_foldl (headerOf le pInput pELFHeader)
    ((List.range (field16 le pELFHeader 48)).map (sectionOf le GetSectionKind pInput pELFHeader))
    (field16 le pELFHeader 48)
  have hlen : ((List.range (field16 le pELFHeader 48)).map
      (sectionOf le GetSectionKind pInput pELFHeader)).length = field16 le pELFHeader 48 := by
    simp
  have hrun : readSectionHeaders le GetSectionKind pInput pELFHeader =
      ({ pInput with
          context := (List.foldl setUpLink
            ((List.range (field16 le pELFHeader 48)).map
              (sectionOf le GetSectionKind pInput pELFHeader))
            ((List.range (field16 le pELFHeader 48)).filterMap (fun i =>
              if (headerOf le pInput pELFHeader i).sh_link ≠ 0 ∨
                  (headerOf le pInput pELFHeader i).sh_info ≠ 0 then
                some (⟨i, (headerOf le pInput pELFHeader i).sh_link,
                  (headerOf le pInput pELFHeader i).sh_info⟩ : LinkInfo)
              else Option.none))) }, true) := by
    unfold readSectionHeaders
    simp only [hOff, if_false, hCtx, readSectionHeader_foldl]
    rfl
  rw [hrun]
  refine ⟨rfl, ?_, ?_⟩
  · simp only [contextOf]
    rw [hfold.1, hlen]
  · intro i hi
    simp only [contextOf]
    rw [hfold.2 i, hlen]
    have hget : ((List.range (field16 le pELFHeader 48)).map
        (sectionOf le GetSectionKind pInput pELFHeader))[i]? =
        some (sectionOf le GetSectionKind pInput pELFHeader i) := by
      rw [List.getElem?_map, List.getElem?_range hi]
      rfl
    rw [hget]
    simp only [Option.map_some', Option.some.injEq]
    have hnone : (sectionOf le GetSectionKind pInput pELFHeader i).link = Option.none := rfl
    split_ifs with hc
    · rfl
    · have hexp : expectedLink (sectionOf le GetSectionKind pInput pELFHeader i).kind
          (headerOf le pInput pELFHeader i) (field16 le pELFHeader 48) = Option.none := by
        unfold expectedLink
        by_cases h0 : (headerOf le pInput pELFHeader i).sh_link = 0 ∧
            (headerOf le pInput pELFHeader i).sh_info = 0
        · rw [if_pos h0]
        · rw [if_neg h0]
          have hcond : (headerOf le pInput pELFHeader i).sh_link ≠ 0 ∨
              (headerOf le pInput pELFHeader i).sh_info ≠ 0 := by
            by_contra hn
            push_neg at hn
            exact h0 hn
          have hk : ¬((sectionOf le GetSectionKind pInput pELFHeader i).kind = Kind.NamePool ∨
              (sectionOf le GetSectionKind pInput pELFHeader i).kind = Kind.Group ∨
              (sectionOf le GetSectionKind pInput pELFHeader i).kind = Kind.Note ∨
              (sectionOf le GetSectionKind pInput pELFHeader i).kind = Kind.Relocation) :=
            fun hk => hc ⟨hi, hcond, hk⟩
          have hk1 : ¬((sectionOf le GetSectionKind pInput pELFHeader i).kind = Kind.NamePool ∨
              (sectionOf le GetSectionKind pInput pELFHeader i).kind = Kind.Group ∨
              (sectionOf le GetSectionKind pInput pELFHeader i).kind = Kind.Note) := by
            intro h
            rcases h with h | h | h
            · exact hk (Or.inl h)
            · exact hk (Or.inr (Or.inl h))
            · exact hk (Or.inr (Or.inr (Or.inl h)))
          have hk2 : ¬((sectionOf le GetSectionKind pInput pELFHeader i).kind =
              Kind.Relocation) := fun h => hk (Or.inr (Or.inr (Or.inr h)))
          rw [if_neg hk1, if_neg hk2]
      rw [hexp]
      rfl

end ELFReader
namespace ELFReader

/-- The last `DT_SONAME` entry of a list with one more entry in front. -/
theorem lastSOName_cons (e : Nat × Nat) (l : List (Nat × Nat)) :
    lastSOName (e :: l) =
      match lastSOName l with
      | some v => some v
      | Option.none => if e.1 = DT_SONAME then some e.2 else Option.none := by
  unfold lastSOName
  by_cases h : e.1 = DT_SONAME
  · simp only [List.filter_cons, h, decide_True, if_true]
    cases hf : l.filter (fun e => decide (e.1 = DT_SONAME)) with
    | nil => simp
    | cons x xs =>
      rw [List.getLast?_cons_cons, List.getLast?_eq_getLast _ (List.cons_ne_nil x xs)]
      rfl
  · simp only [List.filter_cons, h, decide_False, Bool.false_eq_true, if_false]
    cases hf : (l.filter (fun e => decide (e.1 = DT_SONAME))).getLast? with
    | none => simp
    | some x => simp

/-- The loop of `readDynamic`: the name is that of the last `DT_SONAME` entry of
the indices left, if there is one, and `hasSOName` tells whether there was one. -/
theorem readDynamicEntries_ok (ndebug le : Bool) (filename : String → String)
    (dynamic dynstr dynstr_size : Nat) (pInput : Input) (idxs : List Nat) :
    ∀ (name : String) (hasSOName : Bool),
    (∀ e ∈ idxs.map (fun idx => (field32 le pInput.memArea.byte (dynamic + 8 * idx),
        field32 le pInput.memArea.byte (dynamic + 8 * idx + 4))),
      e.1 = DT_SONAME → e.2 < dynstr_size) →
    readDynamicEntries ndebug le filename dynamic dynstr dynstr_size idxs
        ({ pInput with name := name }, hasSOName) =
      Except.ok
        ({ pInput with
            name := (match lastSOName (idxs.map (fun idx =>
                (field32 le pInput.memArea.byte (dynamic + 8 * idx),
                  field32 le pInput.memArea.byte (dynamic + 8 * idx + 4)))) with
              | some d_val => filename (pInput.memArea.cstr (dynstr + d_val))
              | Option.none => name) },
          hasSOName || (lastSOName (idxs.map (fun idx =>
                (field32 le pInput.memArea.byte (dynamic + 8 * idx),
                  field32 le pInput.memArea.byte (dynamic + 8 * idx + 4))))).isSome) := by
  induction idxs with
  | nil =>
    intro name hasSOName _
    simp [readDynamicEntries, lastSOName]
  | cons idx rest ih =>
    intro name hasSOName hVal
    have hrest : ∀ e ∈ rest.map (fun idx => (field32 le pInput.memArea.byte (dynamic + 8 * idx),
        field32 le pInput.memArea.byte (dynamic + 8 * idx + 4))),
        e.1 = DT_SONAME → e.2 < dynstr_size := by
      intro e he
      exact hVal e (by rw [List.map_cons]; exact List.mem_cons_of_mem _ he)
    rw [List.map_cons, lastSOName_cons]
    unfold readDynamicEntries
    by_cases htag : field32 le pInput.memArea.byte (dynamic + 8 * idx) = DT_SONAME
    · have hv : field32 le pInput.memArea.byte (dynamic + 8 * idx + 4) < dynstr_size :=
        hVal _ (by rw [List.map_cons]; exact List.mem_cons_self _ _) htag
      simp only [htag, if_true, cassert, hv, decide_True, Bool.or_true]
      rw [ih _ true hrest]
      cases lastSOName (rest.map (fun idx =>
        (field32 le pInput.memArea.byte (dynamic + 8 * idx),
          field32 le pInput.memArea.byte (dynamic + 8 * idx + 4)))) with
      | none => simp
      | some v => simp
    · simp only [htag, if_false]
      rw [ih _ hasSOName hrest]
      cases lastSOName (rest.map (fun idx =>
        (field32 le pInput.memArea.byte (dynamic + 8 * idx),
          field32 le pInput.memArea.byte (dynamic + 8 * idx + 4)))) with
      | none => simp
      | some v => simp

end ELFReader
namespace ELFReader

/-- C25. `readDynamic` on a DynObj input that has a `.dynamic` section with a
linked string table, every `DT_SONAME` entry having its `d_val` inside that
string table: it returns true, and the name of the input is the basename of the
string at offset `d_val` of the string table for the last `DT_SONAME` entry among
the `size / 8` entries, and the basename of the path of the input exactly when
there is no `DT_SONAME` entry; the entries with other tags do not count. -/
theorem readDynamic_name (ndebug le : Bool) (filename : String → String) (pInput : Input)
    (dynamic_sect dynstr_sect : LDSection)
    (hType : pInput.type = InputType.DynObj)
    (hDyn : pInput.context.find? (fun s => s.name == ".dynamic") = some dynamic_sect)
    (hStr : dynamic_sect.link.bind (fun i => pInput.context.get? i) = some dynstr_sect)
    (hVal : ∀ e ∈ dynEntries le pInput.memArea.byte (pInput.fileOffset + dynamic_sect.offset)
        (dynamic_sect.size / 8), e.1 = DT_SONAME → e.2 < dynstr_sect.size) :
    readDynamic ndebug le filename pInput =
      Except.ok
        ({ pInput with
            name := (match lastSOName (dynEntries le pInput.memArea.byte
                (pInput.fileOffset + dynamic_sect.offset) (dynamic_sect.size / 8)) with
              | some d_val =>
                filename (pInput.memArea.cstr (pInput.fileOffset + dynstr_sect.offset + d_val))
              | Option.none => filename pInput.path) }, true) := by
  have hloop := readDynamicEntries_ok ndebug le filename
    (pInput.fileOffset + dynamic_sect.offset) (pInput.fileOffset + dynstr_sect.offset)
    dynstr_sect.size pInput (List.range (dynamic_sect.size / 8)) pInput.name false hVal
  have heta : ({ pInput with name := pInput.name } : Input) = pInput := rfl
  rw [heta] at hloop
  unfold readDynamic
  simp only [cassert, hType, decide_True, Bool.or_true, if_true, hDyn, hStr, hloop, dynEntries]
  cases lastSOName ((List.range (dynamic_sect.size / 8)).map (fun idx =>
      (field32 le pInput.memArea.byte (pInput.fileOffset + dynamic_sect.offset + 8 * idx),
        field32 le pInput.memArea.byte
          (pInput.fileOffset + dynamic_sect.offset + 8 * idx + 4)))) with
  | none => simp
  | some v => simp

end ELFReader
namespace ELFReader

/-- C25 (witness): for `dynInput`, whose `.dynamic` holds `(DT_NEEDED, 1)` and
`(DT_SONAME, 5)`, the name becomes the string at offset 5 of the string table. -/
theorem readDynamic_name_witness :
    nameOf (readDynamic false true (fun s => s) dynInput) = some "libfoo.so" := by
  rw [readDynamic_name false true (fun s => s) dynInput
    ⟨".dynamic", Kind.other 6, 6, 0, 16, 100, 0, 4, some 1⟩
    ⟨".dynstr", Kind.NamePool, 3, 0, 20, 200, 0, 1, Option.none⟩
    rfl (by decide) (by decide) (by decide)]
  decide

end ELFReader

namespace ARM

/-- The sign extension from 26 bits, as a value modulo `2 ^ 64`. -/
theorem helper_sign_extend_26 (v : Nat) (hv : v < 2 ^ 26) :
    helper_sign_extend v 26 = if v < 2 ^ 25 then v else 2 ^ 64 - 2 ^ 26 + v := by
  have hs : sext32to64 (u32 (1 <<< (26 - 1))) = 2 ^ 25 := by decide
  have hq : 2 ^ 25 * (v / 2 ^ 25) + v % 2 ^ 25 = v := Nat.div_add_mod v (2 ^ 25)
  have hr : v % 2 ^ 25 < 2 ^ 25 := Nat.mod_lt _ (by norm_num)
  have hc : v / 2 ^ 25 = 0 ∨ v / 2 ^ 25 = 1 := by omega
  unfold helper_sign_extend
  simp only [hs]
  rw [← hq, xor_two_pow_split _ _ _ hr]
  rcases hc with h | h
  · rw [h]
    have hx : (0 : Nat) ^^^ 1 = 1 := by decide
    rw [hx]
    unfold sub64
    split_ifs <;> omega
  · rw [h]
    have hx : (1 : Nat) ^^^ 1 = 0 := by decide
    rw [hx]
    unfold sub64
    split_ifs <;> omega

/-- The 24-bit field of a branch instruction, shifted left by 2, is below `2 ^ 26`. -/
theorem branch_imm_lt (t : Nat) : (t &&& 0x00FFFFFF) <<< 2 < 2 ^ 26 := by
  have h : t &&& 0x00FFFFFF ≤ 0x00FFFFFF := Nat.and_le_right
  rw [Nat.shiftLeft_eq]
  omega

/-- The Thumb bit, as a conditional. -/
theorem getThumbBit_eq (info : SymPtr → ResolveInfo) (pReloc : Relocation) :
    getThumbBit info pReloc =
      if (info pReloc.symInfo).desc ≠ Desc.Undefined ∧
          (info pReloc.symInfo).type = SymType.Function ∧ pReloc.symValue &&& 0x1 ≠ 0
      then 1 else 0 := by
  unfold getThumbBit
  by_cases h1 : (info pReloc.symInfo).desc = Desc.Undefined <;>
  by_cases h2 : (info pReloc.symInfo).type = SymType.Function <;>
  by_cases h3 : pReloc.symValue &&& 0x1 = 0 <;> simp [h1, h2, h3]

/-- The outcome of `call` on the path without PLT, in terms of the value `X`
that `call` computes. -/
theorem call_outcome_of_X (ndebug : Bool) (pReloc : Relocation) (pLDInfo : MCLDInfo)
    (pParent : ARMRelocationFactory)
    (hUW : ((pParent.info pReloc.symInfo).isWeak && (pParent.info pReloc.symInfo).isUndef) = false)
    (hPLT : (pParent.info pReloc.symInfo).reserved &&& 0x8 = 0) :
    (callX pReloc pParent &&& 0x03 ≠ 0 →
        call ndebug pReloc pLDInfo pParent =
          Except.error (Abort.fatal "Target is thumb, need stub!")) ∧
      (callX pReloc pParent &&& 0x03 = 0 →
        (-(2 ^ 25 : Int) ≤ toInt32 (callX pReloc pParent) ∧
          toInt32 (callX pReloc pParent) ≤ 2 ^ 25 - 1) →
        call ndebug pReloc pLDInfo pParent =
          Except.ok (Result.OK,
            { pReloc with
              target := (pReloc.target &&& 0xFF000000) |||
                ((callX pReloc pParent &&& 0x03FFFFFE) >>> 2) }, pParent)) := by
  constructor
  · intro hX
    unfold call
    simp only [ReservePLT, hUW, hPLT]
    unfold callX at hX
    simp [hX]
  · intro hX hR
    have hov := (helper_check_signed_overflow_eq_false_iff (callX pReloc pParent) 26).2 hR
    unfold call
    simp only [ReservePLT, hUW, hPLT]
    unfold callX at hX hov
    simp [hX, hov, cassert]
    rfl

/-- C2. For an `R_ARM_CALL` / `R_ARM_JUMP24` / `R_ARM_PLT32` relocation against
a symbol that is not an undefined weak and has no ReservePLT flag, let `imm` be
`(target & 0x00FFFFFF) << 2`, `A` the sign extension of `imm` from 26 bits
(`imm` below `2 ^ 25`, and `imm - 2 ^ 26` otherwise) plus the addend, `T` 1 when
the symbol is not Undefined, has type Function and `S` has bit 0 set, and 0
otherwise, and `X = ((S + A) | T) - P`, all in 64-bit arithmetic. If
`(X & 3) != 0` then `call` ends with the fatal "need stub" error; otherwise,
when the low 32 bits of `X` are within the 26-bit signed range, `call` returns
OK, in either build, with the target
`(target & 0xFF000000) | ((X & 0x03FFFFFE) >> 2)` and the factory unchanged. -/
theorem call_static (ndebug : Bool) (pReloc : Relocation) (pLDInfo : MCLDInfo)
    (pParent : ARMRelocationFactory) (imm A T X : Nat)
    (hUW : ((pParent.info pReloc.symInfo).isWeak && (pParent.info pReloc.symInfo).isUndef) = false)
    (hPLT : (pParent.info pReloc.symInfo).reserved &&& 0x8 = 0)
    (himm : imm = (pReloc.target &&& 0x00FFFFFF) <<< 2)
    (hA : A = ((if imm < 2 ^ 25 then imm else 2 ^ 64 - 2 ^ 26 + imm) + pReloc.addend) % 2 ^ 64)
    (hT : T = if (pParent.info pReloc.symInfo).desc ≠ Desc.Undefined ∧
        (pParent.info pReloc.symInfo).type = SymType.Function ∧ pReloc.symValue &&& 0x1 ≠ 0
      then 1 else 0)
    (hX : X = ((((pReloc.symValue + A) % 2 ^ 64) ||| T) % 2 ^ 64 +
      (2 ^ 64 - pParent.layout.place pReloc.targetRef % 2 ^ 64)) % 2 ^ 64) :
    (X &&& 0x03 ≠ 0 →
        call ndebug pReloc pLDInfo pParent =
          Except.error (Abort.fatal "Target is thumb, need stub!")) ∧
      (X &&& 0x03 = 0 →
        (-(2 ^ 25 : Int) ≤ toInt32 X ∧ toInt32 X ≤ 2 ^ 25 - 1) →
        call ndebug pReloc pLDInfo pParent =
          Except.ok (Result.OK,
            { pReloc with
              target := (pReloc.target &&& 0xFF000000) ||| ((X &&& 0x03FFFFFE) >>> 2) },
            pParent)) := by
  have hcx : callX pReloc pParent = X := by
    have hlt := branch_imm_lt pReloc.target
    have hu : u64 ((pReloc.target &&& 0x00FFFFFF) <<< 2) = (pReloc.target &&& 0x00FFFFFF) <<< 2 := by
      unfold u64
      omega
    rw [hX, hA, himm]
    unfold callX
    rw [hu, helper_sign_extend_26 _ hlt, getThumbBit_eq, ← hT]
    rfl
  rw [← hcx]
  exact call_outcome_of_X ndebug pReloc pLDInfo pParent hUW hPLT

/-- C2 on concrete input. Scenario S2: `S = 0x00010000`, `P = 0x00000004`,
addend 0 and initial target `0xEB000000` give `0xEB003FFF`. An initial target
`0xEBFFFFFE`, whose field is the negative offset `-8`, gives `X = 0xFFF4` and
the target `0xEB003FFD`. A defined Function symbol with value `0x00010001` has
`T = 1` and `X = 0xFFFD`, and `call` ends with the fatal. -/
theorem call_static_witness :
    call false (relocOf R_ARM_CALL 0 0xEB000000 0x00010000) ⟨OutputType.Exec⟩
          (factoryOf (symOf Binding.Global SymType.Object Desc.Define 0) 4) =
        Except.ok (Result.OK, relocOf R_ARM_CALL 0 0xEB003FFF 0x00010000,
          factoryOf (symOf Binding.Global SymType.Object Desc.Define 0) 4) ∧
      call false (relocOf R_ARM_CALL 0 0xEBFFFFFE 0x00010000) ⟨OutputType.Exec⟩
          (factoryOf (symOf Binding.Global SymType.Object Desc.Define 0) 4) =
        Except.ok (Result.OK, relocOf R_ARM_CALL 0 0xEB003FFD 0x00010000,
          factoryOf (symOf Binding.Global SymType.Object Desc.Define 0) 4) ∧
      call false (relocOf R_ARM_JUMP24 0 0xEA000000 0x00010001) ⟨OutputType.Exec⟩
          (factoryOf (symOf Binding.Global SymType.Function Desc.Define 0) 4) =
        Except.error (Abort.fatal "Target is thumb, need stub!") :=
  ⟨((call_static false (relocOf R_ARM_CALL 0 0xEB000000 0x00010000) ⟨OutputType.Exec⟩
      (factoryOf (symOf Binding.Global SymType.Object Desc.Define 0) 4) 0 0 0 0xFFFC
      (by decide) (by decide) (by decide) (by decide) (by decide) (by decide)).2
      (by decide) (by decide)).trans (by rfl),
    ((call_static false (relocOf R_ARM_CALL 0 0xEBFFFFFE 0x00010000) ⟨OutputType.Exec⟩
      (factoryOf (symOf Binding.Global SymType.Object Desc.Define 0) 4)
      0x3FFFFF8 0xFFFFFFFFFFFFFFF8 0 0xFFF4
      (by decide) (by decide) (by decide) (by decide) (by decide) (by decide)).2
      (by decide) (by decide)).trans (by rfl),
    (call_static false (relocOf R_ARM_JUMP24 0 0xEA000000 0x00010001) ⟨OutputType.Exec⟩
      (factoryOf (symOf Binding.Global SymType.Function Desc.Define 0) 4) 0 0 1 0xFFFD
      (by decide) (by decide) (by decide) (by decide) (by decide) (by decide)).1 (by decide)⟩

end ARM
namespace ARM

/-- The `imm16` field of an ARM MOVW/MOVT word is below `2 ^ 16`. -/
theorem movw_movt_imm16_lt (t : Nat) : movw_movt_imm16 t < 2 ^ 16 := by
  unfold movw_movt_imm16
  apply Nat.or_lt_two_pow
  · exact Nat.lt_of_le_of_lt Nat.and_le_right (by norm_num)
  · exact Nat.lt_of_le_of_lt Nat.and_le_right (by norm_num)

/-- The `imm16` field of a Thumb MOVW/MOVT word is below `2 ^ 16`. -/
theorem thumb_movw_movt_imm16_lt (t : Nat) : thumb_movw_movt_imm16 t < 2 ^ 16 := by
  unfold thumb_movw_movt_imm16
  apply Nat.or_lt_two_pow
  · apply Nat.or_lt_two_pow
    · apply Nat.or_lt_two_pow
      · exact Nat.lt_of_le_of_lt Nat.and_le_right (by norm_num)
      · exact Nat.lt_of_le_of_lt Nat.and_le_right (by norm_num)
    · exact Nat.lt_of_le_of_lt Nat.and_le_right (by norm_num)
  · exact Nat.lt_of_le_of_lt Nat.and_le_right (by norm_num)

/-- C16. For each of `movw_abs_nc`, `movw_prel_nc`, `thm_movw_abs_nc` and
`thm_movw_prel_nc` (symbol without ReservePLT), let `imm` be the 16-bit split
immediate field of the instruction (`[19-16][11-0]` of an ARM word,
`[19-16][26][14-12][7-0]` of a Thumb word), `A` its sign extension from 16 bits
(`imm` below `2 ^ 15`, and `imm - 2 ^ 16` otherwise) plus the addend, `T` 1 when
the symbol is not Undefined, has type Function and `S` has bit 0 set, and 0
otherwise, and `X = (S + A) | T` (ABS) or `((S + A) | T) - P` (PREL), all in
64-bit arithmetic. The applicator returns Overflow exactly when the low 32 bits
of `X`, read as a signed integer, lie outside `[-32768, 32767]`, and otherwise
returns OK with the split immediate field of the new instruction equal to
`X & 0xFFFF`. -/
theorem movw_nc_outcome (ndebug : Bool) (pReloc : Relocation) (pLDInfo : MCLDInfo)
    (pParent : ARMRelocationFactory) (immA immT AA AT T : Nat)
    (hPLT : (pParent.info pReloc.symInfo).reserved &&& 0x8 = 0)
    (hImmA : immA = ((pReloc.target >>> 4) &&& 0xf000) ||| (pReloc.target &&& 0xfff))
    (hImmT : immT = ((pReloc.target >>> 4) &&& 0xf000) ||| ((pReloc.target >>> 15) &&& 0x0800) |||
      ((pReloc.target >>> 4) &&& 0x0700) ||| (pReloc.target &&& 0x00ff))
    (hAA : AA = ((if immA < 2 ^ 15 then immA else 2 ^ 64 - 2 ^ 16 + immA) + pReloc.addend) %
      2 ^ 64)
    (hAT : AT = ((if immT < 2 ^ 15 then immT else 2 ^ 64 - 2 ^ 16 + immT) + pReloc.addend) %
      2 ^ 64)
    (hT : T = if (pParent.info pReloc.symInfo).desc ≠ Desc.Undefined ∧
        (pParent.info pReloc.symInfo).type = SymType.Function ∧ pReloc.symValue &&& 0x1 ≠ 0
      then 1 else 0) :
    NCOutcome (movw_abs_nc ndebug pReloc pLDInfo pParent)
        (((pReloc.symValue + AA) % 2 ^ 64) ||| T)
        (fun t => ((t >>> 4) &&& 0xf000) ||| (t &&& 0xfff)) ∧
      NCOutcome (movw_prel_nc pReloc pLDInfo pParent)
        (((((pReloc.symValue + AA) % 2 ^ 64) ||| T) % 2 ^ 64 +
          (2 ^ 64 - pParent.layout.place pReloc.targetRef % 2 ^ 64)) % 2 ^ 64)
        (fun t => ((t >>> 4) &&& 0xf000) ||| (t &&& 0xfff)) ∧
      NCOutcome (thm_movw_abs_nc ndebug pReloc pLDInfo pParent)
        (((pReloc.symValue + AT) % 2 ^ 64) ||| T)
        (fun t => ((t >>> 4) &&& 0xf000) ||| ((t >>> 15) &&& 0x0800) |||
          ((t >>> 4) &&& 0x0700) ||| (t &&& 0x00ff)) ∧
      NCOutcome (thm_movw_prel_nc pReloc pLDInfo pParent)
        (((((pReloc.symValue + AT) % 2 ^ 64) ||| T) % 2 ^ 64 +
          (2 ^ 64 - pParent.layout.place pReloc.targetRef % 2 ^ 64)) % 2 ^ 64)
        (fun t => ((t >>> 4) &&& 0xf000) ||| ((t >>> 15) &&& 0x0800) |||
          ((t >>> 4) &&& 0x0700) ||| (t &&& 0x00ff)) := by
  have hA : u64 (helper_extract_movw_movt_addend pReloc.target + pReloc.addend) = AA := by
    rw [hAA, hImmA]
    unfold helper_extract_movw_movt_addend
    rw [helper_sign_extend_16 _ (movw_movt_imm16_lt _)]
    rfl
  have hB : u64 (helper_extract_thumb_movw_movt_addend pReloc.target + pReloc.addend) = AT := by
    rw [hAT, hImmT]
    unfold helper_extract_thumb_movw_movt_addend
    rw [helper_sign_extend_16 _ (thumb_movw_movt_imm16_lt _)]
    rfl
  have hTb : getThumbBit pParent.info pReloc = T := by
    rw [hT]
    exact getThumbBit_eq _ _
  refine ⟨?_, ?_, ?_, ?_⟩
  · simp only [movw_abs_nc, usePLT_none ndebug pReloc pParent _ _ hPLT, hA, hTb]
    exact NCOutcome_of _ movw_movt_imm16 _ _ pParent (movw_movt_imm16_insert _ _)
  · simp only [movw_prel_nc, hA, hTb]
    exact NCOutcome_of _ movw_movt_imm16 _ _ pParent (movw_movt_imm16_insert _ _)
  · simp only [thm_movw_abs_nc, usePLT_none ndebug pReloc pParent _ _ hPLT, hB, hTb]
    exact NCOutcome_of _ thumb_movw_movt_imm16 _ _ pParent (thumb_movw_movt_imm16_insert _ _)
  · simp only [thm_movw_prel_nc, hB, hTb]
    exact NCOutcome_of _ thumb_movw_movt_imm16 _ _ pParent (thumb_movw_movt_imm16_insert _ _)

end ARM
namespace ARM

/-- C16 on concrete input: the word `0xE30F0FF0` at place `0x100`, addend 0,
against a defined Function symbol without reserved flags. Its ARM field is
`0xFFF0` (the offset `-16`) and its Thumb field is `0xF0F0` (the offset
`-3856`). For the value `0x1235` of the symbol, `T = 1` and the four values
`X` are `0x1225`, `0x1125`, `0x325` and `0x225`: every applicator returns OK
with the field `X & 0xFFFF`. For the value `0x12345` the value `X = 0x12335` of
`movw_abs_nc` is out of range and the result is Overflow. -/
theorem movw_nc_outcome_witness :
    (resultOf (movw_abs_nc false (relocOf R_ARM_MOVW_ABS_NC 0 0xE30F0FF0 0x1235)
          ⟨OutputType.Exec⟩
          (factoryOf (symOf Binding.Global SymType.Function Desc.Define 0) 0x100)) =
        some Result.OK ∧
      ∃ t, targetOf (movw_abs_nc false (relocOf R_ARM_MOVW_ABS_NC 0 0xE30F0FF0 0x1235)
          ⟨OutputType.Exec⟩
          (factoryOf (symOf Binding.Global SymType.Function Desc.Define 0) 0x100)) = some t ∧
        ((t >>> 4) &&& 0xf000) ||| (t &&& 0xfff) = 0x1225) ∧
    (resultOf (movw_prel_nc (relocOf R_ARM_MOVW_ABS_NC 0 0xE30F0FF0 0x1235)
          ⟨OutputType.Exec⟩
          (factoryOf (symOf Binding.Global SymType.Function Desc.Define 0) 0x100)) =
        some Result.OK ∧
      ∃ t, targetOf (movw_prel_nc (relocOf R_ARM_MOVW_ABS_NC 0 0xE30F0FF0 0x1235)
          ⟨OutputType.Exec⟩
          (factoryOf (symOf Binding.Global SymType.Function Desc.Define 0) 0x100)) = some t ∧
        ((t >>> 4) &&& 0xf000) ||| (t &&& 0xfff) = 0x1125) ∧
    (resultOf (thm_movw_abs_nc false (relocOf R_ARM_MOVW_ABS_NC 0 0xE30F0FF0 0x1235)
          ⟨OutputType.Exec⟩
          (factoryOf (symOf Binding.Global SymType.Function Desc.Define 0) 0x100)) =
        some Result.OK ∧
      ∃ t, targetOf (thm_movw_abs_nc false (relocOf R_ARM_MOVW_ABS_NC 0 0xE30F0FF0 0x1235)
          ⟨OutputType.Exec⟩
          (factoryOf (symOf Binding.Global SymType.Function Desc.Define 0) 0x100)) = some t ∧
        ((t >>> 4) &&& 0xf000) ||| ((t >>> 15) &&& 0x0800) ||| ((t >>> 4) &&& 0x0700) |||
          (t &&& 0x00ff) = 0x325) ∧
    (resultOf (thm_movw_prel_nc (relocOf R_ARM_MOVW_ABS_NC 0 0xE30F0FF0 0x1235)
          ⟨OutputType.Exec⟩
          (factoryOf (symOf Binding.Global SymType.Function Desc.Define 0) 0x100)) =
        some Result.OK ∧
      ∃ t, targetOf (thm_movw_prel_nc (relocOf R_ARM_MOVW_ABS_NC 0 0xE30F0FF0 0x1235)
          ⟨OutputType.Exec⟩
          (factoryOf (symOf Binding.Global SymType.Function Desc.Define 0) 0x100)) = some t ∧
        ((t >>> 4) &&& 0xf000) ||| ((t >>> 15) &&& 0x0800) ||| ((t >>> 4) &&& 0x0700) |||
          (t &&& 0x00ff) = 0x225) ∧
    resultOf (movw_abs_nc false (relocOf R_ARM_MOVW_ABS_NC 0 0xE30F0FF0 0x12345)
        ⟨OutputType.Exec⟩
        (factoryOf (symOf Binding.Global SymType.Function Desc.Define 0) 0x100)) =
      some Result.Overflow :=
  ⟨(movw_nc_outcome false (relocOf R_ARM_MOVW_ABS_NC 0 0xE30F0FF0 0x1235) ⟨OutputType.Exec⟩
      (factoryOf (symOf Binding.Global SymType.Function Desc.Define 0) 0x100)
      0xFFF0 0xF0F0 0xFFFFFFFFFFFFFFF0 0xFFFFFFFFFFFFF0F0 1
      (by decide) (by decide) (by decide) (by decide) (by decide) (by decide)).1.2
      ⟨by decide, by decide⟩,
    (movw_nc_outcome false (relocOf R_ARM_MOVW_ABS_NC 0 0xE30F0FF0 0x1235) ⟨OutputType.Exec⟩
      (factoryOf (symOf Binding.Global SymType.Function Desc.Define 0) 0x100)
      0xFFF0 0xF0F0 0xFFFFFFFFFFFFFFF0 0xFFFFFFFFFFFFF0F0 1
      (by decide) (by decide) (by decide) (by decide) (by decide) (by decide)).2.1.2
      ⟨by decide, by decide⟩,
    (movw_nc_outcome false (relocOf R_ARM_MOVW_ABS_NC 0 0xE30F0FF0 0x1235) ⟨OutputType.Exec⟩
      (factoryOf (symOf Binding.Global SymType.Function Desc.Define 0) 0x100)
      0xFFF0 0xF0F0 0xFFFFFFFFFFFFFFF0 0xFFFFFFFFFFFFF0F0 1
      (by decide) (by decide) (by decide) (by decide) (by decide) (by decide)).2.2.1.2
      ⟨by decide, by decide⟩,
    (movw_nc_outcome false (relocOf R_ARM_MOVW_ABS_NC 0 0xE30F0FF0 0x1235) ⟨OutputType.Exec⟩
      (factoryOf (symOf Binding.Global SymType.Function Desc.Define 0) 0x100)
      0xFFF0 0xF0F0 0xFFFFFFFFFFFFFFF0 0xFFFFFFFFFFFFF0F0 1
      (by decide) (by decide) (by decide) (by decide) (by decide) (by decide)).2.2.2.2
      ⟨by decide, by decide⟩,
    (movw_nc_outcome false (relocOf R_ARM_MOVW_ABS_NC 0 0xE30F0FF0 0x12345) ⟨OutputType.Exec⟩
      (factoryOf (symOf Binding.Global SymType.Function Desc.Define 0) 0x100)
      0xFFF0 0xF0F0 0xFFFFFFFFFFFFFFF0 0xFFFFFFFFFFFFF0F0 1
      (by decide) (by decide) (by decide) (by decide) (by decide) (by decide)).1.1.2
      (by decide)⟩

end ARM
namespace ARM

/-- The call of `helper_PLT` for a symbol with ReservePLT, in a consistent
state: it returns, and it leaves `.rel.dyn`, the predicate
`isSymbolPreemptible` and the symbols as they were. -/
theorem helper_PLT_frame (ndebug : Bool) (pReloc : Relocation) (pParent : ARMRelocationFactory)
    (hCons : PLTConsistent pParent)
    (hPLT : (pParent.info pReloc.symInfo).reserved &&& 0x8 ≠ 0) :
    ∃ S1 p1, helper_PLT ndebug pReloc pParent = Except.ok (S1, p1) ∧
      p1.target.relDyn = pParent.target.relDyn ∧
      p1.target.isSymbolPreemptible = pParent.target.isSymbolPreemptible ∧
      p1.info = pParent.info := by
  unfold helper_PLT
  cases hl : lookupSym pParent.target.plt.pltMap pReloc.symInfo with
  | some i =>
    rw [helper_get_PLT_and_init_again ndebug pReloc pParent i hl]
    exact ⟨_, _, rfl, rfl, rfl, rfl⟩
  | none =>
    rw [helper_get_PLT_and_init_first ndebug pReloc pParent hl hCons hPLT]
    exact ⟨_, _, rfl, rfl, rfl, rfl⟩

/-- C12 (counterexample). An `R_ARM_ABS32` against a global, preemptible symbol
with ReserveRel: the one `.rel.dyn` entry `abs32` emits has the type of the
relocation, `R_ARM_ABS32`, not `R_ARM_GLOB_DAT`. And an `R_ARM_ABS32` against a
weak symbol with ReserveRel: `abs32` emits no `.rel.dyn` entry. -/
theorem abs32_dynrel_counterexample :
    (symOf Binding.Global SymType.Object Desc.Define 1).isLocal = false ∧
      (preemptibleFactoryOf (symOf Binding.Global SymType.Object Desc.Define 1)
        0).target.isSymbolPreemptible (symOf Binding.Global SymType.Object Desc.Define 1)
          ⟨OutputType.DynObj⟩ = true ∧
      relDynOf (abs32 false (relocOf R_ARM_ABS32 0 0 0x8000) ⟨OutputType.DynObj⟩
        (preemptibleFactoryOf (symOf Binding.Global SymType.Object Desc.Define 1) 0)) =
        some [⟨R_ARM_ABS32, 1, (relocOf R_ARM_ABS32 0 0 0x8000).targetRef, 0, 0, 0⟩] ∧
      R_ARM_ABS32 ≠ R_ARM_GLOB_DAT ∧
      (symOf Binding.Weak SymType.Object Desc.Define 1).reserved &&& ReserveRel ≠ 0 ∧
      relDynOf (abs32 false (relocOf R_ARM_ABS32 0 0 0x8000) ⟨OutputType.DynObj⟩
        (preemptibleFactoryOf (symOf Binding.Weak SymType.Object Desc.Define 1) 0)) =
        some [] := by
  refine ⟨by decide, by decide, by decide, by decide, by decide, by decide⟩

/-- C12 (amended). For an `R_ARM_ABS32` relocation whose symbol has ReserveRel
(for a symbol that has ReservePLT too, in a state in which a symbol without a
PLT entry has no `.rel.plt` slot): if the binding of the symbol is local or
global, `abs32` returns OK and emits exactly one `.rel.dyn` entry, targeting
the place of the relocation; the entry is `R_ARM_RELATIVE` with a null symbol
when the symbol is local or can use a relative relocation (it is neither
dynamic nor undefined nor preemptible), and otherwise has the type of the
relocation, `R_ARM_ABS32`, with the symbol set. If the binding is neither local
nor global, `abs32` returns OK with the static result `(S + A) | T` and emits
no `.rel.dyn` entry: the factory is as it was. -/
theorem abs32_dynrel (ndebug : Bool) (pReloc : Relocation) (pLDInfo : MCLDInfo)
    (pParent : ARMRelocationFactory)
    (hType : pReloc.type = R_ARM_ABS32)
    (hRel : (pParent.info pReloc.symInfo).reserved &&& 0x1 ≠ 0)
    (hCons : (pParent.info pReloc.symInfo).reserved &&& 0x8 ≠ 0 → PLTConsistent pParent) :
    (((pParent.info pReloc.symInfo).isLocal = true ∨
        (pParent.info pReloc.symInfo).isGlobal = true) →
      ∃ t pParent1,
        abs32 ndebug pReloc pLDInfo pParent =
          Except.ok (Result.OK, { pReloc with target := t }, pParent1) ∧
        pParent1.target.relDyn.entries = pParent.target.relDyn.entries ++
          [{ Relocation.blank with
              type := if (pParent.info pReloc.symInfo).isLocal = true ∨
                  ((pParent.info pReloc.symInfo).isDyn = false ∧
                    (pParent.info pReloc.symInfo).isUndef = false ∧
                    pParent.target.isSymbolPreemptible (pParent.info pReloc.symInfo) pLDInfo =
                      false)
                then R_ARM_RELATIVE else R_ARM_ABS32,
              targetRef := pReloc.targetRef,
              symInfo := if (pParent.info pReloc.symInfo).isLocal = true ∨
                  ((pParent.info pReloc.symInfo).isDyn = false ∧
                    (pParent.info pReloc.symInfo).isUndef = false ∧
                    pParent.target.isSymbolPreemptible (pParent.info pReloc.symInfo) pLDInfo =
                      false)
                then 0 else pReloc.symInfo }]) ∧
    ((pParent.info pReloc.symInfo).isLocal = false →
      (pParent.info pReloc.symInfo).isGlobal = false →
      abs32 ndebug pReloc pLDInfo pParent =
        Except.ok (Result.OK,
          { pReloc with
            target := u64 (pReloc.symValue + u64 (pReloc.target + pReloc.addend)) |||
              getThumbBit pParent.info pReloc }, pParent)) := by
  have hiff : ∀ p : ARMRelocationFactory,
      p.target.isSymbolPreemptible = pParent.target.isSymbolPreemptible →
      (helper_use_relative_reloc (pParent.info pReloc.symInfo) pLDInfo p = true ↔
        ((pParent.info pReloc.symInfo).isDyn = false ∧
          (pParent.info pReloc.symInfo).isUndef = false ∧
          pParent.target.isSymbolPreemptible (pParent.info pReloc.symInfo) pLDInfo = false)) := by
    intro p hp
    unfold helper_use_relative_reloc
    rw [hp]
    cases (pParent.info pReloc.symInfo).isDyn <;>
    cases (pParent.info pReloc.symInfo).isUndef <;>
    cases pParent.target.isSymbolPreemptible (pParent.info pReloc.symInfo) pLDInfo <;> simp
  have hne : ¬(R_ARM_ABS32 = R_ARM_RELATIVE) := by decide
  constructor
  · intro hBind
    cases hL : (pParent.info pReloc.symInfo).isLocal
    · have hG : (pParent.info pReloc.symInfo).isGlobal = true := by
        rcases hBind with h | h
        · rw [hL] at h
          exact absurd h (by simp)
        · exact h
      simp only [Bool.false_eq_true, false_or]
      by_cases h8 : (pParent.info pReloc.symInfo).reserved &&& 0x8 = 0
      · cases hU : helper_use_relative_reloc (pParent.info pReloc.symInfo) pLDInfo pParent
        · have hn := (not_congr (hiff pParent rfl)).1 (by simp [hU])
          refine ⟨pReloc.target, helper_DynRel pReloc pReloc.type pParent, ?_, ?_⟩
          · unfold abs32
            simp only [hL, Bool.false_and, Bool.false_eq_true, if_false, hG, if_true, h8, ne_eq,
              not_true_eq_false, hRel, not_false_eq_true, hU]
          · simp only [helper_DynRel, hType, hne, if_false, if_neg hn]
            exact fill_getEntry_fresh _ _ _ _ _
        · have hy := (hiff pParent rfl).1 hU
          refine ⟨u64 (pReloc.symValue + u64 (pReloc.target + pReloc.addend)) |||
            getThumbBit pParent.info pReloc, helper_DynRel pReloc R_ARM_RELATIVE pParent, ?_, ?_⟩
          · unfold abs32
            simp only [hL, Bool.false_and, Bool.false_eq_true, if_false, hG, if_true, h8, ne_eq,
              not_true_eq_false, hRel, not_false_eq_true, hU]
          · simp only [helper_DynRel, if_true, if_pos hy]
            exact fill_getEntry_fresh _ _ _ _ _
      · obtain ⟨S1, p1, hP, hrd, hpre, hinfo⟩ :=
          helper_PLT_frame ndebug pReloc pParent (hCons h8) h8
        cases hU : helper_use_relative_reloc (pParent.info pReloc.symInfo) pLDInfo p1
        · have hn := (not_congr (hiff p1 hpre)).1 (by simp [hU])
          refine ⟨u64 (S1 + u64 (pReloc.target + pReloc.addend)) ||| 0,
            helper_DynRel { pReloc with
              target := u64 (S1 + u64 (pReloc.target + pReloc.addend)) ||| 0 } pReloc.type p1,
            ?_, ?_⟩
          · unfold abs32
            simp only [hL, Bool.false_and, Bool.false_eq_true, if_false, hG, if_true, h8, ne_eq,
              hRel, not_false_eq_true, hP, hU]
          · simp only [helper_DynRel, hType, hne, if_false, if_neg hn, ← hrd]
            exact fill_getEntry_fresh _ _ _ _ _
        · have hy := (hiff p1 hpre).1 hU
          refine ⟨u64 (S1 + u64 (pReloc.target + pReloc.addend)) ||| 0,
            helper_DynRel { pReloc with
              target := u64 (S1 + u64 (pReloc.target + pReloc.addend)) ||| 0 } R_ARM_RELATIVE p1,
            ?_, ?_⟩
          · unfold abs32
            simp only [hL, Bool.false_and, Bool.false_eq_true, if_false, hG, if_true, h8, ne_eq,
              hRel, not_false_eq_true, hP, hU]
          · simp only [helper_DynRel, if_true, if_pos hy, ← hrd]
            exact fill_getEntry_fresh _ _ _ _ _
    · refine ⟨u64 (pReloc.symValue + u64 (pReloc.target + pReloc.addend)) |||
          getThumbBit pParent.info pReloc, helper_DynRel pReloc R_ARM_RELATIVE pParent, ?_, ?_⟩
      · unfold abs32
        simp only [hL, Bool.true_and, ne_eq, hRel, not_false_eq_true, decide_True, if_true]
      · simp only [helper_DynRel, true_or, if_true]
        exact fill_getEntry_fresh _ _ _ _ _
  · intro hL hG
    unfold abs32
    simp only [hL, Bool.false_and, Bool.false_eq_true, if_false, hG]

end ARM
namespace ARM

/-- C12 (amended) on concrete input, for the word 0 with addend 0 and the symbol
value `0x8000`. A local symbol with ReserveRel, and a global symbol with
ReserveRel that is not preemptible, get one `R_ARM_RELATIVE` entry with a null
symbol at the place of the relocation. A global, preemptible symbol with
ReserveRel and ReservePLT gets one `R_ARM_ABS32` entry with the symbol set. A
weak symbol with ReserveRel gets the static result `0x8000` and no entry. -/
theorem abs32_dynrel_witness :
    (∃ t pParent1,
        abs32 false (relocOf R_ARM_ABS32 0 0 0x8000) ⟨OutputType.DynObj⟩
            (factoryOf (symOf Binding.Local SymType.Object Desc.Define 1) 0) =
          Except.ok (Result.OK, { relocOf R_ARM_ABS32 0 0 0x8000 with target := t }, pParent1) ∧
        pParent1.target.relDyn.entries =
          [⟨R_ARM_RELATIVE, 0, (relocOf R_ARM_ABS32 0 0 0x8000).targetRef, 0, 0, 0⟩]) ∧
    (∃ t pParent1,
        abs32 false (relocOf R_ARM_ABS32 0 0 0x8000) ⟨OutputType.DynObj⟩
            (factoryOf (symOf Binding.Global SymType.Object Desc.Define 1) 0) =
          Except.ok (Result.OK, { relocOf R_ARM_ABS32 0 0 0x8000 with target := t }, pParent1) ∧
        pParent1.target.relDyn.entries =
          [⟨R_ARM_RELATIVE, 0, (relocOf R_ARM_ABS32 0 0 0x8000).targetRef, 0, 0, 0⟩]) ∧
    (∃ t pParent1,
        abs32 false (relocOf R_ARM_ABS32 0 0 0x8000) ⟨OutputType.DynObj⟩
            (pltFactoryOf (symOf Binding.Global SymType.Object Desc.Define 0x9) 0x9000) =
          Except.ok (Result.OK, { relocOf R_ARM_ABS32 0 0 0x8000 with target := t }, pParent1) ∧
        pParent1.target.relDyn.entries =
          [⟨R_ARM_ABS32, 1, (relocOf R_ARM_ABS32 0 0 0x8000).targetRef, 0, 0, 0⟩]) ∧
    abs32 false (relocOf R_ARM_ABS32 0 0 0x8000) ⟨OutputType.DynObj⟩
        (preemptibleFactoryOf (symOf Binding.Weak SymType.Object Desc.Define 1) 0) =
      Except.ok (Result.OK, relocOf R_ARM_ABS32 0 0x8000 0x8000,
        preemptibleFactoryOf (symOf Binding.Weak SymType.Object Desc.Define 1) 0) :=
  ⟨(abs32_dynrel false (relocOf R_ARM_ABS32 0 0 0x8000) ⟨OutputType.DynObj⟩
      (factoryOf (symOf Binding.Local SymType.Object Desc.Define 1) 0)
      (by decide) (by decide) (fun h => absurd h (by decide))).1 (Or.inl (by decide)),
    (abs32_dynrel false (relocOf R_ARM_ABS32 0 0 0x8000) ⟨OutputType.DynObj⟩
      (factoryOf (symOf Binding.Global SymType.Object Desc.Define 1) 0)
      (by decide) (by decide) (fun h => absurd h (by decide))).1 (Or.inr (by decide)),
    (abs32_dynrel false (relocOf R_ARM_ABS32 0 0 0x8000) ⟨OutputType.DynObj⟩
      (pltFactoryOf (symOf Binding.Global SymType.Object Desc.Define 0x9) 0x9000)
      (by decide) (by decide) (fun _ _ _ => rfl)).1 (Or.inr (by decide)),
    ((abs32_dynrel false (relocOf R_ARM_ABS32 0 0 0x8000) ⟨OutputType.DynObj⟩
      (preemptibleFactoryOf (symOf Binding.Weak SymType.Object Desc.Define 1) 0)
      (by decide) (by decide) (fun h => absurd h (by decide))).2
      (by decide) (by decide)).trans (by rfl)⟩

end ARM
namespace Mips

/-- What `scanLocalReloc` does to the record of GOT reservations: it keeps the
global GOT symbols, and appends the symbol of the relocation to the symbols GOT
entries were reserved for, or keeps them; for a symbol of type Section it
appends the symbol exactly for the types GOT16 and CALL16. -/
theorem scanLocalReloc_log (b : MipsGNULDBackend) (info : Symbols) (pReloc : Relocation)
    (b1 : MipsGNULDBackend) (info1 : Symbols)
    (hs : scanLocalReloc b info pReloc = Except.ok (b1, info1)) :
    b1.isDynamicSymbol = b.isDynamicSymbol ∧ b1.m_pGpDispSymbol = b.m_pGpDispSymbol ∧
    b1.m_GlobalGOTSyms = b.m_GlobalGOTSyms ∧
    (b1.gotReservedFor = b.gotReservedFor ∨
      b1.gotReservedFor = b.gotReservedFor ++ [pReloc.symInfo]) ∧
    ((info pReloc.symInfo).type = SymType.Section →
      b1.gotReservedFor = b.gotReservedFor ++
        (if pReloc.type = R_MIPS_GOT16 ∨ pReloc.type = R_MIPS_CALL16 then [pReloc.symInfo]
          else [])) := by
  simp only [scanLocalReloc] at hs
  split_ifs at hs with c1 c2 c3 c4 c5 c6 <;>
    simp only [Except.ok.injEq, Prod.mk.injEq, reduceCtorEq] at hs <;>
    obtain ⟨rfl, rfl⟩ := hs
  · have hn : ¬(pReloc.type = R_MIPS_GOT16 ∨ pReloc.type = R_MIPS_CALL16) := by
      rw [c1]
      decide
    simp [hn]
  · have hn : ¬(pReloc.type = R_MIPS_GOT16 ∨ pReloc.type = R_MIPS_CALL16) := by
      rw [c1]
      decide
    simp [hn]
  · simp [c3]
  · simp [c3, c4]
  · simp [c3, c4]
  · simp [c3]

/-- What `scanGlobalReloc` does to the record of GOT reservations: it appends
the symbol of the relocation to the symbols GOT entries were reserved for and to
the global GOT symbols, or keeps them. -/
theorem scanGlobalReloc_log (b : MipsGNULDBackend) (info : Symbols) (pReloc : Relocation)
    (b1 : MipsGNULDBackend) (info1 : Symbols)
    (hs : scanGlobalReloc b info pReloc = Except.ok (b1, info1)) :
    b1.isDynamicSymbol = b.isDynamicSymbol ∧ b1.m_pGpDispSymbol = b.m_pGpDispSymbol ∧
    (b1.m_GlobalGOTSyms = b.m_GlobalGOTSyms ∨
      b1.m_GlobalGOTSyms = b.m_GlobalGOTSyms ++ [pReloc.symInfo]) ∧
    (b1.gotReservedFor = b.gotReservedFor ∨
      b1.gotReservedFor = b.gotReservedFor ++ [pReloc.symInfo]) := by
  simp only [scanGlobalReloc] at hs
  split_ifs at hs <;>
    simp only [Except.ok.injEq, Prod.mk.injEq, reduceCtorEq] at hs <;>
    obtain ⟨rfl, rfl⟩ := hs <;> simp

/-- The reserved flags of a symbol do not matter to a statement that holds of
the symbol with any reserved flags. -/
theorem routedLocal_of_same (b b1 : MipsGNULDBackend) (x y : ResolveInfo)
    (hb : b1.isDynamicSymbol = b.isDynamicSymbol)
    (hxy : ({ y with reserved := 0 } : ResolveInfo) = { x with reserved := 0 })
    (h : ∀ v, routedLocal b { x with reserved := v } = true) :
    ∀ v, routedLocal b1 { y with reserved := v } = true := by
  intro v
  have hv : ({ y with reserved := v } : ResolveInfo) = { x with reserved := v } := by
    have := congrArg (fun r : ResolveInfo => ({ r with reserved := v } : ResolveInfo)) hxy
    simpa using this
  rw [hv]
  have := h v
  unfold routedLocal at this ⊢
  rw [hb]
  exact this

/-- One step of the scan, for a symbol `s` of type Section that the scan takes
to `scanLocalReloc`: a GOT entry is reserved on behalf of `s` exactly when the
relocation is a GOT16 or CALL16 against `s` in a section with SHF_ALLOC, and `s`
does not become a global GOT symbol. -/
theorem scanRelocation_section_count (ndebug : Bool) (b : MipsGNULDBackend) (info : Symbols)
    (pReloc : Relocation) (pSection : LDSection) (b1 : MipsGNULDBackend) (info1 : Symbols)
    (r1 : Relocation)
    (hs : scanRelocation ndebug b info pReloc pSection = Except.ok (b1, info1, r1))
    (s : SymPtr) (hType : (info s).type = SymType.Section)
    (hRoute : ∀ v, routedLocal b { info s with reserved := v } = true)
    (hGp : b.m_pGpDispSymbol ≠ some s) :
    b1.isDynamicSymbol = b.isDynamicSymbol ∧ b1.m_pGpDispSymbol = b.m_pGpDispSymbol ∧
    (∀ x, ({ info1 x with reserved := 0 } : ResolveInfo) = { info x with reserved := 0 }) ∧
    b1.gotReservedFor.count s = b.gotReservedFor.count s +
      (if pReloc.symInfo = s ∧ (pReloc.type = R_MIPS_GOT16 ∨ pReloc.type = R_MIPS_CALL16) ∧
        pSection.flag &&& SHF_ALLOC ≠ 0 then 1 else 0) ∧
    (s ∉ b.m_GlobalGOTSyms → s ∉ b1.m_GlobalGOTSyms) := by
  have hR : routedLocal b (info s) = true := by
    have := hRoute (info s).reserved
    simpa using this
  unfold scanRelocation at hs
  cases hc : cassert ndebug (decide (pReloc.symInfo ≠ 0))
      "ResolveInfo of relocation not set while scanRelocation" with
  | error e =>
    rw [hc] at hs
    simp only [reduceCtorEq] at hs
  | ok u =>
    rw [hc] at hs
    simp only at hs
    split_ifs at hs with c1 c2 c3 c4
    · simp only [Except.ok.injEq, Prod.mk.injEq] at hs
      obtain ⟨rfl, rfl, _⟩ := hs
      have hne : pReloc.symInfo ≠ s := by
        intro h
        rw [h] at c1
        exact hGp c1
      simp [hne]
    · simp only [Except.ok.injEq, Prod.mk.injEq] at hs
      obtain ⟨rfl, rfl, _⟩ := hs
      simp [c2]
    · cases hl : scanLocalReloc b info { pReloc with addend := b.updateAddend pReloc } with
      | error e =>
        rw [hl] at hs
        simp only [reduceCtorEq] at hs
      | ok x =>
        obtain ⟨b2, info2⟩ := x
        have hlog := scanLocalReloc_log b info _ b2 info2 hl
        have hsame := (scanLocalReloc_same b info _).1 b2 info2 hl
        rw [hl] at hs
        simp only at hs
        have hfin : b1.isDynamicSymbol = b2.isDynamicSymbol ∧
            b1.m_pGpDispSymbol = b2.m_pGpDispSymbol ∧
            b1.m_GlobalGOTSyms = b2.m_GlobalGOTSyms ∧
            b1.gotReservedFor = b2.gotReservedFor ∧ info1 = info2 := by
          split_ifs at hs <;> simp only [Except.ok.injEq, Prod.mk.injEq, reduceCtorEq] at hs <;>
            obtain ⟨rfl, rfl, _⟩ := hs <;> exact ⟨rfl, rfl, rfl, rfl, rfl⟩
        obtain ⟨h1, h2, h3, h4, h5⟩ := hfin
        subst h5
        refine ⟨h1.trans hlog.1, h2.trans hlog.2.1, hsame, ?_, ?_⟩
        · rw [h4]
          by_cases hsym : pReloc.symInfo = s
          · have ht : (info pReloc.symInfo).type = SymType.Section := by
              rw [hsym]
              exact hType
            rw [hlog.2.2.2.2 ht]
            by_cases hty : pReloc.type = R_MIPS_GOT16 ∨ pReloc.type = R_MIPS_CALL16
            · simp [hsym, hty, c2]
            · simp [hsym, hty]
          · have hne : ¬(pReloc.symInfo = s ∧
                (pReloc.type = R_MIPS_GOT16 ∨ pReloc.type = R_MIPS_CALL16) ∧
                pSection.flag &&& SHF_ALLOC ≠ 0) := fun h => hsym h.1
            rw [if_neg hne]
            rcases hlog.2.2.2.1 with h | h
            · rw [h]
              rfl
            · rw [h, List.count_append]
              simp [List.count_cons, hsym]
        · rw [h3, hlog.2.2.1]
          exact id
    · cases hl : scanGlobalReloc b info { pReloc with addend := b.updateAddend pReloc } with
      | error e =>
        rw [hl] at hs
        simp only [reduceCtorEq] at hs
      | ok x =>
        obtain ⟨b2, info2⟩ := x
        have hlog := scanGlobalReloc_log b info _ b2 info2 hl
        have hsame := (scanGlobalReloc_same b info _).1 b2 info2 hl
        rw [hl] at hs
        simp only at hs
        have hfin : b1.isDynamicSymbol = b2.isDynamicSymbol ∧
            b1.m_pGpDispSymbol = b2.m_pGpDispSymbol ∧
            b1.m_GlobalGOTSyms = b2.m_GlobalGOTSyms ∧
            b1.gotReservedFor = b2.gotReservedFor ∧ info1 = info2 := by
          split_ifs at hs <;> simp only [Except.ok.injEq, Prod.mk.injEq, reduceCtorEq] at hs <;>
            obtain ⟨rfl, rfl, _⟩ := hs <;> exact ⟨rfl, rfl, rfl, rfl, rfl⟩
        obtain ⟨h1, h2, h3, h4, h5⟩ := hfin
        subst h5
        have hsym : pReloc.symInfo ≠ s := by
          intro h
          apply c4
          rw [h]
          exact hR
        have hne : ¬(pReloc.symInfo = s ∧
            (pReloc.type = R_MIPS_GOT16 ∨ pReloc.type = R_MIPS_CALL16) ∧
            pSection.flag &&& SHF_ALLOC ≠ 0) := fun h => hsym h.1
        refine ⟨h1.trans hlog.1, h2.trans hlog.2.1, hsame, ?_, ?_⟩
        · rw [h4, if_neg hne]
          rcases hlog.2.2.2 with h | h
          · rw [h]
            rfl
          · rw [h, List.count_append]
            simp [List.count_cons, hsym]
        · rw [h3]
          rcases hlog.2.2.1 with h | h
          · rw [h]
            exact id
          · rw [h]
            intro hn hm
            rw [List.mem_append, List.mem_singleton] at hm
            rcases hm with hm | hm
            · exact hn hm
            · exact hsym hm.symm

/-- The scan of a list of relocations, for a symbol `s` of type Section that the
scan takes to `scanLocalReloc`: the GOT entries reserved on behalf of `s` are as
many more as the list has GOT16 and CALL16 relocations against `s` in sections
with SHF_ALLOC, and `s` does not become a global GOT symbol. -/
theorem scanRelocations_section_count (ndebug : Bool) (rs : List (Relocation × LDSection))
    (b : MipsGNULDBackend) (info : Symbols) (b1 : MipsGNULDBackend) (info1 : Symbols)
    (hs : scanRelocations ndebug b info rs = Except.ok (b1, info1))
    (s : SymPtr) (hType : (info s).type = SymType.Section)
    (hRoute : ∀ v, routedLocal b { info s with reserved := v } = true)
    (hGp : b.m_pGpDispSymbol ≠ some s) :
    b1.gotReservedFor.count s = b.gotReservedFor.count s +
      (rs.filter (fun x => decide (x.1.symInfo = s) &&
        (decide (x.1.type = R_MIPS_GOT16) || decide (x.1.type = R_MIPS_CALL16)) &&
        decide (x.2.flag &&& SHF_ALLOC ≠ 0))).length ∧
    (s ∉ b.m_GlobalGOTSyms → s ∉ b1.m_GlobalGOTSyms) := by
  induction rs generalizing b info with
  | nil =>
    simp only [scanRelocations, Except.ok.injEq, Prod.mk.injEq] at hs
    obtain ⟨rfl, rfl⟩ := hs
    simp
  | cons x xs ih =>
    obtain ⟨pReloc, pSection⟩ := x
    simp only [scanRelocations] at hs
    cases hx : scanRelocation ndebug b info pReloc pSection with
    | error e =>
      rw [hx] at hs
      simp only [reduceCtorEq] at hs
    | ok y =>
      obtain ⟨b2, info2, r2⟩ := y
      rw [hx] at hs
      obtain ⟨k1, k2, k3, k4, k5⟩ :=
        scanRelocation_section_count ndebug b info pReloc pSection b2 info2 r2 hx s hType hRoute
          hGp
      have hType2 : (info2 s).type = SymType.Section := by
        rw [scanRelocation_type ndebug b info pReloc pSection b2 info2 r2 hx s]
        exact hType
      have hRoute2 := routedLocal_of_same b b2 (info s) (info2 s) k1 (k3 s) hRoute
      have hGp2 : b2.m_pGpDispSymbol ≠ some s := by
        rw [k2]
        exact hGp
      obtain ⟨i1, i2⟩ := ih b2 info2 hs hType2 hRoute2 hGp2
      refine ⟨?_, fun h => i2 (k5 h)⟩
      rw [i1, k4, List.filter_cons]
      by_cases hp : pReloc.symInfo = s ∧
          (pReloc.type = R_MIPS_GOT16 ∨ pReloc.type = R_MIPS_CALL16) ∧
          pSection.flag &&& SHF_ALLOC ≠ 0
      · have hd : (decide (pReloc.symInfo = s) &&
            (decide (pReloc.type = R_MIPS_GOT16) || decide (pReloc.type = R_MIPS_CALL16)) &&
            decide (pSection.flag &&& SHF_ALLOC ≠ 0)) = true := by
          simp only [Bool.and_eq_true, Bool.or_eq_true, decide_eq_true_eq]
          exact ⟨⟨hp.1, hp.2.1⟩, hp.2.2⟩
        simp only [hd, if_true, if_pos hp, List.length_cons]
        omega
      · have hd : (decide (pReloc.symInfo = s) &&
            (decide (pReloc.type = R_MIPS_GOT16) || decide (pReloc.type = R_MIPS_CALL16)) &&
            decide (pSection.flag &&& SHF_ALLOC ≠ 0)) = false := by
          rw [Bool.eq_false_iff]
          intro hc
          simp only [Bool.and_eq_true, Bool.or_eq_true, decide_eq_true_eq] at hc
          exact hp ⟨hc.1.1, hc.1.2, hc.2⟩
        simp only [hd, Bool.false_eq_true, if_false, if_neg hp]
        omega

end Mips
namespace Mips

/-- C14 (amended): after `scanRelocation` has processed any finite sequence of
relocations from a backend without reservations, the calls of
`reserveLocalEntry` and `reserveGlobalEntry` are as many as the GOT entries
reserved, and at most one of them is on behalf of any single symbol whose type
is not Section. On behalf of a symbol of type Section, other than `_gp_disp`,
that the scan takes to `scanLocalReloc` whatever its reserved flags, exactly one
GOT entry is reserved for each GOT16 or CALL16 relocation against it in a
section with SHF_ALLOC, and the symbol is not among the global GOT symbols: the
entries are local ones. -/
theorem got_reservation_at_most_once (ndebug : Bool) (b : MipsGNULDBackend) (info : Symbols)
    (rs : List (Relocation × LDSection)) (b1 : MipsGNULDBackend) (info1 : Symbols)
    (hg : b.ReserveGot ≠ 0)
    (hLog : b.gotReservedFor = []) (hSyms : b.m_GlobalGOTSyms = [])
    (hLocal : b.gotLocalEntries = 0) (hGlobal : b.gotGlobalEntries = 0)
    (hs : scanRelocations ndebug b info rs = Except.ok (b1, info1)) :
    b1.gotReservedFor.length = b1.gotLocalEntries + b1.gotGlobalEntries ∧
    (∀ s, (info s).type ≠ SymType.Section → b1.gotReservedFor.count s ≤ 1) ∧
    (∀ s, (info s).type = SymType.Section →
      (∀ v, routedLocal b { info s with reserved := v } = true) →
      b.m_pGpDispSymbol ≠ some s →
      b1.gotReservedFor.count s =
        (rs.filter (fun x => decide (x.1.symInfo = s) &&
          (decide (x.1.type = R_MIPS_GOT16) || decide (x.1.type = R_MIPS_CALL16)) &&
          decide (x.2.flag &&& SHF_ALLOC ≠ 0))).length ∧
      s ∉ b1.m_GlobalGOTSyms) := by
  have hi := scanRelocations_inv ndebug rs b info b1 info1 hg
    (BackendInv_initial b info hLog hSyms hLocal hGlobal) hs
  unfold BackendInv ScanInv at hi
  refine ⟨hi.2.2.2.2.2, ?_, ?_⟩
  · intro s ht
    apply hi.2.1 s
    rw [scanRelocations_type ndebug rs b info b1 info1 hs s]
    exact ht
  · intro s ht hr hgp
    obtain ⟨h1, h2⟩ := scanRelocations_section_count ndebug rs b info b1 info1 hs s ht hr hgp
    rw [hLog] at h1
    rw [hSyms] at h2
    refine ⟨?_, h2 (List.not_mem_nil s)⟩
    rw [h1]
    simp

/-- C14 (amended) on concrete input: the scan of `gotScanInput` with the symbols
`sectionAndObject` reserves four local GOT entries, on behalf of the symbols 1,
2, 1 and 1 in this order: three for the symbol 1 of type Section, one for each
of its GOT16 and CALL16 relocations in a section with SHF_ALLOC, and one for the
symbol 2 of type Object, which has two GOT16 relocations. -/
theorem got_reservation_at_most_once_witness :
    ∃ b1 info1,
      scanRelocations false emptyBackend sectionAndObject gotScanInput =
        Except.ok (b1, info1) ∧
      b1.gotReservedFor = [1, 2, 1, 1] ∧ b1.gotLocalEntries = 4 ∧ b1.gotGlobalEntries = 0 ∧
      b1.gotReservedFor.length = b1.gotLocalEntries + b1.gotGlobalEntries ∧
      b1.gotReservedFor.count 2 ≤ 1 ∧
      b1.gotReservedFor.count 1 = 3 ∧ 1 ∉ b1.m_GlobalGOTSyms :=
  ⟨_, _, rfl, rfl, rfl, rfl,
    (got_reservation_at_most_once false emptyBackend sectionAndObject gotScanInput _ _
      (by decide) rfl rfl rfl rfl rfl).1,
    (got_reservation_at_most_once false emptyBackend sectionAndObject gotScanInput _ _
      (by decide) rfl rfl rfl rfl rfl).2.1 2 (by decide),
    ((got_reservation_at_most_once false emptyBackend sectionAndObject gotScanInput _ _
      (by decide) rfl rfl rfl rfl rfl).2.2 1 rfl (fun _ => rfl) (by decide)).1.trans (by rfl),
    ((got_reservation_at_most_once false emptyBackend sectionAndObject gotScanInput _ _
      (by decide) rfl rfl rfl rfl rfl).2.2 1 rfl (fun _ => rfl) (by decide)).2⟩

end Mips
namespace Mips

end Mips

namespace Mips

/-- The scan of a relocation against a symbol that is undefined, not weak and
not from a DynObj, in an allocated section: the fatal of `scanGlobalReloc` if
that ends with one, and `undefined_reference` if it returns. -/
theorem scanRelocation_undefined_of_global (ndebug : Bool) (b : MipsGNULDBackend)
    (info : Symbols) (pReloc : Relocation) (pSection : LDSection)
    (hSym : pReloc.symInfo ≠ 0) (hGp : b.m_pGpDispSymbol ≠ some pReloc.symInfo)
    (hAlloc : pSection.flag &&& SHF_ALLOC ≠ 0)
    (hUndef : (info pReloc.symInfo).isUndef = true)
    (hNotWeak : (info pReloc.symInfo).isWeak = false)
    (hNotDyn : (info pReloc.symInfo).isDyn = false) :
    (∀ e, scanGlobalReloc b info { pReloc with addend := b.updateAddend pReloc } =
        Except.error e →
      scanRelocation ndebug b info pReloc pSection = Except.error e) ∧
    (∀ x, scanGlobalReloc b info { pReloc with addend := b.updateAddend pReloc } =
        Except.ok x →
      scanRelocation ndebug b info pReloc pSection =
        Except.error (Abort.fatal "undefined_reference")) := by
  have hrl : routedLocal b (info pReloc.symInfo) = false := by
    unfold routedLocal
    simp [hUndef]
  refine ⟨?_, ?_⟩
  · intro e he
    rw [scanRelocation_alloc ndebug b info pReloc pSection hSym hGp hAlloc]
    simp only [hrl, Bool.false_eq_true, if_false, he]
  · intro x hx
    obtain ⟨b1, info1⟩ := x
    have hsame := (scanGlobalReloc_same b info _).1 b1 info1 hx pReloc.symInfo
    have hd := congrArg ResolveInfo.desc hsame
    have hb := congrArg ResolveInfo.binding hsame
    have hy := congrArg ResolveInfo.isDyn hsame
    simp only at hd hb hy
    have h1 : (info1 pReloc.symInfo).isUndef = true := by
      unfold ResolveInfo.isUndef at hUndef ⊢
      rw [hd]
      exact hUndef
    have h2 : (info1 pReloc.symInfo).isWeak = false := by
      unfold ResolveInfo.isWeak at hNotWeak ⊢
      rw [hb]
      exact hNotWeak
    have h3 : (info1 pReloc.symInfo).isDyn = false := by
      rw [hy]
      exact hNotDyn
    rw [scanRelocation_alloc ndebug b info pReloc pSection hSym hGp hAlloc]
    simp only [hrl, Bool.false_eq_true, if_false, hx, h1, h2, h3, Bool.not_false, Bool.and_self,
      if_true]

/-- What `scanGlobalReloc` does, by the type of the relocation: it returns for
the types of its three groups of case labels, and ends with a fatal of its own
for every other type. -/
theorem scanGlobalReloc_by_type (b : MipsGNULDBackend) (info : Symbols) (pReloc : Relocation) :
    ((pReloc.type ∈ globalBreakTypes ∨ pReloc.type ∈ globalDynRelTypes ∨
        pReloc.type ∈ globalGOTTypes) →
      ∃ x, scanGlobalReloc b info pReloc = Except.ok x) ∧
    ((pReloc.type = R_MIPS_LITERAL ∨ pReloc.type = R_MIPS_GPREL32) →
      scanGlobalReloc b info pReloc = Except.error (Abort.fatal "invalid_global_relocation")) ∧
    ((pReloc.type = R_MIPS_COPY ∨ pReloc.type = R_MIPS_GLOB_DAT ∨
        pReloc.type = R_MIPS_JUMP_SLOT) →
      scanGlobalReloc b info pReloc = Except.error (Abort.fatal "dynamic_relocation")) ∧
    (¬(pReloc.type ∈ globalBreakTypes ∨ pReloc.type ∈ globalDynRelTypes ∨
        pReloc.type ∈ globalGOTTypes) →
      ¬(pReloc.type = R_MIPS_LITERAL ∨ pReloc.type = R_MIPS_GPREL32) →
      ¬(pReloc.type = R_MIPS_COPY ∨ pReloc.type = R_MIPS_GLOB_DAT ∨
        pReloc.type = R_MIPS_JUMP_SLOT) →
      scanGlobalReloc b info pReloc = Except.error (Abort.fatal "unknown_relocation")) := by
  refine ⟨?_, ?_, ?_, ?_⟩
  · intro h
    unfold scanGlobalReloc
    by_cases h1 : pReloc.type ∈ globalBreakTypes
    · exact ⟨_, by rw [if_pos h1]⟩
    · by_cases h2 : pReloc.type ∈ globalDynRelTypes
      · rw [if_neg h1, if_pos h2]
        split_ifs
        · exact ⟨_, rfl⟩
        · exact ⟨_, rfl⟩
      · have h3 : pReloc.type ∈ globalGOTTypes := by
          rcases h with h | h | h
          · exact absurd h h1
          · exact absurd h h2
          · exact h
        rw [if_neg h1, if_neg h2, if_pos h3]
        split_ifs
        · exact ⟨_, rfl⟩
        · exact ⟨_, rfl⟩
  · intro h
    unfold scanGlobalReloc
    rcases h with h | h <;> simp +decide [h]
  · intro h
    unfold scanGlobalReloc
    rcases h with h | h | h <;> simp +decide [h]
  · intro h1 h2 h3
    unfold scanGlobalReloc
    push_neg at h1
    rw [if_neg h1.1, if_neg h1.2.1, if_neg h1.2.2, if_neg h2, if_neg h3]

/-- C20 (amended). For a relocation with its symbol set, against a symbol other
than `_gp_disp`, in a section with SHF_ALLOC, whose symbol is undefined, not
weak and not from a DynObj, `scanRelocation` ends with a fatal:
`undefined_reference` for every type among the case labels of `scanGlobalReloc`
that return, and the fatal of `scanGlobalReloc` for every other type
(`invalid_global_relocation` for LITERAL and GPREL32, `dynamic_relocation` for
COPY, GLOB_DAT and JUMP_SLOT, `unknown_relocation` for the rest). A relocation
in a section without SHF_ALLOC, and a relocation against `_gp_disp`, is not
scanned: `scanRelocation` returns with the backend and the symbols as they
were, whatever the symbol. And no relocation whose symbol is weak makes
`scanRelocation` end with `undefined_reference`. -/
theorem scanRelocation_undefined_reference (ndebug : Bool) (b : MipsGNULDBackend)
    (info : Symbols) (pReloc : Relocation) (pSection : LDSection) :
    (pReloc.symInfo ≠ 0 → b.m_pGpDispSymbol ≠ some pReloc.symInfo →
      pSection.flag &&& SHF_ALLOC ≠ 0 →
      (info pReloc.symInfo).isUndef = true → (info pReloc.symInfo).isWeak = false →
      (info pReloc.symInfo).isDyn = false →
      ((pReloc.type ∈ globalBreakTypes ∨ pReloc.type ∈ globalDynRelTypes ∨
          pReloc.type ∈ globalGOTTypes) →
        scanRelocation ndebug b info pReloc pSection =
          Except.error (Abort.fatal "undefined_reference")) ∧
      ((pReloc.type = R_MIPS_LITERAL ∨ pReloc.type = R_MIPS_GPREL32) →
        scanRelocation ndebug b info pReloc pSection =
          Except.error (Abort.fatal "invalid_global_relocation")) ∧
      ((pReloc.type = R_MIPS_COPY ∨ pReloc.type = R_MIPS_GLOB_DAT ∨
          pReloc.type = R_MIPS_JUMP_SLOT) →
        scanRelocation ndebug b info pReloc pSection =
          Except.error (Abort.fatal "dynamic_relocation")) ∧
      (¬(pReloc.type ∈ globalBreakTypes ∨ pReloc.type ∈ globalDynRelTypes ∨
          pReloc.type ∈ globalGOTTypes) →
        ¬(pReloc.type = R_MIPS_LITERAL ∨ pReloc.type = R_MIPS_GPREL32) →
        ¬(pReloc.type = R_MIPS_COPY ∨ pReloc.type = R_MIPS_GLOB_DAT ∨
          pReloc.type = R_MIPS_JUMP_SLOT) →
        scanRelocation ndebug b info pReloc pSection =
          Except.error (Abort.fatal "unknown_relocation"))) ∧
    (pReloc.symInfo ≠ 0 → b.m_pGpDispSymbol ≠ some pReloc.symInfo →
      pSection.flag &&& SHF_ALLOC = 0 →
      scanRelocation ndebug b info pReloc pSection =
        Except.ok (b, info, { pReloc with addend := b.updateAddend pReloc })) ∧
    (pReloc.symInfo ≠ 0 → b.m_pGpDispSymbol = some pReloc.symInfo →
      scanRelocation ndebug b info pReloc pSection = Except.ok (b, info, pReloc)) ∧
    ((info pReloc.symInfo).isWeak = true →
      abortOf (scanRelocation ndebug b info pReloc pSection) ≠
        some (Abort.fatal "undefined_reference")) := by
  refine ⟨?_, ?_, ?_, fun hw => scanRelocation_weak ndebug b info pReloc pSection hw⟩
  · intro hSym hGp hAlloc hUndef hNotWeak hNotDyn
    have hu := scanRelocation_undefined_of_global ndebug b info pReloc pSection hSym hGp hAlloc
      hUndef hNotWeak hNotDyn
    have ht := scanGlobalReloc_by_type b info { pReloc with addend := b.updateAddend pReloc }
    refine ⟨?_, ?_, ?_, ?_⟩
    · intro h
      obtain ⟨x, hx⟩ := ht.1 h
      exact hu.2 x hx
    · intro h
      exact hu.1 _ (ht.2.1 h)
    · intro h
      exact hu.1 _ (ht.2.2.1 h)
    · intro h1 h2 h3
      exact hu.1 _ (ht.2.2.2 h1 h2 h3)
  · intro hSym hGp hAlloc
    unfold scanRelocation cassert
    simp only [hSym, ne_eq, not_false_eq_true, decide_True, Bool.or_true, if_true, hGp, if_false,
      hAlloc]
  · intro hSym hGp
    unfold scanRelocation cassert
    simp only [hSym, ne_eq, not_false_eq_true, decide_True, Bool.or_true, if_true, hGp]

/-- C20 (amended) on concrete input, for an undefined global symbol (not weak,
not from a DynObj) in an allocated section: `R_MIPS_32` and `R_MIPS_GOT16` end
with `undefined_reference`, `R_MIPS_GPREL32` with `invalid_global_relocation`,
`R_MIPS_COPY` with `dynamic_relocation` and the type 60 with
`unknown_relocation`. In a section without SHF_ALLOC the `R_MIPS_32` is not
scanned. An `R_MIPS_32` against an undefined weak symbol in an allocated section
does not end with `undefined_reference`. -/
theorem scanRelocation_undefined_reference_witness :
    scanRelocation false emptyBackend
        (fun _ => symOf Binding.Global SymType.NoType Desc.Undefined 0)
        (relocOf R_MIPS_32 0 0 0) allocSection =
      Except.error (Abort.fatal "undefined_reference") ∧
    scanRelocation false emptyBackend
        (fun _ => symOf Binding.Global SymType.NoType Desc.Undefined 0)
        (relocOf R_MIPS_GOT16 0 0 0) allocSection =
      Except.error (Abort.fatal "undefined_reference") ∧
    scanRelocation false emptyBackend
        (fun _ => symOf Binding.Global SymType.NoType Desc.Undefined 0)
        (relocOf R_MIPS_GPREL32 0 0 0) allocSection =
      Except.error (Abort.fatal "invalid_global_relocation") ∧
    scanRelocation false emptyBackend
        (fun _ => symOf Binding.Global SymType.NoType Desc.Undefined 0)
        (relocOf R_MIPS_COPY 0 0 0) allocSection =
      Except.error (Abort.fatal "dynamic_relocation") ∧
    scanRelocation false emptyBackend
        (fun _ => symOf Binding.Global SymType.NoType Desc.Undefined 0)
        (relocOf 60 0 0 0) allocSection =
      Except.error (Abort.fatal "unknown_relocation") ∧
    scanRelocation false emptyBackend
        (fun _ => symOf Binding.Global SymType.NoType Desc.Undefined 0)
        (relocOf R_MIPS_32 0 0 0) ⟨0⟩ =
      Except.ok (emptyBackend, fun _ => symOf Binding.Global SymType.NoType Desc.Undefined 0,
        relocOf R_MIPS_32 0 0 0) ∧
    abortOf (scanRelocation false emptyBackend
        (fun _ => symOf Binding.Weak SymType.NoType Desc.Undefined 0)
        (relocOf R_MIPS_32 0 0 0) allocSection) ≠
      some (Abort.fatal "undefined_reference") :=
  ⟨((scanRelocation_undefined_reference false emptyBackend
      (fun _ => symOf Binding.Global SymType.NoType Desc.Undefined 0)
      (relocOf R_MIPS_32 0 0 0) allocSection).1
      (by decide) (by decide) (by decide) (by decide) (by decide) (by decide)).1
      (Or.inr (Or.inl (by decide))),
    ((scanRelocation_undefined_reference false emptyBackend
      (fun _ => symOf Binding.Global SymType.NoType Desc.Undefined 0)
      (relocOf R_MIPS_GOT16 0 0 0) allocSection).1
      (by decide) (by decide) (by decide) (by decide) (by decide) (by decide)).1
      (Or.inr (Or.inr (by decide))),
    ((scanRelocation_undefined_reference false emptyBackend
      (fun _ => symOf Binding.Global SymType.NoType Desc.Undefined 0)
      (relocOf R_MIPS_GPREL32 0 0 0) allocSection).1
      (by decide) (by decide) (by decide) (by decide) (by decide) (by decide)).2.1
      (Or.inr (by decide)),
    ((scanRelocation_undefined_reference false emptyBackend
      (fun _ => symOf Binding.Global SymType.NoType Desc.Undefined 0)
      (relocOf R_MIPS_COPY 0 0 0) allocSection).1
      (by decide) (by decide) (by decide) (by decide) (by decide) (by decide)).2.2.1
      (Or.inl (by decide)),
    ((scanRelocation_undefined_reference false emptyBackend
      (fun _ => symOf Binding.Global SymType.NoType Desc.Undefined 0)
      (relocOf 60 0 0 0) allocSection).1
      (by decide) (by decide) (by decide) (by decide) (by decide) (by decide)).2.2.2
      (by decide) (by decide) (by decide),
    (scanRelocation_undefined_reference false emptyBackend
      (fun _ => symOf Binding.Global SymType.NoType Desc.Undefined 0)
      (relocOf R_MIPS_32 0 0 0) ⟨0⟩).2.1 (by decide) (by decide) (by decide),
    (scanRelocation_undefined_reference false emptyBackend
      (fun _ => symOf Binding.Weak SymType.NoType Desc.Undefined 0)
      (relocOf R_MIPS_32 0 0 0) allocSection).2.2.2 (by decide)⟩

end Mips
namespace ELFReader

/-- C24 (amended) on concrete input: the section header table of `linkedFile`
gives six sections in the order of the table. The link of `.symtab` (NamePool,
`sh_link = 3`, `sh_info = 1`) is section 3, the one at index `sh_link`; the link
of `.rel.text` (Relocation, `sh_link = 2`, `sh_info = 1`) is section 1, the one
at index `sh_info`; `.strtab` (NamePool, `sh_link = 0`, `sh_info = 0`) and
`.dynamic` (another kind, `sh_link = 3`) have no link. -/
theorem readSectionHeaders_links_witness :
    (readSectionHeaders true kindOf ⟨InputType.Object, "a.o", "a.o", 0, linkedFile, []⟩
      linkedFile.byte).2 = true ∧
    (contextOf (readSectionHeaders true kindOf
      ⟨InputType.Object, "a.o", "a.o", 0, linkedFile, []⟩ linkedFile.byte)).length = 6 ∧
    (contextOf (readSectionHeaders true kindOf
      ⟨InputType.Object, "a.o", "a.o", 0, linkedFile, []⟩ linkedFile.byte))[1]? =
      some ⟨".text", Kind.other 1, 1, 0, 0, 0, 0, 0, Option.none⟩ ∧
    (contextOf (readSectionHeaders true kindOf
      ⟨InputType.Object, "a.o", "a.o", 0, linkedFile, []⟩ linkedFile.byte))[2]? =
      some ⟨".symtab", Kind.NamePool, 2, 0, 0, 0, 1, 0, some 3⟩ ∧
    (contextOf (readSectionHeaders true kindOf
      ⟨InputType.Object, "a.o", "a.o", 0, linkedFile, []⟩ linkedFile.byte))[3]? =
      some ⟨".strtab", Kind.NamePool, 3, 0, 41, 300, 0, 0, Option.none⟩ ∧
    (contextOf (readSectionHeaders true kindOf
      ⟨InputType.Object, "a.o", "a.o", 0, linkedFile, []⟩ linkedFile.byte))[4]? =
      some ⟨".rel.text", Kind.Relocation, 9, 0, 0, 0, 1, 0, some 1⟩ ∧
    (contextOf (readSectionHeaders true kindOf
      ⟨InputType.Object, "a.o", "a.o", 0, linkedFile, []⟩ linkedFile.byte))[5]? =
      some ⟨".dynamic", Kind.other 6, 6, 0, 0, 0, 0, 0, Option.none⟩ := by
  obtain ⟨h1, h2, h3⟩ := readSectionHeaders_links true kindOf
    ⟨InputType.Object, "a.o", "a.o", 0, linkedFile, []⟩ linkedFile.byte rfl (by decide)
  exact ⟨h1, h2, h3 1 (by decide), h3 2 (by decide), h3 3 (by decide), h3 4 (by decide),
    h3 5 (by decide)⟩

end ELFReader
namespace ARM

/-- C32. `got_brel` returns BadReloc, with the relocation and the factory as
they were, when the symbol has neither ReserveGOT (0x2) nor GOTRel (0x4).
Otherwise (the symbol having no GOT slot in `.rel.dyn` unless it has a GOT
entry) it returns OK, never the fatal of the GOT helper, with target = output
offset of the GOT entry `e` of the symbol + initial target + addend (64-bit
wrap-around). The entry `e` is the one the GOT holds for the symbol: the entry
the symbol had before, in which case the factory is as it was, or else the next
free entry of the GOT, which the GOT holds for the symbol afterwards; the
entries of the other symbols are as before. When the entry is new and
ReserveGOT is set, its content is the symbol value and `.rel.dyn` is as it
was. -/
theorem got_brel_outcome (ndebug : Bool) (pReloc : Relocation) (pLDInfo : MCLDInfo)
    (pParent : ARMRelocationFactory) (e : Nat)
    (hCons : lookupSym pParent.target.got.symMap pReloc.symInfo = Option.none →
      lookupSym pParent.target.relDyn.symRelMap pReloc.symInfo = Option.none)
    (he : e = (lookupSym pParent.target.got.symMap pReloc.symInfo).getD
      pParent.target.got.symMap.length) :
    (((pParent.info pReloc.symInfo).reserved &&& ReserveGOT = 0 ∧
        (pParent.info pReloc.symInfo).reserved &&& GOTRel = 0) →
      got_brel ndebug pReloc pLDInfo pParent = Except.ok (Result.BadReloc, pReloc, pParent)) ∧
    (¬((pParent.info pReloc.symInfo).reserved &&& ReserveGOT = 0 ∧
        (pParent.info pReloc.symInfo).reserved &&& GOTRel = 0) →
      ∃ pParent1 : ARMRelocationFactory,
        got_brel ndebug pReloc pLDInfo pParent =
          Except.ok (Result.OK,
            { pReloc with
              target := (u64 (pParent.layout.getOutputOffset (Fragment.gotEntry e) +
                pReloc.target + pReloc.addend)) }, pParent1) ∧
        lookupSym pParent1.target.got.symMap pReloc.symInfo = some e ∧
        (∀ s, s ≠ pReloc.symInfo →
          lookupSym pParent1.target.got.symMap s = lookupSym pParent.target.got.symMap s) ∧
        (lookupSym pParent.target.got.symMap pReloc.symInfo = some e → pParent1 = pParent) ∧
        (lookupSym pParent.target.got.symMap pReloc.symInfo = Option.none →
          (pParent.info pReloc.symInfo).reserved &&& ReserveGOT ≠ 0 →
          pParent1.target.got.getContent e = pReloc.symValue ∧
            pParent1.target.relDyn = pParent.target.relDyn)) := by
  have h6 := and_six_eq_zero_iff (pParent.info pReloc.symInfo).reserved
  have hR : ReserveGOT = 0x2 := rfl
  have hG : GOTRel = 0x4 := rfl
  rw [hR, hG]
  constructor
  · intro h
    unfold got_brel
    rw [if_pos (h6.2 h)]
  · intro h
    have hne : ¬((pParent.info pReloc.symInfo).reserved &&& 0x6 = 0) := fun hc => h (h6.1 hc)
    have key : ∀ (pParent1 : ARMRelocationFactory),
        helper_get_GOT_and_init ndebug pReloc pLDInfo pParent = Except.ok (e, pParent1) →
        pParent1.layout = pParent.layout → pParent1.target.got.addr = pParent.target.got.addr →
        got_brel ndebug pReloc pLDInfo pParent =
          Except.ok (Result.OK,
            { pReloc with
              target := (u64 (pParent.layout.getOutputOffset (Fragment.gotEntry e) +
                pReloc.target + pReloc.addend)) }, pParent1) := by
      intro pParent1 hinit hl ha
      unfold got_brel helper_GOT
      rw [if_neg hne, hinit]
      have harith : sub64 (u64 (u64 (pParent.target.got.addr +
            pParent.layout.getOutputOffset (Fragment.gotEntry e)) +
          u64 (pReloc.target + pReloc.addend))) pParent.target.got.addr =
          u64 (pParent.layout.getOutputOffset (Fragment.gotEntry e) + pReloc.target +
            pReloc.addend) := by
        unfold u64 sub64
        omega
      simp only [helper_GOT_ORG, hl, ha, harith]
    cases hlook : lookupSym pParent.target.got.symMap pReloc.symInfo with
    | some i =>
      rw [hlook] at he
      simp only [Option.getD_some] at he
      subst he
      have hinit : helper_get_GOT_and_init ndebug pReloc pLDInfo pParent =
          Except.ok (e, pParent) := by
        unfold helper_get_GOT_and_init
        simp [GOT.getEntry, hlook]
      exact ⟨pParent, key _ hinit rfl rfl, hlook, fun _ _ => rfl, fun _ => rfl,
        fun hc => by simp at hc⟩
    | none =>
      rw [hlook] at he
      simp only [Option.getD_none] at he
      subst he
      have hnew : ∀ p1 : ARMRelocationFactory,
          p1.target.got.symMap = pParent.target.got.symMap ++
            [(pReloc.symInfo, pParent.target.got.symMap.length)] →
          lookupSym p1.target.got.symMap pReloc.symInfo =
              some pParent.target.got.symMap.length ∧
            (∀ s, s ≠ pReloc.symInfo →
              lookupSym p1.target.got.symMap s = lookupSym pParent.target.got.symMap s) := by
        intro p1 hp
        rw [hp]
        refine ⟨?_, ?_⟩
        · rw [lookupSym_append_of_none _ _ _ _ hlook, if_pos rfl]
        · intro s hs
          cases hl : lookupSym pParent.target.got.symMap s with
          | none =>
            rw [lookupSym_append_of_none _ _ _ _ hl, if_neg (fun hc => hs hc.symm)]
          | some j => exact lookupSym_append_of_some _ _ _ _ _ hl
      by_cases h2 : (pParent.info pReloc.symInfo).reserved &&& 0x2 = 0
      · have h4 : (pParent.info pReloc.symInfo).reserved &&& 0x4 ≠ 0 := fun hc => h ⟨h2, hc⟩
        have hrel := hCons hlook
        have hex : ∃ p1, helper_get_GOT_and_init ndebug pReloc pLDInfo pParent =
            Except.ok (pParent.target.got.symMap.length, p1) ∧ p1.layout = pParent.layout ∧
            p1.target.got.addr = pParent.target.got.addr ∧
            p1.target.got.symMap = pParent.target.got.symMap ++
              [(pReloc.symInfo, pParent.target.got.symMap.length)] := by
          unfold helper_get_GOT_and_init
          simp only [GOT.getEntry, hlook, OutputRelocSection.getEntry, hrel, hR, hG, h2, h4,
            cassert, Bool.not_false, Bool.not_true, Bool.or_true, if_true, if_false, ne_eq,
            not_true_eq_false, not_false_eq_true, Bool.false_eq_true]
          split_ifs
          · exact ⟨_, rfl, rfl, rfl, rfl⟩
          · exact ⟨_, rfl, rfl, rfl, rfl⟩
        obtain ⟨p1, hinit, hl, ha, hm⟩ := hex
        exact ⟨p1, key _ hinit hl ha, (hnew p1 hm).1, (hnew p1 hm).2,
          fun hc => by simp at hc, fun _ hc => absurd h2 hc⟩
      · have hex : ∃ p1, helper_get_GOT_and_init ndebug pReloc pLDInfo pParent =
            Except.ok (pParent.target.got.symMap.length, p1) ∧ p1.layout = pParent.layout ∧
            p1.target.got.addr = pParent.target.got.addr ∧
            p1.target.got.symMap = pParent.target.got.symMap ++
              [(pReloc.symInfo, pParent.target.got.symMap.length)] ∧
            p1.target.got.getContent pParent.target.got.symMap.length = pReloc.symValue ∧
            p1.target.relDyn = pParent.target.relDyn := by
          unfold helper_get_GOT_and_init
          simp only [GOT.getEntry, hlook, hR, h2, Bool.not_false, if_true, ne_eq,
            not_false_eq_true]
          refine ⟨_, rfl, rfl, rfl, rfl, ?_, rfl⟩
          simp [GOT.getContent, GOT.setContent]
        obtain ⟨p1, hinit, hl, ha, hm, hc, hd⟩ := hex
        exact ⟨p1, key _ hinit hl ha, (hnew p1 hm).1, (hnew p1 hm).2,
          fun hc2 => by simp at hc2, fun _ _ => ⟨hc, hd⟩⟩

/-- C32 on concrete input, in a GOT that holds entry 0 for the symbol pointer 7
and places entry `i` at offset `4 * i`, on the word `0x10` with addend 0. A
symbol without GOT flags gives BadReloc. The symbol pointer 1 with ReserveGOT
and value `0x8000` gets the new entry 1: OK with target `0x14`, the GOT holds
entry 1 for the symbol and entry 0 for the pointer 7 as before, and the content
of entry 1 is `0x8000`. The symbol pointer 7 with GOTRel has its entry 0: OK
with target `0x10` and the factory as it was. -/
theorem got_brel_outcome_witness :
    got_brel false (relocOf R_ARM_GOT_BREL 0 0x10 0x8000) ⟨OutputType.Exec⟩
        (gotBrelFactoryOf (symOf Binding.Global SymType.Object Desc.Define 0)) =
      Except.ok (Result.BadReloc, relocOf R_ARM_GOT_BREL 0 0x10 0x8000,
        gotBrelFactoryOf (symOf Binding.Global SymType.Object Desc.Define 0)) ∧
    (∃ pParent1 : ARMRelocationFactory,
      got_brel false (relocOf R_ARM_GOT_BREL 0 0x10 0x8000) ⟨OutputType.Exec⟩
          (gotBrelFactoryOf (symOf Binding.Global SymType.Object Desc.Define ReserveGOT)) =
        Except.ok (Result.OK, { relocOf R_ARM_GOT_BREL 0 0x10 0x8000 with target := 0x14 },
          pParent1) ∧
      lookupSym pParent1.target.got.symMap 1 = some 1 ∧
      lookupSym pParent1.target.got.symMap 7 = some 0 ∧
      pParent1.target.got.getContent 1 = 0x8000 ∧
      pParent1.target.relDyn.entries = []) ∧
    got_brel false { relocOf R_ARM_GOT_BREL 0 0x10 0x8000 with symInfo := 7 } ⟨OutputType.Exec⟩
        (gotBrelFactoryOf (symOf Binding.Global SymType.Object Desc.Define GOTRel)) =
      Except.ok (Result.OK, { relocOf R_ARM_GOT_BREL 0 0x10 0x8000 with symInfo := 7 },
        gotBrelFactoryOf (symOf Binding.Global SymType.Object Desc.Define GOTRel)) := by
  refine ⟨(got_brel_outcome false (relocOf R_ARM_GOT_BREL 0 0x10 0x8000) ⟨OutputType.Exec⟩
      (gotBrelFactoryOf (symOf Binding.Global SymType.Object Desc.Define 0)) 1
      (fun _ => rfl) (by decide)).1 ⟨by decide, by decide⟩, ?_, ?_⟩
  · obtain ⟨p1, h1, h2, h3, -, h5⟩ :=
      (got_brel_outcome false (relocOf R_ARM_GOT_BREL 0 0x10 0x8000) ⟨OutputType.Exec⟩
        (gotBrelFactoryOf (symOf Binding.Global SymType.Object Desc.Define ReserveGOT)) 1
        (fun _ => rfl) (by decide)).2 (by decide)
    have h6 := h5 (by decide) (by decide)
    refine ⟨p1, h1, h2, (h3 7 (by decide)).trans (by decide), h6.1, ?_⟩
    rw [h6.2]
    rfl
  · obtain ⟨p1, h1, -, -, h4, -⟩ :=
      (got_brel_outcome false { relocOf R_ARM_GOT_BREL 0 0x10 0x8000 with symInfo := 7 }
        ⟨OutputType.Exec⟩
        (gotBrelFactoryOf (symOf Binding.Global SymType.Object Desc.Define GOTRel)) 0
        (fun _ => rfl) (by decide)).2 (by decide)
    rw [h4 (by decide)] at h1
    exact h1

end ARM
/-- The content of an entry after a `setContent`. -/
theorem GOT.getContent_setContent (g : GOT) (i v j : Nat) :
    (g.setContent i v).getContent j = if j = i then v else g.getContent j := by
  unfold GOT.getContent GOT.setContent
  simp only [List.find?_cons]
  by_cases h : i = j
  · simp [h]
  · have h' : ¬(j = i) := fun hc => h hc.symm
    simp [h, h']

namespace Mips

/-- Taking the next entry for a symbol without one keeps the GOT well formed. -/
theorem GOTWF_append (g : GOT) (sym : SymPtr) (h : GOTWF g) :
    GOTWF { g with symMap := g.symMap ++ [(sym, g.symMap.length)] } := by
  obtain ⟨h1, h2⟩ := h
  have key : ∀ s i, lookupSym (g.symMap ++ [(sym, g.symMap.length)]) s = some i →
      (lookupSym g.symMap s = some i ∧ i < g.symMap.length) ∨
        (lookupSym g.symMap s = Option.none ∧ s = sym ∧ i = g.symMap.length) := by
    intro s i hs
    cases hm : lookupSym g.symMap s with
    | some j =>
      rw [lookupSym_append_of_some _ _ _ _ _ hm] at hs
      simp only [Option.some.injEq] at hs
      subst hs
      exact Or.inl ⟨rfl, h1 s j hm⟩
    | none =>
      rw [lookupSym_append_of_none _ _ _ _ hm] at hs
      split_ifs at hs with hc
      · simp only [Option.some.injEq] at hs
        exact Or.inr ⟨rfl, hc.symm, hs.symm⟩
  constructor
  · intro s i hs
    simp only [List.length_append, List.length_singleton]
    rcases key s i hs with h | h
    · omega
    · omega
  · intro s s' i hs hs'
    rcases key s i hs with h | h <;> rcases key s' i hs' with h' | h'
    · exact h2 s s' i h.1 h'.1
    · omega
    · omega
    · rw [h.2.1, h'.2.1]

/-- What `helper_GetGOTEntry` does to a well-formed GOT when it returns: the
entry returned is the entry of the symbol afterwards, the entries of the
symbols that had one are kept, with their content. -/
theorem helper_GetGOTEntry_frame (pReloc : Relocation) (pParent : MipsRelocationFactory)
    (e : Nat) (ex : Bool) (p1 : MipsRelocationFactory)
    (h : helper_GetGOTEntry pReloc pParent = Except.ok (e, ex, p1))
    (hWF : GOTWF pParent.target.got) :
    p1.layout = pParent.layout ∧ p1.info = pParent.info ∧ p1.m_AHL = pParent.m_AHL ∧
    GOTWF p1.target.got ∧
    lookupSym p1.target.got.symMap pReloc.symInfo = some e ∧
    (∀ s i, lookupSym pParent.target.got.symMap s = some i →
      lookupSym p1.target.got.symMap s = some i) ∧
    (∀ s i, lookupSym pParent.target.got.symMap s = some i →
      p1.target.got.getContent i = pParent.target.got.getContent i) := by
  cases hl : lookupSym pParent.target.got.symMap pReloc.symInfo with
  | some i =>
    simp only [helper_GetGOTEntry, GOT.getEntry_some _ _ _ hl, if_true, Except.ok.injEq,
      Prod.mk.injEq] at h
    obtain ⟨rfl, _, rfl⟩ := h
    exact ⟨rfl, rfl, rfl, hWF, hl, fun _ _ hs => hs, fun _ _ _ => rfl⟩
  | none =>
    simp only [helper_GetGOTEntry, GOT.getEntry_none _ _ hl] at h
    have hwf2 := GOTWF_append _ pReloc.symInfo hWF
    have hnew : lookupSym (pParent.target.got.symMap ++
        [(pReloc.symInfo, pParent.target.got.symMap.length)]) pReloc.symInfo =
        some pParent.target.got.symMap.length := by
      rw [lookupSym_append_of_none _ _ _ _ hl, if_pos rfl]
    have hkeep : ∀ s i, lookupSym pParent.target.got.symMap s = some i →
        lookupSym (pParent.target.got.symMap ++
          [(pReloc.symInfo, pParent.target.got.symMap.length)]) s = some i :=
      fun s i hs => lookupSym_append_of_some _ _ _ _ _ hs
    simp only [Bool.false_eq_true, if_false] at h
    split_ifs at h with c1 c2
    · simp only [Except.ok.injEq, Prod.mk.injEq] at h
      obtain ⟨rfl, _, rfl⟩ := h
      refine ⟨rfl, rfl, rfl, hwf2, hnew, hkeep, ?_⟩
      intro s i hs
      have hlt := hWF.1 s i hs
      show (GOT.setContent _ _ _).getContent i = _
      rw [GOT.getContent_setContent, if_neg (by omega)]
      rfl
    · simp only [Except.ok.injEq, Prod.mk.injEq] at h
      obtain ⟨rfl, _, rfl⟩ := h
      exact ⟨rfl, rfl, rfl, hwf2, hnew, hkeep, fun _ _ _ => rfl⟩

end Mips
namespace Mips

/-- The value `helper_CalcAHL` returns, when it returns. -/
theorem helper_CalcAHL_value (ndebug : Bool) (pHiReloc pLoReloc : Relocation) (AHL : Nat)
    (h : helper_CalcAHL ndebug pHiReloc pLoReloc = Except.ok AHL) :
    AHL = u32 (u32 ((u32 pHiReloc.target &&& 0xFFFF) <<< 16) +
      castInt16 (u32 pLoReloc.target &&& 0xFFFF) + pLoReloc.addend) := by
  unfold helper_CalcAHL at h
  split at h
  · simp only [reduceCtorEq] at h
  · split at h
    · simp only [reduceCtorEq] at h
    · simp only [Except.ok.injEq] at h
      exact h.symm

/-- What `helper_GetGOTOffset` does to a well-formed GOT when it returns. -/
theorem helper_GetGOTOffset_frame (pReloc : Relocation) (pParent : MipsRelocationFactory)
    (G : Nat) (p1 : MipsRelocationFactory)
    (h : helper_GetGOTOffset pReloc pParent = Except.ok (G, p1))
    (hWF : GOTWF pParent.target.got) :
    p1.layout = pParent.layout ∧ p1.info = pParent.info ∧ GOTWF p1.target.got ∧
    (∀ s i, lookupSym pParent.target.got.symMap s = some i →
      lookupSym p1.target.got.symMap s = some i) ∧
    (∀ s i, lookupSym pParent.target.got.symMap s = some i →
      p1.target.got.getContent i = pParent.target.got.getContent i) := by
  unfold helper_GetGOTOffset at h
  cases hg : helper_GetGOTEntry pReloc pParent with
  | error e =>
    rw [hg] at h
    simp only [reduceCtorEq] at h
  | ok x =>
    obtain ⟨e, ex, p2⟩ := x
    rw [hg] at h
    simp only [Except.ok.injEq, Prod.mk.injEq] at h
    obtain ⟨_, rfl⟩ := h
    obtain ⟨k1, k2, _, k4, _, k6, k7⟩ := helper_GetGOTEntry_frame pReloc pParent e ex p2 hg hWF
    exact ⟨k1, k2, k4, k6, k7⟩

/-- The step `got16` on a relocation against a symbol of local binding, in a
well-formed GOT, when it returns: an `R_MIPS_LO16` against the symbol follows,
the offset of the GOT entry of the symbol is written into the instruction, and
the entry holds the value of the relocation; the entries of the symbols that
had one are kept, and those of the other symbols keep their content. -/
theorem got16_local_step (ndebug : Bool) (pReloc : Relocation) (following : List Relocation)
    (pLDInfo : MCLDInfo) (pParent : MipsRelocationFactory) (res : Result) (r1 : Relocation)
    (p1 : MipsRelocationFactory)
    (h : got16 ndebug pReloc following pLDInfo pParent = Except.ok (res, r1, p1))
    (hWF : GOTWF pParent.target.got)
    (hL : (pParent.info pReloc.symInfo).isLocal = true) :
    (∃ e lo,
      following.find? (fun x => decide (R_MIPS_LO16 = x.type) &&
        decide (x.symInfo = pReloc.symInfo)) = some lo ∧
      lookupSym p1.target.got.symMap pReloc.symInfo = some e ∧
      p1.target.got.getContent e = got16Value pReloc lo ∧
      r1 = writeLow16 pReloc
        (sub64 (pParent.layout.getOutputOffset (Fragment.gotEntry e)) 0x7FF0)) ∧
    p1.layout = pParent.layout ∧ p1.info = pParent.info ∧ GOTWF p1.target.got ∧
    (∀ s i, lookupSym pParent.target.got.symMap s = some i →
      lookupSym p1.target.got.symMap s = some i) ∧
    (∀ s i, lookupSym pParent.target.got.symMap s = some i → s ≠ pReloc.symInfo →
      p1.target.got.getContent i = pParent.target.got.getContent i) := by
  simp only [got16, hL, if_true] at h
  cases hlo : helper_FindLo16Reloc pReloc following with
  | none =>
    rw [hlo] at h
    split at h <;> simp only [reduceCtorEq] at h
  | some lo =>
    rw [hlo] at h
    simp only [Option.isSome_some] at h
    split at h
    · simp only [reduceCtorEq] at h
    · cases hahl : helper_CalcAHL ndebug pReloc lo with
      | error e =>
        rw [hahl] at h
        simp only [reduceCtorEq] at h
      | ok AHL =>
        rw [hahl] at h
        simp only at h
        have hv := helper_CalcAHL_value ndebug pReloc lo AHL hahl
        cases hg : helper_GetGOTEntry pReloc { pParent with m_AHL := AHL } with
        | error e =>
          rw [hg] at h
          simp only [reduceCtorEq] at h
        | ok x =>
          obtain ⟨e, ex, p2⟩ := x
          rw [hg] at h
          simp only [Except.ok.injEq, Prod.mk.injEq] at h
          obtain ⟨_, rfl, rfl⟩ := h
          obtain ⟨k1, k2, _, k4, k5, k6, k7⟩ :=
            helper_GetGOTEntry_frame pReloc { pParent with m_AHL := AHL } e ex p2 hg hWF
          refine ⟨⟨e, lo, hlo, k5, ?_, ?_⟩, k1, k2, k4, k6, ?_⟩
          · show (GOT.setContent _ _ _).getContent e = _
            rw [GOT.getContent_setContent, if_pos rfl, hv]
            rfl
          · show writeLow16 pReloc (sub64 (p2.layout.getOutputOffset (Fragment.gotEntry e))
              0x7FF0) = _
            rw [k1]
          · intro s i hs hne
            have hs2 := k6 s i hs
            have hie : i ≠ e := by
              intro hc
              rw [hc] at hs2
              exact hne (k4.2 s pReloc.symInfo e hs2 k5)
            show (GOT.setContent _ _ _).getContent i = _
            rw [GOT.getContent_setContent, if_neg hie]
            exact k7 s i hs

/-- What an applicator does to a well-formed GOT when it returns: the entries of
the symbols that had one are kept, and they keep their content unless the
applicator is `got16` on a relocation against that symbol, of local binding. -/
theorem applicator_run_frame (ndebug : Bool) (a : Applicator) (pReloc : Relocation)
    (following : List Relocation) (pLDInfo : MCLDInfo) (pParent : MipsRelocationFactory)
    (res : Result) (r1 : Relocation) (p1 : MipsRelocationFactory)
    (h : a.run ndebug pReloc following pLDInfo pParent = Except.ok (res, r1, p1))
    (hWF : GOTWF pParent.target.got) :
    p1.layout = pParent.layout ∧ p1.info = pParent.info ∧ GOTWF p1.target.got ∧
    (∀ s i, lookupSym pParent.target.got.symMap s = some i →
      lookupSym p1.target.got.symMap s = some i) ∧
    (∀ s i, lookupSym pParent.target.got.symMap s = some i →
      ¬(a = Applicator.got16 ∧ pReloc.symInfo = s ∧ (pParent.info s).isLocal = true) →
      p1.target.got.getContent i = pParent.target.got.getContent i) := by
  cases a with
  | none =>
    simp only [Applicator.run, none, Except.ok.injEq, Prod.mk.injEq] at h
    obtain ⟨_, _, rfl⟩ := h
    exact ⟨rfl, rfl, hWF, fun _ _ hs => hs, fun _ _ _ _ => rfl⟩
  | abs32 =>
    simp only [Applicator.run, abs32, helper_DynRel] at h
    split_ifs at h <;> simp only [Except.ok.injEq, Prod.mk.injEq] at h <;>
      obtain ⟨_, _, rfl⟩ := h <;>
      exact ⟨rfl, rfl, hWF, fun _ _ hs => hs, fun _ _ _ _ => rfl⟩
  | hi16 =>
    simp only [Applicator.run, hi16] at h
    split at h
    · simp only [reduceCtorEq] at h
    · split at h
      · simp only [reduceCtorEq] at h
      · split at h
        · simp only [reduceCtorEq] at h
        · simp only [Except.ok.injEq, Prod.mk.injEq] at h
          obtain ⟨_, _, rfl⟩ := h
          exact ⟨rfl, rfl, hWF, fun _ _ hs => hs, fun _ _ _ _ => rfl⟩
  | lo16 =>
    simp only [Applicator.run, lo16, Except.ok.injEq, Prod.mk.injEq] at h
    obtain ⟨_, _, rfl⟩ := h
    exact ⟨rfl, rfl, hWF, fun _ _ hs => hs, fun _ _ _ _ => rfl⟩
  | got16 =>
    simp only [Applicator.run] at h
    cases hL : (pParent.info pReloc.symInfo).isLocal
    · simp only [got16, hL, Bool.false_eq_true, if_false] at h
      cases hg : helper_GetGOTOffset pReloc pParent with
      | error e =>
        rw [hg] at h
        simp only [reduceCtorEq] at h
      | ok x =>
        obtain ⟨G, p2⟩ := x
        rw [hg] at h
        simp only [Except.ok.injEq, Prod.mk.injEq] at h
        obtain ⟨_, _, rfl⟩ := h
        obtain ⟨k1, k2, k3, k4, k5⟩ := helper_GetGOTOffset_frame pReloc pParent G p2 hg hWF
        exact ⟨k1, k2, k3, k4, fun s i hs _ => k5 s i hs⟩
    · obtain ⟨_, k1, k2, k3, k4, k5⟩ :=
        got16_local_step ndebug pReloc following pLDInfo pParent res r1 p1 h hWF hL
      refine ⟨k1, k2, k3, k4, ?_⟩
      intro s i hs hn
      apply k5 s i hs
      intro hc
      apply hn
      refine ⟨rfl, hc.symm, ?_⟩
      rw [hc]
      exact hL
  | call16 =>
    simp only [Applicator.run, call16] at h
    cases hg : helper_GetGOTOffset pReloc pParent with
    | error e =>
      rw [hg] at h
      simp only [reduceCtorEq] at h
    | ok x =>
      obtain ⟨G, p2⟩ := x
      rw [hg] at h
      simp only [Except.ok.injEq, Prod.mk.injEq] at h
      obtain ⟨_, _, rfl⟩ := h
      obtain ⟨k1, k2, k3, k4, k5⟩ := helper_GetGOTOffset_frame pReloc pParent G p2 hg hWF
      exact ⟨k1, k2, k3, k4, fun s i hs _ => k5 s i hs⟩
  | gprel32 =>
    simp only [Applicator.run, gprel32, Except.ok.injEq, Prod.mk.injEq] at h
    obtain ⟨_, _, rfl⟩ := h
    exact ⟨rfl, rfl, hWF, fun _ _ hs => hs, fun _ _ _ _ => rfl⟩

end Mips
namespace Mips

/-- No relocation of the section is one that `got16` is applied to against the
symbol, when `lastGot16` finds none. -/
theorem lastGot16_none (steps : List (Applicator × Relocation)) (s : SymPtr)
    (h : lastGot16 steps s = Option.none) :
    ∀ x ∈ steps, ¬(x.1 = Applicator.got16 ∧ x.2.symInfo = s) := by
  induction steps with
  | nil =>
    intro x hx
    simp at hx
  | cons y rest ih =>
    obtain ⟨a, r⟩ := y
    simp only [lastGot16] at h
    cases hr : lastGot16 rest s with
    | some z =>
      rw [hr] at h
      simp at h
    | none =>
      rw [hr] at h
      simp only at h
      split_ifs at h with hc
      intro x hx
      rw [List.mem_cons] at hx
      rcases hx with hx | hx
      · rw [hx]
        exact hc
      · exact ih hr x hx

/-- What the application of the relocations of a section does to a well-formed
GOT when it returns: the entries of the symbols that had one are kept, and they
keep their content if `got16` is applied to no relocation against the symbol. -/
theorem applySection_frame (ndebug : Bool) (pLDInfo : MCLDInfo)
    (steps : List (Applicator × Relocation)) (pParent : MipsRelocationFactory)
    (outs : List Relocation) (pFinal : MipsRelocationFactory)
    (h : applySection ndebug pLDInfo steps pParent = Except.ok (outs, pFinal))
    (hWF : GOTWF pParent.target.got) :
    pFinal.layout = pParent.layout ∧ pFinal.info = pParent.info ∧ GOTWF pFinal.target.got ∧
    (∀ s i, lookupSym pParent.target.got.symMap s = some i →
      lookupSym pFinal.target.got.symMap s = some i) ∧
    (∀ s i, lookupSym pParent.target.got.symMap s = some i →
      (∀ x ∈ steps, ¬(x.1 = Applicator.got16 ∧ x.2.symInfo = s)) →
      pFinal.target.got.getContent i = pParent.target.got.getContent i) := by
  induction steps generalizing pParent outs with
  | nil =>
    simp only [applySection, Except.ok.injEq, Prod.mk.injEq] at h
    obtain ⟨_, rfl⟩ := h
    exact ⟨rfl, rfl, hWF, fun _ _ hs => hs, fun _ _ _ _ => rfl⟩
  | cons y rest ih =>
    obtain ⟨a, r⟩ := y
    simp only [applySection] at h
    cases hx : a.run ndebug r (rest.map Prod.snd) pLDInfo pParent with
    | error e =>
      rw [hx] at h
      simp only [reduceCtorEq] at h
    | ok z =>
      obtain ⟨res, r1, p1⟩ := z
      rw [hx] at h
      simp only at h
      cases hy : applySection ndebug pLDInfo rest p1 with
      | error e =>
        rw [hy] at h
        simp only [reduceCtorEq] at h
      | ok w =>
        obtain ⟨outs1, p2⟩ := w
        rw [hy] at h
        simp only [Except.ok.injEq, Prod.mk.injEq] at h
        obtain ⟨_, rfl⟩ := h
        obtain ⟨k1, k2, k3, k4, k5⟩ :=
          applicator_run_frame ndebug a r _ pLDInfo pParent res r1 p1 hx hWF
        obtain ⟨j1, j2, j3, j4, j5⟩ := ih p1 outs1 hy k3
        refine ⟨j1.trans k1, j2.trans k2, j3, fun s i hs => j4 s i (k4 s i hs), ?_⟩
        intro s i hs hno
        rw [j5 s i (k4 s i hs) (fun x hx => hno x (List.mem_cons_of_mem _ hx))]
        apply k5 s i hs
        intro hc
        exact hno (a, r) (List.mem_cons_self _ _) ⟨hc.1, hc.2.1⟩

/-- C36 (amended). In the model of the GOT in which `getEntry` returns at most
one entry per symbol (and no entry for two symbols), after the relocations of a
section have been applied in order, each by an applicator of the source, and
the run has returned: for a symbol `s` of local binding, if `r` is the last
relocation against `s` that `got16` was applied to, then an `R_MIPS_LO16`
against `s` follows `r`, the GOT holds one entry `e` for `s`, that entry holds
`(AHL_r + S_r + 0x8000) & 0xFFFF0000`, with `AHL_r` computed from `r` and the
first such `R_MIPS_LO16`, and every relocation against `s` that `got16` was
applied to has the offset of `e` less `0x7FF0` in the low 16 bits of its
instruction. The entry holds the value of the last of them, whatever the values
of the earlier ones. -/
theorem got16_local_end_state (ndebug : Bool) (pLDInfo : MCLDInfo)
    (steps : List (Applicator × Relocation)) (pParent : MipsRelocationFactory)
    (outs : List Relocation) (pFinal : MipsRelocationFactory) (s : SymPtr)
    (r : Relocation) (following : List Relocation)
    (hWF : GOTWF pParent.target.got)
    (hRun : applySection ndebug pLDInfo steps pParent = Except.ok (outs, pFinal))
    (hLocal : (pParent.info s).isLocal = true)
    (hLast : lastGot16 steps s = some (r, following)) :
    ∃ e lo,
      following.find? (fun x => decide (R_MIPS_LO16 = x.type) && decide (x.symInfo = s)) =
        some lo ∧
      lookupSym pFinal.target.got.symMap s = some e ∧
      pFinal.target.got.getContent e = got16Value r lo ∧
      ∀ (i : Nat) (r' out : Relocation), steps[i]? = some (Applicator.got16, r') →
        r'.symInfo = s → outs[i]? = some out →
        out = writeLow16 r'
          (sub64 (pParent.layout.getOutputOffset (Fragment.gotEntry e)) 0x7FF0) := by
  induction steps generalizing pParent outs with
  | nil => simp [lastGot16] at hLast
  | cons y rest ih =>
    obtain ⟨a, r0⟩ := y
    simp only [applySection] at hRun
    cases hx : a.run ndebug r0 (rest.map Prod.snd) pLDInfo pParent with
    | error e =>
      rw [hx] at hRun
      simp only [reduceCtorEq] at hRun
    | ok z =>
      obtain ⟨res, r1, p1⟩ := z
      rw [hx] at hRun
      simp only at hRun
      cases hy : applySection ndebug pLDInfo rest p1 with
      | error e =>
        rw [hy] at hRun
        simp only [reduceCtorEq] at hRun
      | ok w =>
        obtain ⟨outs1, p2⟩ := w
        rw [hy] at hRun
        simp only [Except.ok.injEq, Prod.mk.injEq] at hRun
        obtain ⟨rfl, rfl⟩ := hRun
        obtain ⟨k1, k2, k3, k4, k5⟩ :=
          applicator_run_frame ndebug a r0 _ pLDInfo pParent res r1 p1 hx hWF
        obtain ⟨j1, j2, j3, j4, j5⟩ := applySection_frame ndebug pLDInfo rest p1 outs1 p2 hy k3
        have hLocal1 : (p1.info s).isLocal = true := by
          rw [k2]
          exact hLocal
        simp only [lastGot16] at hLast
        cases hr : lastGot16 rest s with
        | some z =>
          rw [hr] at hLast
          simp only [Option.some.injEq] at hLast
          subst hLast
          obtain ⟨e, lo, i1, i2, i3, i4⟩ := ih p1 outs1 k3 hy hLocal1 hr
          refine ⟨e, lo, i1, i2, i3, ?_⟩
          intro i r' out hi hsym ho
          cases i with
          | zero =>
            simp only [List.getElem?_cons_zero, Option.some.injEq, Prod.mk.injEq] at hi ho
            obtain ⟨rfl, rfl⟩ := hi
            subst ho
            simp only [Applicator.run] at hx
            have hL0 : (pParent.info r0.symInfo).isLocal = true := by
              rw [hsym]
              exact hLocal
            obtain ⟨⟨e0, lo0, _, m2, _, m4⟩, _⟩ :=
              got16_local_step ndebug r0 _ pLDInfo pParent res r1 p1 hx hWF hL0
            rw [hsym] at m2
            have he : e0 = e := by
              have := j4 s e0 m2
              rw [i2] at this
              simp only [Option.some.injEq] at this
              exact this.symm
            rw [m4, he]
          | succ n =>
            simp only [List.getElem?_cons_succ] at hi ho
            rw [← k1]
            exact i4 n r' out hi hsym ho
        | none =>
          rw [hr] at hLast
          simp only at hLast
          split_ifs at hLast with hc
          simp only [Option.some.injEq, Prod.mk.injEq] at hLast
          obtain ⟨rfl, rfl⟩ := hLast
          obtain ⟨ha, hsym⟩ := hc
          subst ha
          simp only [Applicator.run] at hx
          have hL0 : (pParent.info r0.symInfo).isLocal = true := by
            rw [hsym]
            exact hLocal
          obtain ⟨⟨e0, lo0, m1, m2, m3, m4⟩, _⟩ :=
            got16_local_step ndebug r0 _ pLDInfo pParent res r1 p1 hx hWF hL0
          rw [hsym] at m1 m2
          have hno := lastGot16_none rest s hr
          refine ⟨e0, lo0, m1, j4 s e0 m2, ?_, ?_⟩
          · rw [j5 s e0 m2 hno]
            exact m3
          · intro i r' out hi hsym' ho
            cases i with
            | zero =>
              simp only [List.getElem?_cons_zero, Option.some.injEq, Prod.mk.injEq] at hi ho
              obtain ⟨_, rfl⟩ := hi
              subst ho
              exact m4
            | succ n =>
              simp only [List.getElem?_cons_succ] at hi
              have hmem : (Applicator.got16, r') ∈ rest := by
                obtain ⟨hlt, heq⟩ := List.getElem?_eq_some.1 hi
                rw [← heq]
                exact List.getElem_mem _
              exact absurd ⟨rfl, hsym'⟩ (hno _ hmem)

end Mips
namespace Mips

/-- C36 (counterexample). The section `got16Section` is applied for a local
symbol of type Object with ReserveGot, from an empty GOT whose entry `i` lies at
the offset `4 * i`: both `R_MIPS_GOT16` relocations get the offset of entry 0
written into their instruction (`0x8010`), and at the end the entry holds
`0x20000`, the value of the second, not `(AHL + S + 0x8000) & 0xFFFF0000 =
0x10000` of the first. -/
theorem got16_local_end_state_counterexample :
    (symOf Binding.Local SymType.Object Desc.Define 2).isLocal = true ∧
    got16Value (relocOf R_MIPS_GOT16 0 0x8F990001 0) (relocOf R_MIPS_LO16 0 0x27390000 0) =
      0x10000 ∧
    sectionEndOf (applySection false ⟨OutputType.Exec⟩ got16Section
      (factoryOf (symOf Binding.Local SymType.Object Desc.Define 2))) 1 =
      some ([0x8F998010, 0x27390000, 0x8F998010, 0x27390000], some 0, 0x20000) ∧
    sub64 (gotLayout.getOutputOffset (Fragment.gotEntry 0)) 0x7FF0 &&& 0xFFFF = 0x8010 := by
  refine ⟨by decide, by decide, by decide, by decide⟩

/-- C36 (amended) on concrete input: the section `got16Section` applied for a
local symbol of type Object with ReserveGot, from an empty GOT. The last
relocation `got16` is applied to is the one on the word `0x8F990002`, with the
value `0x20000`: at the end the GOT holds one entry for the symbol, with that
content, and both GOT16 relocations have its offset in their instruction. -/
theorem got16_local_end_state_witness :
    got16Value (relocOf R_MIPS_GOT16 0 0x8F990002 0) (relocOf R_MIPS_LO16 0 0x27390000 0) =
      0x20000 ∧
    ∃ outs pFinal,
      applySection false ⟨OutputType.Exec⟩ got16Section
        (factoryOf (symOf Binding.Local SymType.Object Desc.Define 2)) =
        Except.ok (outs, pFinal) ∧
      ∃ e lo,
        [relocOf R_MIPS_LO16 0 0x27390000 0].find?
          (fun x => decide (R_MIPS_LO16 = x.type) && decide (x.symInfo = 1)) = some lo ∧
        lookupSym pFinal.target.got.symMap 1 = some e ∧
        pFinal.target.got.getContent e = got16Value (relocOf R_MIPS_GOT16 0 0x8F990002 0) lo ∧
        ∀ (i : Nat) (r' out : Relocation), got16Section[i]? = some (Applicator.got16, r') →
          r'.symInfo = 1 → outs[i]? = some out →
          out = writeLow16 r'
            (sub64 ((factoryOf (symOf Binding.Local SymType.Object Desc.Define
              2)).layout.getOutputOffset (Fragment.gotEntry e)) 0x7FF0) :=
  ⟨by decide, _, _, rfl,
    got16_local_end_state false ⟨OutputType.Exec⟩ got16Section
      (factoryOf (symOf Binding.Local SymType.Object Desc.Define 2)) _ _ 1
      (relocOf R_MIPS_GOT16 0 0x8F990002 0) [relocOf R_MIPS_LO16 0 0x27390000 0]
      ⟨fun _ _ h => by simp [lookupSym, factoryOf, emptyBackend] at h,
        fun _ _ _ h => by simp [lookupSym, factoryOf, emptyBackend] at h⟩
      rfl (by decide) (by rfl)⟩

end Mips

end mcld
